import Mathlib

/-!
# Call signalling server: hub, call lifecycle and invitations

A shallow embedding of the Go sources under `livekit/`:

* `websocket/hub.go`, `websocket/handler.go`: the connection registry and its
  outbound channels;
* `database/*.go`: the repositories, as list-valued tables with the
  constraints declared in `database/schema.go`;
* `services/call_service.go`, `services/history_service.go`: the call and
  invitation operations.

Conventions. `int64` and `int` values are `Int`. A `time.Time` is an `Int`
(nanoseconds), the zero `time.Time` being `0`; a `*time.Time` is an `Option`.
A Go `panic` is an explicit outcome. Log output is not modelled.
-/

namespace Livekit

/-! ## Models (`models/*.go`) -/

/-- Instants of `time.Time`, in nanoseconds; `0` is the zero value. -/
abbrev Time := Int

/-- A `time.Duration`, in nanoseconds. -/
abbrev Duration := Int

/-- Method `Time.IsZero`. -/
def Time.IsZero (t : Time) : Bool := t == 0

/-- Constant `time.Second`. -/
def Duration.Second : Duration := 1000000000

/-- Constant `time.Minute`. -/
def Duration.Minute : Duration := 60 * Duration.Second

/-- The value an `int64` holds after an arithmetic result `n` (two's complement
wrap-around). -/
def wrap64 (n : Int) : Int := (n + 2 ^ 63) % 2 ^ 64 - 2 ^ 63

/-- Method `Time.Sub`: the difference, held at the largest or smallest
`Duration` when it does not fit. -/
def Time.Sub (t u : Time) : Duration :=
  if t - u > 2 ^ 63 - 1 then 2 ^ 63 - 1
  else if t - u < -(2 ^ 63) then -(2 ^ 63)
  else t - u

/-- Method `Time.Add`. -/
def Time.Add (t : Time) (d : Duration) : Time := t + d

/-- Method `Time.After`. -/
def Time.After (t u : Time) : Bool := decide (t > u)

/-- Method `Time.Before`. -/
def Time.Before (t u : Time) : Bool := decide (t < u)

/-- The text under which the SQLite driver binds and stores a `time.Time`
(layout `2006-01-02 15:04:05.999999999-07:00`), as far as the byte-wise
comparison of two such texts by SQLite goes. A `time.Time` is an instant and a
location; `zone` is the UTC offset of the location at that instant, in seconds
east. The text shows the wall-clock reading at that offset, then the sign of
the offset (`+` sorts before `-`), then its hours and minutes; for years 0000
to 9999 two texts compare as these triples do. -/
def Time.sqliteText (t : Time) (zone : Int) : Int × Nat × Nat :=
  (t + zone * Duration.Second, if zone < 0 then 1 else 0, zone.natAbs / 60)

/-- Comparison `<=` of SQLite on two stored time texts. -/
def sqliteTextLE (a b : Int × Nat × Nat) : Bool :=
  decide (a.1 < b.1) ||
    (a.1 == b.1 && (decide (a.2.1 < b.2.1) || (a.2.1 == b.2.1 && decide (a.2.2 ≤ b.2.2))))

/-- Struct `models.User`. -/
structure User where
  ID : Int
  Username : String
  CreatedAt : Time
deriving DecidableEq, Repr

/-- Struct `models.ActiveCall`. -/
structure ActiveCall where
  ID : Int
  CallID : String
  RoomName : String
  CallType : String
  CreatedBy : Int
  CreatedAt : Time
  EndedAt : Option Time
  Status : String
deriving DecidableEq, Repr

/-- Struct `models.Invitation`. -/
structure Invitation where
  ID : Int
  CallID : String
  InviterID : Int
  Inviter : String
  InviteeID : Int
  Invitee : String
  CallType : String
  RoomName : String
  Status : String
  CreatedAt : Time
  RespondedAt : Option Time
deriving DecidableEq, Repr

/-- Struct `models.CallHistory`; `Participants` is kept as the list that is
marshalled into the column. -/
structure CallHistory where
  ID : Int
  CallID : String
  RoomName : String
  CallType : String
  CreatedBy : Int
  Participants : List String
  StartedAt : Time
  EndedAt : Option Time
  Duration : Int
  Status : String
  InvitationIDs : String
deriving DecidableEq, Repr

/-- Struct `models.ScheduledCall`. -/
structure ScheduledCall where
  ID : Int
  CallID : String
  RoomName : String
  CallType : String
  CreatedBy : Int
  ScheduledAt : Time
  ScheduledAtZone : Int := 0
  Timezone : String
  Recurrence : String
  Title : String
  Description : String
  JoinLink : String
  Status : String
  ReminderSentAt : Option Time
  MaxParticipants : Int
  MaxDurationSeconds : Int
  Invitees : List String
  CreatedAt : Time
  UpdatedAt : Time
deriving DecidableEq, Repr

/-- Struct `models.ScheduledCallInvitation`. -/
structure ScheduledCallInvitation where
  ID : Int
  ScheduledCallID : Int
  InviteeID : Int
  Status : String
  ReminderSentAt : Option Time
  CreatedAt : Time
deriving DecidableEq, Repr

/-! ## Outbound events (`websocket/hub.go`) -/

/-- Struct `InvitationMessage`; `Timestamp` holds the instant whose RFC 3339
text the source writes. -/
structure InvitationMessage where
  InvitationID : Int
  CallID : String
  Inviter : String
  CallType : String
  RoomName : String
  Timestamp : Time
deriving DecidableEq, Repr

/-- Struct `InvitationResponseMessage`. -/
structure InvitationResponseMessage where
  InvitationID : Int
  Invitee : String
  Status : String
  Timestamp : String
deriving DecidableEq, Repr

/-- The values stored in `Message.Data` (an `interface{}`) by the hub. -/
inductive MessageData where
  | invitation (m : InvitationMessage)
  | invitationResponse (m : InvitationResponseMessage)
  | callRef (callId : String) (timestamp : String)
  | scheduledCall (call : Option ScheduledCall)
  | scheduledCallReminder (scheduledCall : Option ScheduledCall) (reminderTime : Duration)
  | callHistory (callHistory : Option CallHistory)
  | participantState (roomName : String) (participantIdentity : String) (action : String)
deriving DecidableEq, Repr

/-- Struct `Message`: the wire shape with the keys `type` and `data`. -/
structure Message where
  type : String
  data : MessageData
deriving DecidableEq, Repr

/-- What travels on a `chan []byte`: the JSON text of a hub `Message`, or of the
one-key object with a `type` that `readPump` answers with. The text is
represented by the value it encodes. -/
inductive Bytes where
  | message (m : Message)
  | control (type : String)
deriving DecidableEq, Repr

/-- Function `json.Marshal` on a `Message`; it cannot fail on the values the
hub builds. -/
def marshal (m : Message) : Option Bytes := some (Bytes.message m)

/-! ## Channels -/

/-- A buffered Go channel: queued values, capacity, and whether it is closed. -/
structure Chan where
  buf : List Bytes
  cap : Nat
  closed : Bool
deriving DecidableEq, Repr

/-- Channels are heap objects; a `chan []byte` value is a reference. -/
abbrev ChanRef := Nat

/-- Expression `make(chan []byte, 256)` of `HandleWebSocket`. -/
def makeChan : Chan := { buf := [], cap := 256, closed := false }

/-- Statement `select { case ch <- data: default: }`. A send on a closed channel
panics (`none`); a full buffer takes the `default` branch. -/
def Chan.trySend (c : Chan) (data : Bytes) : Option Chan :=
  if c.closed then none
  else if c.buf.length < c.cap then some { c with buf := c.buf ++ [data] }
  else some c

/-- Builtin `close`: closing a closed channel panics (`none`). -/
def Chan.close (c : Chan) : Option Chan :=
  if c.closed then none else some { c with closed := true }

/-- Struct `Connection`. -/
structure Connection where
  Username : String
  Send : ChanRef
deriving DecidableEq, Repr

/-- Struct `WebSocketHub`: the `connections` map, together with the channels
that the stored connections refer to. -/
structure WebSocketHub where
  connections : String → Option Connection
  chans : ChanRef → Chan

/-- Function `NewWebSocketHub`, over a given heap of channels. -/
def NewWebSocketHub (chans : ChanRef → Chan) : WebSocketHub :=
  { connections := fun _ => none, chans := chans }

/-- Method `WebSocketHub.Register`. -/
def WebSocketHub.Register (h : WebSocketHub) (username : String) (conn : Connection) :
    WebSocketHub :=
  { h with connections := Function.update h.connections username (some conn) }

/-- Method `WebSocketHub.Unregister`; `none` is the panic of closing a closed
channel. -/
def WebSocketHub.Unregister (h : WebSocketHub) (username : String) : Option WebSocketHub :=
  match h.connections username with
  | some conn =>
    match (h.chans conn.Send).close with
    | none => none
    | some c =>
      some { connections := Function.update h.connections username none,
             chans := Function.update h.chans conn.Send c }
  | none => some h

/-- The tail shared by every `Broadcast*` method: marshal the message and offer
it to the connection's channel without blocking. -/
def WebSocketHub.offer (h : WebSocketHub) (conn : Connection) (msg : Message) :
    Option WebSocketHub :=
  match marshal msg with
  | none => some h
  | some data =>
    match (h.chans conn.Send).trySend data with
    | none => none
    | some c => some { h with chans := Function.update h.chans conn.Send c }

/-- Method `WebSocketHub.BroadcastInvitation`. -/
def WebSocketHub.BroadcastInvitation (h : WebSocketHub) (username : String)
    (invitation : Invitation) : Option WebSocketHub :=
  match h.connections username with
  | none => some h
  | some conn =>
    h.offer conn
      { type := "call_invitation",
        data := .invitation
          { InvitationID := invitation.ID,
            CallID := invitation.CallID,
            Inviter := invitation.Inviter,
            CallType := invitation.CallType,
            RoomName := invitation.RoomName,
            Timestamp := invitation.CreatedAt } }

/-- Method `WebSocketHub.BroadcastInvitationResponse`. -/
def WebSocketHub.BroadcastInvitationResponse (h : WebSocketHub) (username : String)
    (invitationID : Int) (invitee : String) (status : String) : Option WebSocketHub :=
  match h.connections username with
  | none => some h
  | some conn =>
    let msgType := if status = "accepted" then "invitation_accepted" else "invitation_rejected"
    h.offer conn
      { type := msgType,
        data := .invitationResponse
          { InvitationID := invitationID, Invitee := invitee, Status := status, Timestamp := "" } }

/-- Method `WebSocketHub.BroadcastCallEnded`. -/
def WebSocketHub.BroadcastCallEnded (h : WebSocketHub) (username : String) (callID : String) :
    Option WebSocketHub :=
  match h.connections username with
  | none => some h
  | some conn => h.offer conn { type := "call_ended", data := .callRef callID "" }

/-- Method `WebSocketHub.BroadcastCallCancelled`. -/
def WebSocketHub.BroadcastCallCancelled (h : WebSocketHub) (username : String)
    (callID : String) : Option WebSocketHub :=
  match h.connections username with
  | none => some h
  | some conn => h.offer conn { type := "call_cancelled", data := .callRef callID "" }

/-- Method `WebSocketHub.BroadcastScheduledCallCreated`. -/
def WebSocketHub.BroadcastScheduledCallCreated (h : WebSocketHub) (username : String)
    (call : Option ScheduledCall) : Option WebSocketHub :=
  match h.connections username with
  | none => some h
  | some conn => h.offer conn { type := "scheduled_call_created", data := .scheduledCall call }

/-- Method `WebSocketHub.BroadcastScheduledCallReminder`. -/
def WebSocketHub.BroadcastScheduledCallReminder (h : WebSocketHub) (username : String)
    (call : Option ScheduledCall) (reminderTime : Duration) : Option WebSocketHub :=
  match h.connections username with
  | none => some h
  | some conn =>
    h.offer conn
      { type := "scheduled_call_reminder", data := .scheduledCallReminder call reminderTime }

/-- Method `WebSocketHub.BroadcastScheduledCallStarting`. -/
def WebSocketHub.BroadcastScheduledCallStarting (h : WebSocketHub) (username : String)
    (call : Option ScheduledCall) : Option WebSocketHub :=
  match h.connections username with
  | none => some h
  | some conn => h.offer conn { type := "scheduled_call_starting", data := .scheduledCall call }

/-- Method `WebSocketHub.BroadcastCallHistoryUpdated`. -/
def WebSocketHub.BroadcastCallHistoryUpdated (h : WebSocketHub) (username : String)
    (callHistory : Option CallHistory) : Option WebSocketHub :=
  match h.connections username with
  | none => some h
  | some conn => h.offer conn { type := "call_history_updated", data := .callHistory callHistory }

/-- Method `WebSocketHub.BroadcastParticipantStateChanged`. -/
def WebSocketHub.BroadcastParticipantStateChanged (h : WebSocketHub) (username : String)
    (roomName : String) (participantIdentity : String) (action : String) :
    Option WebSocketHub :=
  match h.connections username with
  | none => some h
  | some conn =>
    h.offer conn
      { type := "participant_state_changed",
        data := .participantState roomName participantIdentity action }

/-- Struct `Client` of `websocket/handler.go`: the session's own channel and the
name it authenticated under (empty before authentication). -/
structure Client where
  send : ChanRef
  username : String
deriving DecidableEq, Repr

/-- The `authenticate` case of `Client.readPump` after a valid token: record the
name and register the session's channel under it. The reply frame that the
case then queues on the session's own channel is left out (`writePump` takes
it off again), so channel contents are those between two frames. -/
def Client.authenticate (c : Client) (h : WebSocketHub) (username : String) :
    Client × WebSocketHub :=
  ({ c with username := username },
   h.Register username { Username := username, Send := c.send })

/-- The deferred function of `Client.readPump`, run when the session's read
loop ends: `c.hub.Unregister(c.username)`. -/
def Client.readPumpExit (c : Client) (h : WebSocketHub) : Option WebSocketHub :=
  h.Unregister c.username

/-! ## Storage (`database/schema.go`, `database/*_repo.go`) -/

/-- A row of table `call_invitations`. -/
structure InvitationRow where
  id : Int
  call_id : String
  inviter_id : Int
  invitee_id : Int
  call_type : String
  room_name : String
  status : String
  created_at : Time
  responded_at : Option Time
deriving DecidableEq, Repr

/-- The tables used by the call and scheduling operations, each in insertion
order, with the last value handed out by each `AUTOINCREMENT` key. A row of
`scheduled_calls` is kept as a `ScheduledCall` whose `Invitees` is empty (that
field is no column). -/
structure DB where
  users : List User
  active_calls : List ActiveCall
  call_invitations : List InvitationRow
  call_history : List CallHistory
  seq_active_calls : Int
  seq_call_invitations : Int
  seq_call_history : Int
  scheduled_calls : List ScheduledCall
  scheduled_call_invitations : List ScheduledCallInvitation
  seq_scheduled_calls : Int
  seq_scheduled_call_invitations : Int
deriving DecidableEq, Repr

/-- The repository calls that can fail with a storage error. -/
inductive Query where
  | userGetByID (id : Int)
  | userGetByUsername (username : String)
  | callCreate
  | callGetByCallID
  | callUpdateStatus
  | invitationCreate (inviteeID : Int)
  | invitationCreateUsernames (inviteeID : Int)
  | invitationGetByID
  | invitationGetCallParticipants
  | invitationUpdateStatus (invitationID : Int)
  | historyCreate
  | historyUpdate
  | historyGetByCallID
  | scheduledCreate
  | scheduledGetByID
  | scheduledGetByUserID
  | scheduledGetByInviteeID
  | scheduledGetUpcoming
  | scheduledUpdateStatus
  | scheduledUpdateReminderSent (id : Int)
  | scheduledInvitationCreate (inviteeID : Int)
  | scheduledInvitationGetByScheduledCallID
deriving DecidableEq, Repr

/-- A bearer token of `auth.AccessToken`, represented by the grant it signs. -/
structure Token where
  Identity : String
  Room : String
  RoomJoin : Bool
  RoomCreate : Bool
  ValidFor : Duration
deriving DecidableEq, Repr

/-- What one operation reads from outside the process: the clock (read once),
the storage errors that strike, the two fresh UUIDs, and the answers of the
video backend and of the token signer. -/
structure Env where
  now : Time
  fault : Query → Option String
  uuidRoom : String
  uuidCall : String
  createRoomErr : Option String
  listParticipants : Except String (List String)
  toJWTErr : Option String
  zone : Int := 0

/-- Method `UserRepo.GetByID`. -/
def UserRepo.GetByID (db : DB) (env : Env) (id : Int) : Except String (Option User) :=
  match env.fault (.userGetByID id) with
  | some e => .error ("failed to get user: " ++ e)
  | none => .ok (db.users.find? (fun u => u.ID == id))

/-- Method `UserRepo.GetByUsername`. -/
def UserRepo.GetByUsername (db : DB) (env : Env) (username : String) :
    Except String (Option User) :=
  match env.fault (.userGetByUsername username) with
  | some e => .error ("failed to get user: " ++ e)
  | none => .ok (db.users.find? (fun u => u.Username == username))

/-- Method `CallRepo.Create`. The insert is refused when `call_id` or
`room_name` is taken (both `UNIQUE`) or `created_by` is no user. -/
def CallRepo.Create (db : DB) (env : Env) (callID roomName callType : String)
    (createdBy : Int) : DB × Except String ActiveCall :=
  match env.fault .callCreate with
  | some e => (db, .error ("failed to create call: " ++ e))
  | none =>
    if db.active_calls.any (fun c => c.CallID == callID || c.RoomName == roomName) then
      (db, .error "failed to create call: UNIQUE constraint failed")
    else if !db.users.any (fun u => u.ID == createdBy) then
      (db, .error "failed to create call: FOREIGN KEY constraint failed")
    else
      let call : ActiveCall :=
        { ID := db.seq_active_calls + 1, CallID := callID, RoomName := roomName,
          CallType := callType, CreatedBy := createdBy, CreatedAt := env.now,
          EndedAt := none, Status := "active" }
      ({ db with active_calls := db.active_calls ++ [call],
                 seq_active_calls := db.seq_active_calls + 1 }, .ok call)

/-- Method `CallRepo.GetByCallID`. -/
def CallRepo.GetByCallID (db : DB) (env : Env) (callID : String) :
    Except String (Option ActiveCall) :=
  match env.fault .callGetByCallID with
  | some e => .error ("failed to get call: " ++ e)
  | none => .ok (db.active_calls.find? (fun c => c.CallID == callID))

/-- Method `CallRepo.UpdateStatus`: `ended_at` is the current time for status
`ended` and `NULL` for every other status. -/
def CallRepo.UpdateStatus (db : DB) (env : Env) (callID status : String) :
    DB × Option String :=
  let endedAt : Option Time := if status = "ended" then some env.now else none
  match env.fault .callUpdateStatus with
  | some e => (db, some ("failed to update call status: " ++ e))
  | none =>
    ({ db with active_calls := db.active_calls.map (fun c =>
        if c.CallID = callID then { c with Status := status, EndedAt := endedAt } else c) },
     none)

/-- Method `InvitationRepo.Create`. The row is inserted first; the two user
names are read afterwards, and a failure there leaves the row in place. -/
def InvitationRepo.Create (db : DB) (env : Env) (callID : String) (inviterID inviteeID : Int)
    (callType roomName : String) : DB × Except String Invitation :=
  match env.fault (.invitationCreate inviteeID) with
  | some e => (db, .error ("failed to create invitation: " ++ e))
  | none =>
    if !(db.users.any (fun u => u.ID == inviterID) && db.users.any (fun u => u.ID == inviteeID))
    then (db, .error "failed to create invitation: FOREIGN KEY constraint failed")
    else
      let id := db.seq_call_invitations + 1
      let row : InvitationRow :=
        { id := id, call_id := callID, inviter_id := inviterID, invitee_id := inviteeID,
          call_type := callType, room_name := roomName, status := "pending",
          created_at := env.now, responded_at := none }
      let db1 := { db with call_invitations := db.call_invitations ++ [row],
                           seq_call_invitations := id }
      match env.fault (.invitationCreateUsernames inviteeID) with
      | some e => (db1, .error ("failed to get inviter username: " ++ e))
      | none =>
        match db.users.find? (fun u => u.ID == inviterID) with
        | none => (db1, .error "failed to get inviter username: no rows")
        | some inviter =>
          match db.users.find? (fun u => u.ID == inviteeID) with
          | none => (db1, .error "failed to get invitee username: no rows")
          | some invitee =>
            (db1, .ok
              { ID := id, CallID := callID, InviterID := inviterID,
                Inviter := inviter.Username, InviteeID := inviteeID,
                Invitee := invitee.Username, CallType := callType, RoomName := roomName,
                Status := "pending", CreatedAt := env.now, RespondedAt := none })

/-- The `JOIN users u1 ... JOIN users u2 ...` of the invitation queries, on one
row: the row is dropped when either user is missing. -/
def InvitationRepo.joinUsers (db : DB) (r : InvitationRow) : Option Invitation :=
  match db.users.find? (fun u => u.ID == r.inviter_id) with
  | none => none
  | some u1 =>
    match db.users.find? (fun u => u.ID == r.invitee_id) with
    | none => none
    | some u2 =>
      some { ID := r.id, CallID := r.call_id, InviterID := r.inviter_id,
             Inviter := u1.Username, InviteeID := r.invitee_id, Invitee := u2.Username,
             CallType := r.call_type, RoomName := r.room_name, Status := r.status,
             CreatedAt := r.created_at, RespondedAt := r.responded_at }

/-- Method `InvitationRepo.UpdateStatus`: `responded_at` is the current time
for `accepted` and `rejected`, and `NULL` for every other status. -/
def InvitationRepo.UpdateStatus (db : DB) (env : Env) (invitationID : Int) (status : String) :
    DB × Option String :=
  let respondedAt : Option Time :=
    if status = "accepted" ∨ status = "rejected" then some env.now else none
  match env.fault (.invitationUpdateStatus invitationID) with
  | some e => (db, some ("failed to update invitation status: " ++ e))
  | none =>
    ({ db with call_invitations := db.call_invitations.map (fun r =>
        if r.id = invitationID then { r with status := status, responded_at := respondedAt }
        else r) },
     none)

/-- Method `InvitationRepo.GetByID`. -/
def InvitationRepo.GetByID (db : DB) (env : Env) (invitationID : Int) :
    Except String (Option Invitation) :=
  match env.fault .invitationGetByID with
  | some e => .error ("failed to get invitation: " ++ e)
  | none =>
    .ok ((db.call_invitations.filterMap (InvitationRepo.joinUsers db)).find?
      (fun i => i.ID == invitationID))

/-- Method `InvitationRepo.GetCallParticipants`, `ORDER BY ci.created_at ASC`
(rows created at the same instant stay in insertion order). -/
def InvitationRepo.GetCallParticipants (db : DB) (env : Env) (callID : String) :
    Except String (List Invitation) :=
  match env.fault .invitationGetCallParticipants with
  | some e => .error ("failed to get call participants: " ++ e)
  | none =>
    .ok (((db.call_invitations.filterMap (InvitationRepo.joinUsers db)).filter
      (fun i => i.CallID == callID)).insertionSort (fun a b => a.CreatedAt ≤ b.CreatedAt))

/-- Method `CallHistoryRepo.Create`. -/
def CallHistoryRepo.Create (db : DB) (env : Env) (callID roomName callType : String)
    (createdBy : Int) (participants : List String) : DB × Except String CallHistory :=
  match env.fault .historyCreate with
  | some e => (db, .error ("failed to create call history: " ++ e))
  | none =>
    if !db.users.any (fun u => u.ID == createdBy) then
      (db, .error "failed to create call history: FOREIGN KEY constraint failed")
    else
      let row : CallHistory :=
        { ID := db.seq_call_history + 1, CallID := callID, RoomName := roomName,
          CallType := callType, CreatedBy := createdBy, Participants := participants,
          StartedAt := env.now, EndedAt := none, Duration := 0, Status := "pending",
          InvitationIDs := "" }
      ({ db with call_history := db.call_history ++ [row],
                 seq_call_history := db.seq_call_history + 1 }, .ok row)

/-- Method `CallHistoryRepo.Update`: a zero `endedAt` leaves `ended_at` alone. -/
def CallHistoryRepo.Update (db : DB) (env : Env) (callID : String) (endedAt : Time)
    (duration : Int) (status : String) : DB × Option String :=
  match env.fault .historyUpdate with
  | some e => (db, some ("failed to update call history: " ++ e))
  | none =>
    if endedAt.IsZero then
      ({ db with call_history := db.call_history.map (fun r =>
          if r.CallID = callID then { r with Duration := duration, Status := status } else r) },
       none)
    else
      ({ db with call_history := db.call_history.map (fun r =>
          if r.CallID = callID then
            { r with EndedAt := some endedAt, Duration := duration, Status := status }
          else r) },
       none)

/-- Method `CallHistoryRepo.GetByCallID`. -/
def CallHistoryRepo.GetByCallID (db : DB) (env : Env) (callID : String) :
    Except String (Option CallHistory) :=
  match env.fault .historyGetByCallID with
  | some e => .error ("failed to get call history: " ++ e)
  | none => .ok (db.call_history.find? (fun r => r.CallID == callID))

/-! ## Services (`services/history_service.go`, `services/call_service.go`) -/

/-- Method `HistoryService.CreateHistoryEntry`. -/
def HistoryService.CreateHistoryEntry (db : DB) (env : Env) (callID roomName callType : String)
    (createdBy : Int) (participants : List String) : DB × Option String :=
  let created := CallHistoryRepo.Create db env callID roomName callType createdBy participants
  match created.2 with
  | .ok _ => (created.1, none)
  | .error e => (created.1, some e)

/-- Method `HistoryService.UpdateHistoryEntry`. -/
def HistoryService.UpdateHistoryEntry (db : DB) (env : Env) (callID : String) (endedAt : Time)
    (duration : Int) (status : String) : DB × Option String :=
  CallHistoryRepo.Update db env callID endedAt duration status

/-- Method `HistoryService.GetCallDetails`. -/
def HistoryService.GetCallDetails (db : DB) (env : Env) (callID : String) :
    Except String (Option CallHistory) :=
  CallHistoryRepo.GetByCallID db env callID

/-- Method `ParticipantService.ListParticipants`, as the identities of the
participants the backend lists. -/
def ParticipantService.ListParticipants (env : Env) (_roomName : String) :
    Except String (List String) :=
  match env.listParticipants with
  | .error e => .error ("failed to list participants: " ++ e)
  | .ok ps => .ok ps

/-- How a service call ends: a returned value, a returned error, or a panic. -/
inductive Outcome (α : Type) where
  | ok (a : α)
  | error (msg : String)
  | panic
deriving DecidableEq, Repr

/-- Struct `CreateCallResult`. -/
structure CreateCallResult where
  CallID : String
  RoomName : String
  Token : Token
deriving DecidableEq, Repr

/-- Struct `RespondInvitationResult`. -/
structure RespondInvitationResult where
  Token : Token
  RoomName : String
deriving DecidableEq, Repr

/-- The state a `CallService` works on: the database and the hub it was built
with (`none` for a nil `wsHub`). -/
structure World where
  db : DB
  wsHub : Option WebSocketHub

/-- Method `CallService.createRoom`. -/
def CallService.createRoom (env : Env) (_roomName : String)
    (_maxParticipants _maxDurationSeconds : Int) : Option String :=
  match env.createRoomErr with
  | some e => some ("failed to create room: " ++ e)
  | none => none

/-- Method `CallService.generateToken`. -/
def CallService.generateToken (env : Env) (roomName identity : String) : Except String Token :=
  match env.toJWTErr with
  | some e => .error ("failed to generate token: " ++ e)
  | none =>
    .ok { Identity := identity, Room := roomName, RoomJoin := true, RoomCreate := true,
          ValidFor := 24 * 3600 * 1000000000 }

/-- A `for ... range` loop whose body is one hub call: the calls run in order
until one panics. Returns the hub reached and whether the loop completed. -/
def broadcastEach {α : Type} (f : WebSocketHub → α → Option WebSocketHub) :
    List α → WebSocketHub → WebSocketHub × Bool
  | [], h => (h, true)
  | a :: rest, h =>
    match f h a with
    | none => (h, false)
    | some h1 => broadcastEach f rest h1

/-- A hub loop guarded by `if s.wsHub != nil`. -/
def broadcastAll {α : Type} (f : WebSocketHub → α → Option WebSocketHub) (xs : List α) :
    Option WebSocketHub → Option WebSocketHub × Bool
  | none => (none, true)
  | some h => (some (broadcastEach f xs h).1, (broadcastEach f xs h).2)

/-- The first loop of `CallService.CreateCallAndInvite`: one invitation per
name that resolves; a name that fails to resolve or to insert is skipped. -/
def CallService.inviteLoop (env : Env) (callID : String) (creatorID : Int)
    (callType roomName : String) : List String → DB → List Invitation → DB × List Invitation
  | [], db, createdInvitations => (db, createdInvitations)
  | username :: rest, db, createdInvitations =>
    match UserRepo.GetByUsername db env username with
    | .error _ => inviteLoop env callID creatorID callType roomName rest db createdInvitations
    | .ok none => inviteLoop env callID creatorID callType roomName rest db createdInvitations
    | .ok (some invitee) =>
      let created := InvitationRepo.Create db env callID creatorID invitee.ID callType roomName
      match created.2 with
      | .error _ =>
        inviteLoop env callID creatorID callType roomName rest created.1 createdInvitations
      | .ok invitation =>
        inviteLoop env callID creatorID callType roomName rest created.1
          (createdInvitations ++ [invitation])

/-- Method `CallService.CreateCallAndInvite`. -/
def CallService.CreateCallAndInvite (w : World) (env : Env) (creatorID : Int)
    (callType : String) (inviteeUsernames : List String) (roomName : String) :
    World × Outcome CreateCallResult :=
  let roomName := if roomName = "" then env.uuidRoom else roomName
  let callID := env.uuidCall
  match UserRepo.GetByID w.db env creatorID with
  | .error e => (w, .error ("failed to get creator: " ++ e))
  | .ok none => (w, .error "creator not found")
  | .ok (some creator) =>
    match CallService.createRoom env roomName 0 0 with
    | some e => (w, .error ("failed to create room: " ++ e))
    | none =>
      let call := CallRepo.Create w.db env callID roomName callType creatorID
      match call.2 with
      | .error e => ({ w with db := call.1 }, .error ("failed to create call record: " ++ e))
      | .ok _ =>
        let loop := CallService.inviteLoop env callID creatorID callType roomName
          inviteeUsernames call.1 []
        let sent := broadcastAll
          (fun h invitation =>
            if invitation.Status = "pending" then
              h.BroadcastInvitation invitation.Invitee invitation
            else some h)
          loop.2 w.wsHub
        if sent.2 = false then ({ db := loop.1, wsHub := sent.1 }, .panic)
        else
          let participantNames := [creator.Username] ++ inviteeUsernames
          let db3 := (HistoryService.CreateHistoryEntry loop.1 env callID roomName callType
            creatorID participantNames).1
          let db4 := (HistoryService.UpdateHistoryEntry db3 env callID env.now 0 "pending").1
          match CallService.generateToken env roomName creator.Username with
          | .error e =>
            ({ db := db4, wsHub := sent.1 }, .error ("failed to generate token: " ++ e))
          | .ok token =>
            ({ db := db4, wsHub := sent.1 },
             .ok { CallID := callID, RoomName := roomName, Token := token })

/-- The notification block of `CallService.RespondToInvitation`: when there is
a hub and the inviter is found, tell the inviter. -/
def CallService.notifyInviter (db : DB) (env : Env) (wsHub : Option WebSocketHub)
    (invitation : Invitation) (invitationID : Int) (status : String) :
    Option WebSocketHub × Bool :=
  match wsHub with
  | none => (none, true)
  | some h =>
    match UserRepo.GetByID db env invitation.InviterID with
    | .ok (some inviter) =>
      match h.BroadcastInvitationResponse inviter.Username invitationID invitation.Invitee
          status with
      | none => (some h, false)
      | some h1 => (some h1, true)
    | _ => (some h, true)

/-- Method `CallService.RespondToInvitation`. The value `ok none` is the
`nil, nil` returned after a rejection. -/
def CallService.RespondToInvitation (w : World) (env : Env) (invitationID userID : Int)
    (action : String) : World × Outcome (Option RespondInvitationResult) :=
  match InvitationRepo.GetByID w.db env invitationID with
  | .error e => (w, .error ("failed to get invitation: " ++ e))
  | .ok none => (w, .error "invitation not found")
  | .ok (some invitation) =>
    if invitation.InviteeID ≠ userID then (w, .error "unauthorized")
    else if invitation.Status ≠ "pending" then (w, .error "invitation already responded")
    else
      let status := if action = "accept" then "accepted" else "rejected"
      let updated := InvitationRepo.UpdateStatus w.db env invitationID status
      let db1 := updated.1
      match updated.2 with
      | some e => ({ w with db := db1 }, .error ("failed to update invitation status: " ++ e))
      | none =>
        if action = "reject" then
          let db2 := (HistoryService.UpdateHistoryEntry db1 env invitation.CallID env.now 0
            "rejected").1
          let sent := CallService.notifyInviter db2 env w.wsHub invitation invitationID
            "rejected"
          if sent.2 = false then ({ db := db2, wsHub := sent.1 }, .panic)
          else ({ db := db2, wsHub := sent.1 }, .ok none)
        else
          match UserRepo.GetByID db1 env userID with
          | .error e => ({ w with db := db1 }, .error ("failed to get user: " ++ e))
          | .ok none => ({ w with db := db1 }, .panic)
          | .ok (some user) =>
            match CallService.generateToken env invitation.RoomName user.Username with
            | .error e =>
              ({ w with db := db1 }, .error ("failed to generate token: " ++ e))
            | .ok token =>
              let sent := CallService.notifyInviter db1 env w.wsHub invitation invitationID
                "accepted"
              if sent.2 = false then ({ db := db1, wsHub := sent.1 }, .panic)
              else
                ({ db := db1, wsHub := sent.1 },
                 .ok (some { Token := token, RoomName := invitation.RoomName }))

/-- A finite `float64`, as the fraction `num / den` that it equals. -/
structure Float64 where
  num : Int
  den : Nat
deriving DecidableEq, Repr

/-- The quotient of two naturals rounded to the nearest natural, a tie to the
even one. -/
def divRoundEven (a b : Nat) : Nat :=
  if 2 * (a % b) < b then a / b
  else if b < 2 * (a % b) then a / b + 1
  else if (a / b) % 2 = 0 then a / b
  else a / b + 1

/-- The number of doublings of `a` after which `a / b` is at least `2 ^ 52`. -/
def Float64.shiftUp : Nat → Nat → Nat → Nat
  | 0, _, _ => 0
  | fuel + 1, a, b => if 2 ^ 52 * b ≤ a then 0 else Float64.shiftUp fuel (2 * a) b + 1

/-- The number of doublings of `b` after which `a / b` is below `2 ^ 53`. -/
def Float64.shiftDown : Nat → Nat → Nat → Nat
  | 0, _, _ => 0
  | fuel + 1, a, b => if a < 2 ^ 53 * b then 0 else Float64.shiftDown fuel a (2 * b) + 1

/-- The `float64` nearest to the fraction `a / b` (`b` positive): the fraction
is scaled by the power of two that brings it into `[2 ^ 52, 2 ^ 53)`, rounded to
a whole number with ties to even, and scaled back (53 significant bits, rounding
to nearest even). The exponent range of `float64` is not modelled; the values
met here lie between `1e-9` and `1e10`. -/
def Float64.roundNat (a b : Nat) : Nat × Nat :=
  if a = 0 then (0, 1)
  else if a < 2 ^ 53 * b then
    (divRoundEven (a * 2 ^ Float64.shiftUp (b + 53) a b) b, 2 ^ Float64.shiftUp (b + 53) a b)
  else
    (divRoundEven a (b * 2 ^ Float64.shiftDown a a b) * 2 ^ Float64.shiftDown a a b, 1)

/-- Rounding of a signed fraction; `float64` rounding is symmetric. -/
def Float64.round (a : Int) (b : Nat) : Float64 :=
  { num := if a < 0 then -((Float64.roundNat a.natAbs b).1 : Int)
           else ((Float64.roundNat a.natAbs b).1 : Int),
    den := (Float64.roundNat a.natAbs b).2 }

/-- Conversion `float64(n)` of an integer. -/
def Float64.ofInt (n : Int) : Float64 := Float64.round n 1

/-- Operator `/` on `float64` (divisor not zero). -/
def Float64.div (x y : Float64) : Float64 :=
  Float64.round (x.num * y.den * y.num.sign) (x.den * y.num.natAbs)

/-- Operator `+` on `float64`. -/
def Float64.add (x y : Float64) : Float64 :=
  Float64.round (x.num * y.den + y.num * x.den) (x.den * y.den)

/-- Conversion `int(f)`: the fraction is cut off towards zero. -/
def Float64.toInt (x : Float64) : Int := x.num.tdiv x.den

/-- Method `Duration.Seconds`: `float64(sec) + float64(nsec)/1e9` with
`sec := d / Second` and `nsec := d % Second`. -/
def Duration.Seconds (d : Duration) : Float64 :=
  let sec := d.tdiv Duration.Second
  let nsec := d.tmod Duration.Second
  Float64.add (Float64.ofInt sec) (Float64.div (Float64.ofInt nsec) (Float64.ofInt 1000000000))

/-- Expression `int(d.Seconds())`. -/
def Duration.wholeSeconds (d : Duration) : Int := (Duration.Seconds d).toInt

/-- Method `CallService.EndCall`. -/
def CallService.EndCall (w : World) (env : Env) (callID : String) (_userID : Int) :
    World × Outcome Unit :=
  match CallRepo.GetByCallID w.db env callID with
  | .error e => (w, .error ("failed to get call: " ++ e))
  | .ok none => (w, .error "call not found")
  | .ok (some call) =>
    let participants : List String :=
      match ParticipantService.ListParticipants env call.RoomName with
      | .error _ => []
      | .ok ps => ps
    let participantNames := participants.filter (fun identity => identity ≠ "")
    let startedAt := call.CreatedAt
    let endedAt := env.now
    let duration := Duration.wholeSeconds (endedAt.Sub startedAt)
    let created : DB × Option String :=
      match HistoryService.GetCallDetails w.db env callID with
      | .ok (some _) => (w.db, none)
      | _ =>
        HistoryService.CreateHistoryEntry w.db env callID call.RoomName call.CallType
          call.CreatedBy participantNames
    match created.2 with
    | some e => ({ w with db := created.1 }, .error ("failed to create history entry: " ++ e))
    | none =>
      let history := HistoryService.UpdateHistoryEntry created.1 env callID endedAt duration
        "completed"
      match history.2 with
      | some e => ({ w with db := history.1 }, .error ("failed to update history entry: " ++ e))
      | none =>
        let updated := CallRepo.UpdateStatus history.1 env callID "ended"
        match updated.2 with
        | some e =>
          ({ w with db := updated.1 }, .error ("failed to update call status: " ++ e))
        | none =>
          let sent := broadcastAll (fun h participantName => h.BroadcastCallEnded participantName
            callID) participantNames w.wsHub
          if sent.2 = false then ({ db := updated.1, wsHub := sent.1 }, .panic)
          else ({ db := updated.1, wsHub := sent.1 }, .ok ())

/-- The loop of `CallService.CancelCall` over the call's invitations: every
pending one is set to `cancelled`; a failed write is skipped; the names of the
invitees that were found are collected. -/
def CallService.cancelLoop (env : Env) : List Invitation → DB → List String → DB × List String
  | [], db, inviteeUsernames => (db, inviteeUsernames)
  | invitation :: rest, db, inviteeUsernames =>
    if invitation.Status = "pending" then
      let updated := InvitationRepo.UpdateStatus db env invitation.ID "cancelled"
      match updated.2 with
      | some _ => cancelLoop env rest updated.1 inviteeUsernames
      | none =>
        match UserRepo.GetByID updated.1 env invitation.InviteeID with
        | .ok (some invitee) =>
          cancelLoop env rest updated.1 (inviteeUsernames ++ [invitee.Username])
        | _ => cancelLoop env rest updated.1 inviteeUsernames
    else cancelLoop env rest db inviteeUsernames

/-- Method `CallService.CancelCall`. -/
def CallService.CancelCall (w : World) (env : Env) (callID : String) (userID : Int) :
    World × Outcome Unit :=
  match CallRepo.GetByCallID w.db env callID with
  | .error e => (w, .error ("failed to get call: " ++ e))
  | .ok none => (w, .error "call not found")
  | .ok (some call) =>
    if call.CreatedBy ≠ userID then
      (w, .error "unauthorized: only creator can cancel the call")
    else
      match InvitationRepo.GetCallParticipants w.db env callID with
      | .error e => (w, .error ("failed to get invitations: " ++ e))
      | .ok invitations =>
        let loop := CallService.cancelLoop env invitations w.db []
        let updated := CallRepo.UpdateStatus loop.1 env callID "cancelled"
        match updated.2 with
        | some e => ({ w with db := updated.1 }, .error ("failed to update call status: " ++ e))
        | none =>
          let db3 := (HistoryService.UpdateHistoryEntry updated.1 env callID 0 0 "cancelled").1
          let sent := broadcastAll (fun h inviteeUsername => h.BroadcastCallCancelled
            inviteeUsername callID) loop.2 w.wsHub
          if sent.2 = false then ({ db := db3, wsHub := sent.1 }, .panic)
          else ({ db := db3, wsHub := sent.1 }, .ok ())

/-! ## Scheduled calls: storage (`database/scheduled_call_repo.go`,
`database/scheduled_call_invitation_repo.go`) -/

/-- Method `ScheduledCallRepo.Create`. The insert is refused when `call_id` or
`room_name` is taken (both `UNIQUE`) or `created_by` is no user. The parameter
`scheduledAt time.Time` is the instant `scheduledAt` with the UTC offset
`scheduledAtZone` of its location. -/
def ScheduledCallRepo.Create (db : DB) (env : Env) (callID roomName callType : String)
    (createdBy : Int) (scheduledAt : Time) (scheduledAtZone : Int)
    (timezone recurrence title description joinLink : String)
    (maxParticipants maxDurationSeconds : Int) : DB × Except String ScheduledCall :=
  match env.fault .scheduledCreate with
  | some e => (db, .error ("failed to create scheduled call: " ++ e))
  | none =>
    if db.scheduled_calls.any (fun c => c.CallID == callID || c.RoomName == roomName) then
      (db, .error "failed to create scheduled call: UNIQUE constraint failed")
    else if !db.users.any (fun u => u.ID == createdBy) then
      (db, .error "failed to create scheduled call: FOREIGN KEY constraint failed")
    else
      let call : ScheduledCall :=
        { ID := db.seq_scheduled_calls + 1, CallID := callID, RoomName := roomName,
          CallType := callType, CreatedBy := createdBy, ScheduledAt := scheduledAt,
          ScheduledAtZone := scheduledAtZone,
          Timezone := timezone, Recurrence := recurrence, Title := title,
          Description := description, JoinLink := joinLink, Status := "scheduled",
          ReminderSentAt := none, MaxParticipants := maxParticipants,
          MaxDurationSeconds := maxDurationSeconds, Invitees := [],
          CreatedAt := env.now, UpdatedAt := env.now }
      ({ db with scheduled_calls := db.scheduled_calls ++ [call],
                 seq_scheduled_calls := db.seq_scheduled_calls + 1 }, .ok call)

/-- Method `ScheduledCallRepo.GetByID`. -/
def ScheduledCallRepo.GetByID (db : DB) (env : Env) (id : Int) :
    Except String (Option ScheduledCall) :=
  match env.fault .scheduledGetByID with
  | some e => .error ("failed to get scheduled call: " ++ e)
  | none => .ok (db.scheduled_calls.find? (fun c => c.ID == id))

/-- Clause `ORDER BY scheduled_at ASC`: the order of the stored texts (rows with
the same text stay in table order). -/
def orderByScheduledAt (calls : List ScheduledCall) : List ScheduledCall :=
  calls.insertionSort (fun a b =>
    sqliteTextLE (a.ScheduledAt.sqliteText a.ScheduledAtZone)
      (b.ScheduledAt.sqliteText b.ScheduledAtZone) = true)

/-- Method `ScheduledCallRepo.GetByUserID`; an empty `status` means no filter. -/
def ScheduledCallRepo.GetByUserID (db : DB) (env : Env) (userID : Int) (status : String) :
    Except String (List ScheduledCall) :=
  match env.fault .scheduledGetByUserID with
  | some e => .error ("failed to get scheduled calls: " ++ e)
  | none =>
    if status ≠ "" then
      .ok (orderByScheduledAt (db.scheduled_calls.filter
        (fun c => c.CreatedBy == userID && c.Status == status)))
    else
      .ok (orderByScheduledAt (db.scheduled_calls.filter (fun c => c.CreatedBy == userID)))

/-- Method `ScheduledCallRepo.GetUpcoming`. The condition `scheduled_at >= ?`
is bound to `time.Now()`, a time in the local zone of the process, and SQLite
compares the stored text of `scheduled_at` with the text of that time. -/
def ScheduledCallRepo.GetUpcoming (db : DB) (env : Env) (limit : Nat) :
    Except String (List ScheduledCall) :=
  match env.fault .scheduledGetUpcoming with
  | some e => .error ("failed to get upcoming scheduled calls: " ++ e)
  | none =>
    .ok ((orderByScheduledAt (db.scheduled_calls.filter
      (fun c => c.Status == "scheduled" &&
        sqliteTextLE (env.now.sqliteText env.zone)
          (c.ScheduledAt.sqliteText c.ScheduledAtZone)))).take limit)

/-- Method `ScheduledCallRepo.UpdateStatus`. -/
def ScheduledCallRepo.UpdateStatus (db : DB) (env : Env) (id : Int) (status : String) :
    DB × Option String :=
  match env.fault .scheduledUpdateStatus with
  | some e => (db, some ("failed to update scheduled call status: " ++ e))
  | none =>
    ({ db with scheduled_calls := db.scheduled_calls.map (fun c =>
        if c.ID = id then { c with Status := status, UpdatedAt := env.now } else c) },
     none)

/-- Method `ScheduledCallRepo.UpdateReminderSent`. -/
def ScheduledCallRepo.UpdateReminderSent (db : DB) (env : Env) (id : Int) :
    DB × Option String :=
  match env.fault (.scheduledUpdateReminderSent id) with
  | some e => (db, some ("failed to update reminder sent: " ++ e))
  | none =>
    ({ db with scheduled_calls := db.scheduled_calls.map (fun c =>
        if c.ID = id then { c with ReminderSentAt := some env.now } else c) },
     none)

/-- Method `ScheduledCallRepo.GetByInviteeID`: the inner join of the scheduled
calls with the invitations addressed to the user. -/
def ScheduledCallRepo.GetByInviteeID (db : DB) (env : Env) (inviteeID : Int)
    (status : String) : Except String (List ScheduledCall) :=
  match env.fault .scheduledGetByInviteeID with
  | some e => .error ("failed to get scheduled calls for invitee: " ++ e)
  | none =>
    let joined := db.scheduled_calls.flatMap (fun sc =>
      (db.scheduled_call_invitations.filter
        (fun sci => sci.ScheduledCallID == sc.ID && sci.InviteeID == inviteeID)).map
        (fun _ => sc))
    if status ≠ "" then .ok (orderByScheduledAt (joined.filter (fun c => c.Status == status)))
    else .ok (orderByScheduledAt joined)

/-- Method `ScheduledCallInvitationRepo.Create`. The insert is refused when the
scheduled call or the invitee does not exist, or the pair is already there
(`UNIQUE(scheduled_call_id, invitee_id)`). -/
def ScheduledCallInvitationRepo.Create (db : DB) (env : Env) (scheduledCallID inviteeID : Int) :
    DB × Except String ScheduledCallInvitation :=
  match env.fault (.scheduledInvitationCreate inviteeID) with
  | some e => (db, .error ("failed to create scheduled call invitation: " ++ e))
  | none =>
    if !(db.scheduled_calls.any (fun c => c.ID == scheduledCallID) &&
        db.users.any (fun u => u.ID == inviteeID)) then
      (db, .error "failed to create scheduled call invitation: FOREIGN KEY constraint failed")
    else if db.scheduled_call_invitations.any
        (fun i => i.ScheduledCallID == scheduledCallID && i.InviteeID == inviteeID) then
      (db, .error "failed to create scheduled call invitation: UNIQUE constraint failed")
    else
      let row : ScheduledCallInvitation :=
        { ID := db.seq_scheduled_call_invitations + 1, ScheduledCallID := scheduledCallID,
          InviteeID := inviteeID, Status := "pending", ReminderSentAt := none,
          CreatedAt := env.now }
      ({ db with scheduled_call_invitations := db.scheduled_call_invitations ++ [row],
                 seq_scheduled_call_invitations := db.seq_scheduled_call_invitations + 1 },
       .ok row)

/-- Method `ScheduledCallInvitationRepo.GetByScheduledCallID`. -/
def ScheduledCallInvitationRepo.GetByScheduledCallID (db : DB) (env : Env)
    (scheduledCallID : Int) : Except String (List ScheduledCallInvitation) :=
  match env.fault .scheduledInvitationGetByScheduledCallID with
  | some e => .error ("failed to get scheduled call invitations: " ++ e)
  | none =>
    .ok (db.scheduled_call_invitations.filter (fun i => i.ScheduledCallID == scheduledCallID))

/-! ## Scheduled calls: service (`services/scheduled_service.go`) -/

/-- Struct `CreateScheduledCallRequest`. -/
structure CreateScheduledCallRequest where
  CallType : String
  ScheduledAt : Time
  ScheduledAtZone : Int := 0
  Timezone : String
  Invitees : List String
  Recurrence : String
  Title : String
  Description : String
  MaxParticipants : Int
  MaxDurationSeconds : Int
deriving DecidableEq, Repr

/-- The invitee loop of `ScheduledService.CreateScheduledCall`: one invitation
per name that resolves and inserts; the names that got one are collected. -/
def ScheduledService.inviteLoop (env : Env) (scheduledCallID : Int) :
    List String → DB → List String → DB × List String
  | [], db, inviteeUsernames => (db, inviteeUsernames)
  | username :: rest, db, inviteeUsernames =>
    match UserRepo.GetByUsername db env username with
    | .ok (some invitee) =>
      let created := ScheduledCallInvitationRepo.Create db env scheduledCallID invitee.ID
      match created.2 with
      | .error _ => inviteLoop env scheduledCallID rest created.1 inviteeUsernames
      | .ok _ => inviteLoop env scheduledCallID rest created.1 (inviteeUsernames ++ [username])
    | _ => inviteLoop env scheduledCallID rest db inviteeUsernames

/-- Method `ScheduledService.CreateScheduledCall`. The call identifier and the
room name are the two fresh UUIDs of the environment. -/
def ScheduledService.CreateScheduledCall (w : World) (env : Env) (creatorID : Int)
    (req : CreateScheduledCallRequest) : World × Outcome ScheduledCall :=
  let callID := env.uuidCall
  let roomName := env.uuidRoom
  let joinLink := "app://call/join?callId=" ++ callID
  let timezone := if req.Timezone = "" then "UTC" else req.Timezone
  let recurrenceJSON := if req.Recurrence = "" then "\x7b\"type\":\"none\"\x7d" else req.Recurrence
  let maxParticipants := if req.MaxParticipants ≤ 0 then 20 else req.MaxParticipants
  let maxDurationSeconds := if req.MaxDurationSeconds < 0 then 0 else req.MaxDurationSeconds
  let created := ScheduledCallRepo.Create w.db env callID roomName req.CallType creatorID
    req.ScheduledAt req.ScheduledAtZone timezone recurrenceJSON req.Title req.Description
    joinLink maxParticipants maxDurationSeconds
  match created.2 with
  | .error e => ({ w with db := created.1 }, .error ("failed to create scheduled call: " ++ e))
  | .ok call =>
    let loop := ScheduledService.inviteLoop env call.ID req.Invitees created.1 []
    match w.wsHub with
    | none => ({ db := loop.1, wsHub := none }, .ok call)
    | some h =>
      match UserRepo.GetByID loop.1 env creatorID with
      | .ok (some creator) =>
        match h.BroadcastScheduledCallCreated creator.Username (some call) with
        | none => ({ db := loop.1, wsHub := some h }, .panic)
        | some h1 =>
          let sent := broadcastEach (fun h inviteeUsername =>
            h.BroadcastScheduledCallCreated inviteeUsername (some call)) loop.2 h1
          if sent.2 = false then ({ db := loop.1, wsHub := some sent.1 }, .panic)
          else ({ db := loop.1, wsHub := some sent.1 }, .ok call)
      | _ => ({ db := loop.1, wsHub := some h }, .ok call)

/-- A Go `map[int64]*models.ScheduledCall`: its entries, with distinct keys. -/
abbrev CallMap := List (Int × ScheduledCall)

/-- Expression `_, exists := callMap[id]`. -/
def CallMap.has (m : CallMap) (id : Int) : Bool := m.any (fun e => e.1 == id)

/-- Statement `callMap[id] = call`. -/
def CallMap.set (m : CallMap) (id : Int) (call : ScheduledCall) : CallMap :=
  if m.has id then m.map (fun e => if e.1 = id then (id, call) else e) else m ++ [(id, call)]

/-- The inner loop of the sort in `GetScheduledCalls` for one `i`: `x` is
`calls[i]` and the list holds `calls[i+1:]`; whenever `calls[i]` is after
`calls[j]` the two are exchanged. Returns the final `calls[i]` and
`calls[i+1:]`. -/
def sortPass (x : ScheduledCall) : List ScheduledCall → ScheduledCall × List ScheduledCall
  | [] => (x, [])
  | y :: rest =>
    if x.ScheduledAt.After y.ScheduledAt then ((sortPass y rest).1, x :: (sortPass y rest).2)
    else ((sortPass x rest).1, y :: (sortPass x rest).2)

/-- The outer loop of the sort, with `passes` iterations left; the list holds
`calls[i:]`. -/
def sortLoop : Nat → List ScheduledCall → List ScheduledCall
  | 0, calls => calls
  | _ + 1, [] => []
  | passes + 1, x :: rest => (sortPass x rest).1 :: sortLoop passes (sortPass x rest).2

/-- The sort of `GetScheduledCalls`: `len(calls) - 1` passes. -/
def sortByScheduledAt (calls : List ScheduledCall) : List ScheduledCall :=
  sortLoop (calls.length - 1) calls

/-- Method `ScheduledService.populateInvitees`, returning the call with its
`Invitees` filled in (and the call as it was when the lookup fails). -/
def ScheduledService.populateInvitees (db : DB) (env : Env) (call : ScheduledCall) :
    ScheduledCall :=
  match ScheduledCallInvitationRepo.GetByScheduledCallID db env call.ID with
  | .error _ => call
  | .ok invitations =>
    { call with Invitees := invitations.filterMap (fun inv =>
        match UserRepo.GetByID db env inv.InviteeID with
        | .ok (some user) => some user.Username
        | _ => none) }

/-- The merge of `GetScheduledCalls`: the calls the user created go into the
map, then the calls the user is invited to whose id is not yet there. -/
def ScheduledService.mergeCalls (createdCalls invitedCalls : List ScheduledCall) : CallMap :=
  invitedCalls.foldl (fun m call => if m.has call.ID then m else m.set call.ID call)
    (createdCalls.foldl (fun m call => m.set call.ID call) [])

/-- Method `ScheduledService.GetScheduledCalls`. The order in which `range`
walks the map is not specified by Go; it is the argument `mapOrder`, some
rearrangement of the entries. -/
def ScheduledService.GetScheduledCalls (db : DB) (env : Env)
    (mapOrder : List ScheduledCall → List ScheduledCall) (userID : Int) (status : String) :
    Except String (List ScheduledCall) :=
  match ScheduledCallRepo.GetByUserID db env userID status with
  | .error e => .error e
  | .ok createdCalls =>
    match ScheduledCallRepo.GetByInviteeID db env userID status with
    | .error e => .error e
    | .ok invitedCalls =>
      let callMap := ScheduledService.mergeCalls createdCalls invitedCalls
      let calls := mapOrder (callMap.map (fun e => e.2))
      let calls := sortByScheduledAt calls
      .ok (calls.map (ScheduledService.populateInvitees db env))

/-- Method `ScheduledService.CancelScheduledCall`. -/
def ScheduledService.CancelScheduledCall (w : World) (env : Env) (id userID : Int) :
    World × Outcome Unit :=
  match ScheduledCallRepo.GetByID w.db env id with
  | .error e => (w, .error e)
  | .ok none => (w, .error "scheduled call not found")
  | .ok (some call) =>
    if call.CreatedBy ≠ userID then (w, .error "unauthorized")
    else
      let updated := ScheduledCallRepo.UpdateStatus w.db env id "cancelled"
      match updated.2 with
      | some e => ({ w with db := updated.1 }, .error e)
      | none => ({ w with db := updated.1 }, .ok ())

/-- Method `ScheduledService.IsInvitee`. -/
def ScheduledService.IsInvitee (db : DB) (env : Env) (scheduledCallID userID : Int) :
    Except String Bool :=
  match ScheduledCallInvitationRepo.GetByScheduledCallID db env scheduledCallID with
  | .error e => .error ("failed to get invitations: " ++ e)
  | .ok invitations => .ok (invitations.any (fun inv => inv.InviteeID == userID))

/-- Method `CallService.CreateRoomForScheduledCall`. -/
def CallService.CreateRoomForScheduledCall (env : Env) (roomName : String)
    (maxParticipants maxDurationSeconds : Int) : Option String :=
  CallService.createRoom env roomName maxParticipants maxDurationSeconds

/-- The authorization step of `StartScheduledCall`: the error it returns, if
any. -/
def ScheduledService.startAuthError (db : DB) (env : Env) (call : ScheduledCall)
    (id userID : Int) : Option String :=
  if call.CreatedBy ≠ userID then
    match ScheduledService.IsInvitee db env id userID with
    | .error e => some ("failed to check invitee status: " ++ e)
    | .ok false => some "unauthorized: user is not creator or invitee"
    | .ok true => none
  else none

/-- Expression `call.ScheduledAt.Add(time.Duration(call.MaxDurationSeconds) *
time.Second)`: the product is an `int64` and wraps around. -/
def ScheduledCall.endTime (call : ScheduledCall) : Time :=
  call.ScheduledAt.Add (wrap64 (call.MaxDurationSeconds * Duration.Second))

/-- Method `ScheduledService.StartScheduledCall`. -/
def ScheduledService.StartScheduledCall (w : World) (env : Env) (id userID : Int) :
    World × Outcome CreateCallResult :=
  match ScheduledCallRepo.GetByID w.db env id with
  | .error e => (w, .error e)
  | .ok none => (w, .error "scheduled call not found")
  | .ok (some call) =>
    match ScheduledService.startAuthError w.db env call id userID with
    | some e => (w, .error e)
    | none =>
      if call.Status ≠ "scheduled" then (w, .error "call is not in scheduled status")
      else
        let now := env.now
        if call.MaxDurationSeconds > 0 ∧ now.After call.endTime = true then
          (w, .error "meeting has ended")
        else
          match CallService.CreateRoomForScheduledCall env call.RoomName call.MaxParticipants
              call.MaxDurationSeconds with
          | some e => (w, .error ("failed to create room: " ++ e))
          | none =>
            let result := CallService.CreateCallAndInvite w env call.CreatedBy call.CallType []
              call.RoomName
            match result.2 with
            | .error e => (result.1, .error e)
            | .panic => (result.1, .panic)
            | .ok r =>
              let updated := ScheduledCallRepo.UpdateStatus result.1.db env id "started"
              ({ result.1 with db := updated.1 }, .ok r)

/-! ## Scheduled calls: request boundary (`handlers/scheduled_handlers.go`) -/

/-- What a handler writes: `auth.RespondError` with a status and a message, or
`auth.RespondJSON` with a status and the scheduled call. -/
inductive Response where
  | error (status : Nat) (message : String)
  | json (status : Nat) (call : ScheduledCall)
deriving DecidableEq, Repr

/-- Handler `HandleCreateScheduledCall`, from the point where the request is a
`POST` of an authenticated user whose body decoded into `req`. -/
def HandleCreateScheduledCall (w : World) (env : Env) (userID : Int)
    (req : CreateScheduledCallRequest) : World × Outcome Response :=
  if req.CallType ≠ "video" ∧ req.CallType ≠ "voice" then
    (w, .ok (.error 400 "callType must be \x27video\x27 or \x27voice\x27"))
  else if req.ScheduledAt.Before env.now = true then
    (w, .ok (.error 400 "scheduledAt must be in the future"))
  else
    let created := ScheduledService.CreateScheduledCall w env userID req
    match created.2 with
    | .error e => (created.1, .ok (.error 500 e))
    | .panic => (created.1, .panic)
    | .ok call => (created.1, .ok (.json 201 call))

/-! ## Reminder worker (`workers/scheduled_worker.go`) -/

/-- Method `ScheduledService.GetUpcomingScheduledCalls`. -/
def ScheduledService.GetUpcomingScheduledCalls (db : DB) (env : Env) (limit : Nat) :
    Except String (List ScheduledCall) :=
  ScheduledCallRepo.GetUpcoming db env limit

/-- Method `ScheduledService.UpdateReminderSent`. -/
def ScheduledService.UpdateReminderSent (db : DB) (env : Env) (id : Int) : DB × Option String :=
  ScheduledCallRepo.UpdateReminderSent db env id

/-- Method `ScheduledWorker.getUsername`. -/
def ScheduledWorker.getUsername (db : DB) (env : Env) (userID : Int) : String :=
  match UserRepo.GetByID db env userID with
  | .ok (some user) => user.Username
  | _ => ""

/-- The tick period of `ScheduledWorker.Run`. -/
def ScheduledWorker.tickPeriod : Duration := 30 * Duration.Second

/-- Variable `reminderTimes` of `sendReminders`. -/
def ScheduledWorker.reminderTimes : List Duration := [15 * Duration.Minute, 5 * Duration.Minute]

/-- A completed call of `BroadcastScheduledCallReminder` by the worker: to whom,
for which scheduled call, with which reminder time. -/
structure ReminderSent where
  username : String
  callID : Int
  reminderTime : Duration
deriving DecidableEq, Repr

/-- The state of one run of `sendReminders`: the world, the reminders handed to
the hub so far, and whether the run is still going (`false` after a panic). -/
structure TickState where
  world : World
  sent : List ReminderSent
  running : Bool

/-- The body of the window test in `sendReminders`: tell the creator when there
is a hub and the name resolves, then record that the reminder was sent (a
failure of that write is only logged). -/
def ScheduledWorker.remind (env : Env) (call : ScheduledCall) (reminderTime : Duration)
    (st : TickState) : TickState :=
  let told : Option (Option WebSocketHub × List ReminderSent) :=
    match st.world.wsHub with
    | none => some (none, st.sent)
    | some h =>
      let username := ScheduledWorker.getUsername st.world.db env call.CreatedBy
      if username ≠ "" then
        match h.BroadcastScheduledCallReminder username (some call) reminderTime with
        | none => none
        | some h1 =>
          some (some h1, st.sent ++
            [{ username := username, callID := call.ID, reminderTime := reminderTime }])
      else some (some h, st.sent)
  match told with
  | none => { st with running := false }
  | some (hub, sent) =>
    { world := { db := (ScheduledService.UpdateReminderSent st.world.db env call.ID).1,
                 wsHub := hub },
      sent := sent, running := true }

/-- The inner loop of `sendReminders` for one call: the first reminder time
whose window holds `timeUntilCall` is used and the loop is left. -/
def ScheduledWorker.remindCall (env : Env) (call : ScheduledCall) (timeUntilCall : Duration) :
    List Duration → TickState → TickState
  | [], st => st
  | reminderTime :: rest, st =>
    if timeUntilCall ≤ reminderTime ∧ timeUntilCall > reminderTime - Duration.Minute then
      ScheduledWorker.remind env call reminderTime st
    else remindCall env call timeUntilCall rest st

/-- The outer loop of `sendReminders` over the calls that were fetched. -/
def ScheduledWorker.remindLoop (env : Env) : List ScheduledCall → TickState → TickState
  | [], st => st
  | call :: rest, st =>
    if st.running = false then st
    else if call.ReminderSentAt ≠ none then remindLoop env rest st
    else
      remindLoop env rest
        (ScheduledWorker.remindCall env call (call.ScheduledAt.Sub env.now)
          ScheduledWorker.reminderTimes st)

/-- Method `ScheduledWorker.sendReminders`: one tick. -/
def ScheduledWorker.sendReminders (w : World) (env : Env) : TickState :=
  match ScheduledService.GetUpcomingScheduledCalls w.db env 100 with
  | .error _ => { world := w, sent := [], running := true }
  | .ok upcoming =>
    ScheduledWorker.remindLoop env upcoming { world := w, sent := [], running := true }

/-- The ticks of `ScheduledWorker.Run`, one per environment, in order: a panic
in a tick ends the process, so no later tick runs. The reminders of all ticks
are collected. -/
def ScheduledWorker.runTicks : List Env → TickState → TickState
  | [], st => st
  | env :: rest, st =>
    if st.running = false then st
    else
      let tick := ScheduledWorker.sendReminders st.world env
      runTicks rest { world := tick.world, sent := st.sent ++ tick.sent, running := tick.running }

/-- Whether the fetch of a tick returns the scheduled call `id`. -/
def ScheduledWorker.fetches (w : World) (env : Env) (id : Int) : Bool :=
  match ScheduledService.GetUpcomingScheduledCalls w.db env 100 with
  | .error _ => false
  | .ok upcoming => upcoming.any (fun c => c.ID == id)

/-- Whether the scheduled call `id` is fetched at each tick of a run. -/
def ScheduledWorker.fetchesAtEach (id : Int) : List Env → World → Bool
  | [], _ => true
  | env :: rest, w =>
    ScheduledWorker.fetches w env id &&
      fetchesAtEach id rest (ScheduledWorker.sendReminders w env).world

/-! ## Outbound pump (`websocket/handler.go`) -/

/-- One call of `Write` on the frame writer: a queued message, or the single
byte `\n`. -/
inductive Written where
  | payload (b : Bytes)
  | newline
deriving DecidableEq, Repr

/-- What the `c.send` case of `Client.writePump` puts on the transport. -/
inductive PumpResult where
  | blocked
  | closeMessage
  | writerFailed
  | textMessage (writes : List Written)
deriving DecidableEq, Repr

/-- The `c.send` case of the `select` in `Client.writePump` on the session's
channel: it takes one message and then, into the same frame, every message
that is queued at that moment, each after a newline. With nothing queued the
case is not ready on an open channel and yields the close frame on a closed
one. `writerFails` is the outcome of `NextWriter`. -/
def Client.writePumpMessage (ch : Chan) (writerFails : Bool) : PumpResult × Chan :=
  match ch.buf with
  | [] => if ch.closed then (.closeMessage, ch) else (.blocked, ch)
  | message :: queued =>
    if writerFails then (.writerFailed, { ch with buf := queued })
    else
      (.textMessage (.payload message :: queued.flatMap (fun m => [.newline, .payload m])),
       { ch with buf := [] })

/-! ## The sequential model -/

/-- One invocation of an operation of the call service, with its arguments and
what it reads from outside. -/
inductive Op where
  | CreateCallAndInvite (env : Env) (creatorID : Int) (callType : String)
      (inviteeUsernames : List String) (roomName : String)
  | RespondToInvitation (env : Env) (invitationID userID : Int) (action : String)
  | EndCall (env : Env) (callID : String) (userID : Int)
  | CancelCall (env : Env) (callID : String) (userID : Int)

/-- The state after running an operation. -/
def step (w : World) : Op → World
  | .CreateCallAndInvite env creatorID callType inviteeUsernames roomName =>
    (CallService.CreateCallAndInvite w env creatorID callType inviteeUsernames roomName).1
  | .RespondToInvitation env invitationID userID action =>
    (CallService.RespondToInvitation w env invitationID userID action).1
  | .EndCall env callID userID => (CallService.EndCall w env callID userID).1
  | .CancelCall env callID userID => (CallService.CancelCall w env callID userID).1

/-- The state after running a list of operations in order. -/
def run (w : World) (ops : List Op) : World := ops.foldl step w

/-- A freshly migrated database: any users, and no call, invitation or history
row yet. -/
def DB.Fresh (db : DB) : Prop :=
  db.active_calls = [] ∧ db.call_invitations = [] ∧ db.call_history = [] ∧
  db.seq_active_calls = 0 ∧ db.seq_call_invitations = 0 ∧ db.seq_call_history = 0

/-- The states the four operations can reach from a fresh database, whatever
the hub. -/
inductive Reachable : World → Prop where
  | init (w : World) (h : w.db.Fresh) : Reachable w
  | next (w : World) (op : Op) (h : Reachable w) : Reachable (step w op)

/-- The stored status of the call with a given `call_id`. -/
def DB.callStatus (db : DB) (callID : String) : Option String :=
  (db.active_calls.find? (fun c => c.CallID == callID)).map (fun c => c.Status)

/-- The stored status of the invitation with a given `id`. -/
def DB.invitationStatus (db : DB) (id : Int) : Option String :=
  (db.call_invitations.find? (fun r => r.id == id)).map (fun r => r.status)

/-- The stored status of the history record of a call (the first one, which is
what `GetByCallID` reads). -/
def DB.historyStatus (db : DB) (callID : String) : Option String :=
  (db.call_history.find? (fun r => r.CallID == callID)).map (fun r => r.Status)

/-- No registered connection refers to a closed channel. -/
def WebSocketHub.Open (h : WebSocketHub) : Prop :=
  ∀ u conn, h.connections u = some conn → (h.chans conn.Send).closed = false

/-- The integrity constraints of `call_invitations`: `id` is a key handed out
by the counter, and both user references resolve (foreign keys are on). -/
def DB.WF (db : DB) : Prop :=
  (db.call_invitations.map (fun r => r.id)).Nodup ∧
  (∀ r ∈ db.call_invitations, r.id ≤ db.seq_call_invitations) ∧
  (∀ r ∈ db.call_invitations,
    (∃ u ∈ db.users, u.ID = r.inviter_id) ∧ (∃ u ∈ db.users, u.ID = r.invitee_id))

/-! ## Observations and example states -/

/-- What a hub call that is handed to channel `ref` with `capacity` slots must
look like from outside: it returns, the registry and every other channel are
as before, and channel `ref` is still open and has `data` appended at its tail
when it had room, and the same content when it was full. -/
def WebSocketHub.Offered (h : WebSocketHub) (ref : ChanRef) (capacity : Nat) (data : Bytes)
    (r : Option WebSocketHub) : Prop :=
  ∃ h1, r = some h1 ∧ h1.connections = h.connections ∧
    (∀ other, other ≠ ref → h1.chans other = h.chans other) ∧
    (h1.chans ref).closed = false ∧ (h1.chans ref).cap = capacity ∧
    (h1.chans ref).buf =
      if (h.chans ref).buf.length < capacity then (h.chans ref).buf ++ [data]
      else (h.chans ref).buf

/-- A hub in which nobody is registered and every channel is freshly made. -/
def exHub0 : WebSocketHub := NewWebSocketHub (fun _ => makeChan)

/-- A hub in which `alice` is registered under channel `1`. -/
def exHubAlice : WebSocketHub := exHub0.Register "alice" { Username := "alice", Send := 1 }

/-- Two sessions of the same user: the first owns channel `1`, the second owns
channel `2`. -/
def exSession1 : Client := { send := 1, username := "" }

/-- The first session once it has authenticated as `alice`. -/
def exSession1Auth : Client := (exSession1.authenticate exHub0 "alice").1

/-- The second session of the same user. -/
def exSession2 : Client := { send := 2, username := "" }

/-- The hub after the first and then the second session authenticated as
`alice`: the second registration replaced the first. -/
def exHubReplaced : WebSocketHub :=
  (exSession2.authenticate (exSession1.authenticate exHub0 "alice").2 "alice").2

/-- Three users. -/
def exUsers : List User :=
  [{ ID := 1, Username := "alice", CreatedAt := 5 },
   { ID := 2, Username := "bob", CreatedAt := 6 },
   { ID := 3, Username := "carol", CreatedAt := 7 }]

/-- An environment in which nothing fails, read at instant `now`. -/
def exEnv (now : Time) : Env :=
  { now := now, fault := fun _ => none, uuidRoom := "room-1", uuidCall := "call-1",
    createRoomErr := none, listParticipants := .ok ["alice", "carol"], toJWTErr := none }

/-- A fresh database with the three users, and a hub in which only `alice` is
connected. -/
def exWorld0 : World :=
  { db := { users := exUsers, active_calls := [], call_invitations := [], call_history := [],
            seq_active_calls := 0, seq_call_invitations := 0, seq_call_history := 0,
            scheduled_calls := [], scheduled_call_invitations := [],
            seq_scheduled_calls := 0, seq_scheduled_call_invitations := 0 },
    wsHub := some exHubAlice }

/-- Then `alice` calls `bob` and `carol`: call `call-1`, invitations `1` and `2`. -/
def exWorldCalled : World :=
  step exWorld0 (.CreateCallAndInvite (exEnv 100) 1 "video" ["bob", "carol"] "")

/-- Then `carol` accepts invitation `2`. -/
def exWorldAccepted : World :=
  step exWorldCalled (.RespondToInvitation (exEnv 150) 2 3 "accept")

/-- Then `alice` cancels the call. -/
def exWorldCancelled : World :=
  step exWorldAccepted (.CancelCall (exEnv 200) "call-1" 1)

/-- The row of invitation `1` (to `bob`) as stored after the call was made. -/
def exRowBob : InvitationRow :=
  { id := 1, call_id := "call-1", inviter_id := 1, invitee_id := 2, call_type := "video",
    room_name := "room-1", status := "pending", created_at := 100, responded_at := none }

/-- The row of invitation `2` (to `carol`) as stored after she accepted. -/
def exRowCarol : InvitationRow :=
  { id := 2, call_id := "call-1", inviter_id := 1, invitee_id := 3, call_type := "video",
    room_name := "room-1", status := "accepted", created_at := 100, responded_at := some 150 }

/-- The hub after `alice` registered and two events were broadcast to her
before the outbound pump of her session ran. -/
def exHubTwoQueued : Option WebSocketHub :=
  (exHubAlice.BroadcastCallEnded "alice" "call-1").bind
    (fun h => h.BroadcastCallCancelled "alice" "call-2")

/-- One invocation of an operation of the scheduled-call service, with its
arguments and what it reads from outside. -/
inductive ScheduledOp where
  | CreateScheduledCall (env : Env) (creatorID : Int) (req : CreateScheduledCallRequest)
  | CancelScheduledCall (env : Env) (id userID : Int)
  | StartScheduledCall (env : Env) (id userID : Int)

/-- The state after running an operation of the scheduled-call service. -/
def stepScheduled (w : World) : ScheduledOp → World
  | .CreateScheduledCall env creatorID req =>
    (ScheduledService.CreateScheduledCall w env creatorID req).1
  | .CancelScheduledCall env id userID => (ScheduledService.CancelScheduledCall w env id userID).1
  | .StartScheduledCall env id userID => (ScheduledService.StartScheduledCall w env id userID).1

/-- A freshly migrated database has no scheduled call and no invitation to
one either. -/
def DB.FreshScheduled (db : DB) : Prop :=
  db.Fresh ∧ db.scheduled_calls = [] ∧ db.scheduled_call_invitations = [] ∧
  db.seq_scheduled_calls = 0 ∧ db.seq_scheduled_call_invitations = 0

/-- The states the three operations can reach from a fresh database, whatever
the hub. -/
inductive ReachableScheduled : World → Prop where
  | init (w : World) (h : w.db.FreshScheduled) : ReachableScheduled w
  | next (w : World) (op : ScheduledOp) (h : ReachableScheduled w) :
      ReachableScheduled (stepScheduled w op)

/-- The stored status of the scheduled call with a given `id`. -/
def DB.scheduledStatus (db : DB) (id : Int) : Option String :=
  (db.scheduled_calls.find? (fun c => c.ID == id)).map (fun c => c.Status)

/-- A request for a video call with `bob`, with the optional fields left
out. -/
def exRequest (scheduledAt : Time) (maxDurationSeconds : Int) : CreateScheduledCallRequest :=
  { CallType := "video", ScheduledAt := scheduledAt, Timezone := "", Invitees := ["bob"],
    Recurrence := "", Title := "standup", Description := "", MaxParticipants := 0,
    MaxDurationSeconds := maxDurationSeconds }

/-- An environment in which nothing fails and the fresh identifiers are
`call-2` and `room-2`. -/
def exEnv2 (now : Time) : Env :=
  { now := now, fault := fun _ => none, uuidRoom := "room-2", uuidCall := "call-2",
    createRoomErr := none, listParticipants := .ok ["alice"], toJWTErr := none }

/-- At instant 100 `alice` schedules a call with `bob` for instant 1000, with
no limit on its duration: scheduled call `1`. -/
def exWorldScheduled : World :=
  stepScheduled exWorld0 (.CreateScheduledCall (exEnv 100) 1 (exRequest 1000 0))

/-- Then `alice` starts the scheduled call. -/
def exWorldStarted : World :=
  stepScheduled exWorldScheduled (.StartScheduledCall (exEnv2 200) 1 1)

/-- At instant 100 `alice` schedules a call for instant 1000 whose duration
limit is 9223372037 seconds. -/
def exWorldLong : World :=
  stepScheduled exWorld0 (.CreateScheduledCall (exEnv 100) 1 (exRequest 1000 9223372037))

/-- After `alice` scheduled call `1`, `carol` schedules a call with `alice`
for an earlier instant: scheduled call `2`. -/
def exWorldTwoScheduled : World :=
  stepScheduled exWorldScheduled (.CreateScheduledCall (exEnv2 150) 3
    { CallType := "voice", ScheduledAt := 500, Timezone := "Asia/Jakarta",
      Invitees := ["alice"], Recurrence := "", Title := "", Description := "",
      MaxParticipants := 4, MaxDurationSeconds := 3600 })

/-- After `carol` accepted, `alice` cancels the call four seconds after she
made it. -/
def exWorldCancelledLate : World :=
  step exWorldAccepted (.CancelCall (exEnv 4000000100) "call-1" 1)

/-- Every row of the scheduled call `id` has `reminder_sent_at` set. -/
def DB.reminderSet (db : DB) (id : Int) : Prop :=
  ∀ c ∈ db.scheduled_calls, c.ID = id → c.ReminderSentAt ≠ none

/-- At instant 1 s `alice` schedules a call with `bob` for 20 minutes later:
scheduled call `1`, for instant 1201 s. -/
def exWorldPlanned : World :=
  stepScheduled exWorld0
    (.CreateScheduledCall (exEnv 1000000000) 1 (exRequest 1201000000000 0))

/-- The row of scheduled call `1` in that state. -/
def exCallPlanned : ScheduledCall :=
  { ID := 1, CallID := "call-1", RoomName := "room-1", CallType := "video", CreatedBy := 1,
    ScheduledAt := 1201000000000, Timezone := "UTC",
    Recurrence := "\x7b\"type\":\"none\"\x7d", Title := "standup", Description := "",
    JoinLink := "app://call/join?callId=call-1", Status := "scheduled", ReminderSentAt := none,
    MaxParticipants := 20, MaxDurationSeconds := 0, Invitees := [],
    CreatedAt := 1000000000, UpdatedAt := 1000000000 }

/-- That database, with `alice` connected and nothing queued for her. -/
def exWorldTick : World := { db := exWorldPlanned.db, wsHub := some exHubAlice }

/-- A database with the three users and three invitations to scheduled call
`7`, one of each status, to `bob`, `carol` and again `bob` for call `8`. -/
def exInvitationsDB : DB :=
  { users := exUsers, active_calls := [], call_invitations := [], call_history := [],
    seq_active_calls := 0, seq_call_invitations := 0, seq_call_history := 0,
    scheduled_calls := [],
    scheduled_call_invitations :=
      [{ ID := 1, ScheduledCallID := 7, InviteeID := 2, Status := "rejected",
         ReminderSentAt := none, CreatedAt := 10 },
       { ID := 2, ScheduledCallID := 7, InviteeID := 3, Status := "accepted",
         ReminderSentAt := none, CreatedAt := 10 },
       { ID := 3, ScheduledCallID := 8, InviteeID := 2, Status := "pending",
         ReminderSentAt := none, CreatedAt := 11 }],
    seq_scheduled_calls := 8, seq_scheduled_call_invitations := 3 }

/-- An environment in which only the two history writes fail. -/
def exEnvNoHistory (now : Time) : Env :=
  { now := now,
    fault := fun q =>
      match q with
      | .historyCreate => some "disk full"
      | .historyUpdate => some "disk full"
      | _ => none,
    uuidRoom := "room-1", uuidCall := "call-1", createRoomErr := none,
    listParticipants := .ok ["alice", "carol"], toJWTErr := none }

/-- An environment in which room provisioning fails. -/
def exEnvNoRoom (now : Time) : Env :=
  { now := now, fault := fun _ => none, uuidRoom := "room-1", uuidCall := "call-1",
    createRoomErr := some "connection refused", listParticipants := .ok [], toJWTErr := none }

/-- What `HandleRespondInvitation` writes: `auth.RespondError` with a status and
a message, `auth.RespondJSON` with the message of a rejection, or
`auth.RespondJSON` with the join result. -/
inductive RespondInvitationReply where
  | error (status : Nat) (message : String)
  | message (status : Nat) (message : String)
  | json (status : Nat) (result : RespondInvitationResult)
deriving DecidableEq, Repr

/-- Handler `HandleRespondInvitation`, from the point where the request is a
`POST` of an authenticated user, `invitationId` parsed and the body decoded into
the action. -/
def HandleRespondInvitation (w : World) (env : Env) (invitationID userID : Int)
    (action : String) : World × Outcome RespondInvitationReply :=
  if action ≠ "accept" ∧ action ≠ "reject" then
    (w, .ok (.error 400 "action must be \x27accept\x27 or \x27reject\x27"))
  else
    let responded := CallService.RespondToInvitation w env invitationID userID action
    match responded.2 with
    | .error e => (responded.1, .ok (.error 500 e))
    | .panic => (responded.1, .panic)
    | .ok none => (responded.1, .ok (.message 200 "Invitation rejected"))
    | .ok (some result) => (responded.1, .ok (.json 200 result))

/-- An environment in which only the signing of tokens fails. -/
def exEnvNoToken (now : Time) : Env :=
  { now := now, fault := fun _ => none, uuidRoom := "room-1", uuidCall := "call-1",
    createRoomErr := none, listParticipants := .ok ["alice", "carol"],
    toJWTErr := some "empty secret" }

/-- The stored `responded_at` of the invitation with a given `id`. -/
def DB.invitationRespondedAt (db : DB) (id : Int) : Option (Option Time) :=
  (db.call_invitations.find? (fun r => r.id == id)).map (fun r => r.responded_at)

/-- The ticks of `ScheduledWorker.Run` come from `time.NewTicker(30 * time.Second)`:
each tick is one tick period after the one before. -/
def ScheduledWorker.Spaced : List Env → Prop
  | a :: b :: rest => b.now = a.now + ScheduledWorker.tickPeriod ∧ Spaced (b :: rest)
  | _ => True

/-- The state of `exWorldTick` in a process started without a hub. -/
def exWorldTickNoHub : World := { db := exWorldPlanned.db, wsHub := none }

/-- The hub after one session, on channel `1`, authenticated as `alice` and
then as `bob` and was closed: `readPump` registers the channel on every
`authenticate` message, and its deferred `Unregister` removes the name the
session holds last and closes the channel. -/
def exHubDangling : Option WebSocketHub :=
  ((exHub0.Register "alice" { Username := "alice", Send := 1 }).Register "bob"
    { Username := "bob", Send := 1 }).Unregister "bob"

/-- The database of `exWorldPlanned` after a hundred more calls were scheduled,
each for about ten minutes after instant 331 s, with `alice` connected. -/
def exWorldCrowded : World :=
  { db :=
      { exWorldPlanned.db with
        scheduled_calls := exWorldPlanned.db.scheduled_calls ++
          (List.range 100).map (fun i =>
            { exCallPlanned with
              ID := (i : Int) + 2, CallID := "call-" ++ toString (i + 2),
              RoomName := "room-" ++ toString (i + 2),
              ScheduledAt := 931000000000 + (i : Int), Title := "" }),
        seq_scheduled_calls := 101 },
    wsHub := some exHubAlice }

/-! # Properties -/

/-! ## Hub -/

theorem offer_offered (h : WebSocketHub) (conn : Connection) (msg : Message)
    (hopen : (h.chans conn.Send).closed = false) (hcap : (h.chans conn.Send).cap = 256) :
    h.Offered conn.Send 256 (Bytes.message msg) (h.offer conn msg) := by
  unfold WebSocketHub.offer WebSocketHub.Offered marshal Chan.trySend
  simp only [hopen, hcap]
  by_cases hlen : (h.chans conn.Send).buf.length < 256
  · simp [hlen, hopen, hcap]
    intro other hne
    simp [Function.update, hne]
  · simp [hlen, hopen, hcap]

/-- C7: a hub send to an identity that has no registered connection returns
normally and leaves the registry and every channel as they were; this holds for
each of the nine `Broadcast*` methods. -/
theorem broadcast_to_unregistered_is_dropped (h : WebSocketHub) (username : String)
    (hnone : h.connections username = none)
    (invitation : Invitation) (invitationID : Int) (invitee status callID : String)
    (call : Option ScheduledCall) (reminderTime : Duration) (callHistory : Option CallHistory)
    (roomName participantIdentity action : String) :
    h.BroadcastInvitation username invitation = some h ∧
    h.BroadcastInvitationResponse username invitationID invitee status = some h ∧
    h.BroadcastCallEnded username callID = some h ∧
    h.BroadcastCallCancelled username callID = some h ∧
    h.BroadcastScheduledCallCreated username call = some h ∧
    h.BroadcastScheduledCallReminder username call reminderTime = some h ∧
    h.BroadcastScheduledCallStarting username call = some h ∧
    h.BroadcastCallHistoryUpdated username callHistory = some h ∧
    h.BroadcastParticipantStateChanged username roomName participantIdentity action = some h := by
  simp [WebSocketHub.BroadcastInvitation, WebSocketHub.BroadcastInvitationResponse,
    WebSocketHub.BroadcastCallEnded, WebSocketHub.BroadcastCallCancelled,
    WebSocketHub.BroadcastScheduledCallCreated, WebSocketHub.BroadcastScheduledCallReminder,
    WebSocketHub.BroadcastScheduledCallStarting, WebSocketHub.BroadcastCallHistoryUpdated,
    WebSocketHub.BroadcastParticipantStateChanged, hnone]

/-- Witness for C7: `bob` is not registered in the hub that holds only `alice`. -/
theorem broadcast_to_unregistered_is_dropped_witness :
    exHubAlice.connections "bob" = none ∧
    exHubAlice.BroadcastCallEnded "bob" "call-1" = some exHubAlice ∧
    exHubAlice.BroadcastCallCancelled "bob" "call-1" = some exHubAlice :=
  have hnone : exHubAlice.connections "bob" = none := by
    simp [exHubAlice, exHub0, NewWebSocketHub, WebSocketHub.Register, Function.update]
  have hall := broadcast_to_unregistered_is_dropped exHubAlice "bob" hnone
    { ID := 1, CallID := "call-1", InviterID := 1, Inviter := "alice", InviteeID := 2,
      Invitee := "bob", CallType := "video", RoomName := "room-1", Status := "pending",
      CreatedAt := 100, RespondedAt := none }
    1 "bob" "rejected" "call-1" none 0 none "room-1" "alice" "joined"
  ⟨hnone, hall.2.2.1, hall.2.2.2.1⟩

/-- C8: a hub send to a registered identity whose channel is open and has
capacity 256 returns normally; it appends exactly the one encoded event at the
tail of that channel when fewer than 256 messages are queued and leaves the
channel as it was when 256 are queued; the registry and every other channel are
unchanged. This holds for each of the nine `Broadcast*` methods. -/
theorem broadcast_to_registered_enqueues_or_drops (h : WebSocketHub) (username : String)
    (conn : Connection) (hreg : h.connections username = some conn)
    (hopen : (h.chans conn.Send).closed = false) (hcap : (h.chans conn.Send).cap = 256)
    (invitation : Invitation) (invitationID : Int) (invitee status callID : String)
    (call : Option ScheduledCall) (reminderTime : Duration) (callHistory : Option CallHistory)
    (roomName participantIdentity action : String) :
    h.Offered conn.Send 256
      (Bytes.message
        { type := "call_invitation",
          data := .invitation
            { InvitationID := invitation.ID, CallID := invitation.CallID,
              Inviter := invitation.Inviter, CallType := invitation.CallType,
              RoomName := invitation.RoomName, Timestamp := invitation.CreatedAt } })
      (h.BroadcastInvitation username invitation) ∧
    h.Offered conn.Send 256
      (Bytes.message
        { type := if status = "accepted" then "invitation_accepted" else "invitation_rejected",
          data := .invitationResponse
            { InvitationID := invitationID, Invitee := invitee, Status := status,
              Timestamp := "" } })
      (h.BroadcastInvitationResponse username invitationID invitee status) ∧
    h.Offered conn.Send 256
      (Bytes.message { type := "call_ended", data := .callRef callID "" })
      (h.BroadcastCallEnded username callID) ∧
    h.Offered conn.Send 256
      (Bytes.message { type := "call_cancelled", data := .callRef callID "" })
      (h.BroadcastCallCancelled username callID) ∧
    h.Offered conn.Send 256
      (Bytes.message { type := "scheduled_call_created", data := .scheduledCall call })
      (h.BroadcastScheduledCallCreated username call) ∧
    h.Offered conn.Send 256
      (Bytes.message
        { type := "scheduled_call_reminder", data := .scheduledCallReminder call reminderTime })
      (h.BroadcastScheduledCallReminder username call reminderTime) ∧
    h.Offered conn.Send 256
      (Bytes.message { type := "scheduled_call_starting", data := .scheduledCall call })
      (h.BroadcastScheduledCallStarting username call) ∧
    h.Offered conn.Send 256
      (Bytes.message { type := "call_history_updated", data := .callHistory callHistory })
      (h.BroadcastCallHistoryUpdated username callHistory) ∧
    h.Offered conn.Send 256
      (Bytes.message
        { type := "participant_state_changed",
          data := .participantState roomName participantIdentity action })
      (h.BroadcastParticipantStateChanged username roomName participantIdentity action) := by
  refine ⟨?_, ?_, ?_, ?_, ?_, ?_, ?_, ?_, ?_⟩
  · simpa [WebSocketHub.BroadcastInvitation, hreg] using offer_offered h conn _ hopen hcap
  · simpa [WebSocketHub.BroadcastInvitationResponse, hreg] using offer_offered h conn _ hopen hcap
  · simpa [WebSocketHub.BroadcastCallEnded, hreg] using offer_offered h conn _ hopen hcap
  · simpa [WebSocketHub.BroadcastCallCancelled, hreg] using offer_offered h conn _ hopen hcap
  · simpa [WebSocketHub.BroadcastScheduledCallCreated, hreg] using
      offer_offered h conn _ hopen hcap
  · simpa [WebSocketHub.BroadcastScheduledCallReminder, hreg] using
      offer_offered h conn _ hopen hcap
  · simpa [WebSocketHub.BroadcastScheduledCallStarting, hreg] using
      offer_offered h conn _ hopen hcap
  · simpa [WebSocketHub.BroadcastCallHistoryUpdated, hreg] using
      offer_offered h conn _ hopen hcap
  · simpa [WebSocketHub.BroadcastParticipantStateChanged, hreg] using
      offer_offered h conn _ hopen hcap

/-- Witness for C8: `alice` is registered under the open, empty channel `1` of
capacity 256, and a `call_cancelled` event sent to her is queued there. -/
theorem broadcast_to_registered_enqueues_or_drops_witness :
    exHubAlice.connections "alice" = some { Username := "alice", Send := 1 } ∧
    (exHubAlice.chans 1).closed = false ∧ (exHubAlice.chans 1).cap = 256 ∧
    exHubAlice.Offered 1 256
      (Bytes.message { type := "call_cancelled", data := .callRef "call-1" "" })
      (exHubAlice.BroadcastCallCancelled "alice" "call-1") :=
  have hreg : exHubAlice.connections "alice" = some { Username := "alice", Send := 1 } := by
    simp [exHubAlice, WebSocketHub.Register]
  have hopen : (exHubAlice.chans 1).closed = false := rfl
  have hcap : (exHubAlice.chans 1).cap = 256 := rfl
  have hall := broadcast_to_registered_enqueues_or_drops exHubAlice "alice"
    { Username := "alice", Send := 1 } hreg hopen hcap
    { ID := 1, CallID := "call-1", InviterID := 1, Inviter := "alice", InviteeID := 2,
      Invitee := "bob", CallType := "video", RoomName := "room-1", Status := "pending",
      CreatedAt := 100, RespondedAt := none }
    1 "bob" "rejected" "call-1" none 0 none "room-1" "alice" "joined"
  ⟨hreg, hopen, hcap, hall.2.2.2.1⟩

/-- C9: evaluation of `Unregister` at the replaced session. After a second
session registered `alice` under channel `2`, the disconnect of the first
session (which owns channel `1`) returns normally, removes the association of
`alice` and closes channel `2`, while channel `1` stays open. -/
theorem unregister_of_replaced_session_closes_new_channel :
    exSession1Auth.send = 1 ∧
    exHubReplaced.connections "alice" = some { Username := "alice", Send := 2 } ∧
    (exHubReplaced.chans 2).closed = false ∧
    (exSession1Auth.readPumpExit exHubReplaced).map
        (fun h => (h.connections "alice", (h.chans 2).closed, (h.chans 1).closed)) =
      some (none, true, false) := by
  decide

/-- C10: after `Register u c` the registry maps `u` to `c`, every other identity
is associated as before, and every channel (the one registered for `u` before
included) is exactly as it was: none is closed and none has its content
changed. -/
theorem register_replaces_only_that_identity (h : WebSocketHub) (u : String) (c : Connection) :
    (h.Register u c).connections u = some c ∧
    (∀ v, v ≠ u → (h.Register u c).connections v = h.connections v) ∧
    (h.Register u c).chans = h.chans := by
  refine ⟨?_, ?_, rfl⟩
  · simp [WebSocketHub.Register]
  · intro v hv
    simp [WebSocketHub.Register, Function.update, hv]

/-! ## Storage and the call service -/

theorem joinUsers_fields (db : DB) (r : InvitationRow) (i : Invitation)
    (h : InvitationRepo.joinUsers db r = some i) :
    i.ID = r.id ∧ i.CallID = r.call_id ∧ i.InviterID = r.inviter_id ∧
    i.InviteeID = r.invitee_id ∧ i.Status = r.status ∧ i.RoomName = r.room_name ∧
    i.CallType = r.call_type ∧ i.CreatedAt = r.created_at ∧
    (db.users.find? (fun u => u.ID == r.inviter_id)).map (fun u => u.Username) = some i.Inviter ∧
    (db.users.find? (fun u => u.ID == r.invitee_id)).map (fun u => u.Username) = some i.Invitee := by
  unfold InvitationRepo.joinUsers at h
  cases h1 : db.users.find? (fun u => u.ID == r.inviter_id) with
  | none => simp [h1] at h
  | some u1 =>
    cases h2 : db.users.find? (fun u => u.ID == r.invitee_id) with
    | none => simp [h1, h2] at h
    | some u2 =>
      simp [h1, h2] at h
      subst h
      simp

theorem find?_user_isSome (users : List User) (id : Int) (h : ∃ u ∈ users, u.ID = id) :
    ∃ u, users.find? (fun u => u.ID == id) = some u := by
  have : (users.find? (fun u => u.ID == id)).isSome := by
    rw [List.find?_isSome]
    obtain ⟨u, hu, hid⟩ := h
    exact ⟨u, hu, by simp [hid]⟩
  exact Option.isSome_iff_exists.mp this

theorem joinUsers_isSome (db : DB) (r : InvitationRow)
    (h : (∃ u ∈ db.users, u.ID = r.inviter_id) ∧ (∃ u ∈ db.users, u.ID = r.invitee_id)) :
    ∃ i, InvitationRepo.joinUsers db r = some i := by
  obtain ⟨u1, h1⟩ := find?_user_isSome db.users r.inviter_id h.1
  obtain ⟨u2, h2⟩ := find?_user_isSome db.users r.invitee_id h.2
  simp [InvitationRepo.joinUsers, h1, h2]

/-- Under the foreign keys the join drops no row, so a lookup by id over the
joined rows is the join of the lookup over the table. -/
theorem find?_filterMap_joinUsers (db : DB) (rows : List InvitationRow) (id : Int)
    (hfk : ∀ r ∈ rows,
      (∃ u ∈ db.users, u.ID = r.inviter_id) ∧ (∃ u ∈ db.users, u.ID = r.invitee_id)) :
    (rows.filterMap (InvitationRepo.joinUsers db)).find? (fun i => i.ID == id) =
      (rows.find? (fun r => r.id == id)).bind (InvitationRepo.joinUsers db) := by
  induction rows with
  | nil => simp
  | cons r rest ih =>
    have hr := hfk r (List.mem_cons_self _ _)
    have hrest : ∀ r ∈ rest,
        (∃ u ∈ db.users, u.ID = r.inviter_id) ∧ (∃ u ∈ db.users, u.ID = r.invitee_id) :=
      fun x hx => hfk x (List.mem_cons_of_mem _ hx)
    obtain ⟨i, hi⟩ := joinUsers_isSome db r hr
    have hid := (joinUsers_fields db r i hi).1
    rw [List.filterMap_cons_some hi]
    by_cases hmatch : r.id = id
    · simp [List.find?_cons, hid, hmatch, hi]
    · simp [List.find?_cons, hid, hmatch, ih hrest]


/-! ### What each repository write leaves alone -/

theorem CallRepo.callCreate_frame (db : DB) (env : Env) (callID roomName callType : String)
    (createdBy : Int) :
    (CallRepo.Create db env callID roomName callType createdBy).1.users = db.users ∧
    (CallRepo.Create db env callID roomName callType createdBy).1.call_invitations =
      db.call_invitations ∧
    (CallRepo.Create db env callID roomName callType createdBy).1.seq_call_invitations =
      db.seq_call_invitations ∧
    (CallRepo.Create db env callID roomName callType createdBy).1.call_history =
      db.call_history ∧
    ∃ extra, (CallRepo.Create db env callID roomName callType createdBy).1.active_calls =
      db.active_calls ++ extra := by
  unfold CallRepo.Create
  split
  · exact ⟨rfl, rfl, rfl, rfl, [], by simp⟩
  · split
    · exact ⟨rfl, rfl, rfl, rfl, [], by simp⟩
    · split
      · exact ⟨rfl, rfl, rfl, rfl, [], by simp⟩
      · exact ⟨rfl, rfl, rfl, rfl, _, rfl⟩

theorem CallRepo.callUpdateStatus_frame (db : DB) (env : Env) (callID status : String) :
    (CallRepo.UpdateStatus db env callID status).1.users = db.users ∧
    (CallRepo.UpdateStatus db env callID status).1.call_invitations = db.call_invitations ∧
    (CallRepo.UpdateStatus db env callID status).1.seq_call_invitations =
      db.seq_call_invitations ∧
    (CallRepo.UpdateStatus db env callID status).1.call_history = db.call_history := by
  cases hq : env.fault .callUpdateStatus <;> simp [CallRepo.UpdateStatus, hq]

theorem CallHistoryRepo.historyCreate_frame (db : DB) (env : Env) (callID roomName callType : String)
    (createdBy : Int) (participants : List String) :
    (CallHistoryRepo.Create db env callID roomName callType createdBy participants).1.users =
      db.users ∧
    (CallHistoryRepo.Create db env callID roomName callType createdBy
      participants).1.call_invitations = db.call_invitations ∧
    (CallHistoryRepo.Create db env callID roomName callType createdBy
      participants).1.seq_call_invitations = db.seq_call_invitations ∧
    (CallHistoryRepo.Create db env callID roomName callType createdBy
      participants).1.active_calls = db.active_calls := by
  unfold CallHistoryRepo.Create
  split
  · exact ⟨rfl, rfl, rfl, rfl⟩
  · split <;> exact ⟨rfl, rfl, rfl, rfl⟩

theorem HistoryService.CreateHistoryEntry_frame (db : DB) (env : Env)
    (callID roomName callType : String) (createdBy : Int) (participants : List String) :
    (HistoryService.CreateHistoryEntry db env callID roomName callType createdBy
      participants).1.users = db.users ∧
    (HistoryService.CreateHistoryEntry db env callID roomName callType createdBy
      participants).1.call_invitations = db.call_invitations ∧
    (HistoryService.CreateHistoryEntry db env callID roomName callType createdBy
      participants).1.seq_call_invitations = db.seq_call_invitations ∧
    (HistoryService.CreateHistoryEntry db env callID roomName callType createdBy
      participants).1.active_calls = db.active_calls := by
  unfold HistoryService.CreateHistoryEntry
  have h := CallHistoryRepo.historyCreate_frame db env callID roomName callType createdBy participants
  simp only
  split <;> exact h

theorem HistoryService.UpdateHistoryEntry_frame (db : DB) (env : Env) (callID : String)
    (endedAt : Time) (duration : Int) (status : String) :
    (HistoryService.UpdateHistoryEntry db env callID endedAt duration status).1.users =
      db.users ∧
    (HistoryService.UpdateHistoryEntry db env callID endedAt duration
      status).1.call_invitations = db.call_invitations ∧
    (HistoryService.UpdateHistoryEntry db env callID endedAt duration
      status).1.seq_call_invitations = db.seq_call_invitations ∧
    (HistoryService.UpdateHistoryEntry db env callID endedAt duration status).1.active_calls =
      db.active_calls := by
  unfold HistoryService.UpdateHistoryEntry CallHistoryRepo.Update
  split
  · exact ⟨rfl, rfl, rfl, rfl⟩
  · split <;> exact ⟨rfl, rfl, rfl, rfl⟩

/-- The row that `InvitationRepo.UpdateStatus` writes over a matching row. -/
theorem InvitationRepo.invitationUpdateStatus_frame (db : DB) (env : Env) (invitationID : Int)
    (status : String) :
    (InvitationRepo.UpdateStatus db env invitationID status).1.users = db.users ∧
    (InvitationRepo.UpdateStatus db env invitationID status).1.seq_call_invitations =
      db.seq_call_invitations ∧
    (InvitationRepo.UpdateStatus db env invitationID status).1.call_history =
      db.call_history ∧
    (InvitationRepo.UpdateStatus db env invitationID status).1.active_calls =
      db.active_calls := by
  cases hq : env.fault (.invitationUpdateStatus invitationID) <;>
    simp [InvitationRepo.UpdateStatus, hq]

theorem InvitationRepo.UpdateStatus_rows (db : DB) (env : Env) (invitationID : Int)
    (status : String) :
    (InvitationRepo.UpdateStatus db env invitationID status).1.call_invitations =
      if (InvitationRepo.UpdateStatus db env invitationID status).2 = none then
        db.call_invitations.map (fun r =>
          if r.id = invitationID then
            { r with status := status,
                     responded_at :=
                       if status = "accepted" ∨ status = "rejected" then some env.now else none }
          else r)
      else db.call_invitations := by
  cases hq : env.fault (.invitationUpdateStatus invitationID) <;>
    simp [InvitationRepo.UpdateStatus, hq]

theorem InvitationRepo.UpdateStatus_err (db : DB) (env : Env) (invitationID : Int)
    (status : String) :
    (InvitationRepo.UpdateStatus db env invitationID status).2 = none ↔
      env.fault (.invitationUpdateStatus invitationID) = none := by
  cases hq : env.fault (.invitationUpdateStatus invitationID) <;>
    simp [InvitationRepo.UpdateStatus, hq]


/-! ### Integrity of `call_invitations` -/

theorem DB.WF_of_same (a b : DB) (hu : b.users = a.users)
    (hi : b.call_invitations = a.call_invitations)
    (hs : b.seq_call_invitations = a.seq_call_invitations) (h : a.WF) : b.WF := by
  unfold DB.WF at *
  rw [hu, hi, hs]
  exact h

theorem DB.WF_of_map (a b : DB) (f : InvitationRow → InvitationRow) (hu : b.users = a.users)
    (hi : b.call_invitations = a.call_invitations.map f)
    (hs : b.seq_call_invitations = a.seq_call_invitations)
    (hf : ∀ r, (f r).id = r.id ∧ (f r).inviter_id = r.inviter_id ∧
      (f r).invitee_id = r.invitee_id) (h : a.WF) : b.WF := by
  unfold DB.WF at *
  rw [hu, hi, hs]
  obtain ⟨h1, h2, h3⟩ := h
  refine ⟨?_, ?_, ?_⟩
  · have : (a.call_invitations.map f).map (fun r => r.id) =
        a.call_invitations.map (fun r => r.id) := by
      rw [List.map_map]
      apply List.map_congr_left
      intro r _
      exact (hf r).1
    rw [this]
    exact h1
  · intro r hr
    obtain ⟨r0, hr0, rfl⟩ := List.mem_map.mp hr
    rw [(hf r0).1]
    exact h2 r0 hr0
  · intro r hr
    obtain ⟨r0, hr0, rfl⟩ := List.mem_map.mp hr
    rw [(hf r0).2.1, (hf r0).2.2]
    exact h3 r0 hr0

theorem InvitationRepo.UpdateStatus_WF (db : DB) (env : Env) (invitationID : Int)
    (status : String) (h : db.WF) :
    (InvitationRepo.UpdateStatus db env invitationID status).1.WF := by
  have hfr := InvitationRepo.invitationUpdateStatus_frame db env invitationID status
  have hrows := InvitationRepo.UpdateStatus_rows db env invitationID status
  by_cases hok : (InvitationRepo.UpdateStatus db env invitationID status).2 = none
  · rw [if_pos hok] at hrows
    refine DB.WF_of_map db _ _ hfr.1 hrows hfr.2.1 ?_ h
    intro r
    by_cases hr : r.id = invitationID <;> simp [hr]
  · rw [if_neg hok] at hrows
    exact DB.WF_of_same db _ hfr.1 hrows hfr.2.1 h

theorem InvitationRepo.invitationCreate_frame (db : DB) (env : Env) (callID : String)
    (inviterID inviteeID : Int) (callType roomName : String) :
    (InvitationRepo.Create db env callID inviterID inviteeID callType roomName).1.users =
      db.users ∧
    (InvitationRepo.Create db env callID inviterID inviteeID callType roomName).1.active_calls =
      db.active_calls ∧
    (InvitationRepo.Create db env callID inviterID inviteeID callType roomName).1.call_history =
      db.call_history ∧
    (∃ extra,
      (InvitationRepo.Create db env callID inviterID inviteeID callType
        roomName).1.call_invitations = db.call_invitations ++ extra) ∧
    (db.WF →
      (InvitationRepo.Create db env callID inviterID inviteeID callType roomName).1.WF) := by
  unfold InvitationRepo.Create
  cases hq : env.fault (.invitationCreate inviteeID) with
  | some e => exact ⟨rfl, rfl, rfl, ⟨[], by simp⟩, fun h => h⟩
  | none =>
    by_cases hfk : (!(db.users.any (fun u => u.ID == inviterID) &&
        db.users.any (fun u => u.ID == inviteeID))) = true
    · rw [if_pos hfk]
      exact ⟨rfl, rfl, rfl, ⟨[], by simp⟩, fun h => h⟩
    · rw [if_neg hfk]
      have hwf : db.WF → DB.WF
          { db with
            call_invitations := db.call_invitations ++
              [{ id := db.seq_call_invitations + 1, call_id := callID, inviter_id := inviterID,
                 invitee_id := inviteeID, call_type := callType, room_name := roomName,
                 status := "pending", created_at := env.now, responded_at := none }],
            seq_call_invitations := db.seq_call_invitations + 1 } := by
        intro h
        obtain ⟨h1, h2, h3⟩ := h
        simp only [Bool.not_eq_true', Bool.not_eq_false, Bool.not_not, Bool.and_eq_true,
          List.any_eq_true, beq_iff_eq] at hfk
        refine ⟨?_, ?_, ?_⟩
        · simp only [List.map_append, List.map_cons, List.map_nil]
          rw [List.nodup_append]
          refine ⟨h1, by simp, ?_⟩
          intro a ha hb
          simp only [List.mem_singleton] at hb
          obtain ⟨r, hr, rfl⟩ := List.mem_map.mp ha
          have := h2 r hr
          omega
        · intro r hr
          simp only [List.mem_append, List.mem_singleton] at hr
          rcases hr with hr | rfl
          · have := h2 r hr
            show r.id ≤ db.seq_call_invitations + 1
            omega
          · exact le_refl _
        · intro r hr
          simp only [List.mem_append, List.mem_singleton] at hr
          rcases hr with hr | rfl
          · exact h3 r hr
          · exact hfk
      cases env.fault (.invitationCreateUsernames inviteeID) with
      | some e => exact ⟨rfl, rfl, rfl, ⟨_, rfl⟩, hwf⟩
      | none =>
        cases db.users.find? (fun u => u.ID == inviterID) with
        | none => exact ⟨rfl, rfl, rfl, ⟨_, rfl⟩, hwf⟩
        | some inviter =>
          cases db.users.find? (fun u => u.ID == inviteeID) with
          | none => exact ⟨rfl, rfl, rfl, ⟨_, rfl⟩, hwf⟩
          | some invitee => exact ⟨rfl, rfl, rfl, ⟨_, rfl⟩, hwf⟩

theorem CallService.inviteLoop_frame (env : Env) (callID : String) (creatorID : Int)
    (callType roomName : String) (names : List String) (db : DB) (acc : List Invitation) :
    (CallService.inviteLoop env callID creatorID callType roomName names db acc).1.users =
      db.users ∧
    (CallService.inviteLoop env callID creatorID callType roomName names db
      acc).1.active_calls = db.active_calls ∧
    (CallService.inviteLoop env callID creatorID callType roomName names db
      acc).1.call_history = db.call_history ∧
    (∃ extra,
      (CallService.inviteLoop env callID creatorID callType roomName names db
        acc).1.call_invitations = db.call_invitations ++ extra) ∧
    (db.WF →
      (CallService.inviteLoop env callID creatorID callType roomName names db acc).1.WF) := by
  induction names generalizing db acc with
  | nil => exact ⟨rfl, rfl, rfl, ⟨[], by simp [CallService.inviteLoop]⟩, fun h => h⟩
  | cons username rest ih =>
    unfold CallService.inviteLoop
    cases UserRepo.GetByUsername db env username with
    | error e => exact ih db acc
    | ok found =>
      cases found with
      | none => exact ih db acc
      | some invitee =>
        have hc := InvitationRepo.invitationCreate_frame db env callID creatorID invitee.ID callType roomName
        have combine : ∀ acc1,
            (CallService.inviteLoop env callID creatorID callType roomName rest
              (InvitationRepo.Create db env callID creatorID invitee.ID callType roomName).1
              acc1).1.users = db.users ∧
            (CallService.inviteLoop env callID creatorID callType roomName rest
              (InvitationRepo.Create db env callID creatorID invitee.ID callType roomName).1
              acc1).1.active_calls = db.active_calls ∧
            (CallService.inviteLoop env callID creatorID callType roomName rest
              (InvitationRepo.Create db env callID creatorID invitee.ID callType roomName).1
              acc1).1.call_history = db.call_history ∧
            (∃ extra,
              (CallService.inviteLoop env callID creatorID callType roomName rest
                (InvitationRepo.Create db env callID creatorID invitee.ID callType roomName).1
                acc1).1.call_invitations = db.call_invitations ++ extra) ∧
            (db.WF →
              (CallService.inviteLoop env callID creatorID callType roomName rest
                (InvitationRepo.Create db env callID creatorID invitee.ID callType roomName).1
                acc1).1.WF) := by
          intro acc1
          have hi := ih (InvitationRepo.Create db env callID creatorID invitee.ID callType
            roomName).1 acc1
          obtain ⟨e1, he1⟩ := hc.2.2.2.1
          obtain ⟨e2, he2⟩ := hi.2.2.2.1
          refine ⟨hi.1.trans hc.1, hi.2.1.trans hc.2.1, hi.2.2.1.trans hc.2.2.1,
            ⟨e1 ++ e2, ?_⟩, fun h => hi.2.2.2.2 (hc.2.2.2.2 h)⟩
          rw [he2, he1, List.append_assoc]
        simp only
        cases (InvitationRepo.Create db env callID creatorID invitee.ID callType roomName).2 with
        | error e => exact combine acc
        | ok invitation => exact combine _


theorem CallService.cancelLoop_frame (env : Env) (invs : List Invitation) (db : DB)
    (acc : List String) :
    (CallService.cancelLoop env invs db acc).1.users = db.users ∧
    (CallService.cancelLoop env invs db acc).1.active_calls = db.active_calls ∧
    (CallService.cancelLoop env invs db acc).1.call_history = db.call_history ∧
    (CallService.cancelLoop env invs db acc).1.seq_call_invitations =
      db.seq_call_invitations ∧
    (db.WF → (CallService.cancelLoop env invs db acc).1.WF) := by
  induction invs generalizing db acc with
  | nil => exact ⟨rfl, rfl, rfl, rfl, fun h => h⟩
  | cons invitation rest ih =>
    unfold CallService.cancelLoop
    by_cases hp : invitation.Status = "pending"
    · rw [if_pos hp]
      have hf := InvitationRepo.invitationUpdateStatus_frame db env invitation.ID "cancelled"
      have hw := InvitationRepo.UpdateStatus_WF db env invitation.ID "cancelled"
      have combine : ∀ acc1,
          (CallService.cancelLoop env rest
            (InvitationRepo.UpdateStatus db env invitation.ID "cancelled").1 acc1).1.users =
            db.users ∧
          (CallService.cancelLoop env rest
            (InvitationRepo.UpdateStatus db env invitation.ID "cancelled").1
            acc1).1.active_calls = db.active_calls ∧
          (CallService.cancelLoop env rest
            (InvitationRepo.UpdateStatus db env invitation.ID "cancelled").1
            acc1).1.call_history = db.call_history ∧
          (CallService.cancelLoop env rest
            (InvitationRepo.UpdateStatus db env invitation.ID "cancelled").1
            acc1).1.seq_call_invitations = db.seq_call_invitations ∧
          (db.WF → (CallService.cancelLoop env rest
            (InvitationRepo.UpdateStatus db env invitation.ID "cancelled").1 acc1).1.WF) := by
        intro acc1
        have hi := ih (InvitationRepo.UpdateStatus db env invitation.ID "cancelled").1 acc1
        exact ⟨hi.1.trans hf.1, hi.2.1.trans hf.2.2.2, hi.2.2.1.trans hf.2.2.1,
          hi.2.2.2.1.trans hf.2.1, fun h => hi.2.2.2.2 (hw h)⟩
      simp only
      cases (InvitationRepo.UpdateStatus db env invitation.ID "cancelled").2 with
      | some e => exact combine acc
      | none =>
        simp only
        split
        · exact combine _
        · exact combine _
    · rw [if_neg hp]
      exact ih db acc

/-- The rows after the loop of `CancelCall`: a row is overwritten exactly when
the loop met a pending invitation with its id whose write did not fail. -/
theorem CallService.cancelLoop_rows (env : Env) (invs : List Invitation) (db : DB)
    (acc : List String) :
    (CallService.cancelLoop env invs db acc).1.call_invitations =
      db.call_invitations.map (fun r =>
        if invs.any (fun i => decide (i.Status = "pending") && (i.ID == r.id) &&
            (env.fault (.invitationUpdateStatus i.ID)).isNone) = true
        then { r with status := "cancelled", responded_at := none } else r) := by
  induction invs generalizing db acc with
  | nil => simp [CallService.cancelLoop]
  | cons invitation rest ih =>
    unfold CallService.cancelLoop
    by_cases hp : invitation.Status = "pending"
    · rw [if_pos hp]
      have hrows := InvitationRepo.UpdateStatus_rows db env invitation.ID "cancelled"
      have herr := InvitationRepo.UpdateStatus_err db env invitation.ID "cancelled"
      have key : ∀ acc1,
          (CallService.cancelLoop env rest
            (InvitationRepo.UpdateStatus db env invitation.ID "cancelled").1
            acc1).1.call_invitations =
          db.call_invitations.map (fun r =>
            if (invitation :: rest).any (fun i => decide (i.Status = "pending") &&
                (i.ID == r.id) && (env.fault (.invitationUpdateStatus i.ID)).isNone) = true
            then { r with status := "cancelled", responded_at := none } else r) := by
        intro acc1
        rw [ih, hrows]
        by_cases hok : (InvitationRepo.UpdateStatus db env invitation.ID "cancelled").2 = none
        · have hq := herr.mp hok
          rw [if_pos hok, List.map_map]
          apply List.map_congr_left
          intro r _
          by_cases hid : r.id = invitation.ID
          · simp [hid, hp, hq]
          · have hid2 : ¬ invitation.ID = r.id := fun h => hid h.symm
            simp [hid, hid2]
        · have hq : env.fault (.invitationUpdateStatus invitation.ID) ≠ none :=
            fun h => hok (herr.mpr h)
          rw [if_neg hok]
          apply List.map_congr_left
          intro r _
          have : (env.fault (.invitationUpdateStatus invitation.ID)).isNone = false := by
            cases h : env.fault (.invitationUpdateStatus invitation.ID) with
            | none => exact absurd h hq
            | some e => rfl
          simp [this]
      simp only
      cases (InvitationRepo.UpdateStatus db env invitation.ID "cancelled").2 with
      | some e => exact key acc
      | none =>
        simp only
        split
        · exact key _
        · exact key _
    · rw [if_neg hp, ih]
      apply List.map_congr_left
      intro r _
      simp [hp]

/-! ### Status lookups under the table updates -/

theorem find?_callID_map_status (calls : List ActiveCall) (callID id status : String)
    (endedAt : Option Time) :
    ((calls.map (fun c =>
        if c.CallID = callID then { c with Status := status, EndedAt := endedAt } else c)).find?
      (fun c => c.CallID == id)).map (fun c => c.Status) =
    if id = callID then (calls.find? (fun c => c.CallID == id)).map (fun _ => status)
    else (calls.find? (fun c => c.CallID == id)).map (fun c => c.Status) := by
  rw [List.find?_map]
  have hp : ((fun c : ActiveCall => c.CallID == id) ∘ fun c =>
      if c.CallID = callID then { c with Status := status, EndedAt := endedAt } else c) =
      fun c => c.CallID == id := by
    funext c
    by_cases h : c.CallID = callID <;> simp [h]
  rw [hp]
  cases hf : calls.find? (fun c => c.CallID == id) with
  | none => simp
  | some c =>
    have hc : c.CallID = id := by simpa using List.find?_some hf
    by_cases h : id = callID
    · simp [h, hc.trans h]
    · have : ¬ c.CallID = callID := fun h2 => h (hc.symm.trans h2)
      simp [h, this]

theorem DB.callStatus_append (calls extra : List ActiveCall) (id s : String)
    (h : (calls.find? (fun c => c.CallID == id)).map (fun c => c.Status) = some s) :
    ((calls ++ extra).find? (fun c => c.CallID == id)).map (fun c => c.Status) = some s := by
  rw [List.find?_append]
  cases hf : calls.find? (fun c => c.CallID == id) with
  | none => simp [hf] at h
  | some c => simpa [hf] using h

theorem DB.invitationStatus_append (rows extra : List InvitationRow) (id : Int) (s : String)
    (h : (rows.find? (fun r => r.id == id)).map (fun r => r.status) = some s) :
    ((rows ++ extra).find? (fun r => r.id == id)).map (fun r => r.status) = some s := by
  rw [List.find?_append]
  cases hf : rows.find? (fun r => r.id == id) with
  | none => simp [hf] at h
  | some c => simpa [hf] using h

theorem CallRepo.UpdateStatus_calls (db : DB) (env : Env) (callID status : String) :
    (CallRepo.UpdateStatus db env callID status).1.active_calls =
      if (CallRepo.UpdateStatus db env callID status).2 = none then
        db.active_calls.map (fun c =>
          if c.CallID = callID then
            { c with Status := status,
                     EndedAt := if status = "ended" then some env.now else none }
          else c)
      else db.active_calls := by
  cases hq : env.fault .callUpdateStatus <;> simp [CallRepo.UpdateStatus, hq]

/-! ### The tables after each operation -/

theorem CallService.CreateCallAndInvite_db (w : World) (env : Env) (creatorID : Int)
    (callType : String) (names : List String) (roomName : String) :
    (∃ extra, (CallService.CreateCallAndInvite w env creatorID callType names
      roomName).1.db.call_invitations = w.db.call_invitations ++ extra) ∧
    (∃ extra, (CallService.CreateCallAndInvite w env creatorID callType names
      roomName).1.db.active_calls = w.db.active_calls ++ extra) ∧
    (w.db.WF → (CallService.CreateCallAndInvite w env creatorID callType names
      roomName).1.db.WF) := by
  have hnil : (∃ extra, w.db.call_invitations = w.db.call_invitations ++ extra) ∧
      (∃ extra, w.db.active_calls = w.db.active_calls ++ extra) ∧ (w.db.WF → w.db.WF) :=
    ⟨⟨[], by simp⟩, ⟨[], by simp⟩, fun h => h⟩
  unfold CallService.CreateCallAndInvite
  simp only
  generalize (if roomName = "" then env.uuidRoom else roomName) = rn
  cases UserRepo.GetByID w.db env creatorID with
  | error e => exact hnil
  | ok found =>
    cases found with
    | none => exact hnil
    | some creator =>
      simp only
      cases CallService.createRoom env rn 0 0 with
      | some e => exact hnil
      | none =>
        simp only
        have hc := CallRepo.callCreate_frame w.db env env.uuidCall rn callType creatorID
        have hcwf : w.db.WF → (CallRepo.Create w.db env env.uuidCall rn callType creatorID).1.WF :=
          fun h => DB.WF_of_same w.db _ hc.1 hc.2.1 hc.2.2.1 h
        cases (CallRepo.Create w.db env env.uuidCall rn callType creatorID).2 with
        | error e => exact ⟨⟨[], by simp [hc.2.1]⟩, hc.2.2.2.2, hcwf⟩
        | ok call =>
          simp only
          have hl := CallService.inviteLoop_frame env env.uuidCall creatorID callType rn names
            (CallRepo.Create w.db env env.uuidCall rn callType creatorID).1 []
          generalize CallService.inviteLoop env env.uuidCall creatorID callType rn names
            (CallRepo.Create w.db env env.uuidCall rn callType creatorID).1 [] = loop at hl ⊢
          have hloop : (∃ extra, loop.1.call_invitations = w.db.call_invitations ++ extra) ∧
              (∃ extra, loop.1.active_calls = w.db.active_calls ++ extra) ∧
              (w.db.WF → loop.1.WF) := by
            obtain ⟨e1, he1⟩ := hl.2.2.2.1
            obtain ⟨e2, he2⟩ := hc.2.2.2.2
            exact ⟨⟨e1, by rw [he1, hc.2.1]⟩, ⟨e2, by rw [hl.2.1, he2]⟩,
              fun h => hl.2.2.2.2 (hcwf h)⟩
          have hh1 := HistoryService.CreateHistoryEntry_frame loop.1 env env.uuidCall rn
              callType creatorID ([creator.Username] ++ names)
          generalize HistoryService.CreateHistoryEntry loop.1 env env.uuidCall rn
              callType creatorID ([creator.Username] ++ names) = created at hh1 ⊢
          have hh2 := HistoryService.UpdateHistoryEntry_frame created.1 env env.uuidCall
            env.now 0 "pending"
          generalize HistoryService.UpdateHistoryEntry created.1 env env.uuidCall
            env.now 0 "pending" = history at hh2 ⊢
          have hfinal : (∃ extra, history.1.call_invitations = w.db.call_invitations ++ extra) ∧
              (∃ extra, history.1.active_calls = w.db.active_calls ++ extra) ∧
              (w.db.WF → history.1.WF) := by
            obtain ⟨⟨e1, he1⟩, ⟨e2, he2⟩, hw⟩ := hloop
            refine ⟨⟨e1, ?_⟩, ⟨e2, ?_⟩, fun h => ?_⟩
            · rw [hh2.2.1, hh1.2.1, he1]
            · rw [hh2.2.2.2, hh1.2.2.2, he2]
            · exact DB.WF_of_same _ _ (hh2.1.trans hh1.1) (hh2.2.1.trans hh1.2.1)
                (hh2.2.2.1.trans hh1.2.2.1) (hw h)
          split
          · exact hloop
          · split
            · exact hfinal
            · exact hfinal

theorem CallService.RespondToInvitation_db (w : World) (env : Env) (invitationID userID : Int)
    (action : String) :
    (CallService.RespondToInvitation w env invitationID userID action).1.db.active_calls =
      w.db.active_calls ∧
    (CallService.RespondToInvitation w env invitationID userID action).1.db.users =
      w.db.users ∧
    (CallService.RespondToInvitation w env invitationID userID
      action).1.db.seq_call_invitations = w.db.seq_call_invitations ∧
    ((CallService.RespondToInvitation w env invitationID userID action).1.db.call_invitations =
        w.db.call_invitations ∨
      ∃ i, InvitationRepo.GetByID w.db env invitationID = .ok (some i) ∧
        i.InviteeID = userID ∧ i.Status = "pending" ∧
        (CallService.RespondToInvitation w env invitationID userID
          action).1.db.call_invitations =
          (InvitationRepo.UpdateStatus w.db env invitationID
            (if action = "accept" then "accepted" else "rejected")).1.call_invitations) := by
  unfold CallService.RespondToInvitation
  cases hget : InvitationRepo.GetByID w.db env invitationID with
  | error e => exact ⟨rfl, rfl, rfl, Or.inl rfl⟩
  | ok found =>
    cases found with
    | none => exact ⟨rfl, rfl, rfl, Or.inl rfl⟩
    | some i =>
      simp only
      by_cases h1 : i.InviteeID ≠ userID
      · rw [if_pos h1]
        exact ⟨rfl, rfl, rfl, Or.inl rfl⟩
      · rw [if_neg h1]
        by_cases h2 : i.Status ≠ "pending"
        · rw [if_pos h2]
          exact ⟨rfl, rfl, rfl, Or.inl rfl⟩
        · rw [if_neg h2]
          have h1' : i.InviteeID = userID := not_not.mp h1
          have h2' : i.Status = "pending" := not_not.mp h2
          have hu := InvitationRepo.invitationUpdateStatus_frame w.db env invitationID
            (if action = "accept" then "accepted" else "rejected")
          generalize InvitationRepo.UpdateStatus w.db env invitationID
            (if action = "accept" then "accepted" else "rejected") = updated at hu ⊢
          have hh := HistoryService.UpdateHistoryEntry_frame updated.1 env i.CallID env.now 0
            "rejected"
          generalize HistoryService.UpdateHistoryEntry updated.1 env i.CallID env.now 0
            "rejected" = history at hh ⊢
          have base : updated.1.active_calls = w.db.active_calls ∧
              updated.1.users = w.db.users ∧
              updated.1.seq_call_invitations = w.db.seq_call_invitations ∧
              (updated.1.call_invitations = w.db.call_invitations ∨
                ∃ i0, (Except.ok (some i) : Except String (Option Invitation)) = .ok (some i0) ∧ i0.InviteeID = userID ∧
                  i0.Status = "pending" ∧
                  updated.1.call_invitations = updated.1.call_invitations) :=
            ⟨hu.2.2.2, hu.1, hu.2.1, Or.inr ⟨i, rfl, h1', h2', rfl⟩⟩
          have hist : history.1.active_calls = w.db.active_calls ∧
              history.1.users = w.db.users ∧
              history.1.seq_call_invitations = w.db.seq_call_invitations ∧
              (history.1.call_invitations = w.db.call_invitations ∨
                ∃ i0, (Except.ok (some i) : Except String (Option Invitation)) = .ok (some i0) ∧ i0.InviteeID = userID ∧
                  i0.Status = "pending" ∧
                  history.1.call_invitations = updated.1.call_invitations) :=
            ⟨hh.2.2.2.trans hu.2.2.2, hh.1.trans hu.1, hh.2.2.1.trans hu.2.1,
              Or.inr ⟨i, rfl, h1', h2', hh.2.1⟩⟩
          split
          · exact base
          · split
            · split
              · exact hist
              · exact hist
            · split
              · exact base
              · exact base
              · split
                · exact base
                · split
                  · exact base
                  · exact base

theorem CallService.RespondToInvitation_WF (w : World) (env : Env) (invitationID userID : Int)
    (action : String) (h : w.db.WF) :
    (CallService.RespondToInvitation w env invitationID userID action).1.db.WF := by
  obtain ⟨_, hu, hs, hr⟩ := CallService.RespondToInvitation_db w env invitationID userID action
  rcases hr with hr | ⟨i, _, _, _, hr⟩
  · exact DB.WF_of_same w.db _ hu hr hs h
  · have hw := InvitationRepo.UpdateStatus_WF w.db env invitationID
      (if action = "accept" then "accepted" else "rejected") h
    have hf := InvitationRepo.invitationUpdateStatus_frame w.db env invitationID
      (if action = "accept" then "accepted" else "rejected")
    exact DB.WF_of_same _ _ (hu.trans hf.1.symm) hr (hs.trans hf.2.1.symm) hw

/-- The part of `EndCall` after the history record has been ensured, for any
outcome `created` of that step that left the other tables alone. -/
theorem CallService.EndCall_tail (w : World) (env : Env) (callID : String) (call : ActiveCall)
    (participantNames : List String) (created : DB × Option String)
    (hcreated : created.1.call_invitations = w.db.call_invitations ∧
      created.1.users = w.db.users ∧
      created.1.seq_call_invitations = w.db.seq_call_invitations ∧
      created.1.active_calls = w.db.active_calls)
    (P : DB → Prop) (hsame : ∀ db : DB, db.call_invitations = w.db.call_invitations →
      db.users = w.db.users → db.seq_call_invitations = w.db.seq_call_invitations →
      (db.active_calls = w.db.active_calls ∨
        db.active_calls = w.db.active_calls.map (fun c =>
          if c.CallID = callID then { c with Status := "ended", EndedAt := some env.now }
          else c)) → P db) :
    P (match created.2 with
      | some e =>
        (({ w with db := created.1 } : World),
          (Outcome.error ("failed to create history entry: " ++ e) : Outcome Unit))
      | none =>
        match (HistoryService.UpdateHistoryEntry created.1 env callID env.now
            (Duration.wholeSeconds (Time.Sub env.now call.CreatedAt)) "completed").2 with
        | some e =>
          ({ w with db := (HistoryService.UpdateHistoryEntry created.1 env callID env.now
              (Duration.wholeSeconds (Time.Sub env.now call.CreatedAt)) "completed").1 },
            .error ("failed to update history entry: " ++ e))
        | none =>
          match (CallRepo.UpdateStatus (HistoryService.UpdateHistoryEntry created.1 env callID
              env.now (Duration.wholeSeconds (Time.Sub env.now call.CreatedAt)) "completed").1 env
              callID "ended").2 with
          | some e =>
            ({ w with db := (CallRepo.UpdateStatus (HistoryService.UpdateHistoryEntry created.1
                env callID env.now (Duration.wholeSeconds (Time.Sub env.now call.CreatedAt))
                "completed").1 env callID "ended").1 },
              .error ("failed to update call status: " ++ e))
          | none =>
            if (broadcastAll (fun h participantName => h.BroadcastCallEnded participantName
                callID) participantNames w.wsHub).2 = false then
              ({ db := (CallRepo.UpdateStatus (HistoryService.UpdateHistoryEntry created.1
                  env callID env.now (Duration.wholeSeconds (Time.Sub env.now call.CreatedAt))
                  "completed").1 env callID "ended").1,
                 wsHub := (broadcastAll (fun h participantName =>
                   h.BroadcastCallEnded participantName callID) participantNames w.wsHub).1 },
                .panic)
            else
              ({ db := (CallRepo.UpdateStatus (HistoryService.UpdateHistoryEntry created.1
                  env callID env.now (Duration.wholeSeconds (Time.Sub env.now call.CreatedAt))
                  "completed").1 env callID "ended").1,
                 wsHub := (broadcastAll (fun h participantName =>
                   h.BroadcastCallEnded participantName callID) participantNames w.wsHub).1 },
                .ok ())).1.db := by
  have hh := HistoryService.UpdateHistoryEntry_frame created.1 env callID env.now
    (Duration.wholeSeconds (Time.Sub env.now call.CreatedAt)) "completed"
  generalize HistoryService.UpdateHistoryEntry created.1 env callID env.now
    (Duration.wholeSeconds (Time.Sub env.now call.CreatedAt)) "completed" = history at hh ⊢
  have hu := CallRepo.callUpdateStatus_frame history.1 env callID "ended"
  have hc := CallRepo.UpdateStatus_calls history.1 env callID "ended"
  generalize CallRepo.UpdateStatus history.1 env callID "ended" = updated at hu hc ⊢
  have h1 : P created.1 :=
    hsame _ hcreated.1 hcreated.2.1 hcreated.2.2.1 (Or.inl hcreated.2.2.2)
  have h2 : P history.1 :=
    hsame _ (hh.2.1.trans hcreated.1) (hh.1.trans hcreated.2.1)
      (hh.2.2.1.trans hcreated.2.2.1) (Or.inl (hh.2.2.2.trans hcreated.2.2.2))
  have h3 : P updated.1 := by
    refine hsame _ (hu.2.1.trans (hh.2.1.trans hcreated.1))
      (hu.1.trans (hh.1.trans hcreated.2.1))
      (hu.2.2.1.trans (hh.2.2.1.trans hcreated.2.2.1)) ?_
    rw [hc]
    split
    · right
      rw [hh.2.2.2, hcreated.2.2.2]
      simp
    · left
      exact hh.2.2.2.trans hcreated.2.2.2
  split
  · exact h1
  · split
    · exact h2
    · split
      · exact h3
      · split
        · exact h3
        · exact h3

theorem CallService.EndCall_db (w : World) (env : Env) (callID : String) (userID : Int) :
    (CallService.EndCall w env callID userID).1.db.call_invitations = w.db.call_invitations ∧
    (CallService.EndCall w env callID userID).1.db.users = w.db.users ∧
    (CallService.EndCall w env callID userID).1.db.seq_call_invitations =
      w.db.seq_call_invitations ∧
    ((CallService.EndCall w env callID userID).1.db.active_calls = w.db.active_calls ∨
      (CallService.EndCall w env callID userID).1.db.active_calls =
        w.db.active_calls.map (fun c =>
          if c.CallID = callID then { c with Status := "ended", EndedAt := some env.now }
          else c)) := by
  unfold CallService.EndCall
  cases CallRepo.GetByCallID w.db env callID with
  | error e => exact ⟨rfl, rfl, rfl, Or.inl rfl⟩
  | ok found =>
    cases found with
    | none => exact ⟨rfl, rfl, rfl, Or.inl rfl⟩
    | some call =>
      refine CallService.EndCall_tail w env callID call _ _ ?_
        (fun db => db.call_invitations = w.db.call_invitations ∧ db.users = w.db.users ∧
          db.seq_call_invitations = w.db.seq_call_invitations ∧
          (db.active_calls = w.db.active_calls ∨
            db.active_calls = w.db.active_calls.map (fun c =>
              if c.CallID = callID then { c with Status := "ended", EndedAt := some env.now }
              else c)))
        (fun db h1 h2 h3 h4 => ⟨h1, h2, h3, h4⟩)
      split
      · exact ⟨rfl, rfl, rfl, rfl⟩
      · have := HistoryService.CreateHistoryEntry_frame w.db env callID
          call.RoomName call.CallType call.CreatedBy
          (List.filter (fun identity => decide (identity ≠ ""))
            (match ParticipantService.ListParticipants env call.RoomName with
              | .error _ => []
              | .ok ps => ps))
        exact ⟨this.2.1, this.1, this.2.2.1, this.2.2.2⟩

theorem CallService.EndCall_WF (w : World) (env : Env) (callID : String) (userID : Int)
    (h : w.db.WF) : (CallService.EndCall w env callID userID).1.db.WF := by
  obtain ⟨hr, hu, hs, _⟩ := CallService.EndCall_db w env callID userID
  exact DB.WF_of_same w.db _ hu hr hs h


/-- The tables after a `CancelCall` that got past its checks. -/
theorem CallService.CancelCall_db_of_ok (w : World) (env : Env) (callID : String)
    (userID : Int) (call : ActiveCall) (invs : List Invitation)
    (hget : CallRepo.GetByCallID w.db env callID = .ok (some call))
    (hcreator : call.CreatedBy = userID)
    (hinv : InvitationRepo.GetCallParticipants w.db env callID = .ok invs) :
    (CallService.CancelCall w env callID userID).1.db.call_invitations =
      (CallService.cancelLoop env invs w.db []).1.call_invitations ∧
    (CallService.CancelCall w env callID userID).1.db.users = w.db.users ∧
    (CallService.CancelCall w env callID userID).1.db.seq_call_invitations =
      w.db.seq_call_invitations ∧
    ((CallService.CancelCall w env callID userID).1.db.active_calls = w.db.active_calls ∨
      (CallService.CancelCall w env callID userID).1.db.active_calls =
        w.db.active_calls.map (fun c =>
          if c.CallID = callID then { c with Status := "cancelled", EndedAt := none }
          else c)) := by
  unfold CallService.CancelCall
  simp only [hget, hinv, hcreator, ne_eq, not_true_eq_false, if_false]
  have hl := CallService.cancelLoop_frame env invs w.db []
  generalize CallService.cancelLoop env invs w.db [] = loop at hl ⊢
  have hu := CallRepo.callUpdateStatus_frame loop.1 env callID "cancelled"
  have hc := CallRepo.UpdateStatus_calls loop.1 env callID "cancelled"
  generalize CallRepo.UpdateStatus loop.1 env callID "cancelled" = updated at hu hc ⊢
  have hh := HistoryService.UpdateHistoryEntry_frame updated.1 env callID 0 0
    "cancelled"
  generalize HistoryService.UpdateHistoryEntry updated.1 env callID 0 0
    "cancelled" = history at hh ⊢
  have hcalls : updated.1.active_calls = w.db.active_calls ∨
      updated.1.active_calls = w.db.active_calls.map (fun c =>
        if c.CallID = callID then { c with Status := "cancelled", EndedAt := none }
        else c) := by
    rw [hc]
    split
    · right
      rw [hl.2.1]
      simp
    · left
      exact hl.2.1
  have h1 : updated.1.call_invitations = loop.1.call_invitations ∧
      updated.1.users = w.db.users ∧
      updated.1.seq_call_invitations = w.db.seq_call_invitations ∧
      (updated.1.active_calls = w.db.active_calls ∨
        updated.1.active_calls = w.db.active_calls.map (fun c =>
          if c.CallID = callID then { c with Status := "cancelled", EndedAt := none }
          else c)) :=
    ⟨hu.2.1, hu.1.trans hl.1, hu.2.2.1.trans hl.2.2.2.1, hcalls⟩
  have h2 : history.1.call_invitations = loop.1.call_invitations ∧
      history.1.users = w.db.users ∧
      history.1.seq_call_invitations = w.db.seq_call_invitations ∧
      (history.1.active_calls = w.db.active_calls ∨
        history.1.active_calls = w.db.active_calls.map (fun c =>
          if c.CallID = callID then { c with Status := "cancelled", EndedAt := none }
          else c)) := by
    refine ⟨hh.2.1.trans hu.2.1, hh.1.trans h1.2.1, hh.2.2.1.trans h1.2.2.1, ?_⟩
    rw [hh.2.2.2]
    exact hcalls
  split
  · exact h1
  · split
    · exact h2
    · exact h2

theorem CallService.CancelCall_db (w : World) (env : Env) (callID : String) (userID : Int) :
    (CallService.CancelCall w env callID userID).1 = w ∨
    ∃ call invs, CallRepo.GetByCallID w.db env callID = .ok (some call) ∧
      call.CreatedBy = userID ∧
      InvitationRepo.GetCallParticipants w.db env callID = .ok invs ∧
      (CallService.CancelCall w env callID userID).1.db.call_invitations =
        (CallService.cancelLoop env invs w.db []).1.call_invitations ∧
      (CallService.CancelCall w env callID userID).1.db.users = w.db.users ∧
      (CallService.CancelCall w env callID userID).1.db.seq_call_invitations =
        w.db.seq_call_invitations ∧
      ((CallService.CancelCall w env callID userID).1.db.active_calls = w.db.active_calls ∨
        (CallService.CancelCall w env callID userID).1.db.active_calls =
          w.db.active_calls.map (fun c =>
            if c.CallID = callID then { c with Status := "cancelled", EndedAt := none }
            else c)) := by
  cases hget : CallRepo.GetByCallID w.db env callID with
  | error e => exact Or.inl (by simp [CallService.CancelCall, hget])
  | ok found =>
    cases found with
    | none => exact Or.inl (by simp [CallService.CancelCall, hget])
    | some call =>
      by_cases hcr : call.CreatedBy = userID
      · cases hinv : InvitationRepo.GetCallParticipants w.db env callID with
        | error e => exact Or.inl (by simp [CallService.CancelCall, hget, hinv, hcr])
        | ok invs =>
          exact Or.inr ⟨call, invs, rfl, hcr, rfl,
            CallService.CancelCall_db_of_ok w env callID userID call invs hget hcr hinv⟩
      · exact Or.inl (by simp [CallService.CancelCall, hget, hcr])

theorem CallService.CancelCall_WF (w : World) (env : Env) (callID : String) (userID : Int)
    (h : w.db.WF) : (CallService.CancelCall w env callID userID).1.db.WF := by
  rcases CallService.CancelCall_db w env callID userID with hw | ⟨call, invs, _, _, _, hr, hu, hs, _⟩
  · rw [hw]
    exact h
  · have hl := CallService.cancelLoop_frame env invs w.db []
    exact DB.WF_of_same _ _ (hu.trans hl.1.symm) hr (hs.trans hl.2.2.2.1.symm) (hl.2.2.2.2 h)

theorem DB.WF_of_fresh (db : DB) (h : db.Fresh) : db.WF := by
  obtain ⟨_, h2, _, _, _, _⟩ := h
  unfold DB.WF
  rw [h2]
  simp

theorem step_WF (w : World) (op : Op) (h : w.db.WF) : (step w op).db.WF := by
  cases op with
  | CreateCallAndInvite env creatorID callType names roomName =>
    exact (CallService.CreateCallAndInvite_db w env creatorID callType names roomName).2.2 h
  | RespondToInvitation env invitationID userID action =>
    exact CallService.RespondToInvitation_WF w env invitationID userID action h
  | EndCall env callID userID => exact CallService.EndCall_WF w env callID userID h
  | CancelCall env callID userID => exact CallService.CancelCall_WF w env callID userID h

/-- Every reachable state satisfies the integrity constraints of the schema. -/
theorem Reachable.WF {w : World} (h : Reachable w) : w.db.WF := by
  induction h with
  | init w hf => exact DB.WF_of_fresh w.db hf
  | next w op _ ih => exact step_WF w op ih

theorem WebSocketHub.offer_isSome (h : WebSocketHub) (conn : Connection) (msg : Message)
    (hopen : (h.chans conn.Send).closed = false) : ∃ h1, h.offer conn msg = some h1 := by
  unfold WebSocketHub.offer marshal Chan.trySend
  simp only [hopen]
  by_cases hlen : (h.chans conn.Send).buf.length < (h.chans conn.Send).cap <;> simp [hlen]

theorem WebSocketHub.BroadcastInvitationResponse_isSome (h : WebSocketHub) (username : String)
    (invitationID : Int) (invitee status : String) (hopen : h.Open) :
    ∃ h1, h.BroadcastInvitationResponse username invitationID invitee status = some h1 := by
  unfold WebSocketHub.BroadcastInvitationResponse
  cases hc : h.connections username with
  | none => exact ⟨h, rfl⟩
  | some conn => exact WebSocketHub.offer_isSome h conn _ (hopen username conn hc)

theorem CallService.notifyInviter_eq (db : DB) (env : Env) (h : WebSocketHub)
    (i : Invitation) (invitationID : Int) (status : String) (inviter : User)
    (hq : env.fault (.userGetByID i.InviterID) = none)
    (hfind : db.users.find? (fun u => u.ID == i.InviterID) = some inviter) (hopen : h.Open) :
    CallService.notifyInviter db env (some h) i invitationID status =
      (h.BroadcastInvitationResponse inviter.Username invitationID i.Invitee status, true) := by
  obtain ⟨h1, hb⟩ := WebSocketHub.BroadcastInvitationResponse_isSome h inviter.Username
    invitationID i.Invitee status hopen
  simp [CallService.notifyInviter, UserRepo.GetByID, hq, hfind, hb]

theorem find?_history_map (rows : List CallHistory) (f : CallHistory → CallHistory)
    (hf : ∀ r, (f r).CallID = r.CallID) (id : String) :
    (rows.map f).find? (fun r => r.CallID == id) =
      (rows.find? (fun r => r.CallID == id)).map f := by
  rw [List.find?_map]
  have : ((fun r : CallHistory => r.CallID == id) ∘ f) = fun r => r.CallID == id := by
    funext r
    simp [hf r]
  rw [this]

theorem HistoryService.UpdateHistoryEntry_status (db : DB) (env : Env) (callID : String)
    (endedAt : Time) (duration : Int) (status : String)
    (hq : env.fault .historyUpdate = none) :
    (HistoryService.UpdateHistoryEntry db env callID endedAt duration status).1.historyStatus
      callID = (db.historyStatus callID).map (fun _ => status) := by
  unfold HistoryService.UpdateHistoryEntry CallHistoryRepo.Update DB.historyStatus
  simp only [hq]
  have key : ∀ f : CallHistory → CallHistory,
      (∀ r, (f r).CallID = r.CallID) → (∀ r, r.CallID = callID → (f r).Status = status) →
      Option.map (fun r => r.Status)
        ((db.call_history.map f).find? (fun r => r.CallID == callID)) =
      Option.map (fun _ => status)
        (Option.map (fun r => r.Status)
          (db.call_history.find? (fun r => r.CallID == callID))) := by
    intro f hf1 hf2
    rw [find?_history_map _ _ hf1]
    cases hf : db.call_history.find? (fun r => r.CallID == callID) with
    | none => simp
    | some r =>
      have : r.CallID = callID := by simpa using List.find?_some hf
      simp [hf2 r this]
  by_cases hz : endedAt.IsZero = true
  · rw [if_pos hz]
    exact key _ (by intro r; by_cases h : r.CallID = callID <;> simp [h])
      (by intro r h; simp [h])
  · rw [if_neg hz]
    exact key _ (by intro r; by_cases h : r.CallID = callID <;> simp [h])
      (by intro r h; simp [h])

/-- The third refusal of `RespondToInvitation`: an invitation that is no longer
pending is not answered again, and nothing changes. -/
theorem CallService.RespondToInvitation_already_responded (w : World) (env : Env)
    (invitationID userID : Int) (action : String) (r : InvitationRow) (hwf : w.db.WF)
    (hq : env.fault .invitationGetByID = none)
    (hfind : w.db.call_invitations.find? (fun r => r.id == invitationID) = some r)
    (heq : r.invitee_id = userID) (hst : r.status ≠ "pending") :
    CallService.RespondToInvitation w env invitationID userID action =
      (w, .error "invitation already responded") := by
  have hjoin := find?_filterMap_joinUsers w.db w.db.call_invitations invitationID hwf.2.2
  have hmem : r ∈ w.db.call_invitations := List.mem_of_find?_eq_some hfind
  obtain ⟨i, hi⟩ := joinUsers_isSome w.db r (hwf.2.2 r hmem)
  have hf := joinUsers_fields w.db r i hi
  have h1 : i.InviteeID = userID := by rw [hf.2.2.2.1]; exact heq
  have h2 : i.Status ≠ "pending" := by rw [hf.2.2.2.2.1]; exact hst
  simp [CallService.RespondToInvitation, InvitationRepo.GetByID, hq, hjoin, hfind, hi, h1, h2]

/-- What `RespondToInvitation` computes on a pending invitation answered by its
invitee with `reject`, when storage does not fail. -/
theorem CallService.RespondToInvitation_reject_eq (w : World) (env : Env)
    (invitationID userID : Int) (i : Invitation)
    (hget : InvitationRepo.GetByID w.db env invitationID = .ok (some i))
    (hinvitee : i.InviteeID = userID) (hpend : i.Status = "pending")
    (hq : env.fault (.invitationUpdateStatus invitationID) = none) :
    CallService.RespondToInvitation w env invitationID userID "reject" =
      (({ db := (HistoryService.UpdateHistoryEntry
            (InvitationRepo.UpdateStatus w.db env invitationID "rejected").1 env i.CallID
            env.now 0 "rejected").1,
          wsHub := (CallService.notifyInviter (HistoryService.UpdateHistoryEntry
            (InvitationRepo.UpdateStatus w.db env invitationID "rejected").1 env i.CallID
            env.now 0 "rejected").1 env w.wsHub i invitationID "rejected").1 } : World),
        if (CallService.notifyInviter (HistoryService.UpdateHistoryEntry
            (InvitationRepo.UpdateStatus w.db env invitationID "rejected").1 env i.CallID
            env.now 0 "rejected").1 env w.wsHub i invitationID "rejected").2 = false
        then .panic else .ok none) := by
  have herr := (InvitationRepo.UpdateStatus_err w.db env invitationID "rejected").mpr hq
  unfold CallService.RespondToInvitation
  simp only [hget, hinvitee, hpend, ne_eq, not_true_eq_false, if_false]
  have hst : (if ("reject" : String) = "accept" then "accepted" else "rejected") = "rejected" := by
    decide
  rw [hst]
  simp only [herr, if_true]
  split <;> rfl

/-- What `RespondToInvitation` computes on a pending invitation answered by its
invitee with `accept`, when storage and the token signer do not fail. -/
theorem CallService.RespondToInvitation_accept_eq (w : World) (env : Env)
    (invitationID userID : Int) (i : Invitation) (user : User)
    (hget : InvitationRepo.GetByID w.db env invitationID = .ok (some i))
    (hinvitee : i.InviteeID = userID) (hpend : i.Status = "pending")
    (hq : env.fault (.invitationUpdateStatus invitationID) = none)
    (hq2 : env.fault (.userGetByID userID) = none)
    (huser : w.db.users.find? (fun u => u.ID == userID) = some user)
    (hjwt : env.toJWTErr = none) :
    CallService.RespondToInvitation w env invitationID userID "accept" =
      (({ db := (InvitationRepo.UpdateStatus w.db env invitationID "accepted").1,
          wsHub := (CallService.notifyInviter
            (InvitationRepo.UpdateStatus w.db env invitationID "accepted").1 env w.wsHub i
            invitationID "accepted").1 } : World),
        if (CallService.notifyInviter
            (InvitationRepo.UpdateStatus w.db env invitationID "accepted").1 env w.wsHub i
            invitationID "accepted").2 = false
        then .panic
        else .ok (some
          { Token := { Identity := user.Username, Room := i.RoomName, RoomJoin := true,
                       RoomCreate := true, ValidFor := 24 * 3600 * 1000000000 },
            RoomName := i.RoomName })) := by
  have herr := (InvitationRepo.UpdateStatus_err w.db env invitationID "accepted").mpr hq
  have hu := (InvitationRepo.invitationUpdateStatus_frame w.db env invitationID "accepted").1
  unfold CallService.RespondToInvitation
  simp only [hget, hinvitee, hpend, ne_eq, not_true_eq_false, if_false, if_true]
  simp only [herr]
  have hne : ¬ ("accept" : String) = "reject" := by decide
  simp only [hne, if_false, UserRepo.GetByID, hq2, hu, huser, CallService.generateToken, hjwt]
  split <;> rfl

/-- C6: when its lookup of the call succeeds, `CancelCall` fails with
`call not found` if no call has the id, and with `unauthorized: only creator can
cancel the call` if the call exists and the user is not its creator; in both
cases the state returned is the state it was given, so no call status,
invitation status, history record or hub buffer has changed. -/
theorem cancelCall_fails_without_effect (w : World) (env : Env) (callID : String) (userID : Int)
    (hq : env.fault .callGetByCallID = none) :
    ((∀ c ∈ w.db.active_calls, c.CallID ≠ callID) →
      CallService.CancelCall w env callID userID = (w, .error "call not found")) ∧
    (∀ call, w.db.active_calls.find? (fun c => c.CallID == callID) = some call →
      call.CreatedBy ≠ userID →
      CallService.CancelCall w env callID userID =
        (w, .error "unauthorized: only creator can cancel the call")) := by
  constructor
  · intro hno
    have hfind : w.db.active_calls.find? (fun c => c.CallID == callID) = none := by
      simp [List.find?_eq_none]
      exact hno
    simp [CallService.CancelCall, CallRepo.GetByCallID, hq, hfind]
  · intro call hfind hne
    simp [CallService.CancelCall, CallRepo.GetByCallID, hq, hfind, hne]


/-- C3: when its lookup succeeds, `RespondToInvitation` fails with
`invitation not found` if no invitation has the id; otherwise with
`unauthorized` if the user is not the invitee; otherwise with
`invitation already responded` if the status is not `pending`; in each case the
state returned is the state it was given, so no invitation, history record or
hub buffer has changed. -/
theorem respondToInvitation_fails_without_effect (w : World) (env : Env)
    (invitationID userID : Int) (action : String) (hwf : w.db.WF)
    (hq : env.fault .invitationGetByID = none) :
    ((∀ r ∈ w.db.call_invitations, r.id ≠ invitationID) →
      CallService.RespondToInvitation w env invitationID userID action =
        (w, .error "invitation not found")) ∧
    (∀ r, w.db.call_invitations.find? (fun r => r.id == invitationID) = some r →
      (r.invitee_id ≠ userID →
        CallService.RespondToInvitation w env invitationID userID action =
          (w, .error "unauthorized")) ∧
      (r.invitee_id = userID → r.status ≠ "pending" →
        CallService.RespondToInvitation w env invitationID userID action =
          (w, .error "invitation already responded"))) := by
  have hjoin := find?_filterMap_joinUsers w.db w.db.call_invitations invitationID hwf.2.2
  constructor
  · intro hno
    have hfind : w.db.call_invitations.find? (fun r => r.id == invitationID) = none := by
      simp [List.find?_eq_none]
      exact hno
    simp [CallService.RespondToInvitation, InvitationRepo.GetByID, hq, hjoin, hfind]
  · intro r hfind
    have hmem : r ∈ w.db.call_invitations := List.mem_of_find?_eq_some hfind
    obtain ⟨i, hi⟩ := joinUsers_isSome w.db r (hwf.2.2 r hmem)
    have hf := joinUsers_fields w.db r i hi
    constructor
    · intro hne
      have : i.InviteeID ≠ userID := by rw [hf.2.2.2.1]; exact hne
      simp [CallService.RespondToInvitation, InvitationRepo.GetByID, hq, hjoin, hfind, hi, this]
    · intro heq hst
      exact CallService.RespondToInvitation_already_responded w env invitationID userID action
        r hwf hq hfind heq hst

theorem find?_id_map (rows : List InvitationRow) (f : InvitationRow → InvitationRow)
    (hf : ∀ r, (f r).id = r.id) (id : Int) :
    (rows.map f).find? (fun r => r.id == id) = (rows.find? (fun r => r.id == id)).map f := by
  rw [List.find?_map]
  have : ((fun r : InvitationRow => r.id == id) ∘ f) = fun r => r.id == id := by
    funext r
    simp [hf r]
  rw [this]

/-- A successful `GetByID` returns the join of the first row with that id, so
its status is the stored status. -/
theorem InvitationRepo.GetByID_status (db : DB) (env : Env) (id : Int) (i : Invitation)
    (hwf : db.WF) (h : InvitationRepo.GetByID db env id = .ok (some i)) :
    ∃ r, db.call_invitations.find? (fun r => r.id == id) = some r ∧
      InvitationRepo.joinUsers db r = some i := by
  unfold InvitationRepo.GetByID at h
  cases hq : env.fault .invitationGetByID with
  | some e => simp [hq] at h
  | none =>
    simp only [hq] at h
    have h' := Except.ok.inj h
    rw [find?_filterMap_joinUsers db db.call_invitations id hwf.2.2] at h'
    cases hf : db.call_invitations.find? (fun r => r.id == id) with
    | none => simp [hf] at h'
    | some r =>
      refine ⟨r, rfl, ?_⟩
      simpa [hf] using h'

/-- Members of the list that `GetCallParticipants` returns are joins of rows of
the table for that call. -/
theorem InvitationRepo.GetCallParticipants_mem (db : DB) (env : Env) (callID : String)
    (invs : List Invitation) (h : InvitationRepo.GetCallParticipants db env callID = .ok invs)
    (i : Invitation) :
    i ∈ invs ↔ ∃ r ∈ db.call_invitations, InvitationRepo.joinUsers db r = some i ∧
      i.CallID = callID := by
  unfold InvitationRepo.GetCallParticipants at h
  cases hq : env.fault .invitationGetCallParticipants with
  | some e => simp [hq] at h
  | none =>
    simp only [hq] at h
    have h' := Except.ok.inj h
    rw [← h', (List.perm_insertionSort _ _).mem_iff]
    simp only [List.mem_filter, List.mem_filterMap, beq_iff_eq]
    constructor
    · rintro ⟨⟨a, ha, hj⟩, hc⟩
      exact ⟨a, ha, hj, hc⟩
    · rintro ⟨a, ha, hj, hc⟩
      exact ⟨⟨a, ha, hj⟩, hc⟩

theorem DB.WF.row_eq_of_id {db : DB} (h : db.WF) {r r0 : InvitationRow}
    (hr : r ∈ db.call_invitations) (hr0 : r0 ∈ db.call_invitations) (hid : r.id = r0.id) :
    r = r0 :=
  List.inj_on_of_nodup_map h.1 hr hr0 hid

theorem DB.WF.invitationStatus_of_mem {db : DB} (h : db.WF) {r : InvitationRow}
    (hr : r ∈ db.call_invitations) :
    db.call_invitations.find? (fun x => x.id == r.id) = some r := by
  cases hf : db.call_invitations.find? (fun x => x.id == r.id) with
  | none =>
    rw [List.find?_eq_none] at hf
    have := hf r hr
    simp at this
  | some r0 =>
    have hmem := List.mem_of_find?_eq_some hf
    have hid : r0.id = r.id := by simpa using List.find?_some hf
    rw [h.row_eq_of_id hmem hr hid]

/-- The rows after a `CancelCall` that got past its checks: exactly the pending
rows of the call are overwritten, when no status write fails. -/
theorem CallService.cancelLoop_rows_of_call (db : DB) (env : Env) (callID : String)
    (invs : List Invitation) (acc : List String) (hwf : db.WF)
    (hinv : InvitationRepo.GetCallParticipants db env callID = .ok invs)
    (hq : ∀ id, env.fault (.invitationUpdateStatus id) = none) :
    (CallService.cancelLoop env invs db acc).1.call_invitations =
      db.call_invitations.map (fun r =>
        if r.call_id = callID ∧ r.status = "pending" then
          { r with status := "cancelled", responded_at := none }
        else r) := by
  rw [CallService.cancelLoop_rows]
  apply List.map_congr_left
  intro r hr
  have hiff : (invs.any (fun i => decide (i.Status = "pending") && (i.ID == r.id) &&
      (env.fault (.invitationUpdateStatus i.ID)).isNone) = true) ↔
      (r.call_id = callID ∧ r.status = "pending") := by
    simp only [List.any_eq_true, Bool.and_eq_true, decide_eq_true_eq, beq_iff_eq]
    constructor
    · rintro ⟨i, hi, ⟨hst, hid⟩, _⟩
      obtain ⟨r0, hr0, hj, hc⟩ := (InvitationRepo.GetCallParticipants_mem db env callID invs
        hinv i).mp hi
      have hf := joinUsers_fields db r0 i hj
      have : r0 = r := hwf.row_eq_of_id hr0 hr (hf.1.symm.trans hid)
      subst this
      exact ⟨hf.2.1.symm.trans hc, hf.2.2.2.2.1.symm.trans hst⟩
    · rintro ⟨hc, hst⟩
      obtain ⟨i, hj⟩ := joinUsers_isSome db r (hwf.2.2 r hr)
      have hf := joinUsers_fields db r i hj
      refine ⟨i, ?_, ⟨hf.2.2.2.2.1.trans hst, hf.1⟩, by simp [hq]⟩
      exact (InvitationRepo.GetCallParticipants_mem db env callID invs hinv i).mpr
        ⟨r, hr, hj, hf.2.1.trans hc⟩
  by_cases hc : r.call_id = callID ∧ r.status = "pending"
  · rw [if_pos (hiff.mpr hc), if_pos hc]
  · rw [if_neg (fun h => hc (hiff.mp h)), if_neg hc]

/-- C5: when `CancelCall` is invoked by the creator of the call and the
lookups and the invitation writes succeed, every invitation of that call that
was pending has status `cancelled` afterwards, and every other invitation
(non-pending ones of this call, and all invitations of other calls) has the
status it had before. -/
theorem cancelCall_cancels_exactly_the_pending (w : World) (env : Env) (callID : String)
    (userID : Int) (call : ActiveCall) (hwf : w.db.WF)
    (hcall : w.db.active_calls.find? (fun c => c.CallID == callID) = some call)
    (hcreator : call.CreatedBy = userID)
    (hq1 : env.fault .callGetByCallID = none)
    (hq2 : env.fault .invitationGetCallParticipants = none)
    (hq3 : ∀ id, env.fault (.invitationUpdateStatus id) = none) :
    ∀ r ∈ w.db.call_invitations,
      (r.call_id = callID ∧ r.status = "pending" →
        (CallService.CancelCall w env callID userID).1.db.invitationStatus r.id =
          some "cancelled") ∧
      (¬ (r.call_id = callID ∧ r.status = "pending") →
        (CallService.CancelCall w env callID userID).1.db.invitationStatus r.id =
          some r.status) := by
  intro r hr
  have hget : CallRepo.GetByCallID w.db env callID = .ok (some call) := by
    simp [CallRepo.GetByCallID, hq1, hcall]
  obtain ⟨invs, hinv⟩ : ∃ invs, InvitationRepo.GetCallParticipants w.db env callID = .ok invs := by
    simp [InvitationRepo.GetCallParticipants, hq2]
  have hrows : (CallService.CancelCall w env callID userID).1.db.call_invitations =
      w.db.call_invitations.map (fun r =>
        if r.call_id = callID ∧ r.status = "pending" then
          { r with status := "cancelled", responded_at := none }
        else r) := by
    rw [← CallService.cancelLoop_rows_of_call w.db env callID invs [] hwf hinv hq3]
    exact (CallService.CancelCall_db_of_ok w env callID userID call invs hget hcreator hinv).1
  unfold DB.invitationStatus
  rw [hrows, find?_id_map _ _ (by intro r; by_cases h : r.call_id = callID ∧ r.status = "pending" <;> simp [h]),
    hwf.invitationStatus_of_mem hr]
  constructor
  · intro h
    simp [h]
  · intro h
    simp [h]


/-- C2: in every reachable state and for every operation with any arguments,
an invitation whose status is not `pending` has the same status afterwards. -/
theorem invitation_status_is_terminal (w : World) (op : Op) (id : Int) (s : String)
    (hreach : Reachable w) (hs : w.db.invitationStatus id = some s) (hnp : s ≠ "pending") :
    (step w op).db.invitationStatus id = some s := by
  have hwf := hreach.WF
  unfold DB.invitationStatus at hs ⊢
  obtain ⟨r, hfind, hst⟩ : ∃ r, w.db.call_invitations.find? (fun r => r.id == id) = some r ∧
      r.status = s := by
    cases hf : w.db.call_invitations.find? (fun r => r.id == id) with
    | none => simp [hf] at hs
    | some r => exact ⟨r, rfl, by simpa [hf] using hs⟩
  have hrid : r.id = id := by simpa using List.find?_some hfind
  have hrmem : r ∈ w.db.call_invitations := List.mem_of_find?_eq_some hfind
  cases op with
  | CreateCallAndInvite env creatorID callType names roomName =>
    obtain ⟨extra, he⟩ :=
      (CallService.CreateCallAndInvite_db w env creatorID callType names roomName).1
    show Option.map _ (List.find? _
      (CallService.CreateCallAndInvite w env creatorID callType names
        roomName).1.db.call_invitations) = _
    rw [he]
    exact DB.invitationStatus_append _ _ _ _ hs
  | RespondToInvitation env invitationID userID action =>
    obtain ⟨_, _, _, hr⟩ := CallService.RespondToInvitation_db w env invitationID userID action
    show Option.map _ (List.find? _
      (CallService.RespondToInvitation w env invitationID userID
        action).1.db.call_invitations) = _
    rcases hr with hr | ⟨i, hget, _, hpend, hr⟩
    · rw [hr]
      exact hs
    · generalize (if action = "accept" then "accepted" else "rejected") = st at hr
      rw [hr, InvitationRepo.UpdateStatus_rows]
      by_cases hok : (InvitationRepo.UpdateStatus w.db env invitationID st).2 = none
      · rw [if_pos hok]
        obtain ⟨r0, hfind0, hj⟩ := InvitationRepo.GetByID_status w.db env invitationID i hwf hget
        have hne : ¬ r.id = invitationID := by
          intro heq
          have hsame : r0 = r := by
            rw [← hrid, heq, hfind0] at hfind
            exact Option.some.inj hfind
          have := (joinUsers_fields w.db r0 i hj).2.2.2.2.1
          rw [hsame] at this
          exact hnp (hst.symm.trans (this.symm.trans hpend))
        rw [find?_id_map _ _ (by intro x; by_cases h : x.id = invitationID <;> simp [h]), hfind]
        simp [hne, hst]
      · rw [if_neg hok]
        exact hs
  | EndCall env callID userID =>
    show Option.map _ (List.find? _
      (CallService.EndCall w env callID userID).1.db.call_invitations) = _
    rw [(CallService.EndCall_db w env callID userID).1]
    exact hs
  | CancelCall env callID userID =>
    show Option.map _ (List.find? _
      (CallService.CancelCall w env callID userID).1.db.call_invitations) = _
    rcases CallService.CancelCall_db w env callID userID with hw | ⟨c, invs, _, _, hinv, hr, _⟩
    · rw [hw]
      exact hs
    · rw [hr, CallService.cancelLoop_rows,
        find?_id_map _ _ (by intro x; split <;> rfl), hfind]
      have hcond : ¬ (invs.any (fun i => decide (i.Status = "pending") && (i.ID == r.id) &&
          (env.fault (.invitationUpdateStatus i.ID)).isNone) = true) := by
        simp only [List.any_eq_true, Bool.and_eq_true, decide_eq_true_eq, beq_iff_eq]
        rintro ⟨i, hi, ⟨hpend, hid⟩, _⟩
        obtain ⟨r0, hr0, hj, _⟩ := (InvitationRepo.GetCallParticipants_mem w.db env callID invs
          hinv i).mp hi
        have hf := joinUsers_fields w.db r0 i hj
        have : r0 = r := hwf.row_eq_of_id hr0 hrmem (hf.1.symm.trans hid)
        subst this
        exact hnp (hst.symm.trans (hf.2.2.2.2.1.symm.trans hpend))
      rw [Option.map_some', Option.map_some', if_neg hcond, hst]

/-- C1, as amended: for every state and every operation, the status of a call
afterwards is the status before, or `ended` when the operation is `EndCall` on
that call, or `cancelled` when the operation is `CancelCall` on that call; in
particular a call that is not `active` is never `active` again. -/
theorem call_status_changes_only_by_end_or_cancel (w : World) (op : Op) (id s : String)
    (hs : w.db.callStatus id = some s) :
    ((step w op).db.callStatus id = some s ∨
      ((∃ env userID, op = .EndCall env id userID) ∧
        (step w op).db.callStatus id = some "ended") ∨
      ((∃ env userID, op = .CancelCall env id userID) ∧
        (step w op).db.callStatus id = some "cancelled")) ∧
    (s ≠ "active" → (step w op).db.callStatus id ≠ some "active") := by
  have main : (step w op).db.callStatus id = some s ∨
      ((∃ env userID, op = .EndCall env id userID) ∧
        (step w op).db.callStatus id = some "ended") ∨
      ((∃ env userID, op = .CancelCall env id userID) ∧
        (step w op).db.callStatus id = some "cancelled") := by
    unfold DB.callStatus at hs ⊢
    cases op with
    | CreateCallAndInvite env creatorID callType names roomName =>
      left
      obtain ⟨extra, he⟩ :=
        (CallService.CreateCallAndInvite_db w env creatorID callType names roomName).2.1
      show Option.map _ (List.find? _
        (CallService.CreateCallAndInvite w env creatorID callType names
          roomName).1.db.active_calls) = _
      rw [he]
      exact DB.callStatus_append _ _ _ _ hs
    | RespondToInvitation env invitationID userID action =>
      left
      show Option.map _ (List.find? _
        (CallService.RespondToInvitation w env invitationID userID
          action).1.db.active_calls) = _
      rw [(CallService.RespondToInvitation_db w env invitationID userID action).1]
      exact hs
    | EndCall env callID userID =>
      show (Option.map _ (List.find? _
        (CallService.EndCall w env callID userID).1.db.active_calls) = _) ∨ (_ ∧
        Option.map _ (List.find? _
        (CallService.EndCall w env callID userID).1.db.active_calls) = _) ∨ (_ ∧
        Option.map _ (List.find? _
        (CallService.EndCall w env callID userID).1.db.active_calls) = _)
      rcases (CallService.EndCall_db w env callID userID).2.2.2 with h | h
      · left
        rw [h]
        exact hs
      · rw [h, find?_callID_map_status]
        by_cases hid : id = callID
        · right
          left
          refine ⟨⟨env, userID, by rw [hid]⟩, ?_⟩
          rw [if_pos hid]
          cases hf : w.db.active_calls.find? (fun c => c.CallID == id) with
          | none => simp [hf] at hs
          | some c => simp
        · left
          rw [if_neg hid]
          exact hs
    | CancelCall env callID userID =>
      show (Option.map _ (List.find? _
        (CallService.CancelCall w env callID userID).1.db.active_calls) = _) ∨ (_ ∧
        Option.map _ (List.find? _
        (CallService.CancelCall w env callID userID).1.db.active_calls) = _) ∨ (_ ∧
        Option.map _ (List.find? _
        (CallService.CancelCall w env callID userID).1.db.active_calls) = _)
      rcases CallService.CancelCall_db w env callID userID with hw | ⟨c, invs, _, _, _, _, _, _, h⟩
      · left
        rw [hw]
        exact hs
      · rcases h with h | h
        · left
          rw [h]
          exact hs
        · rw [h, find?_callID_map_status]
          by_cases hid : id = callID
          · right
            right
            refine ⟨⟨env, userID, by rw [hid]⟩, ?_⟩
            rw [if_pos hid]
            cases hf : w.db.active_calls.find? (fun c => c.CallID == id) with
            | none => simp [hf] at hs
            | some c => simp
          · left
            rw [if_neg hid]
            exact hs
  refine ⟨main, ?_⟩
  intro hna hact
  rcases main with h | ⟨_, h⟩ | ⟨_, h⟩
  · rw [h] at hact
    exact hna (Option.some.inj hact)
  · rw [h] at hact
    exact absurd (Option.some.inj hact) (by decide)
  · rw [h] at hact
    exact absurd (Option.some.inj hact) (by decide)

theorem InvitationRepo.GetByID_of_row (db : DB) (env : Env) (id : Int) (r : InvitationRow)
    (hwf : db.WF) (hq : env.fault .invitationGetByID = none)
    (hrow : db.call_invitations.find? (fun r => r.id == id) = some r) :
    ∃ i, InvitationRepo.GetByID db env id = .ok (some i) ∧
      InvitationRepo.joinUsers db r = some i := by
  have hmem : r ∈ db.call_invitations := List.mem_of_find?_eq_some hrow
  obtain ⟨i, hi⟩ := joinUsers_isSome db r (hwf.2.2 r hmem)
  refine ⟨i, ?_, hi⟩
  simp [InvitationRepo.GetByID, hq, find?_filterMap_joinUsers db db.call_invitations id hwf.2.2,
    hrow, hi]

/-- The stored row after a successful status write on an existing invitation. -/
theorem InvitationRepo.UpdateStatus_find (db : DB) (env : Env) (id : Int) (status : String)
    (r : InvitationRow) (hq : env.fault (.invitationUpdateStatus id) = none)
    (hrow : db.call_invitations.find? (fun r => r.id == id) = some r) :
    (InvitationRepo.UpdateStatus db env id status).1.call_invitations.find?
        (fun r => r.id == id) =
      some { r with status := status,
                    responded_at :=
                      if status = "accepted" ∨ status = "rejected" then some env.now else none } := by
  have herr := (InvitationRepo.UpdateStatus_err db env id status).mpr hq
  have hid : r.id = id := by simpa using List.find?_some hrow
  rw [InvitationRepo.UpdateStatus_rows, if_pos herr,
    find?_id_map _ _ (by intro x; by_cases h : x.id = id <;> simp [h]), hrow]
  simp [hid]

/-- C4: for a pending invitation answered by its invitee, with storage and
token signing succeeding and no registered channel closed. With `reject`: the
invitation is `rejected`, the history status of the call is `rejected`, nothing
and no error is returned, an inviter connected on a channel of capacity 256
gets exactly the one `invitation_rejected` event appended when there is room,
and a second `reject` fails. With `accept`: the invitation is `accepted`, the
result carries the room name of the invitation and a token for that room and
the name of the responder, and the inviter gets the one `invitation_accepted`
event. -/
theorem respondToInvitation_reject_and_accept (w : World) (env : Env)
    (invitationID userID : Int) (r : InvitationRow) (hwf : w.db.WF)
    (hrow : w.db.call_invitations.find? (fun r => r.id == invitationID) = some r)
    (hpend : r.status = "pending") (hinvitee : r.invitee_id = userID)
    (hq : ∀ q, env.fault q = none) (hjwt : env.toJWTErr = none)
    (hopen : ∀ h, w.wsHub = some h → h.Open) :
    ((CallService.RespondToInvitation w env invitationID userID "reject").1.db.invitationStatus
        invitationID = some "rejected" ∧
      (CallService.RespondToInvitation w env invitationID userID "reject").1.db.historyStatus
        r.call_id = (w.db.historyStatus r.call_id).map (fun _ => "rejected") ∧
      (CallService.RespondToInvitation w env invitationID userID "reject").2 = .ok none ∧
      (∀ h inviter invitee conn, w.wsHub = some h →
        w.db.users.find? (fun u => u.ID == r.inviter_id) = some inviter →
        w.db.users.find? (fun u => u.ID == r.invitee_id) = some invitee →
        h.connections inviter.Username = some conn → (h.chans conn.Send).cap = 256 →
        h.Offered conn.Send 256
          (Bytes.message
            { type := "invitation_rejected",
              data := .invitationResponse
                { InvitationID := invitationID, Invitee := invitee.Username,
                  Status := "rejected", Timestamp := "" } })
          (CallService.RespondToInvitation w env invitationID userID "reject").1.wsHub) ∧
      (∀ env2 : Env, env2.fault .invitationGetByID = none →
        CallService.RespondToInvitation
          (CallService.RespondToInvitation w env invitationID userID "reject").1 env2
          invitationID userID "reject" =
        ((CallService.RespondToInvitation w env invitationID userID "reject").1,
          .error "invitation already responded"))) ∧
    ((CallService.RespondToInvitation w env invitationID userID "accept").1.db.invitationStatus
        invitationID = some "accepted" ∧
      (∀ invitee, w.db.users.find? (fun u => u.ID == r.invitee_id) = some invitee →
        (CallService.RespondToInvitation w env invitationID userID "accept").2 =
          .ok (some
            { Token := { Identity := invitee.Username, Room := r.room_name, RoomJoin := true,
                         RoomCreate := true, ValidFor := 24 * 3600 * 1000000000 },
              RoomName := r.room_name })) ∧
      (∀ h inviter invitee conn, w.wsHub = some h →
        w.db.users.find? (fun u => u.ID == r.inviter_id) = some inviter →
        w.db.users.find? (fun u => u.ID == r.invitee_id) = some invitee →
        h.connections inviter.Username = some conn → (h.chans conn.Send).cap = 256 →
        h.Offered conn.Send 256
          (Bytes.message
            { type := "invitation_accepted",
              data := .invitationResponse
                { InvitationID := invitationID, Invitee := invitee.Username,
                  Status := "accepted", Timestamp := "" } })
          (CallService.RespondToInvitation w env invitationID userID "accept").1.wsHub)) := by
  obtain ⟨i, hget, hj⟩ := InvitationRepo.GetByID_of_row w.db env invitationID r hwf
    (hq _) hrow
  have hf := joinUsers_fields w.db r i hj
  have hi1 : i.InviteeID = userID := hf.2.2.2.1.trans hinvitee
  have hi2 : i.Status = "pending" := hf.2.2.2.2.1.trans hpend
  have hmem : r ∈ w.db.call_invitations := List.mem_of_find?_eq_some hrow
  obtain ⟨inviter0, hinv0⟩ := find?_user_isSome w.db.users r.inviter_id (hwf.2.2 r hmem).1
  obtain ⟨invitee0, hinv1⟩ := find?_user_isSome w.db.users r.invitee_id (hwf.2.2 r hmem).2
  have hinvname : i.Invitee = invitee0.Username := by
    have := hf.2.2.2.2.2.2.2.2.2
    rw [hinv1] at this
    exact (Option.some.inj this).symm
  -- the notification, for either answer
  have hnotify : ∀ (db : DB) (status : String), db.users = w.db.users →
      (CallService.notifyInviter db env w.wsHub i invitationID status).2 = true ∧
      (∀ h inviter invitee conn, w.wsHub = some h →
        w.db.users.find? (fun u => u.ID == r.inviter_id) = some inviter →
        w.db.users.find? (fun u => u.ID == r.invitee_id) = some invitee →
        h.connections inviter.Username = some conn → (h.chans conn.Send).cap = 256 →
        h.Offered conn.Send 256
          (Bytes.message
            { type := if status = "accepted" then "invitation_accepted"
                      else "invitation_rejected",
              data := .invitationResponse
                { InvitationID := invitationID, Invitee := invitee.Username,
                  Status := status, Timestamp := "" } })
          (CallService.notifyInviter db env w.wsHub i invitationID status).1) := by
    intro db status hu
    cases hhub : w.wsHub with
    | none =>
      refine ⟨rfl, ?_⟩
      intro h inviter invitee conn hh
      cases hh
    | some h0 =>
      have hfind : db.users.find? (fun u => u.ID == i.InviterID) = some inviter0 := by
        rw [hu, hf.2.2.1]
        exact hinv0
      rw [CallService.notifyInviter_eq db env h0 i invitationID status inviter0 (hq _) hfind
        (hopen h0 hhub)]
      refine ⟨rfl, ?_⟩
      intro h inviter invitee conn hh hi he hc hcap
      cases hh
      rw [hinv0] at hi
      rw [hinv1] at he
      cases hi
      cases he
      show h0.Offered conn.Send 256 _
        (h0.BroadcastInvitationResponse inviter0.Username invitationID i.Invitee status)
      unfold WebSocketHub.BroadcastInvitationResponse
      simp only [hc, hinvname]
      exact offer_offered h0 conn _ (hopen h0 hhub _ conn hc) hcap
  constructor
  · -- reject
    have heq := CallService.RespondToInvitation_reject_eq w env invitationID userID i hget
      hi1 hi2 (hq _)
    have hu := InvitationRepo.invitationUpdateStatus_frame w.db env invitationID "rejected"
    have hh := HistoryService.UpdateHistoryEntry_frame
      (InvitationRepo.UpdateStatus w.db env invitationID "rejected").1 env i.CallID env.now 0
      "rejected"
    have hn := hnotify (HistoryService.UpdateHistoryEntry
      (InvitationRepo.UpdateStatus w.db env invitationID "rejected").1 env i.CallID env.now 0
      "rejected").1 "rejected" (hh.1.trans hu.1)
    have hfindnew := InvitationRepo.UpdateStatus_find w.db env invitationID "rejected" r
      (hq _) hrow
    have hstatus : (CallService.RespondToInvitation w env invitationID userID
        "reject").1.db.invitationStatus invitationID = some "rejected" := by
      rw [heq]
      show Option.map _ (List.find? _ (HistoryService.UpdateHistoryEntry
        (InvitationRepo.UpdateStatus w.db env invitationID "rejected").1 env i.CallID env.now 0
        "rejected").1.call_invitations) = _
      rw [hh.2.1, hfindnew]
      rfl
    refine ⟨hstatus, ?_, ?_, ?_, ?_⟩
    · rw [heq]
      show (HistoryService.UpdateHistoryEntry
        (InvitationRepo.UpdateStatus w.db env invitationID "rejected").1 env i.CallID env.now 0
        "rejected").1.historyStatus r.call_id = _
      rw [← hf.2.1, HistoryService.UpdateHistoryEntry_status _ _ _ _ _ _ (hq _)]
      unfold DB.historyStatus
      rw [hu.2.2.1]
    · rw [heq]
      simp [hn.1]
    · intro h inviter invitee conn h1 h2 h3 h4 h5
      rw [heq]
      have := hn.2 h inviter invitee conn h1 h2 h3 h4 h5
      simpa using this
    · intro env2 hq2
      have hwf2 := CallService.RespondToInvitation_WF w env invitationID userID "reject" hwf
      have hrow2 : (CallService.RespondToInvitation w env invitationID userID
          "reject").1.db.call_invitations.find? (fun r => r.id == invitationID) =
          some { r with status := "rejected",
                        responded_at :=
                          if ("rejected" : String) = "accepted" ∨ ("rejected" : String) = "rejected"
                          then some env.now else none } := by
        rw [heq]
        show List.find? _ (HistoryService.UpdateHistoryEntry
          (InvitationRepo.UpdateStatus w.db env invitationID "rejected").1 env i.CallID env.now 0
          "rejected").1.call_invitations = _
        rw [hh.2.1, hfindnew]
      exact CallService.RespondToInvitation_already_responded _ env2 invitationID userID
        "reject" _ hwf2 hq2 hrow2 hinvitee (by show ("rejected" : String) ≠ "pending"; decide)
  · -- accept
    have hfuser : w.db.users.find? (fun u => u.ID == userID) = some invitee0 := by
      rw [← hinvitee]
      exact hinv1
    have heq := CallService.RespondToInvitation_accept_eq w env invitationID userID i invitee0
      hget hi1 hi2 (hq _) (hq _) hfuser hjwt
    have hu := InvitationRepo.invitationUpdateStatus_frame w.db env invitationID "accepted"
    have hn := hnotify (InvitationRepo.UpdateStatus w.db env invitationID "accepted").1
      "accepted" hu.1
    have hfindnew := InvitationRepo.UpdateStatus_find w.db env invitationID "accepted" r
      (hq _) hrow
    refine ⟨?_, ?_, ?_⟩
    · rw [heq]
      show Option.map _ (List.find? _
        (InvitationRepo.UpdateStatus w.db env invitationID "accepted").1.call_invitations) = _
      rw [hfindnew]
      rfl
    · intro invitee he
      rw [hinv1] at he
      cases he
      rw [heq]
      simp [hn.1, hf.2.2.2.2.2.1]
    · intro h inviter invitee conn h1 h2 h3 h4 h5
      rw [heq]
      have := hn.2 h inviter invitee conn h1 h2 h3 h4 h5
      simpa using this

/-! ## Worked instances -/

/-- The example states are reachable. -/
theorem exWorldCalled_reachable : Reachable exWorldCalled :=
  Reachable.next _ _ (Reachable.init exWorld0 ⟨rfl, rfl, rfl, rfl, rfl, rfl⟩)

/-- The state after the acceptance is reachable. -/
theorem exWorldAccepted_reachable : Reachable exWorldAccepted :=
  Reachable.next _ _ exWorldCalled_reachable

/-- The state after the cancellation is reachable. -/
theorem exWorldCancelled_reachable : Reachable exWorldCancelled :=
  Reachable.next _ _ exWorldAccepted_reachable


/-- Counterexample to C1 as stated: after `alice` called and then cancelled
`call-1`, the state is reachable and the call is `cancelled`; `EndCall` by `bob`
then sets it to `ended`, and a further `CancelCall` by `alice` sets it back to
`cancelled`. So a terminal status does not stay as it is. -/
theorem call_status_cancelled_then_ended :
    Reachable exWorldCancelled ∧
    exWorldCancelled.db.callStatus "call-1" = some "cancelled" ∧
    (step exWorldCancelled (.EndCall (exEnv 300) "call-1" 2)).db.callStatus "call-1" =
      some "ended" ∧
    (step (step exWorldCancelled (.EndCall (exEnv 300) "call-1" 2))
      (.CancelCall (exEnv 400) "call-1" 1)).db.callStatus "call-1" = some "cancelled" ∧
    ¬ (∀ (w : World) (op : Op) (id s : String), Reachable w → w.db.callStatus id = some s →
        (s = "ended" ∨ s = "cancelled") → (step w op).db.callStatus id = some s) := by
  have h1 : exWorldCancelled.db.callStatus "call-1" = some "cancelled" := by decide
  have h2 : (step exWorldCancelled (.EndCall (exEnv 300) "call-1" 2)).db.callStatus "call-1" =
      some "ended" := by decide
  refine ⟨exWorldCancelled_reachable, h1, h2, by decide, ?_⟩
  intro hall
  have h3 := hall exWorldCancelled (.EndCall (exEnv 300) "call-1" 2) "call-1" "cancelled"
    exWorldCancelled_reachable h1 (Or.inr rfl)
  rw [h2] at h3
  exact absurd h3 (by decide)

/-- Witness for C1 as amended: the cancelled call of the example is not
`active` after a `CancelCall` attempted by `bob`. -/
theorem call_status_changes_only_by_end_or_cancel_witness :
    exWorldCancelled.db.callStatus "call-1" = some "cancelled" ∧
    (step exWorldCancelled (.CancelCall (exEnv 300) "call-1" 2)).db.callStatus "call-1" ≠
      some "active" :=
  have h1 : exWorldCancelled.db.callStatus "call-1" = some "cancelled" := by decide
  ⟨h1, (call_status_changes_only_by_end_or_cancel exWorldCancelled
    (.CancelCall (exEnv 300) "call-1" 2) "call-1" "cancelled" h1).2 (by decide)⟩

/-- Witness for C2: the invitation that `carol` accepted is still `accepted`
after `alice` cancels the call. -/
theorem invitation_status_is_terminal_witness :
    Reachable exWorldAccepted ∧ exWorldAccepted.db.invitationStatus 2 = some "accepted" ∧
    (step exWorldAccepted (.CancelCall (exEnv 200) "call-1" 1)).db.invitationStatus 2 =
      some "accepted" :=
  have h1 : exWorldAccepted.db.invitationStatus 2 = some "accepted" := by decide
  ⟨exWorldAccepted_reachable, h1,
    invitation_status_is_terminal exWorldAccepted (.CancelCall (exEnv 200) "call-1" 1) 2
      "accepted" exWorldAccepted_reachable h1 (by decide)⟩

/-- Witness for C3: in the example there is no invitation `7`, invitation `2`
is not addressed to `bob`, and `carol` has already answered it. -/
theorem respondToInvitation_fails_without_effect_witness :
    exWorldAccepted.db.WF ∧
    exWorldAccepted.db.call_invitations.find? (fun r => r.id == 2) = some exRowCarol ∧
    CallService.RespondToInvitation exWorldAccepted (exEnv 160) 7 3 "accept" =
      (exWorldAccepted, .error "invitation not found") ∧
    CallService.RespondToInvitation exWorldAccepted (exEnv 160) 2 2 "accept" =
      (exWorldAccepted, .error "unauthorized") ∧
    CallService.RespondToInvitation exWorldAccepted (exEnv 160) 2 3 "reject" =
      (exWorldAccepted, .error "invitation already responded") :=
  have hwf : exWorldAccepted.db.WF := exWorldAccepted_reachable.WF
  have hrow : exWorldAccepted.db.call_invitations.find? (fun r => r.id == 2) =
      some exRowCarol := by decide
  ⟨hwf, hrow,
    (respondToInvitation_fails_without_effect exWorldAccepted (exEnv 160) 7 3 "accept" hwf
      rfl).1 (by decide),
    ((respondToInvitation_fails_without_effect exWorldAccepted (exEnv 160) 2 2 "accept" hwf
      rfl).2 exRowCarol hrow).1 (by decide),
    ((respondToInvitation_fails_without_effect exWorldAccepted (exEnv 160) 2 3 "reject" hwf
      rfl).2 exRowCarol hrow).2 rfl (by decide)⟩

/-- Every channel of the example hub is open. -/
theorem exHubAlice_open : exHubAlice.Open := fun _ _ _ => rfl

/-- Witness for C4: `bob` answers the pending invitation `1` of the example. -/
theorem respondToInvitation_reject_and_accept_witness :
    exWorldCalled.db.WF ∧
    exWorldCalled.db.call_invitations.find? (fun r => r.id == 1) = some exRowBob ∧
    (CallService.RespondToInvitation exWorldCalled (exEnv 150) 1 2
      "reject").1.db.invitationStatus 1 = some "rejected" ∧
    (CallService.RespondToInvitation exWorldCalled (exEnv 150) 1 2 "reject").2 = .ok none ∧
    (CallService.RespondToInvitation exWorldCalled (exEnv 150) 1 2
      "accept").1.db.invitationStatus 1 = some "accepted" ∧
    (CallService.RespondToInvitation exWorldCalled (exEnv 150) 1 2 "accept").2 =
      .ok (some
        { Token := { Identity := "bob", Room := "room-1", RoomJoin := true, RoomCreate := true,
                     ValidFor := 24 * 3600 * 1000000000 },
          RoomName := "room-1" }) :=
  have hwf : exWorldCalled.db.WF := exWorldCalled_reachable.WF
  have hrow : exWorldCalled.db.call_invitations.find? (fun r => r.id == 1) = some exRowBob := by
    decide
  have hall := respondToInvitation_reject_and_accept exWorldCalled (exEnv 150) 1 2 exRowBob hwf
    hrow rfl rfl (fun _ => rfl) rfl
    (fun h hh => by
      have : h = exHubAlice := (Option.some.inj hh).symm
      rw [this]
      exact exHubAlice_open)
  ⟨hwf, hrow, hall.1.1, hall.1.2.2.1, hall.2.1,
    hall.2.2.1 { ID := 2, Username := "bob", CreatedAt := 6 } (by decide)⟩

/-- Witness for C5: when `alice` cancels the call, the pending invitation of
`bob` becomes `cancelled` and the accepted one of `carol` stays `accepted`. -/
theorem cancelCall_cancels_exactly_the_pending_witness :
    exWorldAccepted.db.WF ∧ exWorldAccepted.db.call_invitations = [exRowBob, exRowCarol] ∧
    (CallService.CancelCall exWorldAccepted (exEnv 200) "call-1" 1).1.db.invitationStatus 1 =
      some "cancelled" ∧
    (CallService.CancelCall exWorldAccepted (exEnv 200) "call-1" 1).1.db.invitationStatus 2 =
      some "accepted" :=
  have hwf : exWorldAccepted.db.WF := exWorldAccepted_reachable.WF
  have hrows : exWorldAccepted.db.call_invitations = [exRowBob, exRowCarol] := by decide
  have hall := cancelCall_cancels_exactly_the_pending exWorldAccepted (exEnv 200) "call-1" 1
    { ID := 1, CallID := "call-1", RoomName := "room-1", CallType := "video", CreatedBy := 1,
      CreatedAt := 100, EndedAt := none, Status := "active" }
    hwf (by decide) rfl rfl rfl (fun _ => rfl)
  ⟨hwf, hrows, (hall exRowBob (by rw [hrows]; decide)).1 (by decide),
    (hall exRowCarol (by rw [hrows]; decide)).2 (by decide)⟩

/-- Witness for C6: there is no call `call-9`, and `bob` did not create
`call-1`. -/
theorem cancelCall_fails_without_effect_witness :
    CallService.CancelCall exWorldCalled (exEnv 200) "call-9" 1 =
      (exWorldCalled, .error "call not found") ∧
    CallService.CancelCall exWorldCalled (exEnv 200) "call-1" 2 =
      (exWorldCalled, .error "unauthorized: only creator can cancel the call") :=
  ⟨(cancelCall_fails_without_effect exWorldCalled (exEnv 200) "call-9" 1 rfl).1 (by decide),
    (cancelCall_fails_without_effect exWorldCalled (exEnv 200) "call-1" 2 rfl).2
      { ID := 1, CallID := "call-1", RoomName := "room-1", CallType := "video", CreatedBy := 1,
        CreatedAt := 100, EndedAt := none, Status := "active" } (by decide) (by decide)⟩

/-! ## Outbound pump -/

/-- C11, as the code has it: after dequeuing a message, `writePump` writes into
one frame that message followed by, for every message queued at that moment, a
newline and that message, and empties the buffer; the frame consists of the
single dequeued message exactly when nothing else was queued. -/
theorem writePump_frame_batches_queue (message : Bytes) (queued : List Bytes) (cap : Nat)
    (closed : Bool) :
    Client.writePumpMessage { buf := message :: queued, cap := cap, closed := closed } false =
      (.textMessage (.payload message :: queued.flatMap (fun m => [.newline, .payload m])),
       { buf := [], cap := cap, closed := closed }) ∧
    ((Client.writePumpMessage { buf := message :: queued, cap := cap, closed := closed }
        false).1 = .textMessage [.payload message] ↔ queued = []) := by
  refine ⟨rfl, ?_⟩
  show PumpResult.textMessage _ = PumpResult.textMessage _ ↔ _
  constructor
  · intro h
    cases queued with
    | nil => rfl
    | cons q rest => simp at h
  · rintro rfl
    rfl

/-- C11, counterexample: with two events queued for `alice`, the pump writes
one frame that holds both JSON objects, separated by a newline. -/
theorem writePump_frame_of_two_queued :
    exHubTwoQueued.map (fun h => (Client.writePumpMessage (h.chans 1) false).1) =
      some (.textMessage
        [.payload (.message { type := "call_ended", data := .callRef "call-1" "" }),
         .newline,
         .payload (.message { type := "call_cancelled", data := .callRef "call-2" "" })]) := by
  decide

/-! ## The list of scheduled calls of a user -/

theorem sortPass_perm (x : ScheduledCall) (rest : List ScheduledCall) :
    ((sortPass x rest).1 :: (sortPass x rest).2).Perm (x :: rest) := by
  induction rest generalizing x with
  | nil => exact List.Perm.refl _
  | cons y rest ih =>
    unfold sortPass
    by_cases h : x.ScheduledAt.After y.ScheduledAt = true
    · rw [if_pos h]
      exact (List.Perm.swap _ _ _).trans ((ih y).cons x)
    · rw [if_neg h]
      exact ((List.Perm.swap _ _ _).trans ((ih x).cons y)).trans (List.Perm.swap _ _ _)

theorem sortPass_length (x : ScheduledCall) (rest : List ScheduledCall) :
    (sortPass x rest).2.length = rest.length := by
  have := (sortPass_perm x rest).length_eq
  simpa using this

theorem sortPass_le_head (x : ScheduledCall) (rest : List ScheduledCall) :
    (sortPass x rest).1.ScheduledAt ≤ x.ScheduledAt := by
  induction rest generalizing x with
  | nil => exact le_refl _
  | cons y rest ih =>
    unfold sortPass
    by_cases h : x.ScheduledAt.After y.ScheduledAt = true
    · rw [if_pos h]
      have hxy : y.ScheduledAt < x.ScheduledAt := by simpa [Time.After] using h
      exact le_trans (ih y) (le_of_lt hxy)
    · rw [if_neg h]
      exact ih x

theorem sortPass_min (x : ScheduledCall) (rest : List ScheduledCall) :
    ∀ y ∈ (sortPass x rest).2, (sortPass x rest).1.ScheduledAt ≤ y.ScheduledAt := by
  induction rest generalizing x with
  | nil =>
    intro y hy
    simp [sortPass] at hy
  | cons z rest ih =>
    intro y hy
    unfold sortPass at hy ⊢
    by_cases h : x.ScheduledAt.After z.ScheduledAt = true
    · rw [if_pos h] at hy ⊢
      have hxz : z.ScheduledAt < x.ScheduledAt := by simpa [Time.After] using h
      rcases List.mem_cons.mp hy with rfl | hy
      · exact le_trans (sortPass_le_head z rest) (le_of_lt hxz)
      · exact ih z y hy
    · rw [if_neg h] at hy ⊢
      have hxz : x.ScheduledAt ≤ z.ScheduledAt := by
        have : ¬ z.ScheduledAt < x.ScheduledAt := by simpa [Time.After] using h
        exact not_lt.mp this
      rcases List.mem_cons.mp hy with rfl | hy
      · exact le_trans (sortPass_le_head x rest) hxz
      · exact ih x y hy

theorem sortLoop_perm (passes : Nat) (calls : List ScheduledCall) :
    (sortLoop passes calls).Perm calls := by
  induction passes generalizing calls with
  | zero => exact List.Perm.refl _
  | succ n ih =>
    cases calls with
    | nil => exact List.Perm.refl _
    | cons x rest =>
      show ((sortPass x rest).1 :: sortLoop n (sortPass x rest).2).Perm (x :: rest)
      exact ((ih _).cons _).trans (sortPass_perm x rest)

theorem sortLoop_sorted (passes : Nat) (calls : List ScheduledCall)
    (h : calls.length ≤ passes + 1) :
    (sortLoop passes calls).Pairwise (fun a b => a.ScheduledAt ≤ b.ScheduledAt) := by
  induction passes generalizing calls with
  | zero =>
    cases calls with
    | nil => exact List.Pairwise.nil
    | cons x rest =>
      cases rest with
      | nil => exact List.pairwise_singleton _ _
      | cons y rest => simp at h
  | succ n ih =>
    cases calls with
    | nil => exact List.Pairwise.nil
    | cons x rest =>
      show ((sortPass x rest).1 :: sortLoop n (sortPass x rest).2).Pairwise _
      refine List.Pairwise.cons ?_ (ih _ ?_)
      · intro y hy
        exact sortPass_min x rest y ((sortLoop_perm n _).mem_iff.mp hy)
      · rw [sortPass_length]
        simpa using h

theorem sortByScheduledAt_perm (calls : List ScheduledCall) :
    (sortByScheduledAt calls).Perm calls :=
  sortLoop_perm _ _

theorem sortByScheduledAt_sorted (calls : List ScheduledCall) :
    (sortByScheduledAt calls).Pairwise (fun a b => a.ScheduledAt ≤ b.ScheduledAt) :=
  sortLoop_sorted _ _ (by omega)

theorem CallMap.has_iff (m : CallMap) (id : Int) :
    m.has id = true ↔ id ∈ m.map (fun e => e.1) := by
  unfold CallMap.has
  induction m with
  | nil => simp
  | cons e m ih =>
    rw [List.any_cons, Bool.or_eq_true, ih]
    simp only [List.map_cons, List.mem_cons, beq_iff_eq]
    constructor
    · rintro (h | h)
      · exact Or.inl h.symm
      · exact Or.inr h
    · rintro (h | h)
      · exact Or.inl h.symm
      · exact Or.inr h

theorem CallMap.set_keys (m : CallMap) (id : Int) (call : ScheduledCall) :
    (m.set id call).map (fun e => e.1) =
      if m.has id = true then m.map (fun e => e.1) else m.map (fun e => e.1) ++ [id] := by
  unfold CallMap.set
  by_cases h : m.has id = true
  · rw [if_pos h, if_pos h, List.map_map]
    apply List.map_congr_left
    intro e _
    by_cases he : e.1 = id <;> simp [he]
  · rw [if_neg h, if_neg h]
    simp

theorem CallMap.set_values (m : CallMap) (id : Int) (call : ScheduledCall) (hid : call.ID = id)
    (hm : ∀ e ∈ m, e.2.ID = e.1) : ∀ e ∈ m.set id call, e.2.ID = e.1 := by
  unfold CallMap.set
  by_cases h : m.has id = true
  · rw [if_pos h]
    intro e he
    obtain ⟨e0, he0, rfl⟩ := List.mem_map.mp he
    by_cases h1 : e0.1 = id
    · simp [h1, hid]
    · simp [h1, hm e0 he0]
  · rw [if_neg h]
    intro e he
    rcases List.mem_append.mp he with he | he
    · exact hm e he
    · simp at he
      subst he
      exact hid

/-- The map keeps distinct keys, stores each call under its own id, and after
the first loop holds the ids it had and those of the created calls. -/
theorem mergeCalls_created (created : List ScheduledCall) (m : CallMap)
    (hnd : (m.map (fun e => e.1)).Nodup) (hm : ∀ e ∈ m, e.2.ID = e.1) :
    ((created.foldl (fun m call => m.set call.ID call) m).map (fun e => e.1)).Nodup ∧
    (∀ e ∈ created.foldl (fun m call => m.set call.ID call) m, e.2.ID = e.1) ∧
    (∀ id, id ∈ (created.foldl (fun m call => m.set call.ID call) m).map (fun e => e.1) ↔
      id ∈ m.map (fun e => e.1) ∨ id ∈ created.map (fun c => c.ID)) := by
  induction created generalizing m with
  | nil => exact ⟨hnd, hm, by simp⟩
  | cons c rest ih =>
    have hkeys := CallMap.set_keys m c.ID c
    have hnd1 : ((m.set c.ID c).map (fun e => e.1)).Nodup := by
      rw [hkeys]
      by_cases h : m.has c.ID = true
      · rw [if_pos h]
        exact hnd
      · rw [if_neg h]
        have hnot : c.ID ∉ m.map (fun e => e.1) := fun hin => h ((CallMap.has_iff m c.ID).mpr hin)
        exact List.Nodup.append hnd (List.nodup_singleton _) (by
          intro a ha hb
          simp at hb
          subst hb
          exact hnot ha)
    obtain ⟨h1, h2, h3⟩ := ih (m.set c.ID c) hnd1 (CallMap.set_values m c.ID c rfl hm)
    refine ⟨h1, h2, ?_⟩
    intro id
    rw [List.foldl_cons, h3 id, hkeys]
    by_cases h : m.has c.ID = true
    · rw [if_pos h]
      have hin := (CallMap.has_iff m c.ID).mp h
      simp only [List.map_cons, List.mem_cons]
      constructor
      · rintro (h | h)
        · exact Or.inl h
        · exact Or.inr (Or.inr h)
      · rintro (h | h | h)
        · exact Or.inl h
        · exact Or.inl (h ▸ hin)
        · exact Or.inr h
    · rw [if_neg h]
      simp only [List.map_cons, List.mem_cons, List.mem_append, List.mem_singleton]
      tauto

theorem mergeCalls_invited (invited : List ScheduledCall) (m : CallMap)
    (hnd : (m.map (fun e => e.1)).Nodup) (hm : ∀ e ∈ m, e.2.ID = e.1) :
    ((invited.foldl (fun m call => if m.has call.ID then m else m.set call.ID call)
      m).map (fun e => e.1)).Nodup ∧
    (∀ e ∈ invited.foldl (fun m call => if m.has call.ID then m else m.set call.ID call) m,
      e.2.ID = e.1) ∧
    (∀ id, id ∈ (invited.foldl (fun m call => if m.has call.ID then m else m.set call.ID call)
        m).map (fun e => e.1) ↔
      id ∈ m.map (fun e => e.1) ∨ id ∈ invited.map (fun c => c.ID)) := by
  induction invited generalizing m with
  | nil => exact ⟨hnd, hm, by simp⟩
  | cons c rest ih =>
    rw [List.foldl_cons]
    by_cases h : m.has c.ID = true
    · rw [if_pos h]
      obtain ⟨h1, h2, h3⟩ := ih m hnd hm
      refine ⟨h1, h2, ?_⟩
      intro id
      rw [h3 id]
      have hin := (CallMap.has_iff m c.ID).mp h
      simp only [List.map_cons, List.mem_cons]
      constructor
      · rintro (h | h)
        · exact Or.inl h
        · exact Or.inr (Or.inr h)
      · rintro (h | h | h)
        · exact Or.inl h
        · exact Or.inl (h ▸ hin)
        · exact Or.inr h
    · rw [if_neg h]
      have hkeys := CallMap.set_keys m c.ID c
      rw [if_neg h] at hkeys
      have hnot : c.ID ∉ m.map (fun e => e.1) := fun hin => h ((CallMap.has_iff m c.ID).mpr hin)
      have hnd1 : ((m.set c.ID c).map (fun e => e.1)).Nodup := by
        rw [hkeys]
        exact List.Nodup.append hnd (List.nodup_singleton _) (by
          intro a ha hb
          simp at hb
          subst hb
          exact hnot ha)
      obtain ⟨h1, h2, h3⟩ := ih (m.set c.ID c) hnd1 (CallMap.set_values m c.ID c rfl hm)
      refine ⟨h1, h2, ?_⟩
      intro id
      rw [h3 id, hkeys]
      simp only [List.map_cons, List.mem_cons, List.mem_append, List.mem_singleton]
      tauto

theorem ScheduledService.mergeCalls_ids (created invited : List ScheduledCall) :
    (((ScheduledService.mergeCalls created invited).map (fun e => e.2)).map
      (fun c => c.ID)).Nodup ∧
    (∀ id, id ∈ ((ScheduledService.mergeCalls created invited).map (fun e => e.2)).map
        (fun c => c.ID) ↔
      id ∈ created.map (fun c => c.ID) ∨ id ∈ invited.map (fun c => c.ID)) := by
  obtain ⟨c1, c2, c3⟩ := mergeCalls_created created [] (by simp) (by simp)
  obtain ⟨i1, i2, i3⟩ := mergeCalls_invited invited _ c1 c2
  have hids : ((ScheduledService.mergeCalls created invited).map (fun e => e.2)).map
      (fun c => c.ID) = (ScheduledService.mergeCalls created invited).map (fun e => e.1) := by
    rw [List.map_map]
    apply List.map_congr_left
    intro e he
    exact i2 e he
  rw [hids]
  refine ⟨i1, ?_⟩
  intro id
  unfold ScheduledService.mergeCalls
  rw [i3 id, c3 id]
  simp

theorem ScheduledService.populateInvitees_same (db : DB) (env : Env) (call : ScheduledCall) :
    (ScheduledService.populateInvitees db env call).ID = call.ID ∧
    (ScheduledService.populateInvitees db env call).ScheduledAt = call.ScheduledAt := by
  unfold ScheduledService.populateInvitees
  split <;> exact ⟨rfl, rfl⟩

/-- C15: for every two lists the repository returns (the calls the user
created and the calls the user is invited to) and every order in which the map
is walked, `GetScheduledCalls` returns a list in which no id occurs twice, in
which an id occurs exactly when it occurs in one of the two lists, and in which
no call is scheduled after a later element of the list. -/
theorem getScheduledCalls_union_dedup_sorted (db : DB) (env : Env)
    (mapOrder : List ScheduledCall → List ScheduledCall) (userID : Int) (status : String)
    (created invited : List ScheduledCall)
    (horder : ∀ l, (mapOrder l).Perm l)
    (hcreated : ScheduledCallRepo.GetByUserID db env userID status = .ok created)
    (hinvited : ScheduledCallRepo.GetByInviteeID db env userID status = .ok invited) :
    ∃ calls, ScheduledService.GetScheduledCalls db env mapOrder userID status = .ok calls ∧
      (calls.map (fun c => c.ID)).Nodup ∧
      (∀ id, id ∈ calls.map (fun c => c.ID) ↔
        id ∈ created.map (fun c => c.ID) ∨ id ∈ invited.map (fun c => c.ID)) ∧
      calls.Pairwise (fun a b => ¬ a.ScheduledAt.After b.ScheduledAt = true) := by
  obtain ⟨hnd, hmem⟩ := ScheduledService.mergeCalls_ids created invited
  have hperm : ((sortByScheduledAt (mapOrder
      ((ScheduledService.mergeCalls created invited).map (fun e => e.2)))).map
      (fun c => c.ID)).Perm
      (((ScheduledService.mergeCalls created invited).map (fun e => e.2)).map (fun c => c.ID)) :=
    ((sortByScheduledAt_perm _).trans (horder _)).map _
  have hids : ((sortByScheduledAt (mapOrder
      ((ScheduledService.mergeCalls created invited).map (fun e => e.2)))).map
      (ScheduledService.populateInvitees db env)).map (fun c => c.ID) =
      (sortByScheduledAt (mapOrder
      ((ScheduledService.mergeCalls created invited).map (fun e => e.2)))).map
      (fun c => c.ID) := by
    rw [List.map_map]
    apply List.map_congr_left
    intro c _
    exact (ScheduledService.populateInvitees_same db env c).1
  refine ⟨(sortByScheduledAt (mapOrder
      ((ScheduledService.mergeCalls created invited).map (fun e => e.2)))).map
      (ScheduledService.populateInvitees db env), ?_, ?_, ?_, ?_⟩
  · simp only [ScheduledService.GetScheduledCalls, hcreated, hinvited]
  · rw [hids]
    exact hperm.nodup_iff.mpr hnd
  · intro id
    rw [hids, hperm.mem_iff]
    exact hmem id
  · rw [List.pairwise_map]
    refine (sortByScheduledAt_sorted _).imp ?_
    intro a b hab
    rw [(ScheduledService.populateInvitees_same db env a).2,
      (ScheduledService.populateInvitees_same db env b).2]
    simpa [Time.After] using hab

/-! ## Hubs whose registered channels are open -/

theorem WebSocketHub.offer_open (h : WebSocketHub) (conn : Connection) (msg : Message)
    (hopen : h.Open) (hc : (h.chans conn.Send).closed = false) :
    ∃ h1, h.offer conn msg = some h1 ∧ h1.Open ∧ h1.connections = h.connections := by
  have key : ∀ c1 : Chan, c1.closed = false →
      ({ h with chans := Function.update h.chans conn.Send c1 } : WebSocketHub).Open := by
    intro c1 hc1 u c huc
    show (Function.update h.chans conn.Send c1 c.Send).closed = false
    by_cases hs : c.Send = conn.Send
    · rw [hs, Function.update_same]
      exact hc1
    · rw [Function.update_noteq hs]
      exact hopen u c huc
  unfold WebSocketHub.offer marshal Chan.trySend
  simp only [hc]
  rw [if_neg Bool.false_ne_true]
  by_cases hlen : (h.chans conn.Send).buf.length < (h.chans conn.Send).cap
  · rw [if_pos hlen]
    exact ⟨_, rfl, key _ rfl, rfl⟩
  · rw [if_neg hlen]
    exact ⟨_, rfl, key _ hc, rfl⟩

/-- A loop of hub calls over an open hub runs to its end and leaves the hub
open, when each call does. -/
theorem broadcastEach_open {α : Type} (f : WebSocketHub → α → Option WebSocketHub)
    (hf : ∀ h a, h.Open → ∃ h1, f h a = some h1 ∧ h1.Open ∧ h1.connections = h.connections)
    (xs : List α) (h : WebSocketHub) (hopen : h.Open) :
    (broadcastEach f xs h).2 = true ∧ (broadcastEach f xs h).1.Open ∧
      (broadcastEach f xs h).1.connections = h.connections := by
  induction xs generalizing h with
  | nil => exact ⟨rfl, hopen, rfl⟩
  | cons a rest ih =>
    obtain ⟨h1, h1eq, h1open, h1conn⟩ := hf h a hopen
    simp only [broadcastEach, h1eq]
    obtain ⟨r1, r2, r3⟩ := ih h1 h1open
    exact ⟨r1, r2, r3.trans h1conn⟩

theorem WebSocketHub.BroadcastScheduledCallCreated_open (h : WebSocketHub) (username : String)
    (call : Option ScheduledCall) (hopen : h.Open) :
    ∃ h1, h.BroadcastScheduledCallCreated username call = some h1 ∧ h1.Open ∧
      h1.connections = h.connections := by
  unfold WebSocketHub.BroadcastScheduledCallCreated
  cases hc : h.connections username with
  | none => exact ⟨h, rfl, hopen, rfl⟩
  | some conn => exact WebSocketHub.offer_open h conn _ hopen (hopen username conn hc)

theorem WebSocketHub.BroadcastScheduledCallReminder_open (h : WebSocketHub) (username : String)
    (call : Option ScheduledCall) (reminderTime : Duration) (hopen : h.Open) :
    ∃ h1, h.BroadcastScheduledCallReminder username call reminderTime = some h1 ∧ h1.Open ∧
      h1.connections = h.connections := by
  unfold WebSocketHub.BroadcastScheduledCallReminder
  cases hc : h.connections username with
  | none => exact ⟨h, rfl, hopen, rfl⟩
  | some conn => exact WebSocketHub.offer_open h conn _ hopen (hopen username conn hc)

theorem WebSocketHub.BroadcastCallEnded_open (h : WebSocketHub) (username : String)
    (callID : String) (hopen : h.Open) :
    ∃ h1, h.BroadcastCallEnded username callID = some h1 ∧ h1.Open ∧
      h1.connections = h.connections := by
  unfold WebSocketHub.BroadcastCallEnded
  cases hc : h.connections username with
  | none => exact ⟨h, rfl, hopen, rfl⟩
  | some conn => exact WebSocketHub.offer_open h conn _ hopen (hopen username conn hc)

/-! ## Creating a scheduled call -/

theorem ScheduledCallInvitationRepo.scheduledInvitationCreate_frame (db : DB) (env : Env)
    (scheduledCallID inviteeID : Int) :
    (ScheduledCallInvitationRepo.Create db env scheduledCallID inviteeID).1.scheduled_calls =
      db.scheduled_calls ∧
    (ScheduledCallInvitationRepo.Create db env scheduledCallID inviteeID).1.users = db.users := by
  unfold ScheduledCallInvitationRepo.Create
  cases env.fault (.scheduledInvitationCreate inviteeID) with
  | some e => exact ⟨rfl, rfl⟩
  | none =>
    simp only
    split
    · exact ⟨rfl, rfl⟩
    · split <;> exact ⟨rfl, rfl⟩

theorem ScheduledService.scheduledInviteLoop_frame (env : Env) (scheduledCallID : Int)
    (names : List String) (db : DB) (acc : List String) :
    (ScheduledService.inviteLoop env scheduledCallID names db acc).1.scheduled_calls =
      db.scheduled_calls ∧
    (ScheduledService.inviteLoop env scheduledCallID names db acc).1.users = db.users := by
  induction names generalizing db acc with
  | nil => exact ⟨rfl, rfl⟩
  | cons username rest ih =>
    unfold ScheduledService.inviteLoop
    have hf := ScheduledCallInvitationRepo.scheduledInvitationCreate_frame db env scheduledCallID
    split
    · rename_i invitee _
      simp only
      cases (ScheduledCallInvitationRepo.Create db env scheduledCallID invitee.ID).2 with
      | error e => exact ⟨(ih _ _).1.trans (hf invitee.ID).1, (ih _ _).2.trans (hf invitee.ID).2⟩
      | ok r => exact ⟨(ih _ _).1.trans (hf invitee.ID).1, (ih _ _).2.trans (hf invitee.ID).2⟩
    · exact ih _ _

theorem ScheduledCallRepo.Create_ok (db : DB) (env : Env) (callID roomName callType : String)
    (createdBy : Int) (scheduledAt : Time) (scheduledAtZone : Int)
    (timezone recurrence title description joinLink : String)
    (maxParticipants maxDurationSeconds : Int)
    (hq : env.fault .scheduledCreate = none)
    (huniq : ∀ c ∈ db.scheduled_calls, c.CallID ≠ callID ∧ c.RoomName ≠ roomName)
    (hcreator : ∃ u ∈ db.users, u.ID = createdBy) :
    ScheduledCallRepo.Create db env callID roomName callType createdBy scheduledAt
      scheduledAtZone timezone recurrence title description joinLink maxParticipants
      maxDurationSeconds =
    ({ db with
        scheduled_calls := db.scheduled_calls ++
          [{ ID := db.seq_scheduled_calls + 1, CallID := callID, RoomName := roomName,
             CallType := callType, CreatedBy := createdBy, ScheduledAt := scheduledAt,
             ScheduledAtZone := scheduledAtZone, Timezone := timezone, Recurrence := recurrence, Title := title,
             Description := description, JoinLink := joinLink, Status := "scheduled",
             ReminderSentAt := none, MaxParticipants := maxParticipants,
             MaxDurationSeconds := maxDurationSeconds, Invitees := [],
             CreatedAt := env.now, UpdatedAt := env.now }],
        seq_scheduled_calls := db.seq_scheduled_calls + 1 },
     .ok { ID := db.seq_scheduled_calls + 1, CallID := callID, RoomName := roomName,
           CallType := callType, CreatedBy := createdBy, ScheduledAt := scheduledAt,
           ScheduledAtZone := scheduledAtZone, Timezone := timezone, Recurrence := recurrence, Title := title,
           Description := description, JoinLink := joinLink, Status := "scheduled",
           ReminderSentAt := none, MaxParticipants := maxParticipants,
           MaxDurationSeconds := maxDurationSeconds, Invitees := [],
           CreatedAt := env.now, UpdatedAt := env.now }) := by
  have h1 : db.scheduled_calls.any (fun c => c.CallID == callID || c.RoomName == roomName) =
      false := by
    rw [List.any_eq_false]
    intro c hc
    simp [(huniq c hc).1, (huniq c hc).2]
  have h2 : db.users.any (fun u => u.ID == createdBy) = true := by
    rw [List.any_eq_true]
    obtain ⟨u, hu, hid⟩ := hcreator
    exact ⟨u, hu, by simp [hid]⟩
  simp [ScheduledCallRepo.Create, hq, h1, h2]

/-- What `CreateScheduledCall` does once the insert succeeded. -/
theorem ScheduledService.CreateScheduledCall_of_created (w : World) (env : Env)
    (creatorID : Int) (req : CreateScheduledCallRequest) (db1 : DB) (call : ScheduledCall)
    (hopen : ∀ h, w.wsHub = some h → h.Open)
    (hcreated : ScheduledCallRepo.Create w.db env env.uuidCall env.uuidRoom req.CallType
      creatorID req.ScheduledAt req.ScheduledAtZone (if req.Timezone = "" then "UTC" else req.Timezone)
      (if req.Recurrence = "" then "\x7b\"type\":\"none\"\x7d" else req.Recurrence)
      req.Title req.Description ("app://call/join?callId=" ++ env.uuidCall)
      (if req.MaxParticipants ≤ 0 then 20 else req.MaxParticipants)
      (if req.MaxDurationSeconds < 0 then 0 else req.MaxDurationSeconds) = (db1, .ok call)) :
    (ScheduledService.CreateScheduledCall w env creatorID req).2 = .ok call ∧
    (ScheduledService.CreateScheduledCall w env creatorID req).1.db =
      (ScheduledService.inviteLoop env call.ID req.Invitees db1 []).1 ∧
    (∀ h, (ScheduledService.CreateScheduledCall w env creatorID req).1.wsHub = some h →
      h.Open) := by
  unfold ScheduledService.CreateScheduledCall
  simp only [hcreated]
  cases hh : w.wsHub with
  | none => exact ⟨rfl, rfl, by simp⟩
  | some h =>
    have ho := hopen h hh
    simp only
    split
    · rename_i creator _
      obtain ⟨h1, h1eq, h1open, _⟩ :=
        WebSocketHub.BroadcastScheduledCallCreated_open h creator.Username (some call) ho
      simp only [h1eq]
      obtain ⟨s1, s2, _⟩ := broadcastEach_open
        (fun h inviteeUsername => h.BroadcastScheduledCallCreated inviteeUsername (some call))
        (fun h a hopen => WebSocketHub.BroadcastScheduledCallCreated_open h a (some call) hopen)
        (ScheduledService.inviteLoop env call.ID req.Invitees db1 []).2 h1 h1open
      rw [if_neg (by simp [s1])]
      refine ⟨rfl, rfl, ?_⟩
      intro h2 h2eq
      simp only [Option.some.injEq] at h2eq
      exact h2eq ▸ s2
    · refine ⟨rfl, rfl, ?_⟩
      intro h2 h2eq
      simp only [Option.some.injEq] at h2eq
      exact h2eq ▸ ho

/-- C16: when the insert succeeds (no storage fault, fresh identifiers, an
existing creator) and the hub's channels are open, `CreateScheduledCall`
returns a call and stores that same call as a new row; its timezone, recurrence,
participant limit and duration limit are the request's values or, for an empty
timezone, an empty recurrence, a non-positive participant limit and a negative
duration limit, the defaults `UTC`, the JSON text with type `none`, 20 and 0; its
status is `scheduled`. -/
theorem createScheduledCall_applies_defaults (w : World) (env : Env) (creatorID : Int)
    (req : CreateScheduledCallRequest)
    (hopen : ∀ h, w.wsHub = some h → h.Open)
    (hq : env.fault .scheduledCreate = none)
    (huniq : ∀ c ∈ w.db.scheduled_calls, c.CallID ≠ env.uuidCall ∧ c.RoomName ≠ env.uuidRoom)
    (hcreator : ∃ u ∈ w.db.users, u.ID = creatorID) :
    ∃ call, (ScheduledService.CreateScheduledCall w env creatorID req).2 = .ok call ∧
      (ScheduledService.CreateScheduledCall w env creatorID req).1.db.scheduled_calls =
        w.db.scheduled_calls ++ [call] ∧
      call.Timezone = (if req.Timezone = "" then "UTC" else req.Timezone) ∧
      call.Recurrence =
        (if req.Recurrence = "" then "\x7b\"type\":\"none\"\x7d" else req.Recurrence) ∧
      call.MaxParticipants = (if req.MaxParticipants ≤ 0 then 20 else req.MaxParticipants) ∧
      call.MaxDurationSeconds =
        (if req.MaxDurationSeconds < 0 then 0 else req.MaxDurationSeconds) ∧
      call.Status = "scheduled" := by
  have hc := ScheduledCallRepo.Create_ok w.db env env.uuidCall env.uuidRoom req.CallType
    creatorID req.ScheduledAt req.ScheduledAtZone (if req.Timezone = "" then "UTC" else req.Timezone)
    (if req.Recurrence = "" then "\x7b\"type\":\"none\"\x7d" else req.Recurrence)
    req.Title req.Description ("app://call/join?callId=" ++ env.uuidCall)
    (if req.MaxParticipants ≤ 0 then 20 else req.MaxParticipants)
    (if req.MaxDurationSeconds < 0 then 0 else req.MaxDurationSeconds) hq huniq hcreator
  obtain ⟨h1, h2, _⟩ := ScheduledService.CreateScheduledCall_of_created w env creatorID req _ _
    hopen hc
  refine ⟨_, h1, ?_, rfl, rfl, rfl, rfl, rfl⟩
  rw [h2]
  exact (ScheduledService.scheduledInviteLoop_frame env _ req.Invitees _ []).1

/-! ## Scheduled calls: worked instances -/

/-- The state after scheduling is reachable. -/
theorem exWorldScheduled_reachable : ReachableScheduled exWorldScheduled :=
  ReachableScheduled.next _ _
    (ReachableScheduled.init exWorld0 ⟨⟨rfl, rfl, rfl, rfl, rfl, rfl⟩, rfl, rfl, rfl, rfl⟩)

/-- The state after the start is reachable. -/
theorem exWorldStarted_reachable : ReachableScheduled exWorldStarted :=
  ReachableScheduled.next _ _ exWorldScheduled_reachable

/-- Witness for C15: `alice` created call `1` and is invited to call `2`, which
is scheduled earlier; whatever the order of the map, here the reverse one. -/
theorem getScheduledCalls_union_dedup_sorted_witness :
    ∃ calls, ScheduledService.GetScheduledCalls exWorldTwoScheduled.db (exEnv 300)
        List.reverse 1 "" = .ok calls ∧
      (calls.map (fun c => c.ID)).Nodup ∧
      (∀ id, id ∈ calls.map (fun c => c.ID) ↔ id ∈ [1] ∨ id ∈ [2]) ∧
      calls.Pairwise (fun a b => ¬ a.ScheduledAt.After b.ScheduledAt = true) :=
  getScheduledCalls_union_dedup_sorted exWorldTwoScheduled.db (exEnv 300) List.reverse 1 ""
    (exWorldTwoScheduled.db.scheduled_calls.filter (fun c => c.ID == 1))
    (exWorldTwoScheduled.db.scheduled_calls.filter (fun c => c.ID == 2))
    (fun l => List.reverse_perm l) rfl rfl

/-- Witness for C16: the request of the example leaves every optional field
out. -/
theorem createScheduledCall_applies_defaults_witness :
    ∃ call, (ScheduledService.CreateScheduledCall exWorld0 (exEnv 100) 1
        (exRequest 1000 0)).2 = .ok call ∧
      (ScheduledService.CreateScheduledCall exWorld0 (exEnv 100) 1
        (exRequest 1000 0)).1.db.scheduled_calls = [] ++ [call] ∧
      call.Timezone = "UTC" ∧ call.Recurrence = "\x7b\"type\":\"none\"\x7d" ∧
      call.MaxParticipants = 20 ∧ call.MaxDurationSeconds = 0 ∧ call.Status = "scheduled" :=
  createScheduledCall_applies_defaults exWorld0 (exEnv 100) 1 (exRequest 1000 0)
    (fun h hh => by
      have : h = exHubAlice := (Option.some.inj hh).symm
      rw [this]
      exact exHubAlice_open)
    rfl (by decide) (by decide)

/-- C17, as the code has it: the request boundary answers 400 and leaves the
state as it is for every request whose `scheduledAt` is strictly before the
current time (with the message about `scheduledAt` when the call type is
valid); the service operation itself makes no check of `scheduledAt`: whenever
the insert succeeds it stores the call with the requested instant, whatever
that instant is. -/
theorem handleCreateScheduledCall_rejects_past (w : World) (env : Env) (userID : Int)
    (req : CreateScheduledCallRequest) :
    (req.ScheduledAt < env.now →
      (∃ message, HandleCreateScheduledCall w env userID req =
        (w, .ok (.error 400 message))) ∧
      (req.CallType = "video" ∨ req.CallType = "voice" →
        HandleCreateScheduledCall w env userID req =
          (w, .ok (.error 400 "scheduledAt must be in the future")))) ∧
    ((∀ h, w.wsHub = some h → h.Open) → env.fault .scheduledCreate = none →
      (∀ c ∈ w.db.scheduled_calls, c.CallID ≠ env.uuidCall ∧ c.RoomName ≠ env.uuidRoom) →
      (∃ u ∈ w.db.users, u.ID = userID) →
      ∃ call, (ScheduledService.CreateScheduledCall w env userID req).2 = .ok call ∧
        (ScheduledService.CreateScheduledCall w env userID req).1.db.scheduled_calls =
          w.db.scheduled_calls ++ [call] ∧
        call.ScheduledAt = req.ScheduledAt) := by
  constructor
  · intro hpast
    have hb : req.ScheduledAt.Before env.now = true := by simpa [Time.Before] using hpast
    constructor
    · unfold HandleCreateScheduledCall
      by_cases ht : req.CallType ≠ "video" ∧ req.CallType ≠ "voice"
      · rw [if_pos ht]
        exact ⟨_, rfl⟩
      · rw [if_neg ht, if_pos hb]
        exact ⟨_, rfl⟩
    · intro ht
      unfold HandleCreateScheduledCall
      rw [if_neg (by tauto), if_pos hb]
  · intro hopen hq huniq hcreator
    have hc := ScheduledCallRepo.Create_ok w.db env env.uuidCall env.uuidRoom req.CallType
      userID req.ScheduledAt req.ScheduledAtZone (if req.Timezone = "" then "UTC" else req.Timezone)
      (if req.Recurrence = "" then "\x7b\"type\":\"none\"\x7d" else req.Recurrence)
      req.Title req.Description ("app://call/join?callId=" ++ env.uuidCall)
      (if req.MaxParticipants ≤ 0 then 20 else req.MaxParticipants)
      (if req.MaxDurationSeconds < 0 then 0 else req.MaxDurationSeconds) hq huniq hcreator
    obtain ⟨h1, h2, _⟩ := ScheduledService.CreateScheduledCall_of_created w env userID req _ _
      hopen hc
    refine ⟨_, h1, ?_, rfl⟩
    rw [h2]
    exact (ScheduledService.scheduledInviteLoop_frame env _ req.Invitees _ []).1

/-- Counterexample to C17 as stated: at instant 2000 the service operation
accepts a request for instant 1000, which is in the past, and stores the call;
and the request boundary accepts a request for the current instant itself. -/
theorem createScheduledCall_accepts_past_and_present :
    (ScheduledService.CreateScheduledCall exWorld0 (exEnv 2000) 1 (exRequest 1000 0)).2 =
      .ok { ID := 1, CallID := "call-1", RoomName := "room-1", CallType := "video",
            CreatedBy := 1, ScheduledAt := 1000, Timezone := "UTC",
            Recurrence := "\x7b\"type\":\"none\"\x7d", Title := "standup", Description := "",
            JoinLink := "app://call/join?callId=call-1", Status := "scheduled",
            ReminderSentAt := none, MaxParticipants := 20, MaxDurationSeconds := 0,
            Invitees := [], CreatedAt := 2000, UpdatedAt := 2000 } ∧
    (ScheduledService.CreateScheduledCall exWorld0 (exEnv 2000) 1
      (exRequest 1000 0)).1.db.scheduled_calls.map (fun c => (c.ID, c.ScheduledAt)) =
        [(1, 1000)] ∧
    (HandleCreateScheduledCall exWorld0 (exEnv 2000) 1 (exRequest 2000 0)).1.db.scheduled_calls.map
      (fun c => (c.ID, c.ScheduledAt)) = [(1, 2000)] := by
  refine ⟨by decide, by decide, by decide⟩

/-- Witness for C17 as amended: at instant 2000 the boundary refuses the
request for instant 1000, and the service stores it. -/
theorem handleCreateScheduledCall_rejects_past_witness :
    HandleCreateScheduledCall exWorld0 (exEnv 2000) 1 (exRequest 1000 0) =
      (exWorld0, .ok (.error 400 "scheduledAt must be in the future")) ∧
    ∃ call, (ScheduledService.CreateScheduledCall exWorld0 (exEnv 2000) 1
        (exRequest 1000 0)).2 = .ok call ∧
      (ScheduledService.CreateScheduledCall exWorld0 (exEnv 2000) 1
        (exRequest 1000 0)).1.db.scheduled_calls = [] ++ [call] ∧
      call.ScheduledAt = 1000 :=
  ⟨((handleCreateScheduledCall_rejects_past exWorld0 (exEnv 2000) 1 (exRequest 1000 0)).1
      (by decide)).2 (Or.inl rfl),
    (handleCreateScheduledCall_rejects_past exWorld0 (exEnv 2000) 1 (exRequest 1000 0)).2
      (fun h hh => by
        have : h = exHubAlice := (Option.some.inj hh).symm
        rw [this]
        exact exHubAlice_open)
      rfl (by decide) (by decide)⟩

/-- C18, the failing input: a scheduled call for instant 1000 whose duration
limit is 9223372037 seconds (the product with one second does not fit 64 bits
and comes out negative) is refused with `meeting has ended` at instant 200,
before `scheduledAt` and so long before `scheduledAt` plus the limit; the same
start of the call without a limit succeeds. -/
theorem startScheduledCall_long_limit_has_ended :
    exWorldLong.db.scheduled_calls.map
      (fun c => (c.ID, c.CreatedBy, c.Status, c.ScheduledAt, c.MaxDurationSeconds)) =
      [(1, 1, "scheduled", 1000, 9223372037)] ∧
    (ScheduledService.StartScheduledCall exWorldLong (exEnv2 200) 1 1).2 =
      .error "meeting has ended" ∧
    ¬ (200 > 1000 + 9223372037 * Duration.Second) ∧
    (ScheduledService.StartScheduledCall exWorldScheduled (exEnv2 200) 1 1).2 =
      .ok { CallID := "call-2", RoomName := "room-1",
            Token := { Identity := "alice", Room := "room-1", RoomJoin := true,
                       RoomCreate := true, ValidFor := 24 * 3600 * 1000000000 } } := by
  refine ⟨by decide, by decide, by decide, by decide⟩

/-- C19, the failing input: the scheduled call that `alice` created and
started is `started` in a reachable state, and `CancelScheduledCall` by `alice`
sets it to `cancelled`. -/
theorem cancelScheduledCall_cancels_started :
    ReachableScheduled exWorldStarted ∧
    exWorldStarted.db.scheduledStatus 1 = some "started" ∧
    (ScheduledService.CancelScheduledCall exWorldStarted (exEnv 300) 1 1).2 = .ok () ∧
    (stepScheduled exWorldStarted (.CancelScheduledCall (exEnv 300) 1 1)).db.scheduledStatus 1 =
      some "cancelled" ∧
    (ScheduledService.StartScheduledCall exWorldStarted (exEnv2 300) 1 1).2 =
      .error "call is not in scheduled status" := by
  refine ⟨exWorldStarted_reachable, by decide, by decide, by decide, by decide⟩

/-! ## Ending a call -/

theorem HistoryService.CreateHistoryEntry_ok (db : DB) (env : Env)
    (callID roomName callType : String) (createdBy : Int) (participants : List String)
    (hq : env.fault .historyCreate = none) (hcreator : ∃ u ∈ db.users, u.ID = createdBy) :
    HistoryService.CreateHistoryEntry db env callID roomName callType createdBy participants =
      ({ db with
          call_history := db.call_history ++
            [{ ID := db.seq_call_history + 1, CallID := callID, RoomName := roomName,
               CallType := callType, CreatedBy := createdBy, Participants := participants,
               StartedAt := env.now, EndedAt := none, Duration := 0, Status := "pending",
               InvitationIDs := "" }],
          seq_call_history := db.seq_call_history + 1 }, none) := by
  have h2 : db.users.any (fun u => u.ID == createdBy) = true := by
    rw [List.any_eq_true]
    obtain ⟨u, hu, hid⟩ := hcreator
    exact ⟨u, hu, by simp [hid]⟩
  simp [HistoryService.CreateHistoryEntry, CallHistoryRepo.Create, hq, h2]

theorem HistoryService.UpdateHistoryEntry_ok (db : DB) (env : Env) (callID : String)
    (endedAt : Time) (duration : Int) (status : String)
    (hq : env.fault .historyUpdate = none) (hnz : endedAt ≠ 0) :
    HistoryService.UpdateHistoryEntry db env callID endedAt duration status =
      ({ db with call_history := db.call_history.map (fun r =>
          if r.CallID = callID then
            { r with EndedAt := some endedAt, Duration := duration, Status := status }
          else r) }, none) := by
  have hz : endedAt.IsZero = false := by simpa [Time.IsZero] using hnz
  simp [HistoryService.UpdateHistoryEntry, CallHistoryRepo.Update, hq, hz]

theorem CallRepo.UpdateStatus_ok (db : DB) (env : Env) (callID status : String)
    (hq : env.fault .callUpdateStatus = none) :
    CallRepo.UpdateStatus db env callID status =
      ({ db with active_calls := db.active_calls.map (fun c =>
          if c.CallID = callID then
            { c with Status := status,
                     EndedAt := if status = "ended" then some env.now else none }
          else c) }, none) := by
  simp [CallRepo.UpdateStatus, hq]

theorem broadcastAll_open {α : Type} (f : WebSocketHub → α → Option WebSocketHub)
    (hf : ∀ h a, h.Open → ∃ h1, f h a = some h1 ∧ h1.Open ∧ h1.connections = h.connections)
    (xs : List α) (hub : Option WebSocketHub) (hopen : ∀ h, hub = some h → h.Open) :
    (broadcastAll f xs hub).2 = true ∧ ∀ h, (broadcastAll f xs hub).1 = some h → h.Open := by
  cases hub with
  | none => exact ⟨rfl, by simp [broadcastAll]⟩
  | some h0 =>
    obtain ⟨r1, r2, _⟩ := broadcastEach_open f hf xs h0 (hopen h0 rfl)
    refine ⟨r1, ?_⟩
    intro h hh
    simp only [broadcastAll, Option.some.injEq] at hh
    exact hh ▸ r2

/-- What `EndCall` does to a call it finds, when the writes succeed: the
history rows of the call, of which there is at least one (created on the spot
when none was found), are all marked, and so is the call. -/
theorem CallService.EndCall_of_found (w : World) (env : Env) (callID : String) (userID : Int)
    (call : ActiveCall)
    (hget : CallRepo.GetByCallID w.db env callID = .ok (some call))
    (hq1 : env.fault .historyCreate = none) (hq2 : env.fault .historyUpdate = none)
    (hq3 : env.fault .callUpdateStatus = none)
    (hcreator : ∃ u ∈ w.db.users, u.ID = call.CreatedBy) (hnow : env.now ≠ 0)
    (hopen : ∀ h, w.wsHub = some h → h.Open) :
    ∃ history0 : List CallHistory, (∃ r ∈ history0, r.CallID = callID) ∧
      (CallService.EndCall w env callID userID).2 = .ok () ∧
      (CallService.EndCall w env callID userID).1.db.call_history =
        history0.map (fun r =>
          if r.CallID = callID then
            { r with EndedAt := some env.now,
                     Duration := Duration.wholeSeconds (Time.Sub env.now call.CreatedAt),
                     Status := "completed" }
          else r) ∧
      (CallService.EndCall w env callID userID).1.db.active_calls =
        w.db.active_calls.map (fun c =>
          if c.CallID = callID then { c with Status := "ended", EndedAt := some env.now }
          else c) := by
  have hb : ∀ names : List String, ¬ (broadcastAll (fun h participantName =>
      h.BroadcastCallEnded participantName callID) names w.wsHub).2 = false := by
    intro names
    rw [(broadcastAll_open (fun h participantName => h.BroadcastCallEnded participantName callID)
      (fun h a ho => WebSocketHub.BroadcastCallEnded_open h a callID ho) names w.wsHub hopen).1]
    decide
  have hnew : ∃ r ∈ w.db.call_history ++
      [({ ID := w.db.seq_call_history + 1, CallID := callID, RoomName := call.RoomName,
          CallType := call.CallType, CreatedBy := call.CreatedBy,
          Participants := List.filter (fun identity => decide (identity ≠ ""))
            (match ParticipantService.ListParticipants env call.RoomName with
              | .error _ => []
              | .ok ps => ps),
          StartedAt := env.now, EndedAt := none, Duration := 0, Status := "pending",
          InvitationIDs := "" } : CallHistory)], r.CallID = callID :=
    ⟨_, List.mem_append_right _ (List.mem_singleton_self _), rfl⟩
  cases hgc : HistoryService.GetCallDetails w.db env callID with
  | error e =>
    refine ⟨_, hnew, ?_, ?_, ?_⟩ <;>
      simp only [CallService.EndCall, hget, hgc,
        HistoryService.CreateHistoryEntry_ok w.db env callID call.RoomName call.CallType
          call.CreatedBy _ hq1 hcreator,
        HistoryService.UpdateHistoryEntry_ok _ env callID env.now _ "completed" hq2 hnow,
        CallRepo.UpdateStatus_ok _ env callID "ended" hq3] <;>
        (rw [if_neg (hb _)]; first | done | rfl)
  | ok found =>
    cases found with
    | none =>
      refine ⟨_, hnew, ?_, ?_, ?_⟩ <;>
        simp only [CallService.EndCall, hget, hgc,
          HistoryService.CreateHistoryEntry_ok w.db env callID call.RoomName call.CallType
            call.CreatedBy _ hq1 hcreator,
          HistoryService.UpdateHistoryEntry_ok _ env callID env.now _ "completed" hq2 hnow,
          CallRepo.UpdateStatus_ok _ env callID "ended" hq3] <;>
        (rw [if_neg (hb _)]; first | done | rfl)
    | some r =>
      have hr : ∃ r ∈ w.db.call_history, r.CallID = callID := by
        have hfind : w.db.call_history.find? (fun r => r.CallID == callID) = some r := by
          unfold HistoryService.GetCallDetails CallHistoryRepo.GetByCallID at hgc
          cases hq : env.fault .historyGetByCallID with
          | some e => simp [hq] at hgc
          | none => simpa [hq] using hgc
        exact ⟨r, List.mem_of_find?_eq_some hfind, by simpa using List.find?_some hfind⟩
      refine ⟨_, hr, ?_, ?_, ?_⟩ <;>
        simp only [CallService.EndCall, hget, hgc,
          HistoryService.UpdateHistoryEntry_ok _ env callID env.now _ "completed" hq2 hnow,
          CallRepo.UpdateStatus_ok _ env callID "ended" hq3] <;>
        (rw [if_neg (hb _)]; first | done | rfl)

theorem Time.Sub_of_small (t u : Time)
    (h : -(2 ^ 24 * Duration.Second) < t - u ∧ t - u < 2 ^ 24 * Duration.Second) :
    Time.Sub t u = t - u := by
  have e : (2 : Int) ^ 24 * Duration.Second = 16777216000000000 := by decide
  have e1 : (2 : Int) ^ 63 - 1 = 9223372036854775807 := by decide
  have e2 : (2 : Int) ^ 63 = 9223372036854775808 := by decide
  obtain ⟨h1, h2⟩ := h
  unfold Time.Sub
  rw [e] at h1 h2
  rw [e1, e2]
  generalize t - u = d at h1 h2 ⊢
  rw [if_neg (not_lt.mpr (le_trans (le_of_lt h2) (by decide))),
    if_neg (not_lt.mpr (le_trans (by decide) (le_of_lt h1)))]

/-! ## `float64`: the whole seconds of a duration -/

theorem divRoundEven_cases (a b : Nat) :
    divRoundEven a b = a / b ∨ (divRoundEven a b = a / b + 1 ∧ b ≤ 2 * (a % b)) := by
  unfold divRoundEven
  by_cases h1 : 2 * (a % b) < b
  · rw [if_pos h1]
    exact Or.inl rfl
  · rw [if_neg h1]
    by_cases h2 : b < 2 * (a % b)
    · rw [if_pos h2]
      exact Or.inr ⟨rfl, le_of_lt h2⟩
    · rw [if_neg h2]
      by_cases h3 : (a / b) % 2 = 0
      · rw [if_pos h3]
        exact Or.inl rfl
      · rw [if_neg h3]
        exact Or.inr ⟨rfl, not_lt.mp h1⟩

/-- The rounded quotient is not below a whole number that the quotient is not
below. -/
theorem divRoundEven_ge (a b n : Nat) (hb : 0 < b) (h : n * b ≤ a) : n ≤ divRoundEven a b := by
  have h1 : n ≤ a / b := (Nat.le_div_iff_mul_le hb).mpr h
  rcases divRoundEven_cases a b with h2 | ⟨h2, _⟩
  · rw [h2]
    exact h1
  · rw [h2]
    exact Nat.le_succ_of_le h1

/-- The rounded quotient is below a whole number that the quotient is more than
a half below. -/
theorem divRoundEven_lt (a b m : Nat) (hb : 0 < b) (h : 2 * a + b < 2 * m * b) :
    divRoundEven a b < m := by
  have hd : b * (a / b) + a % b = a := Nat.div_add_mod a b
  rcases divRoundEven_cases a b with h2 | ⟨h2, h3⟩
  · rw [h2]
    generalize a / b = q at hd
    generalize a % b = r at hd
    by_contra hc
    have hc1 : m ≤ q := not_lt.mp hc
    have : m * b ≤ q * b := Nat.mul_le_mul_right b hc1
    nlinarith
  · rw [h2]
    generalize a / b = q at hd
    generalize a % b = r at hd h3
    by_contra hc
    have hc1 : m ≤ q + 1 := not_lt.mp hc
    have : m * b ≤ (q + 1) * b := Nat.mul_le_mul_right b hc1
    nlinarith

/-- The rounded quotient is at most a half above the quotient. -/
theorem divRoundEven_le (a b : Nat) (_hb : 0 < b) : 2 * divRoundEven a b * b ≤ 2 * a + b := by
  have hd : b * (a / b) + a % b = a := Nat.div_add_mod a b
  rcases divRoundEven_cases a b with h2 | ⟨h2, h3⟩
  · rw [h2]
    generalize a / b = q at hd
    generalize a % b = r at hd
    nlinarith
  · rw [h2]
    generalize a / b = q at hd
    generalize a % b = r at hd h3
    nlinarith

theorem divRoundEven_one (a : Nat) : divRoundEven a 1 = a := by
  unfold divRoundEven
  simp [Nat.mod_one]

/-- The scaling found by `shiftUp`, given enough fuel, brings the fraction to
`2 ^ 52` or above. -/
theorem Float64.shiftUp_spec (fuel a b : Nat) (h : 2 ^ 52 * b ≤ a * 2 ^ fuel) :
    2 ^ 52 * b ≤ a * 2 ^ Float64.shiftUp fuel a b := by
  induction fuel generalizing a with
  | zero =>
    unfold Float64.shiftUp
    exact h
  | succ n ih =>
    unfold Float64.shiftUp
    by_cases h1 : 2 ^ 52 * b ≤ a
    · rw [if_pos h1]
      simpa using h1
    · rw [if_neg h1]
      have e : ∀ j : Nat, 2 ^ (j + 1) = 2 ^ j * 2 := fun j => pow_succ 2 j
      have h2 := ih (2 * a) (by rw [e n] at h; linarith)
      rw [e (Float64.shiftUp n (2 * a) b)]
      linarith

theorem Float64.roundNat_zero (b : Nat) : Float64.roundNat 0 b = (0, 1) := by
  unfold Float64.roundNat
  rw [if_pos rfl]

/-- The rounding of a fraction below `2 ^ 53`: at a scale `2 ^ k` that brings
it to `2 ^ 52` or above, the nearest whole number. -/
theorem Float64.roundNat_spec (a b : Nat) (ha : 0 < a) (hb : 0 < b) (hlt : a < 2 ^ 53 * b) :
    ∃ k, Float64.roundNat a b = (divRoundEven (a * 2 ^ k) b, 2 ^ k) ∧
      2 ^ 52 * b ≤ a * 2 ^ k := by
  refine ⟨Float64.shiftUp (b + 53) a b, ?_, ?_⟩
  · unfold Float64.roundNat
    rw [if_neg (Nat.pos_iff_ne_zero.mp ha), if_pos hlt]
  · apply Float64.shiftUp_spec
    have h1 : b < 2 ^ b := Nat.lt_two_pow b
    have h2 : 2 ^ (b + 53) = 2 ^ b * 2 ^ 53 := pow_add 2 b 53
    rw [h2]
    have h3 : 2 ^ 52 * b ≤ 2 ^ b * 2 ^ 53 := by nlinarith
    calc 2 ^ 52 * b ≤ 1 * (2 ^ b * 2 ^ 53) := by linarith
      _ ≤ a * (2 ^ b * 2 ^ 53) := Nat.mul_le_mul_right _ ha

theorem Float64.round_natCast (n b : Nat) :
    Float64.round (n : Int) b =
      { num := ((Float64.roundNat n b).1 : Int), den := (Float64.roundNat n b).2 } := by
  unfold Float64.round
  rw [if_neg (not_lt.mpr (Int.ofNat_nonneg n)), Int.natAbs_ofNat]

/-- A whole number below `2 ^ 53` is a `float64`. -/
theorem Float64.roundNat_whole (s : Nat) (hs : s < 2 ^ 53) :
    ∃ X, 0 < X ∧ Float64.roundNat s 1 = (s * X, X) := by
  by_cases h0 : s = 0
  · subst h0
    exact ⟨1, Nat.one_pos, Float64.roundNat_zero 1⟩
  · obtain ⟨k, hk, _⟩ := Float64.roundNat_spec s 1 (Nat.pos_of_ne_zero h0) Nat.one_pos
      (by simpa using hs)
    refine ⟨2 ^ k, pow_pos (by decide) _, ?_⟩
    rw [hk, divRoundEven_one]

/-- The `float64` of a fraction of a second, `nsec / 1e9`: nought, or a
fraction `m / P` at a scale `P` of `2 ^ 53` or more that is at most half a unit
of that scale above `999999999 / 1e9`. -/
theorem Float64.roundNat_fraction (ns E : Nat) (hE : 0 < E) (hns : ns < 1000000000) :
    ∃ m P, Float64.roundNat (ns * E) (1000000000 * E) = (m, P) ∧ 0 < P ∧
      (m = 0 ∨ (2 ^ 53 ≤ P ∧ 2000000000 * m ≤ 1999999998 * P + 1000000000)) := by
  by_cases h0 : ns = 0
  · subst h0
    rw [Nat.zero_mul]
    exact ⟨0, 1, Float64.roundNat_zero _, Nat.one_pos, Or.inl rfl⟩
  · have hpos : 0 < ns := Nat.pos_of_ne_zero h0
    obtain ⟨k, hk, hscale⟩ := Float64.roundNat_spec (ns * E) (1000000000 * E)
      (Nat.mul_pos hpos hE) (Nat.mul_pos (by decide) hE) (by nlinarith)
    have hQ : 2 ^ 52 < 2 ^ k := by
      by_contra hc
      have hc1 : 2 ^ k ≤ 2 ^ 52 := not_lt.mp hc
      have h1 : ns * 2 ^ k ≤ ns * 2 ^ 52 := Nat.mul_le_mul_left ns hc1
      have h2 : ns * E * 2 ^ k = (ns * 2 ^ k) * E := by ring
      rw [h2] at hscale
      have h3 : (ns * 2 ^ k) * E ≤ (ns * 2 ^ 52) * E := Nat.mul_le_mul_right E h1
      have h4 : (ns * 2 ^ 52) * E < 2 ^ 52 * (1000000000 * E) := by nlinarith
      omega
    have hk53 : 53 ≤ k := by
      have := (Nat.pow_lt_pow_iff_right (a := 2) (by decide)).mp hQ
      omega
    have hP : 2 ^ 53 ≤ 2 ^ k := Nat.pow_le_pow_right (by decide) hk53
    refine ⟨_, _, hk, pow_pos (by decide) _, Or.inr ⟨hP, ?_⟩⟩
    have hle := divRoundEven_le (ns * E * 2 ^ k) (1000000000 * E) (Nat.mul_pos (by decide) hE)
    generalize divRoundEven (ns * E * 2 ^ k) (1000000000 * E) = m at hle
    generalize 2 ^ k = Q at hle hP
    have h6 : ns * (E * Q) ≤ 999999999 * (E * Q) := Nat.mul_le_mul_right _ (by omega)
    have h5 : E * (2000000000 * m) ≤ E * (1999999998 * Q + 1000000000) := by nlinarith
    exact Nat.le_of_mul_le_mul_left h5 hE

/-- The sum of a whole number of seconds below `2 ^ 24` and such a fraction of
a second, rounded to a `float64`, has that whole number as its whole part. -/
theorem Float64.roundNat_sum_whole (sec m P X : Nat) (hsec : sec < 2 ^ 24) (hX : 0 < X)
    (hP : 0 < P)
    (hm : m = 0 ∨ (2 ^ 53 ≤ P ∧ 2000000000 * m ≤ 1999999998 * P + 1000000000)) :
    (Float64.roundNat ((sec * P + m) * X) (X * P)).1 /
      (Float64.roundNat ((sec * P + m) * X) (X * P)).2 = sec := by
  have hmP : m < P := by
    rcases hm with h | ⟨h1, h2⟩
    · rw [h]
      exact hP
    · have : (2 : Nat) ^ 53 = 9007199254740992 := by decide
      omega
  by_cases h0 : (sec * P + m) * X = 0
  · rw [h0, Float64.roundNat_zero]
    have h1 : sec * P + m = 0 := by
      rcases Nat.mul_eq_zero.mp h0 with h | h
      · exact h
      · omega
    have h2 : sec * P = 0 := by omega
    rcases Nat.mul_eq_zero.mp h2 with h | h
    · rw [h]
      rfl
    · omega
  · have e24 : (2 : Nat) ^ 24 = 16777216 := by decide
    have e53 : (2 : Nat) ^ 53 = 9007199254740992 := by decide
    have e52 : (2 : Nat) ^ 52 = 4503599627370496 := by decide
    have hsum : sec * P + m < 2 ^ 24 * P := by
      have : (sec + 1) * P ≤ 2 ^ 24 * P := Nat.mul_le_mul_right P hsec
      nlinarith
    obtain ⟨k, hk, hscale⟩ := Float64.roundNat_spec ((sec * P + m) * X) (X * P)
      (Nat.pos_of_ne_zero h0) (Nat.mul_pos hX hP) (by rw [e53]; rw [e24] at hsum; nlinarith)
    rw [hk]
    have hQ : 2 ^ 28 < 2 ^ k := by
      by_contra hc
      have hc1 : 2 ^ k ≤ 2 ^ 28 := not_lt.mp hc
      have h1 : (sec * P + m) * X * 2 ^ k ≤ (sec * P + m) * X * 2 ^ 28 :=
        Nat.mul_le_mul_left _ hc1
      have h2 : (sec * P + m) * X * 2 ^ 28 < 2 ^ 24 * P * X * 2 ^ 28 := by
        have := Nat.mul_lt_mul_of_pos_right hsum hX
        exact Nat.mul_lt_mul_of_pos_right this (pow_pos (by decide) _)
      have h3 : 2 ^ 24 * P * X * 2 ^ 28 = 2 ^ 52 * (X * P) := by ring
      omega
    have hk29 : 29 ≤ k := by
      have := (Nat.pow_lt_pow_iff_right (a := 2) (by decide)).mp hQ
      omega
    have hQ29 : 2 ^ 29 ≤ 2 ^ k := Nat.pow_le_pow_right (by decide) hk29
    have e29 : (2 : Nat) ^ 29 = 536870912 := by decide
    rw [e29] at hQ29
    generalize 2 ^ k = Q at hQ29 ⊢
    have key : 2 * m * Q + P < 2 * Q * P := by
      rcases hm with h | ⟨h1, h2⟩
      · rw [h]
        nlinarith
      · rw [e53] at h1
        have p1 : 536870912 * P ≤ Q * P := Nat.mul_le_mul_right P hQ29
        have p2 : Q * 9007199254740992 ≤ Q * P := Nat.mul_le_mul_left Q h1
        have p3 : Q * (2000000000 * m) ≤ Q * (1999999998 * P + 1000000000) :=
          Nat.mul_le_mul_left Q h2
        nlinarith
    apply Nat.div_eq_of_lt_le
    · apply divRoundEven_ge _ _ _ (Nat.mul_pos hX hP)
      nlinarith [Nat.zero_le (m * X * Q)]
    · apply divRoundEven_lt _ _ _ (Nat.mul_pos hX hP)
      have e1 : 2 * ((sec * P + m) * X * Q) + X * P =
          2 * sec * P * X * Q + X * (2 * m * Q + P) := by ring
      have e2 : 2 * ((sec + 1) * Q) * (X * P) = 2 * sec * P * X * Q + X * (2 * Q * P) := by ring
      rw [e1, e2]
      exact Nat.add_lt_add_left (Nat.mul_lt_mul_of_pos_left key hX) _

theorem Float64.round_neg (a : Int) (b : Nat) :
    Float64.round (-a) b =
      { num := -(Float64.round a b).num, den := (Float64.round a b).den } := by
  unfold Float64.round
  rw [Int.natAbs_neg]
  rcases lt_trichotomy a 0 with h | h | h
  · rw [if_neg (by omega), if_pos h, neg_neg]
  · subst h
    simp [Float64.roundNat_zero]
  · rw [if_pos (by omega), if_neg (by omega)]

theorem tmod_neg_left (a b : Int) : (-a).tmod b = -(a.tmod b) := by
  rw [Int.tmod_def, Int.tmod_def, Int.neg_tdiv]
  ring

/-- The whole seconds of a negated duration are the negated whole seconds. -/
theorem Duration.wholeSeconds_neg (d : Duration) :
    Duration.wholeSeconds (-d) = -Duration.wholeSeconds d := by
  unfold Duration.wholeSeconds Duration.Seconds Float64.toInt Float64.add Float64.div
    Float64.ofInt
  simp only [Int.neg_tdiv, tmod_neg_left, Float64.round_neg, neg_mul, ← neg_add]

/-- For a duration of fewer than `2 ^ 24` seconds that is not negative,
`int(d.Seconds())` is the quotient by a second. -/
theorem Duration.wholeSeconds_natCast (n : Nat) (h : n < 2 ^ 24 * 1000000000) :
    Duration.wholeSeconds (n : Int) = ((n / 1000000000 : Nat) : Int) := by
  have hsec : (n : Int).tdiv Duration.Second = ((n / 1000000000 : Nat) : Int) := by
    unfold Duration.Second
    rw [Int.tdiv_eq_ediv (Int.ofNat_nonneg n) (by decide)]
    norm_cast
  have hns : (n : Int).tmod Duration.Second = ((n % 1000000000 : Nat) : Int) := by
    unfold Duration.Second
    rw [Int.tmod_eq_emod (Int.ofNat_nonneg n) (by decide)]
    norm_cast
  have hgiga : Float64.round 1000000000 1 =
      { num := ((1000000000 * 8388608 : Nat) : Int), den := 8388608 } := by decide
  have hs24 : n / 1000000000 < 2 ^ 24 := by
    rw [Nat.div_lt_iff_lt_mul (by decide)]
    exact h
  obtain ⟨X, hX, hx⟩ := Float64.roundNat_whole (n / 1000000000)
    (lt_trans hs24 (by decide))
  obtain ⟨U, hU, hu⟩ := Float64.roundNat_whole (n % 1000000000)
    (lt_trans (Nat.mod_lt n (by decide)) (by decide))
  obtain ⟨m, P, hy, hP, hm⟩ := Float64.roundNat_fraction (n % 1000000000) (U * 8388608)
    (Nat.mul_pos hU (by decide)) (Nat.mod_lt n (by decide))
  have hsum := Float64.roundNat_sum_whole (n / 1000000000) m P X hs24 hX hP hm
  unfold Duration.wholeSeconds Duration.Seconds Float64.toInt Float64.add Float64.div
    Float64.ofInt
  simp only [hsec, hns, hgiga, Float64.round_natCast, hx, hu]
  have e1 : ((n % 1000000000 * U : Nat) : Int) * ((8388608 : Nat) : Int) *
      Int.sign ((1000000000 * 8388608 : Nat) : Int) =
      ((n % 1000000000 * (U * 8388608) : Nat) : Int) := by
    rw [Int.sign_eq_one_of_pos (by decide)]
    push_cast
    ring
  have e2 : U * Int.natAbs ((1000000000 * 8388608 : Nat) : Int) =
      1000000000 * (U * 8388608) := by
    rw [Int.natAbs_ofNat]
    ring
  rw [e1, e2, Float64.round_natCast, hy]
  simp only
  have e3 : ((n / 1000000000 * X : Nat) : Int) * (P : Int) + (m : Int) * (X : Int) =
      (((n / 1000000000 * P + m) * X : Nat) : Int) := by
    push_cast
    ring
  rw [e3, Float64.round_natCast]
  simp only
  rw [Int.tdiv_eq_ediv (Int.ofNat_nonneg _) (Int.ofNat_nonneg _)]
  norm_cast

/-- For a duration of fewer than `2 ^ 24` seconds either way, `int(d.Seconds())`
is the whole number of seconds, the fraction cut off. -/
theorem Duration.wholeSeconds_of_small (d : Duration)
    (h : -(2 ^ 24 * Duration.Second) < d ∧ d < 2 ^ 24 * Duration.Second) :
    Duration.wholeSeconds d = d.tdiv 1000000000 := by
  have e : (2 : Int) ^ 24 * Duration.Second = 16777216000000000 := by decide
  have en : (2 : Nat) ^ 24 * 1000000000 = 16777216000000000 := by decide
  rw [e] at h
  have h1 : (-16777216000000000 : Int) < d := h.1
  have h2 : d < (16777216000000000 : Int) := h.2
  have hn : d.natAbs < 2 ^ 24 * 1000000000 := by
    have hz : ((d.natAbs : Nat) : Int) < 16777216000000000 := by
      rw [Int.natCast_natAbs, abs_lt]
      exact ⟨h1, h2⟩
    rw [en]
    exact_mod_cast hz
  rcases Int.natAbs_eq d with hd | hd
  · rw [hd, Duration.wholeSeconds_natCast _ hn,
      Int.tdiv_eq_ediv (Int.ofNat_nonneg _) (by decide)]
    norm_cast
  · rw [hd, Duration.wholeSeconds_neg, Duration.wholeSeconds_natCast _ hn, Int.neg_tdiv,
      Int.tdiv_eq_ediv (Int.ofNat_nonneg _) (by decide)]
    norm_cast

/-- C20, as the code has it: whatever the stored status of the call, when the
call lookup does not fail: if no call has the id, `EndCall` fails with `call not found` and changes
nothing; if a call has it and the writes succeed (no storage fault, the creator
exists, the clock is not the zero instant, the hub's channels are open),
`EndCall` returns success, the call's status is `ended`, the call has a history
record, and every history record of the call is `completed`, ended now, with as
duration the whole seconds, fraction truncated, from the call's `createdAt` to
now (for gaps below 2^24 seconds). -/
theorem endCall_completes_whatever_status (w : World) (env : Env) (callID : String)
    (userID : Int) (hq0 : env.fault .callGetByCallID = none) :
    (w.db.active_calls.find? (fun c => c.CallID == callID) = none →
      CallService.EndCall w env callID userID = (w, .error "call not found")) ∧
    (∀ call, w.db.active_calls.find? (fun c => c.CallID == callID) = some call →
      env.fault .historyCreate = none → env.fault .historyUpdate = none →
      env.fault .callUpdateStatus = none →
      (∃ u ∈ w.db.users, u.ID = call.CreatedBy) → env.now ≠ 0 →
      (-(2 ^ 24 * Duration.Second) < env.now - call.CreatedAt ∧
        env.now - call.CreatedAt < 2 ^ 24 * Duration.Second) →
      (∀ h, w.wsHub = some h → h.Open) →
      (CallService.EndCall w env callID userID).2 = .ok () ∧
      (CallService.EndCall w env callID userID).1.db.callStatus callID = some "ended" ∧
      (∃ r ∈ (CallService.EndCall w env callID userID).1.db.call_history, r.CallID = callID) ∧
      ∀ r ∈ (CallService.EndCall w env callID userID).1.db.call_history, r.CallID = callID →
        r.Status = "completed" ∧ r.EndedAt = some env.now ∧
        r.Duration = (env.now - call.CreatedAt).tdiv 1000000000) := by
  constructor
  · intro hfind
    simp [CallService.EndCall, CallRepo.GetByCallID, hq0, hfind]
  · intro call hfind hq1 hq2 hq3 hcreator hnow hgap hopen
    have hget : CallRepo.GetByCallID w.db env callID = .ok (some call) := by
      simp [CallRepo.GetByCallID, hq0, hfind]
    obtain ⟨history0, ⟨r0, hr0, hr0id⟩, hok, hhist, hcalls⟩ :=
      CallService.EndCall_of_found w env callID userID call hget hq1 hq2 hq3 hcreator hnow hopen
    rw [Time.Sub_of_small _ _ hgap] at hhist
    refine ⟨hok, ?_, ?_, ?_⟩
    · unfold DB.callStatus
      rw [hcalls]
      have := find?_callID_map_status w.db.active_calls callID callID "ended" (some env.now)
      rw [this, if_pos rfl, hfind]
      rfl
    · rw [hhist]
      refine ⟨_, List.mem_map_of_mem _ hr0, ?_⟩
      rw [if_pos hr0id]
      exact hr0id
    · intro r hr hrid
      rw [hhist] at hr
      obtain ⟨r1, _, rfl⟩ := List.mem_map.mp hr
      by_cases h1 : r1.CallID = callID
      · rw [if_pos h1]
        exact ⟨rfl, rfl, Duration.wholeSeconds_of_small _ hgap⟩
      · rw [if_neg h1] at hrid
        exact absurd hrid h1

/-- Witness for C20: the call that `alice` made at instant 100 and cancelled
four seconds later is ended by `bob` nine and a half seconds after it was
made: the history says nine seconds, not five; and there is no call `call-9`. -/
theorem endCall_completes_whatever_status_witness :
    exWorldCancelledLate.db.callStatus "call-1" = some "cancelled" ∧
    CallService.EndCall { db := exWorldCancelledLate.db, wsHub := some exHubAlice }
      (exEnv 9500000100) "call-9" 2 =
      ({ db := exWorldCancelledLate.db, wsHub := some exHubAlice }, .error "call not found") ∧
    (CallService.EndCall { db := exWorldCancelledLate.db, wsHub := some exHubAlice }
      (exEnv 9500000100) "call-1" 2).2 = .ok () ∧
    (CallService.EndCall { db := exWorldCancelledLate.db, wsHub := some exHubAlice }
      (exEnv 9500000100) "call-1" 2).1.db.callStatus "call-1" = some "ended" ∧
    ∀ r ∈ (CallService.EndCall { db := exWorldCancelledLate.db, wsHub := some exHubAlice }
        (exEnv 9500000100) "call-1" 2).1.db.call_history, r.CallID = "call-1" →
      r.Status = "completed" ∧ r.EndedAt = some 9500000100 ∧ r.Duration = 9 :=
  have hall := (endCall_completes_whatever_status
    { db := exWorldCancelledLate.db, wsHub := some exHubAlice } (exEnv 9500000100) "call-1" 2
    rfl).2
    { ID := 1, CallID := "call-1", RoomName := "room-1", CallType := "video", CreatedBy := 1,
      CreatedAt := 100, EndedAt := none, Status := "cancelled" }
    (by decide) rfl rfl rfl (by decide) (by decide) (by decide)
    (fun h hh => by
      have : h = exHubAlice := (Option.some.inj hh).symm
      rw [this]
      exact exHubAlice_open)
  ⟨by decide,
    (endCall_completes_whatever_status
      { db := exWorldCancelledLate.db, wsHub := some exHubAlice } (exEnv 9500000100) "call-9" 2
      rfl).1 (by decide),
    hall.1, hall.2.1, hall.2.2.2⟩

/-! ## Reminder worker -/

theorem ScheduledService.UpdateReminderSent_frame (db : DB) (env : Env) (id : Int) :
    (ScheduledService.UpdateReminderSent db env id).1.users = db.users ∧
    (ScheduledService.UpdateReminderSent db env id).1.scheduled_calls.map (fun c => c.ID) =
      db.scheduled_calls.map (fun c => c.ID) ∧
    (∀ k, db.reminderSet k → (ScheduledService.UpdateReminderSent db env id).1.reminderSet k) ∧
    (env.fault (.scheduledUpdateReminderSent id) = none →
      (ScheduledService.UpdateReminderSent db env id).1.reminderSet id) := by
  unfold ScheduledService.UpdateReminderSent ScheduledCallRepo.UpdateReminderSent
  cases hq : env.fault (.scheduledUpdateReminderSent id) with
  | some e => exact ⟨rfl, rfl, fun _ h => h, fun h => by simp at h⟩
  | none =>
    refine ⟨rfl, ?_, ?_, ?_⟩
    · simp only [List.map_map]
      apply List.map_congr_left
      intro c _
      by_cases h : c.ID = id <;> simp [h]
    · intro k hk c hc hid
      simp only [List.mem_map] at hc
      obtain ⟨c0, hc0, rfl⟩ := hc
      by_cases h : c0.ID = id
      · simp [h]
      · rw [if_neg h] at hid ⊢
        exact hk c0 hc0 hid
    · intro _ c hc _
      simp only [List.mem_map] at hc
      obtain ⟨c0, hc0, rfl⟩ := hc
      by_cases h : c0.ID = id
      · simp [h]
      · rw [if_neg h] at *
        rename_i hid
        exact absurd hid h

/-- One reminder: what it leaves alone, and what it adds. -/
theorem ScheduledWorker.remind_general (env : Env) (call : ScheduledCall) (reminderTime : Duration)
    (st : TickState) :
    (ScheduledWorker.remind env call reminderTime st).world.db.users = st.world.db.users ∧
    (ScheduledWorker.remind env call reminderTime st).world.db.scheduled_calls.map
      (fun c => c.ID) = st.world.db.scheduled_calls.map (fun c => c.ID) ∧
    (∀ k, st.world.db.reminderSet k →
      (ScheduledWorker.remind env call reminderTime st).world.db.reminderSet k) ∧
    ∃ extra, (ScheduledWorker.remind env call reminderTime st).sent = st.sent ++ extra ∧
      (extra = [] ∨
        ∃ u, extra = [{ username := u, callID := call.ID, reminderTime := reminderTime }]) ∧
      (extra ≠ [] → env.fault (.scheduledUpdateReminderSent call.ID) = none →
        (ScheduledWorker.remind env call reminderTime st).world.db.reminderSet call.ID) := by
  obtain ⟨f1, f2, f3, f4⟩ := ScheduledService.UpdateReminderSent_frame st.world.db env call.ID
  unfold ScheduledWorker.remind
  cases hh : st.world.wsHub with
  | none => exact ⟨f1, f2, f3, [], by simp, Or.inl rfl, fun h => absurd rfl h⟩
  | some h =>
    simp only
    by_cases hu : ScheduledWorker.getUsername st.world.db env call.CreatedBy ≠ ""
    · rw [if_pos hu]
      cases hb : h.BroadcastScheduledCallReminder
          (ScheduledWorker.getUsername st.world.db env call.CreatedBy) (some call)
          reminderTime with
      | none => exact ⟨rfl, rfl, fun _ h => h, [], by simp, Or.inl rfl, fun h => absurd rfl h⟩
      | some h1 => exact ⟨f1, f2, f3, _, rfl, Or.inr ⟨_, rfl⟩, fun _ hq => f4 hq⟩
    · rw [if_neg hu]
      exact ⟨f1, f2, f3, [], by simp, Or.inl rfl, fun h => absurd rfl h⟩

/-- The window loop for one call, with the two reminder times written out. -/
theorem ScheduledWorker.remindCall_eq (env : Env) (call : ScheduledCall)
    (timeUntilCall : Duration) (st : TickState) :
    ScheduledWorker.remindCall env call timeUntilCall ScheduledWorker.reminderTimes st =
      if timeUntilCall ≤ 15 * Duration.Minute ∧
          timeUntilCall > 15 * Duration.Minute - Duration.Minute then
        ScheduledWorker.remind env call (15 * Duration.Minute) st
      else if timeUntilCall ≤ 5 * Duration.Minute ∧
          timeUntilCall > 5 * Duration.Minute - Duration.Minute then
        ScheduledWorker.remind env call (5 * Duration.Minute) st
      else st := rfl

theorem ScheduledWorker.remindCall_general (env : Env) (call : ScheduledCall)
    (timeUntilCall : Duration) (st : TickState) :
    (ScheduledWorker.remindCall env call timeUntilCall ScheduledWorker.reminderTimes
      st).world.db.users = st.world.db.users ∧
    (ScheduledWorker.remindCall env call timeUntilCall ScheduledWorker.reminderTimes
      st).world.db.scheduled_calls.map (fun c => c.ID) =
      st.world.db.scheduled_calls.map (fun c => c.ID) ∧
    (∀ k, st.world.db.reminderSet k →
      (ScheduledWorker.remindCall env call timeUntilCall ScheduledWorker.reminderTimes
        st).world.db.reminderSet k) ∧
    ∃ extra, (ScheduledWorker.remindCall env call timeUntilCall ScheduledWorker.reminderTimes
        st).sent = st.sent ++ extra ∧
      (extra = [] ∨ ∃ u T, extra = [{ username := u, callID := call.ID, reminderTime := T }]) ∧
      (extra ≠ [] → env.fault (.scheduledUpdateReminderSent call.ID) = none →
        (ScheduledWorker.remindCall env call timeUntilCall ScheduledWorker.reminderTimes
          st).world.db.reminderSet call.ID) := by
  rw [ScheduledWorker.remindCall_eq]
  have key : ∀ T, _ := fun T => ScheduledWorker.remind_general env call T st
  split
  · obtain ⟨a, b, c, extra, d, e, f⟩ := key (15 * Duration.Minute)
    refine ⟨a, b, c, extra, d, ?_, f⟩
    rcases e with e | ⟨u, e⟩
    · exact Or.inl e
    · exact Or.inr ⟨u, _, e⟩
  · split
    · obtain ⟨a, b, c, extra, d, e, f⟩ := key (5 * Duration.Minute)
      refine ⟨a, b, c, extra, d, ?_, f⟩
      rcases e with e | ⟨u, e⟩
      · exact Or.inl e
      · exact Or.inr ⟨u, _, e⟩
    · exact ⟨rfl, rfl, fun _ h => h, [], by simp, Or.inl rfl, fun h => absurd rfl h⟩

/-- One run of the outer loop over the fetched calls: the reminders it adds are
for calls of the list that had no reminder yet, at most one for each position
of the list, and a call it reminded of has its reminder recorded when that write
does not fail. -/
theorem ScheduledWorker.remindLoop_general (env : Env) (calls : List ScheduledCall)
    (st : TickState) :
    (ScheduledWorker.remindLoop env calls st).world.db.users = st.world.db.users ∧
    (ScheduledWorker.remindLoop env calls st).world.db.scheduled_calls.map (fun c => c.ID) =
      st.world.db.scheduled_calls.map (fun c => c.ID) ∧
    (∀ k, st.world.db.reminderSet k →
      (ScheduledWorker.remindLoop env calls st).world.db.reminderSet k) ∧
    ∃ extra, (ScheduledWorker.remindLoop env calls st).sent = st.sent ++ extra ∧
      (extra.map (fun s => s.callID)).Sublist
        ((calls.filter (fun c => c.ReminderSentAt == none)).map (fun c => c.ID)) ∧
      (∀ k ∈ extra.map (fun s => s.callID),
        env.fault (.scheduledUpdateReminderSent k) = none →
        (ScheduledWorker.remindLoop env calls st).world.db.reminderSet k) := by
  induction calls generalizing st with
  | nil => exact ⟨rfl, rfl, fun _ h => h, [], by simp [ScheduledWorker.remindLoop], by simp,
      by simp⟩
  | cons call rest ih =>
    unfold ScheduledWorker.remindLoop
    by_cases hr : st.running = false
    · rw [if_pos hr]
      exact ⟨rfl, rfl, fun _ h => h, [], by simp, by simp, by simp⟩
    · rw [if_neg hr]
      by_cases hs : call.ReminderSentAt ≠ none
      · rw [if_pos hs]
        obtain ⟨a, b, c, extra, d, e, f⟩ := ih st
        refine ⟨a, b, c, extra, d, ?_, f⟩
        have : (call.ReminderSentAt == none) = false := by
          cases hc : call.ReminderSentAt with
          | none => exact absurd hc hs
          | some t => rfl
        rw [List.filter_cons_of_neg (by simp [this])]
        exact e
      · rw [if_neg hs]
        have hs1 : call.ReminderSentAt = none := not_not.mp hs
        obtain ⟨a1, b1, c1, extra1, d1, e1, f1⟩ := ScheduledWorker.remindCall_general env call
          (call.ScheduledAt.Sub env.now) st
        obtain ⟨a, b, c, extra, d, e, f⟩ := ih (ScheduledWorker.remindCall env call
          (call.ScheduledAt.Sub env.now) ScheduledWorker.reminderTimes st)
        refine ⟨a.trans a1, b.trans b1, fun k hk => c k (c1 k hk), extra1 ++ extra, ?_, ?_, ?_⟩
        · rw [d, d1, List.append_assoc]
        · rw [List.filter_cons_of_pos (by simp [hs1]), List.map_cons, List.map_append]
          rcases e1 with e1 | ⟨u, T, e1⟩
          · rw [e1]
            exact List.Sublist.cons _ e
          · rw [e1]
            exact List.Sublist.cons₂ _ e
        · intro k hk hq
          rw [List.map_append, List.mem_append] at hk
          rcases hk with hk | hk
          · rcases e1 with e1 | ⟨u, T, e1⟩
            · rw [e1] at hk
              simp at hk
            · have hkid : k = call.ID := by
                rw [e1] at hk
                simpa using hk
              subst hkid
              exact c _ (f1 (by rw [e1]; simp) hq)
          · exact f k hk hq

theorem ScheduledWorker.getUsername_congr (db1 db2 : DB) (env : Env) (userID : Int)
    (h : db1.users = db2.users) :
    ScheduledWorker.getUsername db1 env userID = ScheduledWorker.getUsername db2 env userID := by
  unfold ScheduledWorker.getUsername UserRepo.GetByID
  rw [h]

/-- One reminder on a hub whose channels are open: the run goes on, and the
creator is told exactly when there is a hub and the creator has a name. -/
theorem ScheduledWorker.remind_open (env : Env) (call : ScheduledCall) (reminderTime : Duration)
    (st : TickState) (hopen : ∀ h, st.world.wsHub = some h → h.Open) :
    (ScheduledWorker.remind env call reminderTime st).running = true ∧
    (∀ h, (ScheduledWorker.remind env call reminderTime st).world.wsHub = some h → h.Open) ∧
    (ScheduledWorker.remind env call reminderTime st).world.wsHub.isSome =
      st.world.wsHub.isSome ∧
    (ScheduledWorker.remind env call reminderTime st).sent = st.sent ++
      (if st.world.wsHub.isSome = true ∧
          ScheduledWorker.getUsername st.world.db env call.CreatedBy ≠ "" then
        [{ username := ScheduledWorker.getUsername st.world.db env call.CreatedBy,
           callID := call.ID, reminderTime := reminderTime }]
      else []) := by
  unfold ScheduledWorker.remind
  cases hh : st.world.wsHub with
  | none => exact ⟨rfl, by simp, rfl, by simp⟩
  | some h =>
    simp only
    by_cases hu : ScheduledWorker.getUsername st.world.db env call.CreatedBy ≠ ""
    · obtain ⟨h1, hb, ho, _⟩ := WebSocketHub.BroadcastScheduledCallReminder_open h
        (ScheduledWorker.getUsername st.world.db env call.CreatedBy) (some call) reminderTime
        (hopen h hh)
      rw [if_pos hu, hb, if_pos ⟨rfl, hu⟩]
      refine ⟨rfl, ?_, rfl, rfl⟩
      intro h2 h2eq
      simp only [Option.some.injEq] at h2eq
      exact h2eq ▸ ho
    · rw [if_neg hu, if_neg (fun h => hu h.2)]
      refine ⟨rfl, ?_, rfl, by simp⟩
      intro h2 h2eq
      simp only [Option.some.injEq] at h2eq
      exact h2eq ▸ hopen h hh

theorem ScheduledWorker.remindCall_open (env : Env) (call : ScheduledCall)
    (timeUntilCall : Duration) (st : TickState) (hrun : st.running = true)
    (hopen : ∀ h, st.world.wsHub = some h → h.Open) :
    (ScheduledWorker.remindCall env call timeUntilCall ScheduledWorker.reminderTimes
      st).running = true ∧
    (∀ h, (ScheduledWorker.remindCall env call timeUntilCall ScheduledWorker.reminderTimes
      st).world.wsHub = some h → h.Open) ∧
    (ScheduledWorker.remindCall env call timeUntilCall ScheduledWorker.reminderTimes
      st).world.wsHub.isSome = st.world.wsHub.isSome ∧
    ∀ s, s ∈ (ScheduledWorker.remindCall env call timeUntilCall ScheduledWorker.reminderTimes
        st).sent ↔
      s ∈ st.sent ∨
        (st.world.wsHub.isSome = true ∧
          s.username = ScheduledWorker.getUsername st.world.db env call.CreatedBy ∧
          s.username ≠ "" ∧ s.callID = call.ID ∧
          ((s.reminderTime = 15 * Duration.Minute ∧ 14 * Duration.Minute < timeUntilCall ∧
              timeUntilCall ≤ 15 * Duration.Minute) ∨
            (s.reminderTime = 5 * Duration.Minute ∧ 4 * Duration.Minute < timeUntilCall ∧
              timeUntilCall ≤ 5 * Duration.Minute))) := by
  rw [ScheduledWorker.remindCall_eq]
  have key : ∀ T, _ := fun T => ScheduledWorker.remind_open env call T st hopen
  have hmem : ∀ (T : Duration) (s : ReminderSent),
      s ∈ st.sent ++
        (if st.world.wsHub.isSome = true ∧
            ScheduledWorker.getUsername st.world.db env call.CreatedBy ≠ "" then
          [({ username := ScheduledWorker.getUsername st.world.db env call.CreatedBy,
              callID := call.ID, reminderTime := T } : ReminderSent)]
        else []) ↔
      s ∈ st.sent ∨ (st.world.wsHub.isSome = true ∧
        s.username = ScheduledWorker.getUsername st.world.db env call.CreatedBy ∧
        s.username ≠ "" ∧ s.callID = call.ID ∧ s.reminderTime = T) := by
    intro T s
    rw [List.mem_append]
    apply or_congr Iff.rfl
    by_cases hc : st.world.wsHub.isSome = true ∧
        ScheduledWorker.getUsername st.world.db env call.CreatedBy ≠ ""
    · rw [if_pos hc, List.mem_singleton]
      constructor
      · rintro rfl
        exact ⟨hc.1, rfl, hc.2, rfl, rfl⟩
      · rintro ⟨_, h1, _, h2, h3⟩
        cases s
        simp only at h1 h2 h3
        rw [h1, h2, h3]
    · rw [if_neg hc]
      constructor
      · intro h
        simp at h
      · rintro ⟨h0, h1, h2, _⟩
        exact absurd ⟨h0, h1 ▸ h2⟩ hc
  by_cases w15 : timeUntilCall ≤ 15 * Duration.Minute ∧
      timeUntilCall > 15 * Duration.Minute - Duration.Minute
  · rw [if_pos w15]
    obtain ⟨a, b, c, d⟩ := key (15 * Duration.Minute)
    refine ⟨a, b, c, ?_⟩
    intro s
    rw [d, hmem]
    apply or_congr Iff.rfl
    have h14 : 14 * Duration.Minute < timeUntilCall := by
      have := w15.2
      unfold Duration.Minute Duration.Second at this ⊢
      linarith
    constructor
    · rintro ⟨h0, h1, h2, h3, h4⟩
      exact ⟨h0, h1, h2, h3, Or.inl ⟨h4, h14, w15.1⟩⟩
    · rintro ⟨h0, h1, h2, h3, h4 | h4⟩
      · exact ⟨h0, h1, h2, h3, h4.1⟩
      · exfalso
        have := h4.2.2
        unfold Duration.Minute Duration.Second at this h14
        linarith
  · rw [if_neg w15]
    by_cases w5 : timeUntilCall ≤ 5 * Duration.Minute ∧
        timeUntilCall > 5 * Duration.Minute - Duration.Minute
    · rw [if_pos w5]
      obtain ⟨a, b, c, d⟩ := key (5 * Duration.Minute)
      refine ⟨a, b, c, ?_⟩
      intro s
      rw [d, hmem]
      apply or_congr Iff.rfl
      have h4m : 4 * Duration.Minute < timeUntilCall := by
        have := w5.2
        unfold Duration.Minute Duration.Second at this ⊢
        linarith
      constructor
      · rintro ⟨h0, h1, h2, h3, h4⟩
        exact ⟨h0, h1, h2, h3, Or.inr ⟨h4, h4m, w5.1⟩⟩
      · rintro ⟨h0, h1, h2, h3, h4 | h4⟩
        · exfalso
          have h5 := w5.1
          have := h4.2.1
          unfold Duration.Minute Duration.Second at this h5
          linarith
        · exact ⟨h0, h1, h2, h3, h4.1⟩
    · rw [if_neg w5]
      refine ⟨hrun, hopen, rfl, ?_⟩
      intro s
      constructor
      · exact Or.inl
      · rintro (h | ⟨_, _, _, _, h4 | h4⟩)
        · exact h
        · exfalso
          apply w15
          refine ⟨h4.2.2, ?_⟩
          have := h4.2.1
          unfold Duration.Minute Duration.Second at this ⊢
          linarith
        · exfalso
          apply w5
          refine ⟨h4.2.2, ?_⟩
          have := h4.2.1
          unfold Duration.Minute Duration.Second at this ⊢
          linarith

/-- One run of the outer loop on a hub whose channels are open: it runs to its
end, and its reminders are exactly those of the calls of the list that had no
reminder yet and are in a window. -/
theorem ScheduledWorker.remindLoop_open (env : Env) (calls : List ScheduledCall)
    (st : TickState) (hrun : st.running = true)
    (hopen : ∀ h, st.world.wsHub = some h → h.Open) :
    (ScheduledWorker.remindLoop env calls st).running = true ∧
    (∀ h, (ScheduledWorker.remindLoop env calls st).world.wsHub = some h → h.Open) ∧
    (ScheduledWorker.remindLoop env calls st).world.wsHub.isSome = st.world.wsHub.isSome ∧
    ∀ s, s ∈ (ScheduledWorker.remindLoop env calls st).sent ↔
      s ∈ st.sent ∨
        ∃ c ∈ calls, c.ReminderSentAt = none ∧ st.world.wsHub.isSome = true ∧
          s.username = ScheduledWorker.getUsername st.world.db env c.CreatedBy ∧
          s.username ≠ "" ∧ s.callID = c.ID ∧
          ((s.reminderTime = 15 * Duration.Minute ∧
              14 * Duration.Minute < c.ScheduledAt.Sub env.now ∧
              c.ScheduledAt.Sub env.now ≤ 15 * Duration.Minute) ∨
            (s.reminderTime = 5 * Duration.Minute ∧
              4 * Duration.Minute < c.ScheduledAt.Sub env.now ∧
              c.ScheduledAt.Sub env.now ≤ 5 * Duration.Minute)) := by
  induction calls generalizing st with
  | nil => exact ⟨hrun, hopen, rfl, fun s => by simp [ScheduledWorker.remindLoop]⟩
  | cons call rest ih =>
    unfold ScheduledWorker.remindLoop
    rw [if_neg (by simp [hrun])]
    by_cases hs : call.ReminderSentAt ≠ none
    · rw [if_pos hs]
      obtain ⟨a, b, c, d⟩ := ih st hrun hopen
      refine ⟨a, b, c, ?_⟩
      intro s
      rw [d s]
      apply or_congr Iff.rfl
      constructor
      · rintro ⟨c0, hc0, h⟩
        exact ⟨c0, List.mem_cons_of_mem _ hc0, h⟩
      · rintro ⟨c0, hc0, h⟩
        rcases List.mem_cons.mp hc0 with rfl | hc0
        · exact absurd h.1 hs
        · exact ⟨c0, hc0, h⟩
    · rw [if_neg hs]
      have hs1 : call.ReminderSentAt = none := not_not.mp hs
      obtain ⟨a1, b1, c1, d1⟩ := ScheduledWorker.remindCall_open env call
        (call.ScheduledAt.Sub env.now) st hrun hopen
      obtain ⟨u1, _⟩ := ScheduledWorker.remindCall_general env call
        (call.ScheduledAt.Sub env.now) st
      obtain ⟨a, b, c, d⟩ := ih (ScheduledWorker.remindCall env call
        (call.ScheduledAt.Sub env.now) ScheduledWorker.reminderTimes st) a1 b1
      refine ⟨a, b, c.trans c1, ?_⟩
      intro s
      rw [d s, d1 s, c1]
      have hname : ∀ id, ScheduledWorker.getUsername (ScheduledWorker.remindCall env call
          (call.ScheduledAt.Sub env.now) ScheduledWorker.reminderTimes st).world.db env id =
          ScheduledWorker.getUsername st.world.db env id :=
        fun id => ScheduledWorker.getUsername_congr _ _ env id u1
      simp only [hname]
      constructor
      · rintro ((h | h) | ⟨c0, hc0, h⟩)
        · exact Or.inl h
        · exact Or.inr ⟨call, List.mem_cons_self _ _, hs1, h⟩
        · exact Or.inr ⟨c0, List.mem_cons_of_mem _ hc0, h⟩
      · rintro (h | ⟨c0, hc0, h⟩)
        · exact Or.inl (Or.inl h)
        · rcases List.mem_cons.mp hc0 with rfl | hc0
          · exact Or.inl (Or.inr h.2)
          · exact Or.inr ⟨c0, hc0, h⟩

theorem ScheduledCallRepo.GetUpcoming_rows (db : DB) (env : Env) (limit : Nat)
    (upcoming : List ScheduledCall)
    (h : ScheduledCallRepo.GetUpcoming db env limit = .ok upcoming) :
    (∀ c ∈ upcoming, c ∈ db.scheduled_calls) ∧
    ((db.scheduled_calls.map (fun c => c.ID)).Nodup → (upcoming.map (fun c => c.ID)).Nodup) := by
  unfold ScheduledCallRepo.GetUpcoming at h
  cases hq : env.fault .scheduledGetUpcoming with
  | some e => simp [hq] at h
  | none =>
    simp only [hq, Except.ok.injEq] at h
    subst h
    constructor
    · intro c hc
      have h1 := List.mem_of_mem_take hc
      unfold orderByScheduledAt at h1
      have h2 := (List.perm_insertionSort _ _).mem_iff.mp h1
      exact List.mem_of_mem_filter h2
    · intro hnd
      refine List.Nodup.sublist ((List.take_sublist _ _).map _) ?_
      unfold orderByScheduledAt
      rw [((List.perm_insertionSort _ _).map _).nodup_iff]
      exact hnd.sublist ((List.filter_sublist _).map _)

/-- One tick, whatever the hub: per call at most one reminder, none for a call
whose reminder is recorded, and a call reminded of has its reminder recorded when
that write does not fail. -/
theorem ScheduledWorker.sendReminders_general (w : World) (env : Env) (k : Int)
    (hids : (w.db.scheduled_calls.map (fun c => c.ID)).Nodup) :
    (ScheduledWorker.sendReminders w env).world.db.scheduled_calls.map (fun c => c.ID) =
      w.db.scheduled_calls.map (fun c => c.ID) ∧
    (w.db.reminderSet k → (ScheduledWorker.sendReminders w env).world.db.reminderSet k) ∧
    (ScheduledWorker.sendReminders w env).sent.countP (fun s => s.callID == k) ≤ 1 ∧
    (w.db.reminderSet k →
      (ScheduledWorker.sendReminders w env).sent.countP (fun s => s.callID == k) = 0) ∧
    (env.fault (.scheduledUpdateReminderSent k) = none →
      0 < (ScheduledWorker.sendReminders w env).sent.countP (fun s => s.callID == k) →
      (ScheduledWorker.sendReminders w env).world.db.reminderSet k) := by
  unfold ScheduledWorker.sendReminders ScheduledService.GetUpcomingScheduledCalls
  cases hget : ScheduledCallRepo.GetUpcoming w.db env 100 with
  | error e => exact ⟨rfl, fun h => h, by simp, fun _ => by simp, fun _ h => by simp at h⟩
  | ok upcoming =>
    obtain ⟨hrows, hnd⟩ := ScheduledCallRepo.GetUpcoming_rows w.db env 100 upcoming hget
    obtain ⟨_, b, c, extra, d, e, f⟩ := ScheduledWorker.remindLoop_general env upcoming
      { world := w, sent := [], running := true }
    have hcount : ∀ l : List ReminderSent,
        l.countP (fun s => s.callID == k) = (l.map (fun s => s.callID)).count k := by
      intro l
      rw [List.count, List.countP_map]
      rfl
    have hsub : (extra.map (fun s => s.callID)).Sublist (upcoming.map (fun c => c.ID)) :=
      e.trans ((List.filter_sublist _).map _)
    simp only
    rw [d, List.nil_append, hcount]
    refine ⟨b, c k, ?_, ?_, ?_⟩
    · exact le_trans (hsub.count_le k) (List.nodup_iff_count_le_one.mp (hnd hids) k)
    · intro hset
      rw [List.count_eq_zero]
      intro hk
      have hk2 := e.subset hk
      obtain ⟨c0, hc0, hc0id⟩ := List.mem_map.mp hk2
      have hc1 := List.mem_filter.mp hc0
      have hunset : c0.ReminderSentAt = none := by simpa using hc1.2
      exact hset c0 (hrows c0 hc1.1) hc0id hunset
    · intro hq hpos
      exact f k (List.count_pos_iff.mp hpos) hq

/-- Any number of ticks: a call is reminded of at most once. -/
theorem ScheduledWorker.runTicks_general (envs : List Env) (st : TickState) (k : Int)
    (hids : (st.world.db.scheduled_calls.map (fun c => c.ID)).Nodup)
    (hwrite : ∀ env ∈ envs, env.fault (.scheduledUpdateReminderSent k) = none)
    (hle : st.sent.countP (fun s => s.callID == k) ≤ 1)
    (hset : 0 < st.sent.countP (fun s => s.callID == k) → st.world.db.reminderSet k) :
    (ScheduledWorker.runTicks envs st).sent.countP (fun s => s.callID == k) ≤ 1 := by
  induction envs generalizing st with
  | nil => exact hle
  | cons env rest ih =>
    unfold ScheduledWorker.runTicks
    by_cases hr : st.running = false
    · rw [if_pos hr]
      exact hle
    · rw [if_neg hr]
      obtain ⟨a, b, c, d, e⟩ := ScheduledWorker.sendReminders_general st.world env k hids
      have hq := hwrite env (List.mem_cons_self _ _)
      refine ih _ (by rw [a]; exact hids) (fun env1 h1 => hwrite env1 (List.mem_cons_of_mem _ h1))
        ?_ ?_
      · show (st.sent ++ (ScheduledWorker.sendReminders st.world env).sent).countP _ ≤ 1
        rw [List.countP_append]
        by_cases h0 : 0 < st.sent.countP (fun s => s.callID == k)
        · rw [d (hset h0)]
          exact hle
        · have : st.sent.countP (fun s => s.callID == k) = 0 := by omega
          rw [this, Nat.zero_add]
          exact c
      · show 0 < (st.sent ++ (ScheduledWorker.sendReminders st.world env).sent).countP _ → _
        rw [List.countP_append]
        intro hpos
        by_cases h0 : 0 < st.sent.countP (fun s => s.callID == k)
        · exact b (hset h0)
        · exact e hq (by omega)

/-- C13: on a table whose ids are distinct, for every list of ticks at arbitrary
times at which the write of `reminder_sent_at` for call `k` does not fail, the
hub is called with at most one reminder for call `k` in total; a tick makes no
reminder for a call whose reminder is recorded, makes at most one for a call,
and leaves the reminder recorded for every call it made one for. -/
theorem reminder_at_most_once (w : World) (envs : List Env) (k : Int)
    (hids : (w.db.scheduled_calls.map (fun c => c.ID)).Nodup)
    (hwrite : ∀ env ∈ envs, env.fault (.scheduledUpdateReminderSent k) = none) :
    (ScheduledWorker.runTicks envs { world := w, sent := [], running := true }).sent.countP
      (fun s => s.callID == k) ≤ 1 ∧
    (∀ env, w.db.reminderSet k →
      (ScheduledWorker.sendReminders w env).sent.countP (fun s => s.callID == k) = 0) ∧
    (∀ env, (ScheduledWorker.sendReminders w env).sent.countP (fun s => s.callID == k) ≤ 1) ∧
    (∀ env, env.fault (.scheduledUpdateReminderSent k) = none →
      0 < (ScheduledWorker.sendReminders w env).sent.countP (fun s => s.callID == k) →
      (ScheduledWorker.sendReminders w env).world.db.reminderSet k) :=
  ⟨ScheduledWorker.runTicks_general envs _ k hids hwrite (by simp) (fun h => by simp at h),
    fun env => (ScheduledWorker.sendReminders_general w env k hids).2.2.2.1,
    fun env => (ScheduledWorker.sendReminders_general w env k hids).2.2.1,
    fun env => (ScheduledWorker.sendReminders_general w env k hids).2.2.2.2⟩

theorem Time.Sub_window (t u : Time) (lo hi : Duration) (hlo : -(2 ^ 63) ≤ lo)
    (hhi : hi < 2 ^ 63 - 1) :
    (lo < Time.Sub t u ∧ Time.Sub t u ≤ hi) ↔ (lo < t - u ∧ t - u ≤ hi) := by
  unfold Time.Sub
  generalize t - u = d
  by_cases h1 : d > 2 ^ 63 - 1
  · rw [if_pos h1]
    constructor
    · rintro ⟨_, h⟩
      exact absurd (lt_of_le_of_lt h hhi) (lt_irrefl _)
    · rintro ⟨_, h⟩
      exact absurd (lt_trans (lt_of_le_of_lt h hhi) h1) (lt_irrefl _)
  · rw [if_neg h1]
    by_cases h2 : d < -(2 ^ 63)
    · rw [if_pos h2]
      constructor
      · rintro ⟨h, _⟩
        exact absurd (lt_of_le_of_lt hlo h) (lt_irrefl _)
      · rintro ⟨h, _⟩
        exact absurd (lt_trans (lt_of_le_of_lt hlo h) h2) (lt_irrefl _)
    · rw [if_neg h2]

/-- A list with at most one element of a kind, one of which is known. -/
theorem filter_eq_singleton {α : Type} (p : α → Bool) (l : List α) (x : α)
    (hle : l.countP p ≤ 1) (hx : x ∈ l) (hp : p x = true) : l.filter p = [x] := by
  have hmem : x ∈ l.filter p := List.mem_filter.mpr ⟨hx, hp⟩
  have hlen : (l.filter p).length ≤ 1 := by
    rw [← List.countP_eq_length_filter]
    exact hle
  cases hf : l.filter p with
  | nil => simp [hf] at hmem
  | cons a rest =>
    cases rest with
    | nil =>
      rw [hf] at hmem
      simp at hmem
      rw [hmem]
    | cons b rest2 =>
      rw [hf] at hlen
      simp at hlen

/-- Which reminders a tick makes for a call it fetched with no reminder yet, on
a hub whose channels are open. -/
theorem sendReminders_mem_iff (w : World) (env : Env)
    (upcoming : List ScheduledCall) (c : ScheduledCall) (u : String) (T : Duration)
    (hget : ScheduledService.GetUpcomingScheduledCalls w.db env 100 = .ok upcoming)
    (hc : c ∈ upcoming) (hunset : c.ReminderSentAt = none)
    (hids : (w.db.scheduled_calls.map (fun c => c.ID)).Nodup)
    (hopen : ∀ h, w.wsHub = some h → h.Open) :
    ({ username := u, callID := c.ID, reminderTime := T } : ReminderSent) ∈
        (ScheduledWorker.sendReminders w env).sent ↔
      w.wsHub.isSome = true ∧ u = ScheduledWorker.getUsername w.db env c.CreatedBy ∧ u ≠ "" ∧
      ((T = 15 * Duration.Minute ∧ 15 * Duration.Minute - Duration.Minute <
            c.ScheduledAt - env.now ∧ c.ScheduledAt - env.now ≤ 15 * Duration.Minute) ∨
        (T = 5 * Duration.Minute ∧ 5 * Duration.Minute - Duration.Minute <
            c.ScheduledAt - env.now ∧ c.ScheduledAt - env.now ≤ 5 * Duration.Minute)) := by
  have e14 : 15 * Duration.Minute - Duration.Minute = 14 * Duration.Minute := by decide
  have e4 : 5 * Duration.Minute - Duration.Minute = 4 * Duration.Minute := by decide
  have w15 := Time.Sub_window c.ScheduledAt env.now (14 * Duration.Minute)
    (15 * Duration.Minute) (by decide) (by decide)
  have w5 := Time.Sub_window c.ScheduledAt env.now (4 * Duration.Minute)
    (5 * Duration.Minute) (by decide) (by decide)
  have hnd := (ScheduledCallRepo.GetUpcoming_rows w.db env 100 upcoming hget).2 hids
  obtain ⟨_, _, _, d⟩ := ScheduledWorker.remindLoop_open env upcoming
    { world := w, sent := [], running := true } rfl hopen
  unfold ScheduledWorker.sendReminders
  rw [hget, e14, e4]
  simp only
  rw [d]
  constructor
  · rintro (h | ⟨c0, hc0, _, h0, h1, h2, h3, h4⟩)
    · simp at h
    · have hcc : c0 = c := List.inj_on_of_nodup_map hnd hc0 hc h3.symm
      subst hcc
      refine ⟨h0, h1, h2, ?_⟩
      rcases h4 with h4 | h4
      · exact Or.inl ⟨h4.1, w15.mp h4.2⟩
      · exact Or.inr ⟨h4.1, w5.mp h4.2⟩
  · rintro ⟨h0, h1, h2, h4⟩
    refine Or.inr ⟨c, hc, hunset, h0, h1, h2, rfl, ?_⟩
    rcases h4 with h4 | h4
    · exact Or.inl ⟨h4.1, w15.mpr h4.2⟩
    · exact Or.inr ⟨h4.1, w5.mpr h4.2⟩

/-- C14, as the code has it: for a call that the tick fetched, with no reminder
yet, whose `scheduledAt` is 14 minutes 30 seconds after the tick, with a hub whose channels are open, a creator
whose name resolves and a write that does not fail, the tick makes exactly one
reminder for the call, addressed to the creator with reminder time 15 minutes,
and leaves the reminder recorded; and any later tick, in particular one at
which the call is 4 minutes 40 seconds away, makes no reminder for the call. -/
theorem reminder_fires_once_at_fifteen_minutes (w : World) (env1 env2 : Env)
    (upcoming : List ScheduledCall) (c : ScheduledCall) (h : WebSocketHub)
    (hget : ScheduledService.GetUpcomingScheduledCalls w.db env1 100 = .ok upcoming)
    (hc : c ∈ upcoming) (hunset : c.ReminderSentAt = none)
    (hids : (w.db.scheduled_calls.map (fun c => c.ID)).Nodup)
    (hhub : w.wsHub = some h) (hopen : h.Open)
    (huser : ScheduledWorker.getUsername w.db env1 c.CreatedBy ≠ "")
    (htime : c.ScheduledAt - env1.now = 14 * Duration.Minute + 30 * Duration.Second)
    (hwrite : env1.fault (.scheduledUpdateReminderSent c.ID) = none) :
    (ScheduledWorker.sendReminders w env1).sent.filter (fun s => s.callID == c.ID) =
      [{ username := ScheduledWorker.getUsername w.db env1 c.CreatedBy, callID := c.ID,
         reminderTime := 15 * Duration.Minute }] ∧
    (ScheduledWorker.sendReminders w env1).world.db.reminderSet c.ID ∧
    (ScheduledWorker.sendReminders (ScheduledWorker.sendReminders w env1).world env2).sent.filter
      (fun s => s.callID == c.ID) = [] := by
  have hopen1 : ∀ h1, w.wsHub = some h1 → h1.Open := by
    intro h1 hh1
    rw [hhub] at hh1
    exact (Option.some.inj hh1) ▸ hopen
  have hmem :
      ({ username := ScheduledWorker.getUsername w.db env1 c.CreatedBy, callID := c.ID,
         reminderTime := 15 * Duration.Minute } : ReminderSent) ∈
      (ScheduledWorker.sendReminders w env1).sent := by
    rw [sendReminders_mem_iff w env1 upcoming c _ _ hget hc hunset hids hopen1]
    refine ⟨by rw [hhub]; rfl, rfl, huser, Or.inl ⟨rfl, ?_, ?_⟩⟩
    · rw [htime]
      decide
    · rw [htime]
      decide
  obtain ⟨a, _, cle, _, e⟩ := ScheduledWorker.sendReminders_general w env1 c.ID hids
  have hone := filter_eq_singleton (fun s : ReminderSent => s.callID == c.ID) _ _ cle hmem
    (by simp)
  have hset : (ScheduledWorker.sendReminders w env1).world.db.reminderSet c.ID := by
    refine e hwrite ?_
    rw [List.countP_eq_length_filter, hone]
    exact Nat.zero_lt_one
  refine ⟨hone, hset, ?_⟩
  obtain ⟨_, _, _, d2, _⟩ := ScheduledWorker.sendReminders_general
    (ScheduledWorker.sendReminders w env1).world env2 c.ID (by rw [a]; exact hids)
  have h0 := d2 hset
  rw [List.countP_eq_length_filter] at h0
  exact List.length_eq_zero.mp h0

/-- C12, as the code has it: for every call that a tick fetched with
`reminderSentAt` unset (ids distinct, the hub's channels open), the tick hands
the hub a reminder for the call, addressed to `u` with reminder time `T`, if and
only if there is a hub, `u` is the non-empty name of the call's creator, and
`timeUntilCall = scheduledAt - now` lies in the window `(T - 1 minute, T]` for
`T` 15 minutes or `T` 5 minutes; the two windows do not meet, so `T` is the
first, and only, reminder time whose window holds. -/
theorem sendReminders_window_of_one_minute (w : World) (env : Env)
    (upcoming : List ScheduledCall) (c : ScheduledCall)
    (hget : ScheduledService.GetUpcomingScheduledCalls w.db env 100 = .ok upcoming)
    (hc : c ∈ upcoming) (hunset : c.ReminderSentAt = none)
    (hids : (w.db.scheduled_calls.map (fun c => c.ID)).Nodup)
    (hopen : ∀ h, w.wsHub = some h → h.Open) :
    ∀ (u : String) (T : Duration),
      ({ username := u, callID := c.ID, reminderTime := T } : ReminderSent) ∈
          (ScheduledWorker.sendReminders w env).sent ↔
        w.wsHub.isSome = true ∧ u = ScheduledWorker.getUsername w.db env c.CreatedBy ∧
        u ≠ "" ∧
        ((T = 15 * Duration.Minute ∧ 15 * Duration.Minute - Duration.Minute <
              c.ScheduledAt - env.now ∧ c.ScheduledAt - env.now ≤ 15 * Duration.Minute) ∨
          (T = 5 * Duration.Minute ∧ 5 * Duration.Minute - Duration.Minute <
              c.ScheduledAt - env.now ∧ c.ScheduledAt - env.now ≤ 5 * Duration.Minute)) :=
  fun u T => sendReminders_mem_iff w env upcoming c u T hget hc hunset hids hopen

/-! ## Reminder worker: worked instances -/

/-- The hub of the example tick has only open channels. -/
theorem exWorldTick_open : ∀ h, exWorldTick.wsHub = some h → h.Open := by
  intro h hh
  have : h = exHubAlice := (Option.some.inj hh).symm
  rw [this]
  exact exHubAlice_open

/-- Counterexample to C12 as stated: at a tick 14 minutes 15 seconds before the
call, which is outside the window of 30 seconds below 15 minutes, the worker
sends `alice` the reminder with reminder time 15 minutes. -/
theorem sendReminders_reminds_at_14m15s :
    (ScheduledWorker.sendReminders exWorldTick (exEnv 346000000000)).sent =
      [{ username := "alice", callID := 1, reminderTime := 15 * Duration.Minute }] ∧
    exCallPlanned.ScheduledAt - 346000000000 = 14 * Duration.Minute + 15 * Duration.Second ∧
    exWorldTick.db.scheduled_calls = [exCallPlanned] ∧
    ¬ (15 * Duration.Minute - ScheduledWorker.tickPeriod <
        exCallPlanned.ScheduledAt - 346000000000) := by
  refine ⟨by decide, by decide, by decide, by decide⟩

/-- Witness for C12 as amended: at a tick 4 minutes 30 seconds before the call
the reminder with reminder time 5 minutes is made for `alice`, and none with
15 minutes. -/
theorem sendReminders_window_of_one_minute_witness :
    ({ username := "alice", callID := 1, reminderTime := 5 * Duration.Minute } : ReminderSent) ∈
      (ScheduledWorker.sendReminders exWorldTick (exEnv 931000000000)).sent ∧
    ({ username := "alice", callID := 1, reminderTime := 15 * Duration.Minute } : ReminderSent) ∉
      (ScheduledWorker.sendReminders exWorldTick (exEnv 931000000000)).sent :=
  have hall := sendReminders_window_of_one_minute exWorldTick (exEnv 931000000000)
    [exCallPlanned] exCallPlanned rfl (by decide) rfl (by decide) exWorldTick_open
  ⟨(hall "alice" (5 * Duration.Minute)).mpr
      ⟨rfl, by decide, by decide, Or.inr ⟨rfl, by decide, by decide⟩⟩,
    fun h => absurd ((hall "alice" (15 * Duration.Minute)).mp h).2.2.2 (by decide)⟩

/-- Witness for C13: over the ticks 14 minutes 30 seconds and 4 minutes 40
seconds before the call, both in a window, one reminder is made. -/
theorem reminder_at_most_once_witness :
    (ScheduledWorker.runTicks [exEnv 331000000000, exEnv 921000000000]
      { world := exWorldTick, sent := [], running := true }).sent.countP
        (fun s => s.callID == 1) ≤ 1 ∧
    (ScheduledWorker.runTicks [exEnv 331000000000, exEnv 921000000000]
      { world := exWorldTick, sent := [], running := true }).sent =
      [{ username := "alice", callID := 1, reminderTime := 15 * Duration.Minute }] :=
  ⟨(reminder_at_most_once exWorldTick [exEnv 331000000000, exEnv 921000000000] 1 (by decide)
      (fun env henv => by
        simp only [List.mem_cons, List.mem_singleton, List.not_mem_nil, or_false] at henv
        rcases henv with rfl | rfl <;> rfl)).1,
    by decide⟩

/-- Witness for C14: the scenario on the example, with the ticks 14 minutes 30
seconds and 4 minutes 40 seconds before the call; the reminder is then the
one message in the outbound buffer of `alice`. -/
theorem reminder_fires_once_at_fifteen_minutes_witness :
    ((ScheduledWorker.sendReminders exWorldTick (exEnv 331000000000)).sent.filter
        (fun s => s.callID == 1) =
      [{ username := "alice", callID := 1, reminderTime := 15 * Duration.Minute }] ∧
     (ScheduledWorker.sendReminders exWorldTick (exEnv 331000000000)).world.db.reminderSet 1 ∧
     (ScheduledWorker.sendReminders
        (ScheduledWorker.sendReminders exWorldTick (exEnv 331000000000)).world
        (exEnv 921000000000)).sent.filter (fun s => s.callID == 1) = []) ∧
    exCallPlanned.ScheduledAt - 921000000000 = 4 * Duration.Minute + 40 * Duration.Second ∧
    (ScheduledWorker.sendReminders exWorldTick
      (exEnv 331000000000)).world.db.scheduled_calls.map (fun c => c.ReminderSentAt) =
      [some 331000000000] ∧
    ((ScheduledWorker.sendReminders exWorldTick (exEnv 331000000000)).world.wsHub.map
      (fun h => (h.chans 1).buf)) =
      some [.message { type := "scheduled_call_reminder",
                       data := .scheduledCallReminder (some exCallPlanned)
                         (15 * Duration.Minute) }] :=
  ⟨reminder_fires_once_at_fifteen_minutes exWorldTick (exEnv 331000000000)
      (exEnv 921000000000) [exCallPlanned] exCallPlanned exHubAlice rfl (by decide) rfl
      (by decide) rfl exHubAlice_open (by decide) (by decide) rfl,
    by decide, by decide, by decide⟩

/-! ## Starting a scheduled call: the refusals -/

/-- The product `time.Duration(n) * time.Second` is exact for a limit of up to
9223372036 seconds. -/
theorem wrap64_seconds (n : Int) (h0 : 0 ≤ n) (h1 : n ≤ 9223372036) :
    wrap64 (n * Duration.Second) = n * Duration.Second := by
  unfold wrap64 Duration.Second
  have e : (2 : Int) ^ 63 = 9223372036854775808 := by decide
  have e2 : (2 : Int) ^ 64 = 18446744073709551616 := by decide
  rw [e, e2]
  rw [Int.emod_eq_of_lt (by linarith) (by linarith)]
  ring

/-- The refusals of `StartScheduledCall`, in their order, when the two lookups
do not fail; each returns the state as it was. The expiry test is the one on
`scheduledAt` plus the limit for every limit of up to 9223372036 seconds. -/
theorem ScheduledService.StartScheduledCall_refusals (w : World) (env : Env) (id userID : Int)
    (hq : env.fault .scheduledGetByID = none)
    (hq2 : env.fault .scheduledInvitationGetByScheduledCallID = none) :
    (w.db.scheduled_calls.find? (fun c => c.ID == id) = none →
      ScheduledService.StartScheduledCall w env id userID =
        (w, .error "scheduled call not found")) ∧
    (∀ call, w.db.scheduled_calls.find? (fun c => c.ID == id) = some call →
      (call.CreatedBy ≠ userID →
        (∀ inv ∈ w.db.scheduled_call_invitations,
          ¬ (inv.ScheduledCallID = id ∧ inv.InviteeID = userID)) →
        ScheduledService.StartScheduledCall w env id userID =
          (w, .error "unauthorized: user is not creator or invitee")) ∧
      ((call.CreatedBy = userID ∨ ∃ inv ∈ w.db.scheduled_call_invitations,
          inv.ScheduledCallID = id ∧ inv.InviteeID = userID) →
        (call.Status ≠ "scheduled" →
          ScheduledService.StartScheduledCall w env id userID =
            (w, .error "call is not in scheduled status")) ∧
        (call.Status = "scheduled" → 0 < call.MaxDurationSeconds →
          call.MaxDurationSeconds ≤ 9223372036 →
          env.now > call.ScheduledAt + call.MaxDurationSeconds * Duration.Second →
          ScheduledService.StartScheduledCall w env id userID =
            (w, .error "meeting has ended")))) := by
  have hget : ScheduledCallRepo.GetByID w.db env id =
      .ok (w.db.scheduled_calls.find? (fun c => c.ID == id)) := by
    simp [ScheduledCallRepo.GetByID, hq]
  constructor
  · intro hfind
    simp [ScheduledService.StartScheduledCall, hget, hfind]
  · intro call hfind
    constructor
    · intro hne hno
      have hany : (w.db.scheduled_call_invitations.filter
          (fun i => i.ScheduledCallID == id)).any (fun inv => inv.InviteeID == userID) =
          false := by
        rw [List.any_eq_false]
        intro inv hinv
        have h1 := List.mem_filter.mp hinv
        have h2 : inv.ScheduledCallID = id := by simpa using h1.2
        have h3 := hno inv h1.1
        simp only [beq_iff_eq]
        exact fun h => h3 ⟨h2, h⟩
      have hauth : ScheduledService.startAuthError w.db env call id userID =
          some "unauthorized: user is not creator or invitee" := by
        simp [ScheduledService.startAuthError, ScheduledService.IsInvitee,
          ScheduledCallInvitationRepo.GetByScheduledCallID, hq2, hne, hany]
      simp [ScheduledService.StartScheduledCall, hget, hfind, hauth]
    · intro hok
      have hauth : ScheduledService.startAuthError w.db env call id userID = none := by
        unfold ScheduledService.startAuthError
        by_cases hc : call.CreatedBy = userID
        · rw [if_neg (not_not.mpr hc)]
        · rw [if_pos hc]
          rcases hok with hok | ⟨inv, hinv, h1, h2⟩
          · exact absurd hok hc
          · have hany : (w.db.scheduled_call_invitations.filter
                (fun i => i.ScheduledCallID == id)).any (fun inv => inv.InviteeID == userID) =
                true := by
              rw [List.any_eq_true]
              exact ⟨inv, List.mem_filter.mpr ⟨hinv, by simp [h1]⟩, by simp [h2]⟩
            simp [ScheduledService.IsInvitee,
              ScheduledCallInvitationRepo.GetByScheduledCallID, hq2, hany]
      constructor
      · intro hst
        simp [ScheduledService.StartScheduledCall, hget, hfind, hauth, hst]
      · intro hst hpos hle hafter
        have hend : env.now.After call.endTime = true := by
          unfold ScheduledCall.endTime Time.Add Time.After
          rw [wrap64_seconds _ (le_of_lt hpos) hle]
          exact decide_eq_true hafter
        simp [ScheduledService.StartScheduledCall, hget, hfind, hauth, hst, hpos, hend]

/-! ## Invitees of a scheduled call -/

/-- C26: when the lookup does not fail, `IsInvitee` answers `true` if and only
if some invitation row has that scheduled call and that invitee, whatever the
status of the row (the status is never read). -/
theorem isInvitee_iff_row_exists (db : DB) (env : Env) (scheduledCallID userID : Int)
    (hq : env.fault .scheduledInvitationGetByScheduledCallID = none) :
    ∃ b, ScheduledService.IsInvitee db env scheduledCallID userID = .ok b ∧
      (b = true ↔ ∃ row ∈ db.scheduled_call_invitations,
        row.ScheduledCallID = scheduledCallID ∧ row.InviteeID = userID) := by
  refine ⟨(db.scheduled_call_invitations.filter
      (fun i => i.ScheduledCallID == scheduledCallID)).any (fun inv => inv.InviteeID == userID),
    by simp only [ScheduledService.IsInvitee,
      ScheduledCallInvitationRepo.GetByScheduledCallID, hq], ?_⟩
  rw [List.any_eq_true]
  constructor
  · rintro ⟨row, hrow, hid⟩
    have h1 := List.mem_filter.mp hrow
    exact ⟨row, h1.1, by simpa using h1.2, by simpa using hid⟩
  · rintro ⟨row, hrow, h1, h2⟩
    exact ⟨row, List.mem_filter.mpr ⟨hrow, by simp [h1]⟩, by simp [h2]⟩

/-- Witness for C26: `bob` is an invitee of scheduled call `7` through a
rejected row, `carol` through an accepted one, and `alice` is none. -/
theorem isInvitee_iff_row_exists_witness :
    ScheduledService.IsInvitee exInvitationsDB (exEnv 20) 7 2 = .ok true ∧
    ScheduledService.IsInvitee exInvitationsDB (exEnv 20) 7 3 = .ok true ∧
    ScheduledService.IsInvitee exInvitationsDB (exEnv 20) 7 1 = .ok false ∧
    ∃ b, ScheduledService.IsInvitee exInvitationsDB (exEnv 20) 8 2 = .ok b ∧
      (b = true ↔ ∃ row ∈ exInvitationsDB.scheduled_call_invitations,
        row.ScheduledCallID = 8 ∧ row.InviteeID = 2) :=
  ⟨rfl, rfl, rfl, isInvitee_iff_row_exists exInvitationsDB (exEnv 20) 8 2 rfl⟩

/-! ## Making a call -/

theorem WebSocketHub.BroadcastInvitation_open (h : WebSocketHub) (username : String)
    (invitation : Invitation) (hopen : h.Open) :
    ∃ h1, h.BroadcastInvitation username invitation = some h1 ∧ h1.Open ∧
      h1.connections = h.connections := by
  unfold WebSocketHub.BroadcastInvitation
  cases hc : h.connections username with
  | none => exact ⟨h, rfl, hopen, rfl⟩
  | some conn => exact WebSocketHub.offer_open h conn _ hopen (hopen username conn hc)

/-- The loop that tells the invitees never panics on an open hub. -/
theorem CallService.invite_broadcast_open (invitations : List Invitation)
    (hub : Option WebSocketHub) (hopen : ∀ h, hub = some h → h.Open) :
    (broadcastAll
      (fun h (invitation : Invitation) =>
        if invitation.Status = "pending" then
          h.BroadcastInvitation invitation.Invitee invitation
        else some h)
      invitations hub).2 = true ∧
    ∀ h, (broadcastAll
      (fun h (invitation : Invitation) =>
        if invitation.Status = "pending" then
          h.BroadcastInvitation invitation.Invitee invitation
        else some h)
      invitations hub).1 = some h → h.Open := by
  apply broadcastAll_open _ _ invitations hub hopen
  intro h a ho
  by_cases hp : a.Status = "pending"
  · simp only [if_pos hp]
    exact WebSocketHub.BroadcastInvitation_open h a.Invitee a ho
  · simp only [if_neg hp]
    exact ⟨h, rfl, ho, rfl⟩

/-- What `CreateCallAndInvite` does once the creator is found, the room is
provisioned and the call is inserted, on a hub whose channels are open: the
invitee loop, the notifications, the two history writes whose outcome is not
looked at, and the token. -/
theorem CallService.CreateCallAndInvite_of_created (w : World) (env : Env) (creatorID : Int)
    (callType : String) (names : List String) (roomName : String) (creator : User)
    (call : ActiveCall)
    (hcreator : UserRepo.GetByID w.db env creatorID = .ok (some creator))
    (hroom : env.createRoomErr = none)
    (hcall : (CallRepo.Create w.db env env.uuidCall
      (if roomName = "" then env.uuidRoom else roomName) callType creatorID).2 = .ok call)
    (hopen : ∀ h, w.wsHub = some h → h.Open) :
    (CallService.CreateCallAndInvite w env creatorID callType names roomName).1.db =
      (HistoryService.UpdateHistoryEntry
        (HistoryService.CreateHistoryEntry
          (CallService.inviteLoop env env.uuidCall creatorID callType
            (if roomName = "" then env.uuidRoom else roomName) names
            (CallRepo.Create w.db env env.uuidCall
              (if roomName = "" then env.uuidRoom else roomName) callType creatorID).1 []).1
          env env.uuidCall (if roomName = "" then env.uuidRoom else roomName) callType
          creatorID ([creator.Username] ++ names)).1
        env env.uuidCall env.now 0 "pending").1 ∧
    (CallService.CreateCallAndInvite w env creatorID callType names roomName).1.wsHub =
      (broadcastAll
        (fun h (invitation : Invitation) =>
          if invitation.Status = "pending" then
            h.BroadcastInvitation invitation.Invitee invitation
          else some h)
        (CallService.inviteLoop env env.uuidCall creatorID callType
          (if roomName = "" then env.uuidRoom else roomName) names
          (CallRepo.Create w.db env env.uuidCall
            (if roomName = "" then env.uuidRoom else roomName) callType creatorID).1 []).2
        w.wsHub).1 ∧
    (CallService.CreateCallAndInvite w env creatorID callType names roomName).2 =
      match CallService.generateToken env (if roomName = "" then env.uuidRoom else roomName)
          creator.Username with
      | .error e => .error ("failed to generate token: " ++ e)
      | .ok token =>
        .ok { CallID := env.uuidCall,
              RoomName := if roomName = "" then env.uuidRoom else roomName, Token := token } := by
  have hb : ∀ invitations : List Invitation, ¬ (broadcastAll
      (fun h (invitation : Invitation) =>
        if invitation.Status = "pending" then
          h.BroadcastInvitation invitation.Invitee invitation
        else some h)
      invitations w.wsHub).2 = false := by
    intro invitations
    rw [(CallService.invite_broadcast_open invitations w.wsHub hopen).1]
    decide
  have hr : CallService.createRoom env (if roomName = "" then env.uuidRoom else roomName) 0 0 =
      none := by
    simp [CallService.createRoom, hroom]
  unfold CallService.CreateCallAndInvite
  simp only [hcreator, hr, hcall]
  rw [if_neg (hb _)]
  cases CallService.generateToken env (if roomName = "" then env.uuidRoom else roomName)
    creator.Username with
  | error e => exact ⟨rfl, rfl, rfl⟩
  | ok token => exact ⟨rfl, rfl, rfl⟩

/-- C23: whenever room provisioning fails, `CreateCallAndInvite` returns an
error and leaves the database and the hub as they were (no call, no
invitation, no history record, no event); and whatever the two history writes
do, when the creator is found, the room is provisioned, the call is inserted
and the token is minted (on a hub whose channels are open), it returns the call
id, the room name, which is the supplied one when that is not empty, and the
token of the creator. -/
theorem createCallAndInvite_room_fatal_history_not (w : World) (env : Env) (creatorID : Int)
    (callType : String) (names : List String) (roomName : String) :
    (∀ e, env.createRoomErr = some e →
      ∃ message, CallService.CreateCallAndInvite w env creatorID callType names roomName =
        (w, .error message)) ∧
    (∀ creator call, UserRepo.GetByID w.db env creatorID = .ok (some creator) →
      env.createRoomErr = none →
      (CallRepo.Create w.db env env.uuidCall
        (if roomName = "" then env.uuidRoom else roomName) callType creatorID).2 = .ok call →
      env.toJWTErr = none → (∀ h, w.wsHub = some h → h.Open) →
      (CallService.CreateCallAndInvite w env creatorID callType names roomName).2 =
        .ok { CallID := env.uuidCall,
              RoomName := if roomName = "" then env.uuidRoom else roomName,
              Token := { Identity := creator.Username,
                         Room := if roomName = "" then env.uuidRoom else roomName,
                         RoomJoin := true, RoomCreate := true,
                         ValidFor := 24 * 3600 * 1000000000 } }) := by
  constructor
  · intro e he
    unfold CallService.CreateCallAndInvite
    cases UserRepo.GetByID w.db env creatorID with
    | error e1 => exact ⟨_, rfl⟩
    | ok found =>
      cases found with
      | none => exact ⟨_, rfl⟩
      | some creator =>
        simp only [CallService.createRoom, he]
        exact ⟨_, rfl⟩
  · intro creator call hcreator hroom hcall htoken hopen
    rw [(CallService.CreateCallAndInvite_of_created w env creatorID callType names roomName
      creator call hcreator hroom hcall hopen).2.2]
    simp [CallService.generateToken, htoken]

/-- Witness for C23: with the room service down nothing happens; with only the
history writes failing `alice` still gets her call and token, for a generated
room and for the room `lobby`, and no history record is there. -/
theorem createCallAndInvite_room_fatal_history_not_witness :
    (∃ message, CallService.CreateCallAndInvite exWorld0 (exEnvNoRoom 100) 1 "video"
        ["bob"] "" = (exWorld0, .error message)) ∧
    (CallService.CreateCallAndInvite exWorld0 (exEnvNoHistory 100) 1 "video" ["bob"] "").2 =
      .ok { CallID := "call-1", RoomName := "room-1",
            Token := { Identity := "alice", Room := "room-1", RoomJoin := true,
                       RoomCreate := true, ValidFor := 24 * 3600 * 1000000000 } } ∧
    (CallService.CreateCallAndInvite exWorld0 (exEnvNoHistory 100) 1 "video" ["bob"]
        "lobby").2 =
      .ok { CallID := "call-1", RoomName := "lobby",
            Token := { Identity := "alice", Room := "lobby", RoomJoin := true,
                       RoomCreate := true, ValidFor := 24 * 3600 * 1000000000 } } ∧
    (CallService.CreateCallAndInvite exWorld0 (exEnvNoHistory 100) 1 "video" ["bob"]
        "").1.db.call_history = [] :=
  ⟨(createCallAndInvite_room_fatal_history_not exWorld0 (exEnvNoRoom 100) 1 "video" ["bob"]
      "").1 "connection refused" rfl,
    (createCallAndInvite_room_fatal_history_not exWorld0 (exEnvNoHistory 100) 1 "video" ["bob"]
      "").2 { ID := 1, Username := "alice", CreatedAt := 5 }
      { ID := 1, CallID := "call-1", RoomName := "room-1", CallType := "video", CreatedBy := 1,
        CreatedAt := 100, EndedAt := none, Status := "active" } rfl rfl rfl rfl
      (fun h hh => by
        have : h = exHubAlice := (Option.some.inj hh).symm
        rw [this]
        exact exHubAlice_open),
    by decide, by decide⟩

/-- In a table whose ids are distinct, the lookup by the id of a row finds that
row. -/
theorem find?_user_of_mem (users : List User) (u : User)
    (hids : (users.map (fun u => u.ID)).Nodup) (hu : u ∈ users) :
    users.find? (fun v => v.ID == u.ID) = some u := by
  induction users with
  | nil => simp at hu
  | cons v rest ih =>
    rw [List.map_cons, List.nodup_cons] at hids
    rcases List.mem_cons.mp hu with rfl | hu
    · simp
    · have hne : ¬ v.ID = u.ID := by
        intro h
        exact hids.1 (h ▸ List.mem_map_of_mem (fun u => u.ID) hu)
      rw [List.find?_cons_of_neg _ (by simpa using hne)]
      exact ih hids.2 hu

/-- The history update as one map over the table: the end time is written
unless it is the zero time. -/
theorem HistoryService.UpdateHistoryEntry_eq (db : DB) (env : Env) (callID : String)
    (endedAt : Time) (duration : Int) (status : String)
    (hq : env.fault .historyUpdate = none) :
    HistoryService.UpdateHistoryEntry db env callID endedAt duration status =
      ({ db with call_history := db.call_history.map (fun r =>
          if r.CallID = callID then
            { r with EndedAt := if endedAt.IsZero = true then r.EndedAt else some endedAt,
                     Duration := duration, Status := status }
          else r) }, none) := by
  unfold HistoryService.UpdateHistoryEntry CallHistoryRepo.Update
  simp only [hq]
  by_cases hz : endedAt.IsZero = true
  · simp only [hz, if_true]
  · simp only [hz, if_false]
    rfl

/-- The insert of an invitation when nothing fails and both users are there. -/
theorem InvitationRepo.invitationCreate_ok (db : DB) (env : Env) (callID : String)
    (inviterID inviteeID : Int) (callType roomName : String) (inviter invitee : User)
    (hq1 : env.fault (.invitationCreate inviteeID) = none)
    (hq2 : env.fault (.invitationCreateUsernames inviteeID) = none)
    (h1 : db.users.find? (fun u => u.ID == inviterID) = some inviter)
    (h2 : db.users.find? (fun u => u.ID == inviteeID) = some invitee) :
    InvitationRepo.Create db env callID inviterID inviteeID callType roomName =
      ({ db with
          call_invitations := db.call_invitations ++
            [{ id := db.seq_call_invitations + 1, call_id := callID, inviter_id := inviterID,
               invitee_id := inviteeID, call_type := callType, room_name := roomName,
               status := "pending", created_at := env.now, responded_at := none }],
          seq_call_invitations := db.seq_call_invitations + 1 },
       .ok { ID := db.seq_call_invitations + 1, CallID := callID, InviterID := inviterID,
             Inviter := inviter.Username, InviteeID := inviteeID,
             Invitee := invitee.Username, CallType := callType, RoomName := roomName,
             Status := "pending", CreatedAt := env.now, RespondedAt := none }) := by
  have a1 : db.users.any (fun u => u.ID == inviterID) = true := by
    rw [List.any_eq_true]
    exact ⟨inviter, List.mem_of_find?_eq_some h1, by simpa using List.find?_some h1⟩
  have a2 : db.users.any (fun u => u.ID == inviteeID) = true := by
    rw [List.any_eq_true]
    exact ⟨invitee, List.mem_of_find?_eq_some h2, by simpa using List.find?_some h2⟩
  simp [InvitationRepo.Create, hq1, hq2, h1, h2, a1, a2]

/-- The invitee loop when no insert fails: one pending row and one invitation
per name that resolves, in the order of the names. -/
theorem CallService.inviteLoop_ok (env : Env) (callID : String) (creatorID : Int)
    (callType roomName : String) (creator : User) (names : List String) (db : DB)
    (acc : List Invitation)
    (hids : (db.users.map (fun u => u.ID)).Nodup)
    (hcreator : db.users.find? (fun u => u.ID == creatorID) = some creator)
    (hq1 : ∀ id, env.fault (.invitationCreate id) = none)
    (hq2 : ∀ id, env.fault (.invitationCreateUsernames id) = none) :
    ∃ rows invitations,
      (CallService.inviteLoop env callID creatorID callType roomName names db
        acc).1.call_invitations = db.call_invitations ++ rows ∧
      (CallService.inviteLoop env callID creatorID callType roomName names db acc).2 =
        acc ++ invitations ∧
      rows.map (fun r => (r.call_id, r.inviter_id, r.invitee_id, r.call_type, r.room_name,
          r.status, r.responded_at)) =
        (names.filterMap (fun name =>
          match UserRepo.GetByUsername db env name with
          | .ok (some u) => some u
          | _ => none)).map
          (fun u => (callID, creatorID, u.ID, callType, roomName, "pending", none)) ∧
      invitations.map (fun i => (i.ID, i.InviteeID)) = rows.map (fun r => (r.id, r.invitee_id)) ∧
      invitations.map (fun i => (i.Invitee, i.Status)) =
        (names.filterMap (fun name =>
          match UserRepo.GetByUsername db env name with
          | .ok (some u) => some u
          | _ => none)).map (fun u => (u.Username, "pending")) := by
  induction names generalizing db acc with
  | nil => exact ⟨[], [], by simp [CallService.inviteLoop], by simp [CallService.inviteLoop],
      rfl, rfl, rfl⟩
  | cons username rest ih =>
    unfold CallService.inviteLoop
    cases hres : UserRepo.GetByUsername db env username with
    | error e =>
      obtain ⟨rows, invs, a, b, c, d, e1⟩ := ih db acc hids hcreator
      exact ⟨rows, invs, a, b, by simpa [List.filterMap_cons, hres] using c, d,
        by simpa [List.filterMap_cons, hres] using e1⟩
    | ok found =>
      cases found with
      | none =>
        obtain ⟨rows, invs, a, b, c, d, e1⟩ := ih db acc hids hcreator
        exact ⟨rows, invs, a, b, by simpa [List.filterMap_cons, hres] using c, d,
          by simpa [List.filterMap_cons, hres] using e1⟩
      | some invitee =>
        have hmem : invitee ∈ db.users := by
          unfold UserRepo.GetByUsername at hres
          cases hq : env.fault (.userGetByUsername username) with
          | some e => simp [hq] at hres
          | none =>
            simp only [hq, Except.ok.injEq] at hres
            exact List.mem_of_find?_eq_some hres
        have hfind := find?_user_of_mem db.users invitee hids hmem
        have hc := InvitationRepo.invitationCreate_ok db env callID creatorID invitee.ID callType roomName
          creator invitee (hq1 _) (hq2 _) hcreator hfind
        simp only [hc]
        have hname : ∀ name, UserRepo.GetByUsername
            { db with
              call_invitations := db.call_invitations ++
                [{ id := db.seq_call_invitations + 1, call_id := callID,
                   inviter_id := creatorID, invitee_id := invitee.ID, call_type := callType,
                   room_name := roomName, status := "pending", created_at := env.now,
                   responded_at := none }],
              seq_call_invitations := db.seq_call_invitations + 1 } env name =
            UserRepo.GetByUsername db env name := fun _ => rfl
        obtain ⟨rows, invs, a, b, c, d, e1⟩ := ih
          { db with
            call_invitations := db.call_invitations ++
              [{ id := db.seq_call_invitations + 1, call_id := callID,
                 inviter_id := creatorID, invitee_id := invitee.ID, call_type := callType,
                 room_name := roomName, status := "pending", created_at := env.now,
                 responded_at := none }],
            seq_call_invitations := db.seq_call_invitations + 1 }
          (acc ++
            [{ ID := db.seq_call_invitations + 1, CallID := callID, InviterID := creatorID,
               Inviter := creator.Username, InviteeID := invitee.ID,
               Invitee := invitee.Username, CallType := callType, RoomName := roomName,
               Status := "pending", CreatedAt := env.now, RespondedAt := none }])
          hids hcreator
        refine ⟨{ id := db.seq_call_invitations + 1, call_id := callID,
                  inviter_id := creatorID, invitee_id := invitee.ID, call_type := callType,
                  room_name := roomName, status := "pending", created_at := env.now,
                  responded_at := none } :: rows,
          { ID := db.seq_call_invitations + 1, CallID := callID, InviterID := creatorID,
            Inviter := creator.Username, InviteeID := invitee.ID,
            Invitee := invitee.Username, CallType := callType, RoomName := roomName,
            Status := "pending", CreatedAt := env.now, RespondedAt := none } :: invs,
          ?_, ?_, ?_, ?_, ?_⟩
        · rw [a]
          simp
        · rw [b]
          simp
        · rw [List.filterMap_cons, hres, List.map_cons, List.map_cons]
          exact congrArg _ c
        · rw [List.map_cons, List.map_cons, d]
        · rw [List.filterMap_cons, hres, List.map_cons, List.map_cons]
          exact congrArg _ e1

theorem broadcastEach_congr {α : Type} (f g : WebSocketHub → α → Option WebSocketHub)
    (xs : List α) (h : WebSocketHub) (hfg : ∀ a ∈ xs, ∀ h1, f h1 a = g h1 a) :
    broadcastEach f xs h = broadcastEach g xs h := by
  induction xs generalizing h with
  | nil => rfl
  | cons a rest ih =>
    unfold broadcastEach
    rw [hfg a (List.mem_cons_self _ _) h]
    cases g h a with
    | none => rfl
    | some h1 => exact ih h1 (fun b hb => hfg b (List.mem_cons_of_mem _ hb))

theorem UserRepo.GetByID_find (db : DB) (env : Env) (id : Int) (u : User)
    (h : UserRepo.GetByID db env id = .ok (some u)) :
    db.users.find? (fun v => v.ID == id) = some u := by
  unfold UserRepo.GetByID at h
  cases hq : env.fault (.userGetByID id) with
  | some e => simp [hq] at h
  | none => simpa [hq] using h

/-- C21: when the creator is found, the room is provisioned, the call is
inserted and neither the invitation inserts, the history writes nor the token
fail (user ids distinct, the channels of the hub open), `CreateCallAndInvite`
returns its result whatever names resolve, appends to `call_invitations` one
pending row, in the order of the list, for each name that resolves to a user and
nothing else, offers each of these invitations to its invitee through
`BroadcastInvitation`, and appends a history record of status `pending` whose
participants are the name of the creator followed by all the names of the
list. -/
theorem createCallAndInvite_invites_resolved (w : World) (env : Env) (creatorID : Int)
    (callType : String) (names : List String) (roomName : String) (creator : User)
    (call : ActiveCall)
    (hcreator : UserRepo.GetByID w.db env creatorID = .ok (some creator))
    (hroom : env.createRoomErr = none)
    (hcall : (CallRepo.Create w.db env env.uuidCall
      (if roomName = "" then env.uuidRoom else roomName) callType creatorID).2 = .ok call)
    (hopen : ∀ h, w.wsHub = some h → h.Open)
    (hids : (w.db.users.map (fun u => u.ID)).Nodup)
    (hq1 : ∀ id, env.fault (.invitationCreate id) = none)
    (hq2 : ∀ id, env.fault (.invitationCreateUsernames id) = none)
    (hq3 : env.fault .historyCreate = none) (hq4 : env.fault .historyUpdate = none)
    (htoken : env.toJWTErr = none) :
    ∃ rows invitations older record,
      (CallService.CreateCallAndInvite w env creatorID callType names
        roomName).1.db.call_invitations = w.db.call_invitations ++ rows ∧
      rows.map (fun r => (r.call_id, r.inviter_id, r.invitee_id, r.call_type, r.room_name,
          r.status, r.responded_at)) =
        (names.filterMap (fun name =>
          match UserRepo.GetByUsername w.db env name with
          | .ok (some u) => some u
          | _ => none)).map
          (fun u => (env.uuidCall, creatorID, u.ID, callType,
            if roomName = "" then env.uuidRoom else roomName, "pending", none)) ∧
      invitations.map (fun i => (i.ID, i.InviteeID)) =
        rows.map (fun r => (r.id, r.invitee_id)) ∧
      invitations.map (fun i => (i.Invitee, i.Status)) =
        (names.filterMap (fun name =>
          match UserRepo.GetByUsername w.db env name with
          | .ok (some u) => some u
          | _ => none)).map (fun u => (u.Username, "pending")) ∧
      (CallService.CreateCallAndInvite w env creatorID callType names roomName).1.wsHub =
        (broadcastAll (fun h (invitation : Invitation) =>
          h.BroadcastInvitation invitation.Invitee invitation) invitations w.wsHub).1 ∧
      (CallService.CreateCallAndInvite w env creatorID callType names roomName).2 =
        .ok { CallID := env.uuidCall,
              RoomName := if roomName = "" then env.uuidRoom else roomName,
              Token := { Identity := creator.Username,
                         Room := if roomName = "" then env.uuidRoom else roomName,
                         RoomJoin := true, RoomCreate := true,
                         ValidFor := 24 * 3600 * 1000000000 } } ∧
      (CallService.CreateCallAndInvite w env creatorID callType names
        roomName).1.db.call_history = older ++ [record] ∧
      older.length = w.db.call_history.length ∧ record.CallID = env.uuidCall ∧
      record.Status = "pending" ∧ record.Participants = creator.Username :: names := by
  obtain ⟨hdb, hhub, hres⟩ := CallService.CreateCallAndInvite_of_created w env creatorID
    callType names roomName creator call hcreator hroom hcall hopen
  generalize (if roomName = "" then env.uuidRoom else roomName) = rn at *
  have hfindc := UserRepo.GetByID_find w.db env creatorID creator hcreator
  obtain ⟨cu, cinv, _, chist, _⟩ := CallRepo.callCreate_frame w.db env env.uuidCall rn callType
    creatorID
  obtain ⟨rows, invs, l1, l2, l3, l4, l5⟩ := CallService.inviteLoop_ok env env.uuidCall
    creatorID callType rn creator names
    (CallRepo.Create w.db env env.uuidCall rn callType creatorID).1 []
    (by rw [cu]; exact hids) (by rw [cu]; exact hfindc) hq1 hq2
  obtain ⟨lu, _, lhist, _, _⟩ := CallService.inviteLoop_frame env env.uuidCall creatorID callType
    rn names (CallRepo.Create w.db env env.uuidCall rn callType creatorID).1 []
  have hname : ∀ name, UserRepo.GetByUsername
      (CallRepo.Create w.db env env.uuidCall rn callType creatorID).1 env name =
      UserRepo.GetByUsername w.db env name := by
    intro name
    unfold UserRepo.GetByUsername
    rw [cu]
  simp only [hname] at l3 l5
  have hce := HistoryService.CreateHistoryEntry_ok
    (CallService.inviteLoop env env.uuidCall creatorID callType rn names
      (CallRepo.Create w.db env env.uuidCall rn callType creatorID).1 []).1
    env env.uuidCall rn callType creatorID ([creator.Username] ++ names) hq3
    ⟨creator, by
      rw [lu, cu]
      exact List.mem_of_find?_eq_some hfindc, by simpa using List.find?_some hfindc⟩
  rw [hce, HistoryService.UpdateHistoryEntry_eq _ env env.uuidCall env.now 0 "pending" hq4]
    at hdb
  refine ⟨rows, invs,
    (CallService.inviteLoop env env.uuidCall creatorID callType rn names
      (CallRepo.Create w.db env env.uuidCall rn callType creatorID).1 []).1.call_history.map
      (fun r =>
        if r.CallID = env.uuidCall then
          { r with EndedAt := if env.now.IsZero = true then r.EndedAt else some env.now,
                   Duration := 0, Status := "pending" }
        else r),
    (fun r : CallHistory =>
        if r.CallID = env.uuidCall then
          { r with EndedAt := if env.now.IsZero = true then r.EndedAt else some env.now,
                   Duration := 0, Status := "pending" }
        else r)
      { ID := (CallService.inviteLoop env env.uuidCall creatorID callType rn names
          (CallRepo.Create w.db env env.uuidCall rn callType creatorID).1 []).1.seq_call_history
          + 1,
        CallID := env.uuidCall, RoomName := rn, CallType := callType, CreatedBy := creatorID,
        Participants := [creator.Username] ++ names, StartedAt := env.now, EndedAt := none,
        Duration := 0, Status := "pending", InvitationIDs := "" },
    ?_, l3, l4, l5, ?_, ?_, ?_, ?_, ?_, ?_, ?_⟩
  · rw [hdb]
    show (CallService.inviteLoop env env.uuidCall creatorID callType rn names
      (CallRepo.Create w.db env env.uuidCall rn callType creatorID).1 []).1.call_invitations = _
    rw [l1, cinv]
  · rw [hhub, l2, List.nil_append]
    cases hw : w.wsHub with
    | none => rfl
    | some h =>
      simp only [broadcastAll]
      rw [broadcastEach_congr _ (fun h (invitation : Invitation) =>
        h.BroadcastInvitation invitation.Invitee invitation) invs h]
      intro a ha h1
      have hp : a.Status = "pending" := by
        have := List.mem_map_of_mem (fun i : Invitation => (i.Invitee, i.Status)) ha
        rw [l5] at this
        obtain ⟨u, _, hu⟩ := List.mem_map.mp this
        exact (congrArg Prod.snd hu).symm
      simp only [if_pos hp]
  · rw [hres]
    simp [CallService.generateToken, htoken]
  · rw [hdb]
    show List.map _ (_ ++ [_]) = _
    rw [List.map_append, List.map_singleton]
  · rw [List.length_map, lhist, chist]
  · simp
  · simp
  · simp

/-- Witness for C21: `alice` calls `bob`, the unknown `dave`, and `carol`. -/
theorem createCallAndInvite_invites_resolved_witness :
    (CallService.CreateCallAndInvite exWorld0 (exEnv 100) 1 "video" ["bob", "dave", "carol"]
      "").1.db.call_invitations.map (fun r => (r.id, r.invitee_id, r.status)) =
      [(1, 2, "pending"), (2, 3, "pending")] ∧
    (CallService.CreateCallAndInvite exWorld0 (exEnv 100) 1 "video" ["bob", "dave", "carol"]
      "").1.db.call_history.map (fun r => (r.CallID, r.Status, r.Participants)) =
      [("call-1", "pending", ["alice", "bob", "dave", "carol"])] ∧
    ∃ rows invitations older record,
      (CallService.CreateCallAndInvite exWorld0 (exEnv 100) 1 "video" ["bob", "dave", "carol"]
        "").1.db.call_invitations = [] ++ rows ∧
      rows.map (fun r => (r.call_id, r.inviter_id, r.invitee_id, r.call_type, r.room_name,
          r.status, r.responded_at)) =
        [("call-1", 1, 2, "video", "room-1", "pending", none),
         ("call-1", 1, 3, "video", "room-1", "pending", none)] ∧
      invitations.map (fun i => (i.ID, i.InviteeID)) =
        rows.map (fun r => (r.id, r.invitee_id)) ∧
      invitations.map (fun i => (i.Invitee, i.Status)) =
        [("bob", "pending"), ("carol", "pending")] ∧
      (CallService.CreateCallAndInvite exWorld0 (exEnv 100) 1 "video" ["bob", "dave", "carol"]
        "").1.wsHub =
        (broadcastAll (fun h (invitation : Invitation) =>
          h.BroadcastInvitation invitation.Invitee invitation) invitations
          (some exHubAlice)).1 ∧
      (CallService.CreateCallAndInvite exWorld0 (exEnv 100) 1 "video" ["bob", "dave", "carol"]
        "").2 =
        .ok { CallID := "call-1", RoomName := "room-1",
              Token := { Identity := "alice", Room := "room-1", RoomJoin := true,
                         RoomCreate := true, ValidFor := 24 * 3600 * 1000000000 } } ∧
      (CallService.CreateCallAndInvite exWorld0 (exEnv 100) 1 "video" ["bob", "dave", "carol"]
        "").1.db.call_history = older ++ [record] ∧
      older.length = 0 ∧ record.CallID = "call-1" ∧
      record.Status = "pending" ∧ record.Participants = ["alice", "bob", "dave", "carol"] :=
  ⟨by decide, by decide,
    createCallAndInvite_invites_resolved exWorld0 (exEnv 100) 1 "video"
      ["bob", "dave", "carol"] "" { ID := 1, Username := "alice", CreatedAt := 5 }
      { ID := 1, CallID := "call-1", RoomName := "room-1", CallType := "video", CreatedBy := 1,
        CreatedAt := 100, EndedAt := none, Status := "active" } rfl rfl rfl
      (fun h hh => by
        have : h = exHubAlice := (Option.some.inj hh).symm
        rw [this]
        exact exHubAlice_open)
      (by decide) (fun _ => rfl) (fun _ => rfl) rfl rfl rfl⟩

/-- C22, the failing input: `alice` calls with the list `bob`, `bob`; afterwards
`bob` has two pending invitations for the new call. -/
theorem createCallAndInvite_invites_twice :
    (CallService.CreateCallAndInvite exWorld0 (exEnv 100) 1 "video" ["bob", "bob"] "").2 =
      .ok { CallID := "call-1", RoomName := "room-1",
            Token := { Identity := "alice", Room := "room-1", RoomJoin := true,
                       RoomCreate := true, ValidFor := 24 * 3600 * 1000000000 } } ∧
    (CallService.CreateCallAndInvite exWorld0 (exEnv 100) 1 "video" ["bob", "bob"]
      "").1.db.call_invitations.map (fun r => (r.id, r.call_id, r.invitee_id, r.status)) =
      [(1, "call-1", 2, "pending"), (2, "call-1", 2, "pending")] ∧
    ((CallService.CreateCallAndInvite exWorld0 (exEnv 100) 1 "video" ["bob", "bob"]
      "").1.db.call_invitations.filter
        (fun r => r.call_id == "call-1" && r.invitee_id == 2)).length = 2 := by
  refine ⟨by decide, by decide, by decide⟩

/-! ## The end time of a history record -/

/-- C25, the failing input: the history record that `CreateCallAndInvite` leaves
is `pending` and has its end time set to the instant of the call; after a
`reject` it is `rejected` with the instant of the rejection as end time;
`CancelCall` does leave the end time as it was. -/
theorem history_pending_has_end_time :
    exWorldCalled.db.call_history.map (fun r => (r.CallID, r.Status, r.EndedAt)) =
      [("call-1", "pending", some 100)] ∧
    (step exWorldCalled (.RespondToInvitation (exEnv 150) 1 2 "reject")).db.call_history.map
      (fun r => (r.CallID, r.Status, r.EndedAt)) = [("call-1", "rejected", some 150)] ∧
    exWorldCancelled.db.call_history.map (fun r => (r.CallID, r.Status, r.EndedAt)) =
      [("call-1", "cancelled", some 100)] := by
  refine ⟨by decide, by decide, by decide⟩

/-! ## Answering an invitation: any action, any failure -/

/-- With `accept`, past the checks and the status write, the database is the one
the status write left, whatever happens afterwards. -/
theorem CallService.RespondToInvitation_accept_db (w : World) (env : Env)
    (invitationID userID : Int) (i : Invitation)
    (hget : InvitationRepo.GetByID w.db env invitationID = .ok (some i))
    (hinvitee : i.InviteeID = userID) (hpend : i.Status = "pending") :
    (CallService.RespondToInvitation w env invitationID userID "accept").1.db =
      (InvitationRepo.UpdateStatus w.db env invitationID "accepted").1 := by
  unfold CallService.RespondToInvitation
  simp only [hget, hinvitee, hpend, ne_eq, not_true_eq_false, if_false, if_true]
  have hne : ¬ ("accept" : String) = "reject" := by decide
  simp only [hne, if_false]
  split
  · rfl
  · split
    · rfl
    · rfl
    · split
      · rfl
      · split <;> rfl

/-- C27, as the code has it: the request boundary lets only the actions `accept`
and `reject` through (any other gets 400 and nothing happens); and for these
two, on a pending invitation answered by its invitee with the status write not
failing, `RespondToInvitation` returns a join result only if the stored status
has become `accepted`, and when the stored status is not `accepted` the only
notification handed to the hub is the one of a rejection. -/
theorem respondToInvitation_join_only_if_accepted (w : World) (env : Env)
    (invitationID userID : Int) (action : String) (r : InvitationRow) (hwf : w.db.WF)
    (hq : env.fault .invitationGetByID = none)
    (hupd : env.fault (.invitationUpdateStatus invitationID) = none)
    (hrow : w.db.call_invitations.find? (fun r => r.id == invitationID) = some r)
    (hpend : r.status = "pending") (hinvitee : r.invitee_id = userID) :
    (action ≠ "accept" ∧ action ≠ "reject" →
      HandleRespondInvitation w env invitationID userID action =
        (w, .ok (.error 400 "action must be \x27accept\x27 or \x27reject\x27"))) ∧
    (action = "accept" ∨ action = "reject" →
      (∀ result, (CallService.RespondToInvitation w env invitationID userID action).2 =
          .ok (some result) →
        (CallService.RespondToInvitation w env invitationID userID
          action).1.db.invitationStatus invitationID = some "accepted") ∧
      ((CallService.RespondToInvitation w env invitationID userID
          action).1.db.invitationStatus invitationID ≠ some "accepted" →
        ∃ i, InvitationRepo.GetByID w.db env invitationID = .ok (some i) ∧
          (CallService.RespondToInvitation w env invitationID userID action).1.wsHub =
            (CallService.notifyInviter
              (CallService.RespondToInvitation w env invitationID userID action).1.db env
              w.wsHub i invitationID "rejected").1)) := by
  constructor
  · intro hact
    unfold HandleRespondInvitation
    rw [if_pos hact]
  · intro hact
    obtain ⟨i, hget, hj⟩ := InvitationRepo.GetByID_of_row w.db env invitationID r hwf hq hrow
    have hf := joinUsers_fields w.db r i hj
    have hi1 : i.InviteeID = userID := hf.2.2.2.1.trans hinvitee
    have hi2 : i.Status = "pending" := hf.2.2.2.2.1.trans hpend
    rcases hact with rfl | rfl
    · have hdb := CallService.RespondToInvitation_accept_db w env invitationID userID i hget
        hi1 hi2
      have hst : (CallService.RespondToInvitation w env invitationID userID
          "accept").1.db.invitationStatus invitationID = some "accepted" := by
        unfold DB.invitationStatus
        rw [hdb, InvitationRepo.UpdateStatus_find w.db env invitationID "accepted" r hupd hrow]
        rfl
      exact ⟨fun _ _ => hst, fun h => absurd hst h⟩
    · have heq := CallService.RespondToInvitation_reject_eq w env invitationID userID i hget
        hi1 hi2 hupd
      constructor
      · intro result hres
        rw [heq] at hres
        simp only at hres
        split at hres <;> simp at hres
      · intro _
        refine ⟨i, hget, ?_⟩
        rw [heq]

/-- Counterexample to C27 as stated: `bob` answers his pending invitation with
the action `maybe`; the stored status becomes `rejected`, and yet the operation
returns a join result and `alice` is told that the invitation was accepted. -/
theorem respondToInvitation_maybe_joins :
    exWorldCalled.db.invitationStatus 1 = some "pending" ∧
    (CallService.RespondToInvitation exWorldCalled (exEnv 150) 1 2 "maybe").2 =
      .ok (some
        { Token := { Identity := "bob", Room := "room-1", RoomJoin := true, RoomCreate := true,
                     ValidFor := 24 * 3600 * 1000000000 },
          RoomName := "room-1" }) ∧
    (CallService.RespondToInvitation exWorldCalled (exEnv 150) 1 2
      "maybe").1.db.invitationStatus 1 = some "rejected" ∧
    (CallService.RespondToInvitation exWorldCalled (exEnv 150) 1 2 "maybe").1.wsHub.map
      (fun h => (h.chans 1).buf) =
      some [.message { type := "invitation_accepted",
                       data := .invitationResponse
                         { InvitationID := 1, Invitee := "bob", Status := "accepted",
                           Timestamp := "" } }] := by
  refine ⟨by decide, by decide, by decide, by decide⟩

/-- Witness for C27 as amended: the boundary refuses `maybe`, and the join
result that `bob` gets with `accept` comes with the stored status `accepted`. -/
theorem respondToInvitation_join_only_if_accepted_witness :
    HandleRespondInvitation exWorldCalled (exEnv 150) 1 2 "maybe" =
      (exWorldCalled, .ok (.error 400 "action must be \x27accept\x27 or \x27reject\x27")) ∧
    (CallService.RespondToInvitation exWorldCalled (exEnv 150) 1 2
      "accept").1.db.invitationStatus 1 = some "accepted" :=
  ⟨(respondToInvitation_join_only_if_accepted exWorldCalled (exEnv 150) 1 2 "maybe" exRowBob
      exWorldCalled_reachable.WF rfl rfl (by decide) rfl rfl).1 (by decide),
    ((respondToInvitation_join_only_if_accepted exWorldCalled (exEnv 150) 1 2 "accept" exRowBob
      exWorldCalled_reachable.WF rfl rfl (by decide) rfl rfl).2 (Or.inl rfl)).1
      { Token := { Identity := "bob", Room := "room-1", RoomJoin := true, RoomCreate := true,
                   ValidFor := 24 * 3600 * 1000000000 },
        RoomName := "room-1" } (by decide)⟩

/-- C28, as the code has it: an error of `RespondToInvitation` either leaves the
state as it was (a failed lookup, no such invitation, another user\x27s
invitation, an invitation already answered, a failed status write), or it is
the failed lookup of the responding user or the failed signing of the token,
which on every action but `reject` come after the status write and leave the
database as that write made it. -/
theorem respondToInvitation_error_before_or_after_write (w : World) (env : Env)
    (invitationID userID : Int) (action e : String)
    (herr : (CallService.RespondToInvitation w env invitationID userID action).2 =
      .error e) :
    (CallService.RespondToInvitation w env invitationID userID action).1 = w ∨
    (action ≠ "reject" ∧ env.fault (.invitationUpdateStatus invitationID) = none ∧
      (CallService.RespondToInvitation w env invitationID userID action).1.db =
        (InvitationRepo.UpdateStatus w.db env invitationID
          (if action = "accept" then "accepted" else "rejected")).1 ∧
      ((∃ m, e = "failed to get user: " ++ m) ∨
        (∃ m, e = "failed to generate token: " ++ m))) := by
  unfold CallService.RespondToInvitation at herr ⊢
  cases hget : InvitationRepo.GetByID w.db env invitationID with
  | error m =>
    left
    rfl
  | ok found =>
    cases found with
    | none =>
      left
      rfl
    | some invitation =>
      simp only [hget] at herr ⊢
      by_cases h1 : invitation.InviteeID ≠ userID
      · left
        rw [if_pos h1]
      · rw [if_neg h1] at herr ⊢
        by_cases h2 : invitation.Status ≠ "pending"
        · left
          rw [if_pos h2]
        · rw [if_neg h2] at herr ⊢
          generalize (if action = "accept" then "accepted" else "rejected") = status at herr ⊢
          cases hq : env.fault (.invitationUpdateStatus invitationID) with
          | some m =>
            left
            simp [InvitationRepo.UpdateStatus, hq]
          | none =>
            have hu := (InvitationRepo.UpdateStatus_err w.db env invitationID status).mpr hq
            simp only [hu] at herr ⊢
            by_cases h3 : action = "reject"
            · exfalso
              rw [if_pos h3] at herr
              by_cases hs : (CallService.notifyInviter
                  (HistoryService.UpdateHistoryEntry
                    (InvitationRepo.UpdateStatus w.db env invitationID status).1 env
                    invitation.CallID env.now 0 "rejected").1
                  env w.wsHub invitation invitationID "rejected").2 = false
              · rw [if_pos hs] at herr
                cases herr
              · rw [if_neg hs] at herr
                cases herr
            · right
              rw [if_neg h3] at herr ⊢
              refine ⟨h3, trivial, ?_⟩
              cases hg : UserRepo.GetByID
                  (InvitationRepo.UpdateStatus w.db env invitationID status).1 env userID with
              | error m =>
                simp only [hg] at herr ⊢
                cases herr
                exact ⟨trivial, Or.inl ⟨m, rfl⟩⟩
              | ok found =>
                cases found with
                | none =>
                  simp only [hg] at herr
                  cases herr
                | some user =>
                  simp only [hg] at herr ⊢
                  cases ht : CallService.generateToken env invitation.RoomName
                      user.Username with
                  | error m =>
                    simp only [ht] at herr ⊢
                    cases herr
                    exact ⟨trivial, Or.inr ⟨m, rfl⟩⟩
                  | ok token =>
                    exfalso
                    simp only [ht] at herr
                    by_cases hs : (CallService.notifyInviter
                        (InvitationRepo.UpdateStatus w.db env invitationID status).1 env
                        w.wsHub invitation invitationID "accepted").2 = false
                    · rw [if_pos hs] at herr
                      cases herr
                    · rw [if_neg hs] at herr
                      cases herr

/-- Counterexample to C28 as stated: `bob` accepts his pending invitation while
tokens cannot be signed; the operation returns an error, and the stored status
is `accepted` with `respondedAt` set. -/
theorem respondToInvitation_token_error_keeps_accepted :
    exWorldCalled.db.invitationStatus 1 = some "pending" ∧
    exWorldCalled.db.invitationRespondedAt 1 = some none ∧
    (CallService.RespondToInvitation exWorldCalled (exEnvNoToken 150) 1 2 "accept").2 =
      .error "failed to generate token: failed to generate token: empty secret" ∧
    (CallService.RespondToInvitation exWorldCalled (exEnvNoToken 150) 1 2
      "accept").1.db.invitationStatus 1 = some "accepted" ∧
    (CallService.RespondToInvitation exWorldCalled (exEnvNoToken 150) 1 2
      "accept").1.db.invitationRespondedAt 1 = some (some 150) := by
  refine ⟨by decide, by decide, by decide, by decide, by decide⟩

/-- Witness for C28 as amended: `carol` answering the invitation of `bob` gets
`unauthorized` and nothing changes. -/
theorem respondToInvitation_error_before_or_after_write_witness :
    (CallService.RespondToInvitation exWorldCalled (exEnv 150) 1 3 "accept").2 =
      .error "unauthorized" ∧
    ((CallService.RespondToInvitation exWorldCalled (exEnv 150) 1 3 "accept").1 =
        exWorldCalled ∨
      (("accept" : String) ≠ "reject" ∧
        (exEnv 150).fault (.invitationUpdateStatus 1) = none ∧
        (CallService.RespondToInvitation exWorldCalled (exEnv 150) 1 3 "accept").1.db =
          (InvitationRepo.UpdateStatus exWorldCalled.db (exEnv 150) 1
            (if ("accept" : String) = "accept" then "accepted" else "rejected")).1 ∧
        ((∃ m, "unauthorized" = "failed to get user: " ++ m) ∨
          (∃ m, "unauthorized" = "failed to generate token: " ++ m)))) :=
  ⟨by decide,
    respondToInvitation_error_before_or_after_write exWorldCalled (exEnv 150) 1 3 "accept"
      "unauthorized" (by decide)⟩

/-! ## Who the token of a started scheduled call is for -/

/-- C29, the failing input: `bob`, an invitee of the call that `alice`
scheduled, starts it; the call is `started`, the room is the one of the
scheduled call, and the token he is handed has the identity `alice`. -/
theorem startScheduledCall_by_invitee_gets_creator_token :
    exWorldScheduled.db.scheduled_calls.map (fun c => (c.ID, c.CreatedBy, c.RoomName)) =
      [(1, 1, "room-1")] ∧
    ScheduledService.IsInvitee exWorldScheduled.db (exEnv2 200) 1 2 = .ok true ∧
    UserRepo.GetByID exWorldScheduled.db (exEnv2 200) 2 =
      .ok (some { ID := 2, Username := "bob", CreatedAt := 6 }) ∧
    (ScheduledService.StartScheduledCall exWorldScheduled (exEnv2 200) 1 2).2 =
      .ok { CallID := "call-2", RoomName := "room-1",
            Token := { Identity := "alice", Room := "room-1", RoomJoin := true,
                       RoomCreate := true, ValidFor := 24 * 3600 * 1000000000 } } ∧
    (ScheduledService.StartScheduledCall exWorldScheduled (exEnv2 200) 1
      2).1.db.scheduledStatus 1 = some "started" := by
  refine ⟨by decide, rfl, rfl, by decide, by decide⟩

/-! ## Delivery and the state machine -/

theorem WebSocketHub.BroadcastCallCancelled_open (h : WebSocketHub) (username : String)
    (callID : String) (hopen : h.Open) :
    ∃ h1, h.BroadcastCallCancelled username callID = some h1 ∧ h1.Open ∧
      h1.connections = h.connections := by
  unfold WebSocketHub.BroadcastCallCancelled
  cases hc : h.connections username with
  | none => exact ⟨h, rfl, hopen, rfl⟩
  | some conn => exact WebSocketHub.offer_open h conn _ hopen (hopen username conn hc)

theorem CallService.notifyInviter_open (db : DB) (env : Env) (hub : Option WebSocketHub)
    (i : Invitation) (invitationID : Int) (status : String)
    (hopen : ∀ h, hub = some h → h.Open) :
    (CallService.notifyInviter db env hub i invitationID status).2 = true := by
  unfold CallService.notifyInviter
  cases hub with
  | none => rfl
  | some h =>
    simp only
    split
    · rename_i inviter _
      obtain ⟨h1, hb⟩ := WebSocketHub.BroadcastInvitationResponse_isSome h inviter.Username
        invitationID i.Invitee status (hopen h rfl)
      rw [hb]
    · rfl

theorem CallService.CreateCallAndInvite_hub_free (w : World) (env : Env) (creatorID : Int)
    (callType : String) (names : List String) (roomName : String)
    (hopen : ∀ h, w.wsHub = some h → h.Open) :
    (CallService.CreateCallAndInvite w env creatorID callType names roomName).2 =
      (CallService.CreateCallAndInvite { db := w.db, wsHub := none } env creatorID callType
        names roomName).2 ∧
    (CallService.CreateCallAndInvite w env creatorID callType names roomName).1.db =
      (CallService.CreateCallAndInvite { db := w.db, wsHub := none } env creatorID callType
        names roomName).1.db := by
  have hb : ∀ invitations : List Invitation, (broadcastAll
      (fun h (invitation : Invitation) =>
        if invitation.Status = "pending" then
          h.BroadcastInvitation invitation.Invitee invitation
        else some h)
      invitations w.wsHub).2 = true := fun invitations =>
    (CallService.invite_broadcast_open invitations w.wsHub hopen).1
  have hn : ∀ invitations : List Invitation, (broadcastAll
      (fun h (invitation : Invitation) =>
        if invitation.Status = "pending" then
          h.BroadcastInvitation invitation.Invitee invitation
        else some h)
      invitations none).2 = true := fun _ => rfl
  unfold CallService.CreateCallAndInvite
  simp only [hb, hn]
  split
  · exact ⟨rfl, rfl⟩
  · exact ⟨rfl, rfl⟩
  · split
    · exact ⟨rfl, rfl⟩
    · split
      · exact ⟨rfl, rfl⟩
      · simp only [Bool.true_eq_false, if_false]
        split <;> exact ⟨rfl, rfl⟩

theorem CallService.RespondToInvitation_hub_free (w : World) (env : Env)
    (invitationID userID : Int) (action : String)
    (hopen : ∀ h, w.wsHub = some h → h.Open) :
    (CallService.RespondToInvitation w env invitationID userID action).2 =
      (CallService.RespondToInvitation { db := w.db, wsHub := none } env invitationID userID
        action).2 ∧
    (CallService.RespondToInvitation w env invitationID userID action).1.db =
      (CallService.RespondToInvitation { db := w.db, wsHub := none } env invitationID userID
        action).1.db := by
  have hb : ∀ (db : DB) (i : Invitation) (status : String),
      (CallService.notifyInviter db env w.wsHub i invitationID status).2 = true :=
    fun db i status => CallService.notifyInviter_open db env w.wsHub i invitationID status hopen
  have hn : ∀ (db : DB) (i : Invitation) (status : String),
      (CallService.notifyInviter db env none i invitationID status).2 = true :=
    fun _ _ _ => rfl
  unfold CallService.RespondToInvitation
  simp only [hb, hn, Bool.true_eq_false, if_false]
  split
  · exact ⟨rfl, rfl⟩
  · exact ⟨rfl, rfl⟩
  · split
    · exact ⟨rfl, rfl⟩
    · split
      · exact ⟨rfl, rfl⟩
      · split
        · exact ⟨rfl, rfl⟩
        · split
          · exact ⟨rfl, rfl⟩
          · split
            · exact ⟨rfl, rfl⟩
            · exact ⟨rfl, rfl⟩
            · split <;> exact ⟨rfl, rfl⟩

theorem CallService.EndCall_hub_free (w : World) (env : Env) (callID : String) (userID : Int)
    (hopen : ∀ h, w.wsHub = some h → h.Open) :
    (CallService.EndCall w env callID userID).2 =
      (CallService.EndCall { db := w.db, wsHub := none } env callID userID).2 ∧
    (CallService.EndCall w env callID userID).1.db =
      (CallService.EndCall { db := w.db, wsHub := none } env callID userID).1.db := by
  have hb : ∀ names : List String, (broadcastAll (fun h participantName =>
      h.BroadcastCallEnded participantName callID) names w.wsHub).2 = true := fun names =>
    (broadcastAll_open (fun h participantName => h.BroadcastCallEnded participantName callID)
      (fun h a ho => WebSocketHub.BroadcastCallEnded_open h a callID ho) names w.wsHub hopen).1
  have hn : ∀ names : List String, (broadcastAll (fun h participantName =>
      h.BroadcastCallEnded participantName callID) names none).2 = true := fun _ => rfl
  unfold CallService.EndCall
  simp only [hb, hn]
  split
  · exact ⟨rfl, rfl⟩
  · exact ⟨rfl, rfl⟩
  · split
    · exact ⟨rfl, rfl⟩
    · split
      · exact ⟨rfl, rfl⟩
      · split
        · exact ⟨rfl, rfl⟩
        · simp

theorem CallService.CancelCall_hub_free (w : World) (env : Env) (callID : String)
    (userID : Int) (hopen : ∀ h, w.wsHub = some h → h.Open) :
    (CallService.CancelCall w env callID userID).2 =
      (CallService.CancelCall { db := w.db, wsHub := none } env callID userID).2 ∧
    (CallService.CancelCall w env callID userID).1.db =
      (CallService.CancelCall { db := w.db, wsHub := none } env callID userID).1.db := by
  have hb : ∀ names : List String, (broadcastAll (fun h inviteeUsername =>
      h.BroadcastCallCancelled inviteeUsername callID) names w.wsHub).2 = true := fun names =>
    (broadcastAll_open (fun h inviteeUsername => h.BroadcastCallCancelled inviteeUsername callID)
      (fun h a ho => WebSocketHub.BroadcastCallCancelled_open h a callID ho) names w.wsHub
      hopen).1
  have hn : ∀ names : List String, (broadcastAll (fun h inviteeUsername =>
      h.BroadcastCallCancelled inviteeUsername callID) names none).2 = true := fun _ => rfl
  unfold CallService.CancelCall
  simp only [hb, hn]
  split
  · exact ⟨rfl, rfl⟩
  · exact ⟨rfl, rfl⟩
  · split
    · exact ⟨rfl, rfl⟩
    · split
      · exact ⟨rfl, rfl⟩
      · split
        · exact ⟨rfl, rfl⟩
        · simp

theorem ScheduledService.CreateScheduledCall_hub_free (w : World) (env : Env) (creatorID : Int)
    (req : CreateScheduledCallRequest) (hopen : ∀ h, w.wsHub = some h → h.Open) :
    (ScheduledService.CreateScheduledCall w env creatorID req).2 =
      (ScheduledService.CreateScheduledCall { db := w.db, wsHub := none } env creatorID
        req).2 ∧
    (ScheduledService.CreateScheduledCall w env creatorID req).1.db =
      (ScheduledService.CreateScheduledCall { db := w.db, wsHub := none } env creatorID
        req).1.db := by
  unfold ScheduledService.CreateScheduledCall
  simp only
  split
  · exact ⟨rfl, rfl⟩
  · rename_i call _
    cases hw : w.wsHub with
    | none => exact ⟨rfl, rfl⟩
    | some h =>
      simp only
      split
      · rename_i creator _
        obtain ⟨h1, h1eq, h1open, _⟩ :=
          WebSocketHub.BroadcastScheduledCallCreated_open h creator.Username (some call)
            (hopen h hw)
        simp only [h1eq]
        have hs := (broadcastEach_open
          (fun h inviteeUsername => h.BroadcastScheduledCallCreated inviteeUsername (some call))
          (fun h a ho => WebSocketHub.BroadcastScheduledCallCreated_open h a (some call) ho)
          (ScheduledService.inviteLoop env call.ID req.Invitees
            (ScheduledCallRepo.Create w.db env env.uuidCall env.uuidRoom req.CallType creatorID
              req.ScheduledAt req.ScheduledAtZone (if req.Timezone = "" then "UTC" else req.Timezone)
              (if req.Recurrence = "" then "\x7b\"type\":\"none\"\x7d" else req.Recurrence)
              req.Title req.Description ("app://call/join?callId=" ++ env.uuidCall)
              (if req.MaxParticipants ≤ 0 then 20 else req.MaxParticipants)
              (if req.MaxDurationSeconds < 0 then 0 else req.MaxDurationSeconds)).1 []).2
          h1 h1open).1
        simp only [hs, Bool.true_eq_false, if_false]
        exact ⟨trivial, trivial⟩
      · exact ⟨rfl, rfl⟩

/-- For every database, every environment and every two hubs, present or
absent, with whatever identities registered and whatever in the buffers, no
registered channel being closed, each of `CreateCallAndInvite`,
`RespondToInvitation`, `EndCall`, `CancelCall` and `CreateScheduledCall`, run
with the same arguments, returns the same result or error and leaves the same
database under the one hub as under the other. -/
theorem operations_agree_on_open_hubs (db : DB) (env : Env)
    (hub1 hub2 : Option WebSocketHub)
    (hopen1 : ∀ h, hub1 = some h → h.Open) (hopen2 : ∀ h, hub2 = some h → h.Open) :
    (∀ creatorID callType names roomName,
      (CallService.CreateCallAndInvite { db := db, wsHub := hub1 } env creatorID callType names
        roomName).2 =
      (CallService.CreateCallAndInvite { db := db, wsHub := hub2 } env creatorID callType names
        roomName).2 ∧
      (CallService.CreateCallAndInvite { db := db, wsHub := hub1 } env creatorID callType names
        roomName).1.db =
      (CallService.CreateCallAndInvite { db := db, wsHub := hub2 } env creatorID callType names
        roomName).1.db) ∧
    (∀ invitationID userID action,
      (CallService.RespondToInvitation { db := db, wsHub := hub1 } env invitationID userID
        action).2 =
      (CallService.RespondToInvitation { db := db, wsHub := hub2 } env invitationID userID
        action).2 ∧
      (CallService.RespondToInvitation { db := db, wsHub := hub1 } env invitationID userID
        action).1.db =
      (CallService.RespondToInvitation { db := db, wsHub := hub2 } env invitationID userID
        action).1.db) ∧
    (∀ callID userID,
      (CallService.EndCall { db := db, wsHub := hub1 } env callID userID).2 =
      (CallService.EndCall { db := db, wsHub := hub2 } env callID userID).2 ∧
      (CallService.EndCall { db := db, wsHub := hub1 } env callID userID).1.db =
      (CallService.EndCall { db := db, wsHub := hub2 } env callID userID).1.db) ∧
    (∀ callID userID,
      (CallService.CancelCall { db := db, wsHub := hub1 } env callID userID).2 =
      (CallService.CancelCall { db := db, wsHub := hub2 } env callID userID).2 ∧
      (CallService.CancelCall { db := db, wsHub := hub1 } env callID userID).1.db =
      (CallService.CancelCall { db := db, wsHub := hub2 } env callID userID).1.db) ∧
    (∀ creatorID req,
      (ScheduledService.CreateScheduledCall { db := db, wsHub := hub1 } env creatorID req).2 =
      (ScheduledService.CreateScheduledCall { db := db, wsHub := hub2 } env creatorID req).2 ∧
      (ScheduledService.CreateScheduledCall { db := db, wsHub := hub1 } env creatorID
        req).1.db =
      (ScheduledService.CreateScheduledCall { db := db, wsHub := hub2 } env creatorID
        req).1.db) := by
  refine ⟨?_, ?_, ?_, ?_, ?_⟩
  · intro creatorID callType names roomName
    have a := CallService.CreateCallAndInvite_hub_free { db := db, wsHub := hub1 } env creatorID
      callType names roomName hopen1
    have b := CallService.CreateCallAndInvite_hub_free { db := db, wsHub := hub2 } env creatorID
      callType names roomName hopen2
    exact ⟨a.1.trans b.1.symm, a.2.trans b.2.symm⟩
  · intro invitationID userID action
    have a := CallService.RespondToInvitation_hub_free { db := db, wsHub := hub1 } env
      invitationID userID action hopen1
    have b := CallService.RespondToInvitation_hub_free { db := db, wsHub := hub2 } env
      invitationID userID action hopen2
    exact ⟨a.1.trans b.1.symm, a.2.trans b.2.symm⟩
  · intro callID userID
    have a := CallService.EndCall_hub_free { db := db, wsHub := hub1 } env callID userID hopen1
    have b := CallService.EndCall_hub_free { db := db, wsHub := hub2 } env callID userID hopen2
    exact ⟨a.1.trans b.1.symm, a.2.trans b.2.symm⟩
  · intro callID userID
    have a := CallService.CancelCall_hub_free { db := db, wsHub := hub1 } env callID userID
      hopen1
    have b := CallService.CancelCall_hub_free { db := db, wsHub := hub2 } env callID userID
      hopen2
    exact ⟨a.1.trans b.1.symm, a.2.trans b.2.symm⟩
  · intro creatorID req
    have a := ScheduledService.CreateScheduledCall_hub_free { db := db, wsHub := hub1 } env
      creatorID req hopen1
    have b := ScheduledService.CreateScheduledCall_hub_free { db := db, wsHub := hub2 } env
      creatorID req hopen2
    exact ⟨a.1.trans b.1.symm, a.2.trans b.2.symm⟩

/-! ## The reminder over ticks one tick period apart -/

theorem Time.lt_Sub_iff (t u : Time) (T : Duration) (hlo : -(2 ^ 63) ≤ T)
    (hhi : T < 2 ^ 63 - 1) : T < Time.Sub t u ↔ T < t - u := by
  unfold Time.Sub
  generalize t - u = d
  by_cases h1 : d > 2 ^ 63 - 1
  · rw [if_pos h1]
    exact ⟨fun _ => lt_trans hhi h1, fun _ => hhi⟩
  · rw [if_neg h1]
    by_cases h2 : d < -(2 ^ 63)
    · rw [if_pos h2]
      exact ⟨fun h => absurd (lt_of_le_of_lt hlo h) (lt_irrefl _),
        fun h => absurd (lt_trans (lt_of_le_of_lt hlo h) h2) (lt_irrefl _)⟩
    · rw [if_neg h2]

theorem Time.Sub_le_iff (t u : Time) (T : Duration) (hlo : -(2 ^ 63) ≤ T)
    (hhi : T < 2 ^ 63 - 1) : Time.Sub t u ≤ T ↔ t - u ≤ T :=
  not_lt.symm.trans ((not_congr (Time.lt_Sub_iff t u T hlo hhi)).trans not_lt)

/-- A write of `reminder_sent_at` for one call leaves the rows of the other
calls as they are. -/
theorem ScheduledService.UpdateReminderSent_keeps (db : DB) (env : Env) (id : Int)
    (x : ScheduledCall) (hx : x ∈ db.scheduled_calls) (hne : x.ID ≠ id) :
    x ∈ (ScheduledService.UpdateReminderSent db env id).1.scheduled_calls := by
  unfold ScheduledService.UpdateReminderSent ScheduledCallRepo.UpdateReminderSent
  cases hq : env.fault (.scheduledUpdateReminderSent id) with
  | some e => exact hx
  | none => exact List.mem_map.mpr ⟨x, hx, if_neg hne⟩

theorem ScheduledWorker.remind_keeps (env : Env) (call : ScheduledCall) (reminderTime : Duration)
    (st : TickState) (x : ScheduledCall) (hx : x ∈ st.world.db.scheduled_calls)
    (hne : x.ID ≠ call.ID) :
    x ∈ (ScheduledWorker.remind env call reminderTime st).world.db.scheduled_calls := by
  have hk := ScheduledService.UpdateReminderSent_keeps st.world.db env call.ID x hx hne
  unfold ScheduledWorker.remind
  cases hh : st.world.wsHub with
  | none => exact hk
  | some h =>
    simp only
    by_cases hu : ScheduledWorker.getUsername st.world.db env call.CreatedBy ≠ ""
    · rw [if_pos hu]
      cases hb : h.BroadcastScheduledCallReminder
          (ScheduledWorker.getUsername st.world.db env call.CreatedBy) (some call)
          reminderTime with
      | none => exact hx
      | some h1 => exact hk
    · rw [if_neg hu]
      exact hk

theorem ScheduledWorker.remindCall_keeps (env : Env) (call : ScheduledCall)
    (timeUntilCall : Duration) (st : TickState) (x : ScheduledCall)
    (hx : x ∈ st.world.db.scheduled_calls)
    (hq : x.ID ≠ call.ID ∨
      (¬ (timeUntilCall ≤ 15 * Duration.Minute ∧
          timeUntilCall > 15 * Duration.Minute - Duration.Minute) ∧
       ¬ (timeUntilCall ≤ 5 * Duration.Minute ∧
          timeUntilCall > 5 * Duration.Minute - Duration.Minute))) :
    x ∈ (ScheduledWorker.remindCall env call timeUntilCall ScheduledWorker.reminderTimes
      st).world.db.scheduled_calls := by
  rw [ScheduledWorker.remindCall_eq]
  rcases hq with hne | ⟨h15, h5⟩
  · split
    · exact ScheduledWorker.remind_keeps env call _ st x hx hne
    · split
      · exact ScheduledWorker.remind_keeps env call _ st x hx hne
      · exact hx
  · rw [if_neg h15, if_neg h5]
    exact hx

/-- The outer loop leaves the row of a call as it is when the call, if it is in
the list with no reminder yet, is in neither window. -/
theorem ScheduledWorker.remindLoop_keeps (env : Env) (calls : List ScheduledCall)
    (st : TickState) (x : ScheduledCall) (hx : x ∈ st.world.db.scheduled_calls)
    (hq : ∀ c ∈ calls, c.ID = x.ID → c.ReminderSentAt ≠ none ∨
      (¬ (c.ScheduledAt.Sub env.now ≤ 15 * Duration.Minute ∧
          c.ScheduledAt.Sub env.now > 15 * Duration.Minute - Duration.Minute) ∧
       ¬ (c.ScheduledAt.Sub env.now ≤ 5 * Duration.Minute ∧
          c.ScheduledAt.Sub env.now > 5 * Duration.Minute - Duration.Minute))) :
    x ∈ (ScheduledWorker.remindLoop env calls st).world.db.scheduled_calls := by
  induction calls generalizing st with
  | nil => exact hx
  | cons call rest ih =>
    unfold ScheduledWorker.remindLoop
    have hrest := fun c hc => hq c (List.mem_cons_of_mem _ hc)
    by_cases hr : st.running = false
    · rw [if_pos hr]
      exact hx
    · rw [if_neg hr]
      by_cases hs : call.ReminderSentAt ≠ none
      · rw [if_pos hs]
        exact ih st hx hrest
      · rw [if_neg hs]
        refine ih _ (ScheduledWorker.remindCall_keeps env call _ st x hx ?_) hrest
        by_cases hid : call.ID = x.ID
        · rcases hq call (List.mem_cons_self _ _) hid with h | h
          · exact absurd h hs
          · exact Or.inr h
        · exact Or.inl (fun h => hid h.symm)

/-- A tick that fetches the call has its row in the list it fetched, when the
ids of the table are distinct. -/
theorem ScheduledWorker.fetches_mem (w : World) (env : Env) (c : ScheduledCall)
    (hc : c ∈ w.db.scheduled_calls)
    (hids : (w.db.scheduled_calls.map (fun c => c.ID)).Nodup)
    (hf : ScheduledWorker.fetches w env c.ID = true) :
    ∃ upcoming, ScheduledService.GetUpcomingScheduledCalls w.db env 100 = .ok upcoming ∧
      c ∈ upcoming := by
  unfold ScheduledWorker.fetches at hf
  cases hget : ScheduledService.GetUpcomingScheduledCalls w.db env 100 with
  | error e =>
    rw [hget] at hf
    exact absurd hf Bool.false_ne_true
  | ok upcoming =>
    rw [hget] at hf
    obtain ⟨x, hx, hxid⟩ := List.any_eq_true.mp hf
    have hrows := (ScheduledCallRepo.GetUpcoming_rows w.db env 100 upcoming hget).1
    have hxc : x = c :=
      List.inj_on_of_nodup_map hids (hrows x hx) hc (by simpa using hxid)
    exact ⟨upcoming, rfl, hxc ▸ hx⟩

/-- A call fetched at each tick of a run is fetched at each tick of the run cut
short. -/
theorem ScheduledWorker.fetchesAtEach_take (k : Int) (envs : List Env) (w : World) (n : Nat)
    (h : ScheduledWorker.fetchesAtEach k envs w = true) :
    ScheduledWorker.fetchesAtEach k (envs.take n) w = true := by
  induction envs generalizing w n with
  | nil => simpa using h
  | cons env rest ih =>
    cases n with
    | zero => rfl
    | succ m =>
      unfold ScheduledWorker.fetchesAtEach at h
      rw [Bool.and_eq_true] at h
      rw [List.take_succ_cons]
      unfold ScheduledWorker.fetchesAtEach
      rw [Bool.and_eq_true]
      exact ⟨h.1, ih _ m h.2⟩

/-- One tick on a hub whose channels are open: the run goes on, the hub stays
as it is in kind, and the users are untouched. -/
theorem ScheduledWorker.sendReminders_open (w : World) (env : Env)
    (hopen : ∀ h, w.wsHub = some h → h.Open) :
    (ScheduledWorker.sendReminders w env).running = true ∧
    (∀ h, (ScheduledWorker.sendReminders w env).world.wsHub = some h → h.Open) ∧
    (ScheduledWorker.sendReminders w env).world.wsHub.isSome = w.wsHub.isSome ∧
    (ScheduledWorker.sendReminders w env).world.db.users = w.db.users := by
  unfold ScheduledWorker.sendReminders
  cases hget : ScheduledService.GetUpcomingScheduledCalls w.db env 100 with
  | error e => exact ⟨rfl, hopen, rfl, rfl⟩
  | ok upcoming =>
    obtain ⟨a, b, c, _⟩ := ScheduledWorker.remindLoop_open env upcoming
      { world := w, sent := [], running := true } rfl hopen
    exact ⟨a, b, c, (ScheduledWorker.remindLoop_general env upcoming _).1⟩

/-- A tick that finds the call outside both windows makes no reminder for it
and leaves its row as it is. -/
theorem ScheduledWorker.sendReminders_quiet (w : World) (env : Env) (c : ScheduledCall)
    (hc : c ∈ w.db.scheduled_calls)
    (hids : (w.db.scheduled_calls.map (fun c => c.ID)).Nodup)
    (hunset : c.ReminderSentAt = none)
    (hf : ScheduledWorker.fetches w env c.ID = true)
    (hopen : ∀ h, w.wsHub = some h → h.Open)
    (h15 : ¬ (14 * Duration.Minute < c.ScheduledAt - env.now ∧
      c.ScheduledAt - env.now ≤ 15 * Duration.Minute))
    (h5 : ¬ (4 * Duration.Minute < c.ScheduledAt - env.now ∧
      c.ScheduledAt - env.now ≤ 5 * Duration.Minute)) :
    (ScheduledWorker.sendReminders w env).sent.filter (fun s => s.callID == c.ID) = [] ∧
    c ∈ (ScheduledWorker.sendReminders w env).world.db.scheduled_calls := by
  have e14 : 15 * Duration.Minute - Duration.Minute = 14 * Duration.Minute := by decide
  have e4 : 5 * Duration.Minute - Duration.Minute = 4 * Duration.Minute := by decide
  have w15 := Time.Sub_window c.ScheduledAt env.now (14 * Duration.Minute)
    (15 * Duration.Minute) (by decide) (by decide)
  have w5 := Time.Sub_window c.ScheduledAt env.now (4 * Duration.Minute)
    (5 * Duration.Minute) (by decide) (by decide)
  obtain ⟨upcoming, hget, hcu⟩ := ScheduledWorker.fetches_mem w env c hc hids hf
  constructor
  · rw [List.filter_eq_nil_iff]
    intro s hs hk
    have hk1 : s.callID = c.ID := by simpa using hk
    have hs1 : ({ username := s.username, callID := c.ID, reminderTime := s.reminderTime } :
        ReminderSent) ∈ (ScheduledWorker.sendReminders w env).sent := by
      rw [← hk1]
      exact hs
    have h := (sendReminders_mem_iff w env upcoming c _ _ hget hcu hunset hids hopen).mp hs1
    rw [e14, e4] at h
    rcases h.2.2.2 with h | h
    · exact h15 h.2
    · exact h5 h.2
  · have hrows := (ScheduledCallRepo.GetUpcoming_rows w.db env 100 upcoming hget).1
    unfold ScheduledWorker.sendReminders
    rw [hget]
    refine ScheduledWorker.remindLoop_keeps env upcoming _ c hc ?_
    intro c0 hc0 hid
    have hcc : c0 = c := List.inj_on_of_nodup_map hids (hrows c0 hc0) hc hid
    subst hcc
    refine Or.inr ⟨fun h => h15 (w15.mp ⟨?_, h.1⟩), fun h => h5 (w5.mp ⟨?_, h.1⟩)⟩
    · rw [← e14]
      exact h.2
    · rw [← e4]
      exact h.2

/-- A tick that finds the call in a window, with a hub whose channels are open
and a creator whose name resolves, makes the one reminder of that window for it
and records it. -/
theorem ScheduledWorker.sendReminders_fires (w : World) (env : Env) (c : ScheduledCall)
    (T : Duration) (hc : c ∈ w.db.scheduled_calls)
    (hids : (w.db.scheduled_calls.map (fun c => c.ID)).Nodup)
    (hunset : c.ReminderSentAt = none)
    (hf : ScheduledWorker.fetches w env c.ID = true)
    (hwrite : env.fault (.scheduledUpdateReminderSent c.ID) = none)
    (hsome : w.wsHub.isSome = true) (hopen : ∀ h, w.wsHub = some h → h.Open)
    (hname : ScheduledWorker.getUsername w.db env c.CreatedBy ≠ "")
    (hwin : (T = 15 * Duration.Minute ∧ 14 * Duration.Minute < c.ScheduledAt - env.now ∧
        c.ScheduledAt - env.now ≤ 15 * Duration.Minute) ∨
      (T = 5 * Duration.Minute ∧ 4 * Duration.Minute < c.ScheduledAt - env.now ∧
        c.ScheduledAt - env.now ≤ 5 * Duration.Minute)) :
    (ScheduledWorker.sendReminders w env).sent.filter (fun s => s.callID == c.ID) =
      [{ username := ScheduledWorker.getUsername w.db env c.CreatedBy, callID := c.ID,
         reminderTime := T }] ∧
    (ScheduledWorker.sendReminders w env).world.db.reminderSet c.ID := by
  have e14 : 15 * Duration.Minute - Duration.Minute = 14 * Duration.Minute := by decide
  have e4 : 5 * Duration.Minute - Duration.Minute = 4 * Duration.Minute := by decide
  obtain ⟨upcoming, hget, hcu⟩ := ScheduledWorker.fetches_mem w env c hc hids hf
  have hmem :
      ({ username := ScheduledWorker.getUsername w.db env c.CreatedBy, callID := c.ID,
         reminderTime := T } : ReminderSent) ∈ (ScheduledWorker.sendReminders w env).sent := by
    rw [sendReminders_mem_iff w env upcoming c _ _ hget hcu hunset hids hopen, e14, e4]
    exact ⟨hsome, rfl, hname, hwin⟩
  obtain ⟨_, _, cle, _, e⟩ := ScheduledWorker.sendReminders_general w env c.ID hids
  have hone := filter_eq_singleton (fun s : ReminderSent => s.callID == c.ID) _ _ cle hmem
    (by simp)
  refine ⟨hone, e hwrite ?_⟩
  rw [List.countP_eq_length_filter, hone]
  exact Nat.zero_lt_one

/-- Once the reminder of a call is recorded, no later tick makes a reminder for
it. -/
theorem ScheduledWorker.runTicks_recorded (envs : List Env) (st : TickState) (k : Int)
    (hids : (st.world.db.scheduled_calls.map (fun c => c.ID)).Nodup)
    (hset : st.world.db.reminderSet k) :
    (ScheduledWorker.runTicks envs st).sent.filter (fun s => s.callID == k) =
      st.sent.filter (fun s => s.callID == k) := by
  induction envs generalizing st with
  | nil => rfl
  | cons env rest ih =>
    unfold ScheduledWorker.runTicks
    by_cases hr : st.running = false
    · rw [if_pos hr]
    · rw [if_neg hr]
      obtain ⟨a, b, _, d, _⟩ := ScheduledWorker.sendReminders_general st.world env k hids
      have h0 := d hset
      rw [List.countP_eq_length_filter] at h0
      have h1 := List.length_eq_zero.mp h0
      have h2 := ih { world := (ScheduledWorker.sendReminders st.world env).world,
                      sent := st.sent ++ (ScheduledWorker.sendReminders st.world env).sent,
                      running := (ScheduledWorker.sendReminders st.world env).running }
        (by rw [a]; exact hids) (b hset)
      simp only [List.filter_append, h1, List.append_nil] at h2
      exact h2

/-- A run of ticks one tick period apart stays so when cut short. -/
theorem ScheduledWorker.Spaced_take (envs : List Env) (n : Nat)
    (h : ScheduledWorker.Spaced envs) : ScheduledWorker.Spaced (envs.take n) := by
  induction envs generalizing n with
  | nil => simp [ScheduledWorker.Spaced]
  | cons a rest ih =>
    cases n with
    | zero => simp [ScheduledWorker.Spaced]
    | succ n =>
      cases rest with
      | nil => simp [ScheduledWorker.Spaced]
      | cons b rest2 =>
        cases n with
        | zero => simp [ScheduledWorker.Spaced]
        | succ m =>
          have h1 := ih (m + 1) h.2
          exact ⟨h.1, h1⟩

/-- In a run of ticks one tick period apart no tick is earlier than the
first. -/
theorem ScheduledWorker.Spaced_le (first : Env) (rest : List Env)
    (h : ScheduledWorker.Spaced (first :: rest)) : ∀ env ∈ first :: rest, first.now ≤ env.now := by
  induction rest generalizing first with
  | nil =>
    intro env henv
    rw [List.mem_singleton.mp henv]
  | cons b rest2 ih =>
    intro env henv
    rcases List.mem_cons.mp henv with rfl | henv
    · exact le_refl _
    · have h1 := ih b h.2 env henv
      have h2 : b.now = first.now + ScheduledWorker.tickPeriod := h.1
      have e : ScheduledWorker.tickPeriod = 30000000000 := by decide
      rw [e] at h2
      linarith

/-- Ticks one tick period apart, the first of them less than a tick period
below a reminder time or above it, with the call outside both windows while it
is above the reminder time and in the window of that reminder time once it is
not: no reminder for the call while every tick so far was above the reminder
time, and from the first tick that is not, the one reminder of that reminder
time. -/
theorem ScheduledWorker.runTicks_threshold (c : ScheduledCall) (u : String) (T : Duration)
    (envs : List Env) (st : TickState)
    (hrun : st.running = true)
    (hc : c ∈ st.world.db.scheduled_calls)
    (hids : (st.world.db.scheduled_calls.map (fun c => c.ID)).Nodup)
    (hunset : c.ReminderSentAt = none)
    (hsome : st.world.wsHub.isSome = true) (hopen : ∀ h, st.world.wsHub = some h → h.Open)
    (hname : ∀ env ∈ envs, ScheduledWorker.getUsername st.world.db env c.CreatedBy = u)
    (hu : u ≠ "")
    (hfetch : ScheduledWorker.fetchesAtEach c.ID envs st.world = true)
    (hwrite : ∀ env ∈ envs, env.fault (.scheduledUpdateReminderSent c.ID) = none)
    (hspaced : ScheduledWorker.Spaced envs)
    (hhead : ∀ env ∈ envs.head?, T - ScheduledWorker.tickPeriod < c.ScheduledAt - env.now)
    (habove : ∀ env ∈ envs, T < c.ScheduledAt - env.now →
      ¬ (14 * Duration.Minute < c.ScheduledAt - env.now ∧
        c.ScheduledAt - env.now ≤ 15 * Duration.Minute) ∧
      ¬ (4 * Duration.Minute < c.ScheduledAt - env.now ∧
        c.ScheduledAt - env.now ≤ 5 * Duration.Minute))
    (hwithin : ∀ env ∈ envs, T - ScheduledWorker.tickPeriod < c.ScheduledAt - env.now →
      c.ScheduledAt - env.now ≤ T →
      (T = 15 * Duration.Minute ∧ 14 * Duration.Minute < c.ScheduledAt - env.now ∧
        c.ScheduledAt - env.now ≤ 15 * Duration.Minute) ∨
      (T = 5 * Duration.Minute ∧ 4 * Duration.Minute < c.ScheduledAt - env.now ∧
        c.ScheduledAt - env.now ≤ 5 * Duration.Minute))
    (hsent : st.sent.filter (fun s => s.callID == c.ID) = []) :
    (ScheduledWorker.runTicks envs st).sent.filter (fun s => s.callID == c.ID) =
      if ∀ env ∈ envs, T < c.ScheduledAt - env.now then []
      else [{ username := u, callID := c.ID, reminderTime := T }] := by
  induction envs generalizing st with
  | nil =>
    rw [if_pos (fun env h => absurd h (List.not_mem_nil env))]
    exact hsent
  | cons env rest ih =>
    have henv : env ∈ env :: rest := List.mem_cons_self env rest
    obtain ⟨r1, o1, s1, u1⟩ := ScheduledWorker.sendReminders_open st.world env hopen
    have a1 := (ScheduledWorker.sendReminders_general st.world env c.ID hids).1
    unfold ScheduledWorker.fetchesAtEach at hfetch
    rw [Bool.and_eq_true] at hfetch
    unfold ScheduledWorker.runTicks
    rw [if_neg (by simp [hrun])]
    by_cases hgt : T < c.ScheduledAt - env.now
    · obtain ⟨q15, q5⟩ := habove env henv hgt
      obtain ⟨f0, fc⟩ := ScheduledWorker.sendReminders_quiet st.world env c hc hids hunset
        hfetch.1 hopen q15 q5
      have hsp : ScheduledWorker.Spaced rest := by
        cases rest with
        | nil => trivial
        | cons b r => exact hspaced.2
      have hhd : ∀ e ∈ rest.head?, T - ScheduledWorker.tickPeriod < c.ScheduledAt - e.now := by
        cases rest with
        | nil =>
          intro e he
          simp at he
        | cons b r =>
          intro e he
          have he1 : b = e := by simpa using he
          subst he1
          have h2 : b.now = env.now + ScheduledWorker.tickPeriod := hspaced.1
          rw [h2]
          linarith
      have key := ih
        { world := (ScheduledWorker.sendReminders st.world env).world,
          sent := st.sent ++ (ScheduledWorker.sendReminders st.world env).sent,
          running := (ScheduledWorker.sendReminders st.world env).running }
        r1 fc (by rw [a1]; exact hids) (by rw [s1]; exact hsome) o1
        (fun e he => by
          rw [ScheduledWorker.getUsername_congr _ _ e c.CreatedBy u1]
          exact hname e (List.mem_cons_of_mem _ he))
        hfetch.2
        (fun e he => hwrite e (List.mem_cons_of_mem _ he)) hsp hhd
        (fun e he => habove e (List.mem_cons_of_mem _ he))
        (fun e he => hwithin e (List.mem_cons_of_mem _ he))
        (by simp only [List.filter_append, hsent, f0, List.append_nil])
      rw [key]
      by_cases hall : ∀ e ∈ rest, T < c.ScheduledAt - e.now
      · rw [if_pos hall, if_pos (fun e he => by
          rcases List.mem_cons.mp he with rfl | he
          · exact hgt
          · exact hall e he)]
      · rw [if_neg hall, if_neg (fun h => hall (fun e he => h e (List.mem_cons_of_mem _ he)))]
    · have hle := not_lt.mp hgt
      have hh := hhead env (by simp)
      have hwin := hwithin env henv hh hle
      obtain ⟨f1, fset⟩ := ScheduledWorker.sendReminders_fires st.world env c T hc hids
        hunset hfetch.1 (hwrite env henv) hsome hopen
        (by rw [hname env henv]; exact hu) hwin
      have key := ScheduledWorker.runTicks_recorded rest
        { world := (ScheduledWorker.sendReminders st.world env).world,
          sent := st.sent ++ (ScheduledWorker.sendReminders st.world env).sent,
          running := (ScheduledWorker.sendReminders st.world env).running }
        c.ID (by rw [a1]; exact hids) fset
      rw [key]
      simp only [List.filter_append, hsent, f1, List.nil_append]
      rw [if_neg (fun h => hgt (h env henv)), hname env henv]

/-- C30, as the code has it: for a scheduled call with no reminder yet, in a
table with distinct ids, and ticks one tick period (30 seconds) apart at each of
which the call is fetched and the write of `reminder_sent_at` does not fail,
with a hub whose channels are open and a creator whose name resolves to a
non-empty name `u`: if `timeUntilCall` is greater than 15 minutes at the first tick, then after any
number of ticks there is no reminder for the call while every tick so far had
`timeUntilCall` greater than 15 minutes, and exactly one, addressed to `u` with
reminder time 15 minutes, from the first tick on at which `timeUntilCall` is at
most 15 minutes; if `timeUntilCall` at the first tick is greater than 5 minutes
and at most 14 minutes, the same holds with 5 minutes for 15 minutes. -/
theorem reminder_sent_at_first_tick_within_threshold (w : World) (c : ScheduledCall)
    (u : String) (first : Env) (rest : List Env)
    (hc : c ∈ w.db.scheduled_calls)
    (hids : (w.db.scheduled_calls.map (fun c => c.ID)).Nodup)
    (hunset : c.ReminderSentAt = none)
    (hsome : w.wsHub.isSome = true) (hopen : ∀ h, w.wsHub = some h → h.Open)
    (hname : ∀ env ∈ first :: rest, ScheduledWorker.getUsername w.db env c.CreatedBy = u)
    (hu : u ≠ "")
    (hfetch : ScheduledWorker.fetchesAtEach c.ID (first :: rest) w = true)
    (hwrite : ∀ env ∈ first :: rest, env.fault (.scheduledUpdateReminderSent c.ID) = none)
    (hspaced : ScheduledWorker.Spaced (first :: rest)) :
    (15 * Duration.Minute < c.ScheduledAt.Sub first.now →
      ∀ n, (ScheduledWorker.runTicks ((first :: rest).take n)
          { world := w, sent := [], running := true }).sent.filter
            (fun s => s.callID == c.ID) =
        if ∀ env ∈ (first :: rest).take n, 15 * Duration.Minute < c.ScheduledAt.Sub env.now
        then []
        else [{ username := u, callID := c.ID, reminderTime := 15 * Duration.Minute }]) ∧
    (5 * Duration.Minute < c.ScheduledAt.Sub first.now ∧
        c.ScheduledAt.Sub first.now ≤ 14 * Duration.Minute →
      ∀ n, (ScheduledWorker.runTicks ((first :: rest).take n)
          { world := w, sent := [], running := true }).sent.filter
            (fun s => s.callID == c.ID) =
        if ∀ env ∈ (first :: rest).take n, 5 * Duration.Minute < c.ScheduledAt.Sub env.now
        then []
        else [{ username := u, callID := c.ID, reminderTime := 5 * Duration.Minute }]) := by
  have eM : Duration.Minute = 60000000000 := by decide
  have eP : ScheduledWorker.tickPeriod = 30000000000 := by decide
  have l15 : ∀ env : Env, 15 * Duration.Minute < c.ScheduledAt.Sub env.now ↔
      15 * Duration.Minute < c.ScheduledAt - env.now :=
    fun env => Time.lt_Sub_iff _ _ _ (by decide) (by decide)
  have l5 : ∀ env : Env, 5 * Duration.Minute < c.ScheduledAt.Sub env.now ↔
      5 * Duration.Minute < c.ScheduledAt - env.now :=
    fun env => Time.lt_Sub_iff _ _ _ (by decide) (by decide)
  have l14 : c.ScheduledAt.Sub first.now ≤ 14 * Duration.Minute ↔
      c.ScheduledAt - first.now ≤ 14 * Duration.Minute :=
    Time.Sub_le_iff _ _ _ (by decide) (by decide)
  have hmem : ∀ n, ∀ env ∈ (first :: rest).take n, env ∈ first :: rest :=
    fun n env he => List.mem_of_mem_take he
  have hfirst : ∀ n, ∀ env ∈ ((first :: rest).take n).head?, env = first := by
    intro n env he
    cases n with
    | zero => simp at he
    | succ m =>
      have h1 : first = env := by simpa using he
      exact h1.symm
  have hlater := ScheduledWorker.Spaced_le first rest hspaced
  constructor
  · intro h0 n
    rw [l15] at h0
    rw [ScheduledWorker.runTicks_threshold c u (15 * Duration.Minute) ((first :: rest).take n)
      { world := w, sent := [], running := true } rfl hc hids hunset hsome hopen
      (fun env he => hname env (hmem n env he)) hu
      (ScheduledWorker.fetchesAtEach_take _ _ _ n hfetch)
      (fun env he => hwrite env (hmem n env he))
      (ScheduledWorker.Spaced_take _ n hspaced)
      (fun env he => by
        rw [hfirst n env he, eP]
        linarith)
      (fun env _ h => by
        rw [eM] at h ⊢
        exact ⟨fun h1 => by linarith [h1.2], fun h1 => by linarith [h1.2]⟩)
      (fun env _ h1 h2 => by
        refine Or.inl ⟨rfl, ?_, h2⟩
        rw [eM, eP] at h1
        rw [eM]
        linarith)
      rfl]
    exact if_congr (forall₂_congr (fun env _ => (l15 env).symm)) rfl rfl
  · intro h0 n
    rw [l5, l14] at h0
    rw [ScheduledWorker.runTicks_threshold c u (5 * Duration.Minute) ((first :: rest).take n)
      { world := w, sent := [], running := true } rfl hc hids hunset hsome hopen
      (fun env he => hname env (hmem n env he)) hu
      (ScheduledWorker.fetchesAtEach_take _ _ _ n hfetch)
      (fun env he => hwrite env (hmem n env he))
      (ScheduledWorker.Spaced_take _ n hspaced)
      (fun env he => by
        rw [hfirst n env he, eP]
        linarith [h0.1])
      (fun env he h => by
        have h3 := hlater env (hmem n env he)
        have h4 := h0.2
        rw [eM] at h h4 ⊢
        exact ⟨fun h1 => by linarith [h1.1], fun h1 => by linarith [h1.2]⟩)
      (fun env _ h1 h2 => by
        refine Or.inr ⟨rfl, ?_, h2⟩
        rw [eM, eP] at h1
        rw [eM]
        linarith)
      rfl]
    exact if_congr (forall₂_congr (fun env _ => (l5 env).symm)) rfl rfl

/-- C30, counterexample: the planned call of the example in a
process with no hub, at two ticks 30 seconds apart, 15 minutes 10 seconds and
14 minutes 40 seconds before the call. The call is fetched at both ticks and
the second tick records the reminder, yet no reminder is sent. -/
theorem reminder_not_sent_without_hub :
    exWorldTickNoHub.db.scheduled_calls = [exCallPlanned] ∧
    exCallPlanned.ReminderSentAt = none ∧
    ScheduledWorker.Spaced [exEnv 291000000000, exEnv 321000000000] ∧
    15 * Duration.Minute < exCallPlanned.ScheduledAt.Sub (exEnv 291000000000).now ∧
    exCallPlanned.ScheduledAt.Sub (exEnv 321000000000).now ≤ 15 * Duration.Minute ∧
    ScheduledService.GetUpcomingScheduledCalls exWorldTickNoHub.db (exEnv 291000000000) 100 =
      .ok [exCallPlanned] ∧
    ScheduledService.GetUpcomingScheduledCalls
      (ScheduledWorker.sendReminders exWorldTickNoHub (exEnv 291000000000)).world.db
      (exEnv 321000000000) 100 = .ok [exCallPlanned] ∧
    (ScheduledWorker.runTicks [exEnv 291000000000, exEnv 321000000000]
      { world := exWorldTickNoHub, sent := [], running := true }).sent = [] ∧
    (ScheduledWorker.runTicks [exEnv 291000000000, exEnv 321000000000]
      { world := exWorldTickNoHub, sent := [], running := true }).world.db.scheduled_calls.map
        (fun c => c.ReminderSentAt) = [some 321000000000] :=
  ⟨by decide, rfl, ⟨rfl, trivial⟩, by decide, by decide, rfl, rfl, by decide, by decide⟩

/-- Witness for C30: the planned call of the example with `alice`
connected, at ticks 15 minutes 10 seconds, 14 minutes 40 seconds and 14 minutes
10 seconds before the call: nothing after the first tick, the reminder with
reminder time 15 minutes after the second, and that one alone after the
third. -/
theorem reminder_sent_at_first_tick_within_threshold_witness :
    15 * Duration.Minute < exCallPlanned.ScheduledAt.Sub (exEnv 291000000000).now ∧
    (ScheduledWorker.runTicks [exEnv 291000000000]
      { world := exWorldTick, sent := [], running := true }).sent.filter
        (fun s => s.callID == exCallPlanned.ID) = [] ∧
    (ScheduledWorker.runTicks [exEnv 291000000000, exEnv 321000000000]
      { world := exWorldTick, sent := [], running := true }).sent.filter
        (fun s => s.callID == exCallPlanned.ID) =
      [{ username := "alice", callID := 1, reminderTime := 15 * Duration.Minute }] ∧
    (ScheduledWorker.runTicks [exEnv 291000000000, exEnv 321000000000, exEnv 351000000000]
      { world := exWorldTick, sent := [], running := true }).sent.filter
        (fun s => s.callID == exCallPlanned.ID) =
      [{ username := "alice", callID := 1, reminderTime := 15 * Duration.Minute }] :=
  have h := (reminder_sent_at_first_tick_within_threshold exWorldTick exCallPlanned "alice"
    (exEnv 291000000000) [exEnv 321000000000, exEnv 351000000000] (by decide) (by decide)
    rfl rfl exWorldTick_open
    (fun env henv => by
      simp only [List.mem_cons, List.mem_singleton, List.not_mem_nil, or_false] at henv
      rcases henv with rfl | rfl | rfl <;> rfl)
    (by decide) (by decide)
    (fun env henv => by
      simp only [List.mem_cons, List.mem_singleton, List.not_mem_nil, or_false] at henv
      rcases henv with rfl | rfl | rfl <;> rfl)
    ⟨rfl, rfl, trivial⟩).1 (by decide)
  ⟨by decide, (h 1).trans (by decide), (h 2).trans (by decide), (h 3).trans (by decide)⟩

/-! ## Further worked instances -/

set_option maxRecDepth 8000 in
/-- C20, counterexample: the call that `alice` made at instant 100 is ended
16777216.999999999 seconds later. The whole seconds of that gap, the fraction
cut off, are 16777216; the history record says 16777217, the `float64` nearest
to the gap being 16777217. -/
theorem endCall_rounds_duration_up :
    exWorldCalled.db.active_calls.map (fun c => (c.CallID, c.CreatedAt)) = [("call-1", 100)] ∧
    (CallService.EndCall exWorldCalled (exEnv 16777217000000099) "call-1" 1).2 = .ok () ∧
    (CallService.EndCall exWorldCalled (exEnv 16777217000000099) "call-1"
      1).1.db.call_history.map (fun r => (r.CallID, r.Status, r.Duration)) =
      [("call-1", "completed", 16777217)] ∧
    ((16777217000000099 : Time) - 100).tdiv 1000000000 = 16777216 := by
  refine ⟨by decide, by decide, by decide, by decide⟩

/-- C24: on a hub in which a name is registered with a closed channel, the
state a session leaves behind that authenticated under two names and then
closed, `CreateCallAndInvite` panics at the broadcast to that name, after the
call and the invitation were written and before the history record is; with
no hub, or with nobody registered, the same call returns the join and writes
the history record. -/
theorem createCallAndInvite_differs_on_closed_channel :
    exHubDangling.map (fun h => (h.connections "alice", (h.chans 1).closed,
      h.connections "bob")) = some (some { Username := "alice", Send := 1 }, true, none) ∧
    (CallService.CreateCallAndInvite { db := exWorld0.db, wsHub := exHubDangling } (exEnv 100) 3
      "video" ["alice"] "").2 = .panic ∧
    (CallService.CreateCallAndInvite { db := exWorld0.db, wsHub := exHubDangling } (exEnv 100) 3
      "video" ["alice"] "").1.db.call_history = [] ∧
    (CallService.CreateCallAndInvite { db := exWorld0.db, wsHub := none } (exEnv 100) 3
      "video" ["alice"] "").2 =
      .ok { CallID := "call-1", RoomName := "room-1",
            Token := { Identity := "carol", Room := "room-1", RoomJoin := true,
                       RoomCreate := true, ValidFor := 24 * 3600 * 1000000000 } } ∧
    (CallService.CreateCallAndInvite { db := exWorld0.db, wsHub := none } (exEnv 100) 3
      "video" ["alice"] "").1.db.call_history.map (fun r => (r.CallID, r.Status)) =
      [("call-1", "pending")] ∧
    (CallService.CreateCallAndInvite { db := exWorld0.db, wsHub := some exHub0 } (exEnv 100) 3
      "video" ["alice"] "").2 =
      .ok { CallID := "call-1", RoomName := "room-1",
            Token := { Identity := "carol", Room := "room-1", RoomJoin := true,
                       RoomCreate := true, ValidFor := 24 * 3600 * 1000000000 } } ∧
    (CallService.CreateCallAndInvite { db := exWorld0.db, wsHub := exHubDangling } (exEnv 100) 3
      "video" ["alice"] "").1.db.call_invitations.map (fun r => (r.invitee_id, r.status)) =
      [(1, "pending")] := by
  refine ⟨by decide, by decide, by decide, by decide, by decide, by decide, by decide⟩

/-- C14, counterexample: a hundred calls are scheduled for about ten minutes
after the tick and the planned call of the example for 14 minutes 30 seconds
after it, its creator `alice` connected. The tick fetches the hundred calls
that come first, the planned call is not among them, and no reminder is sent
for it. -/
theorem sendReminders_skips_call_beyond_limit :
    exCallPlanned ∈ exWorldCrowded.db.scheduled_calls ∧
    exCallPlanned.ReminderSentAt = none ∧
    exCallPlanned.ScheduledAt - (exEnv 331000000000).now =
      14 * Duration.Minute + 30 * Duration.Second ∧
    exWorldCrowded.wsHub.map (fun h => h.connections "alice") =
      some (some { Username := "alice", Send := 1 }) ∧
    exWorldCrowded.db.scheduled_calls.length = 101 ∧
    ScheduledWorker.fetches exWorldCrowded (exEnv 331000000000) 1 = false ∧
    (ScheduledWorker.sendReminders exWorldCrowded (exEnv 331000000000)).sent = [] ∧
    (ScheduledWorker.sendReminders exWorldCrowded
      (exEnv 331000000000)).world.db.scheduled_calls.head? = some exCallPlanned := by
  refine ⟨by decide, by decide, by decide, by decide, by decide, by decide, by decide,
    by decide⟩

end Livekit
